import Mathlib

/-!
# formvalidator: a verification development

A shallow embedding of the Go package `formvalidator` (rule catalogue, rule
chains and the validation engine) together with theorems about it.

Conventions of the embedding:

* a Go `string` is its sequence of bytes (`Str`), `len` is the byte count and
  `s[i]` is a byte;
* a Go `map[string]T` is the list of its entries (`GoMap`), visited in list
  order by `range`; a well-formed map holds every key once;
* an `error` is `Option Str`: `none` is `nil`, `some m` is `errors.New(m)`;
* functions of the Go standard library whose behaviour is not fixed by the
  package (regular expressions, `time.Parse`, ...) and the bundled reference
  lists are fields of `Env`.
-/

namespace Formvalidator

/-! ## Strings and maps -/

/-- A Go string: its bytes, in order. -/
abbrev Str := List Nat

/-- UTF-8 encoding of a code point: what the Go conversion `string(r)` yields. -/
def utf8Encode (c : Nat) : Str :=
  if c < 0x80 then [c]
  else if c < 0x800 then [0xC0 + c / 64, 0x80 + c % 64]
  else if c < 0x10000 then [0xE0 + c / 4096, 0x80 + c / 64 % 64, 0x80 + c % 64]
  else [0xF0 + c / 262144, 0x80 + c / 4096 % 64, 0x80 + c / 64 % 64, 0x80 + c % 64]

/-- The bytes of a string literal of the source. -/
def bytes (s : String) : Str :=
  s.toList.flatMap (fun c => utf8Encode c.toNat)

/-- A Go map with string keys, as the list of its entries. -/
structure GoMap (α : Type) where
  entries : List (Str × α)
deriving DecidableEq, Repr

namespace GoMap

variable {α : Type}

/-- The empty map: `make(map[string]T)`. -/
def empty : GoMap α := ⟨[]⟩

/-- The keys of the map, in entry order. -/
def keys (m : GoMap α) : List Str := m.entries.map Prod.fst

/-- Number of entries: `len(m)`. -/
def len (m : GoMap α) : Nat := m.entries.length

/-- Lookup in an entry list. -/
def lookupIn (k : Str) : List (Str × α) → Option α
  | [] => none
  | (k', v) :: rest => if k' = k then some v else lookupIn k rest

/-- Two-valued lookup: `v, ok := m[k]`. -/
def lookup (m : GoMap α) (k : Str) : Option α := lookupIn k m.entries

/-- One-valued lookup `m[k]`, the zero value `zero` standing for a missing key. -/
def index (m : GoMap α) (k : Str) (zero : α) : α := (m.lookup k).getD zero

/-- Assignment in an entry list: replaces the entry of `k`, or adds one. -/
def setIn (k : Str) (v : α) : List (Str × α) → List (Str × α)
  | [] => [(k, v)]
  | (k', v') :: rest => if k' = k then (k, v) :: rest else (k', v') :: setIn k v rest

/-- Assignment `m[k] = v`. -/
def set (m : GoMap α) (k : Str) (v : α) : GoMap α := ⟨setIn k v m.entries⟩

/-- Every key occurs once. -/
def WF (m : GoMap α) : Prop := m.keys.Nodup

instance (m : GoMap α) : Decidable m.WF := by
  unfold WF; infer_instance

end GoMap

/-- The message table `map[string]string`; a missing kind reads as `""`. -/
abbrev Messages := GoMap Str

/-- Lookup `errorMessages[kind]`. -/
def Messages.msg (errorMessages : Messages) (kind : String) : Str :=
  GoMap.index errorMessages (bytes kind) []

/-- The submitted form `url.Values`, a `map[string][]string`. -/
abbrev Values := GoMap (List Str)

/-- Read `form[key]`: the nil slice when the key is missing. -/
def Values.at (form : Values) (key : Str) : List Str := GoMap.index form key []

/-- Method `url.Values.Get`: the first value of the key, `""` when there is none. -/
def Values.Get (form : Values) (key : Str) : Str :=
  match form.lookup key with
  | none => []
  | some vs => match vs with
    | [] => []
    | v :: _ => v

/-- Method `url.Values.Set`: replaces the values of the key by the single `value`. -/
def Values.Set (form : Values) (key : Str) (value : Str) : Values :=
  GoMap.set form key [value]

/-! ## utilities.go -/

/-- An IEEE-754 double, by its bit pattern. -/
structure Float64 where
  bits : Nat
deriving DecidableEq, Repr

/-- A positional format argument, an element of `[]interface{}`. -/
inductive Arg where
  | uint32 (n : Nat)
  | int (i : Int)
  | float64 (x : Float64)
deriving DecidableEq, Repr

/-- The custom error type `FormError`. -/
structure FormError where
  Str : Str
  Data : List Arg
deriving DecidableEq, Repr

/-- Function `appendError(err, arg...)`. -/
def appendError (err : List FormError) (arg : List FormError) : List FormError :=
  arg.foldl (fun err e => err ++ [e]) err

/-- Function `inSlice(slice, val)`. -/
def inSlice : List Str → Str → Bool
  | [], _ => false
  | j :: rest, val => if j = val then true else inSlice rest val

/-- The loop of `hasDuplicates`, `encounteredItems` being the keys seen. -/
def hasDuplicatesLoop : List Str → List Str → Bool
  | [], _ => false
  | val :: rest, encounteredItems =>
    if inSlice encounteredItems val then true
    else hasDuplicatesLoop rest (encounteredItems ++ [val])

/-- Function `hasDuplicates(slice)`. -/
def hasDuplicates (slice : List Str) : Bool := hasDuplicatesLoop slice []

/-- Function `sliceDiff(slice1, slice2)`; the nil slice is `[]`. -/
def sliceDiff : List Str → List Str → List Str
  | [], _ => []
  | j :: rest, slice2 =>
    if !inSlice slice2 j then j :: sliceDiff rest slice2 else sliceDiff rest slice2

/-- Function `getFirstKey(values)`. -/
def getFirstKey (values : List Str) : Str :=
  match values with
  | v :: _ => v
  | [] => []

/-! ## Go standard library: `strconv.Atoi` -/

/-- Bit size of the Go type `int`. -/
def intSize : Nat := 64

/-- ASCII digit. -/
def isDigit (b : Nat) : Bool := 48 ≤ b && b ≤ 57

/-- Value of a run of ASCII digits, base 10. -/
def digitsValue (ds : Str) : Nat := ds.foldl (fun n b => n * 10 + (b - 48)) 0

/-- Function `strconv.Atoi`: an optional sign, one or more ASCII digits, and a
value that fits `int`; every other string is an error. -/
def Atoi (s : Str) : Option Int :=
  let neg := s.head? = some 45
  let ds := if s.head? = some 43 ∨ s.head? = some 45 then s.tail else s
  if ds = [] ∨ ds.all isDigit = false then none
  else
    let v : Int := if neg then - (digitsValue ds : Int) else (digitsValue ds : Int)
    if - (2 : Int) ^ (intSize - 1) ≤ v ∧ v ≤ (2 : Int) ^ (intSize - 1) - 1 then some v else none

/-- A rule: the method `Validate(fields, errorMessages)` of the interface
`Rule`, returning the error and the format arguments. -/
structure Rule where
  Validate : List Str → Messages → Option Str × List Arg

/-- Function `RuleChain(rules...)`. -/
def RuleChain (rules : List Rule) : List Rule :=
  rules.foldl (fun ruleSlice r => ruleSlice ++ [r]) []

/-! ## rules-string.go: credit card -/

/-- The `case` list of the test-number switch in `creditCard.Validate`. -/
def creditCard.testingNumbers : List Str :=
  [bytes "4242424242424242", bytes "4012888888881881", bytes "4000056655665556",
   bytes "5555555555554444", bytes "5200828282828210", bytes "5105105105105100",
   bytes "378282246310005", bytes "371449635398431", bytes "6011111111111117",
   bytes "6011000990139424", bytes "30569309025904", bytes "38520000023237",
   bytes "3530111333300000", bytes "3566002020360505",
   bytes "0000000000000", bytes "00000000000000", bytes "000000000000000",
   bytes "0000000000000000", bytes "00000000000000000", bytes "000000000000000000",
   bytes "0000000000000000000"]

/-- The Luhn loop of `creditCard.Validate`: the first argument is `i + 1` for
the loop index `i`; `none` is the early return on a byte `Atoi` rejects. -/
def creditCard.loop (field : Str) : Nat → Int → Bool → Option Int
  | 0, sum, _ => some sum
  | i + 1, sum, alternate =>
    match Atoi (utf8Encode (field.getD i 0)) with
    | none => none
    | some mod =>
      let mod := if alternate then (if mod * 2 > 9 then (mod * 2).tmod 10 + 1 else mod * 2) else mod
      creditCard.loop field i (sum + mod) (!alternate)

/-- Method `creditCard.Validate`. -/
def creditCard.Validate (allowTestingNumbers : Bool) (fields : List Str)
    (errorMessages : Messages) : Option Str × List Arg :=
  let field := getFirstKey fields
  if field.length = 0 then (none, [])
  else if allowTestingNumbers = false ∧ field ∈ creditCard.testingNumbers then
    (some (errorMessages.msg "credit_card"), [])
  else
    let numberLen := field.length
    if numberLen < 13 ∨ numberLen > 19 then (some (errorMessages.msg "credit_card"), [])
    else
      match creditCard.loop field numberLen 0 false with
      | none => (some (errorMessages.msg "credit_card"), [])
      | some sum =>
        if sum.tmod 10 = 0 then (none, []) else (some (errorMessages.msg "credit_card"), [])

/-- Function `CreditCard(allowTestingNumbers)`. -/
def CreditCard (allowTestingNumbers : Bool) : Rule :=
  ⟨creditCard.Validate allowTestingNumbers⟩


/-! ## The environment: Go standard library and bundled reference lists -/

/-- What the package takes from outside its own code: functions of the Go
standard library and the five reference lists read from the bundled data
files by `init`. -/
structure Env where
  /-- Function `regexp.MatchString(pattern, s)`, the match flag. -/
  MatchString : Str → Str → Bool
  /-- The code points `for _, c := range s` yields. -/
  runes : Str → List Nat
  /-- Function `unicode.IsLetter`. -/
  IsLetter : Nat → Bool
  /-- Function `unicode.IsNumber`. -/
  IsNumber : Nat → Bool
  /-- Function `strconv.ParseFloat(s, 64)`; `none` is an error. -/
  ParseFloat : Str → Option Float64
  /-- Comparison `x <= y` of two doubles. -/
  floatLe : Float64 → Float64 → Bool
  /-- Function `time.Parse(layout, value)`: whether the error is nil. -/
  timeParse : Str → Str → Bool
  /-- Function `url.ParseRequestURI`: the scheme of the parsed URL; `none` is an error. -/
  ParseRequestURI : Str → Option Str
  /-- Function `strings.ToLower`. -/
  ToLower : Str → Str
  /-- Function `json.Unmarshal` into a `json.RawMessage`: whether the error is nil. -/
  jsonUnmarshal : Str → Bool
  /-- Method `ReadAll` of a `csv.Reader` with the given `Comma` on the given text; `none` is an error. -/
  csvReadAll : Nat → Str → Option (List (List Str))
  /-- Global `iso3166countryCodes`. -/
  iso3166countryCodes : List Str
  /-- Global `iso4217currencyCodes`. -/
  iso4217currencyCodes : List Str
  /-- Global `commonPasswordList`. -/
  commonPasswordList : List Str
  /-- Global `disposableDomains`. -/
  disposableDomains : List Str
  /-- Global `disposableWildcards`. -/
  disposableWildcards : List Str

/-- Function `strconv.ParseBool`. -/
def ParseBool (s : Str) : Option Bool :=
  if s ∈ [bytes "1", bytes "t", bytes "T", bytes "TRUE", bytes "true", bytes "True"] then some true
  else if s ∈ [bytes "0", bytes "f", bytes "F", bytes "FALSE", bytes "false", bytes "False"] then
    some false
  else none

/-- The replacer `strings.NewReplacer(" ", "", "-", "")` applied to a string. -/
def removeSpacesHyphens (s : Str) : Str := s.filter (fun b => b != 32 && b != 45)

/-- Function `strings.LastIndex(s, "@")` for the one-byte separator `b`; `-1` when absent. -/
def lastIndexByte (s : Str) (b : Nat) : Int :=
  match (s.reverse.indexOf? b) with
  | none => -1
  | some k => (s.length : Int) - 1 - (k : Int)

/-- Byte subtraction `a - b` on `uint8`. -/
def byteSub (a b : Nat) : Nat := (a % 256 + 256 - b % 256) % 256

/-- Wrap to `uint32`. -/
def u32 (n : Nat) : Nat := n % 2 ^ 32

/-! ## rules-string.go -/

/-- Method `requiredSingle.Validate`. -/
def requiredSingle.Validate (fields : List Str) (errorMessages : Messages) :
    Option Str × List Arg :=
  if fields.length = 1 ∧ (fields.getD 0 []).length > 0 then (none, [])
  else if fields.length > 1 then (some (errorMessages.msg "multiple_entries"), [])
  else (some (errorMessages.msg "required"), [])

/-- Function `Required()`. -/
def Required : Rule := ⟨requiredSingle.Validate⟩

/-- Method `requiredMultiple.Validate`. -/
def requiredMultiple.Validate (fields : List Str) (errorMessages : Messages) :
    Option Str × List Arg :=
  if fields.length > 0 then (none, [])
  else (some (errorMessages.msg "required"), [])

/-- Function `RequiredMultiple()`. -/
def RequiredMultiple : Rule := ⟨requiredMultiple.Validate⟩

/-- Method `minStrLen.Validate`. -/
def minStrLen.Validate (min : Nat) (fields : List Str) (errorMessages : Messages) :
    Option Str × List Arg :=
  let field := getFirstKey fields
  if field.length = 0 then (none, [])
  else if field.length ≥ min then (none, [])
  else (some (errorMessages.msg "string_min"), [Arg.uint32 min])

/-- Function `MinStrLen(min)`. -/
def MinStrLen (min : Nat) : Rule := ⟨minStrLen.Validate min⟩

/-- Method `maxStrLen.Validate`. -/
def maxStrLen.Validate (max : Nat) (fields : List Str) (errorMessages : Messages) :
    Option Str × List Arg :=
  let field := getFirstKey fields
  if field.length = 0 then (none, [])
  else if field.length ≤ max then (none, [])
  else (some (errorMessages.msg "string_max"), [Arg.uint32 max])

/-- Function `MaxStrLen(max)`. -/
def MaxStrLen (max : Nat) : Rule := ⟨maxStrLen.Validate max⟩

/-- Method `strLen.Validate`. -/
def strLen.Validate (min max : Nat) (fields : List Str) (errorMessages : Messages) :
    Option Str × List Arg :=
  match minStrLen.Validate min fields errorMessages with
  | (some err, data) => (some err, data)
  | (none, _) =>
    match maxStrLen.Validate max fields errorMessages with
    | (some err, data) => (some err, data)
    | (none, _) => (none, [])

/-- Function `StrLen(min, max)`. -/
def StrLen (min max : Nat) : Rule := ⟨strLen.Validate min max⟩

/-- Method `strMatch.Validate`. -/
def strMatch.Validate (comparison : Str) (fields : List Str) (errorMessages : Messages) :
    Option Str × List Arg :=
  let field := getFirstKey fields
  if field = comparison then (none, [])
  else (some (errorMessages.msg "string_matches"), [])

/-- Function `StrMatch(comparison)`. -/
def StrMatch (comparison : Str) : Rule := ⟨strMatch.Validate comparison⟩

/-- Method `alphaNumeric.Validate`. -/
def alphaNumeric.Validate (env : Env) (fields : List Str) (errorMessages : Messages) :
    Option Str × List Arg :=
  let field := getFirstKey fields
  if field.length = 0 then (none, [])
  else if env.MatchString (bytes "^[a-zA-Z0-9]+$") field = true then (none, [])
  else (some (errorMessages.msg "alpha_num"), [])

/-- Function `AlphaNumeric()`. -/
def AlphaNumeric (env : Env) : Rule := ⟨alphaNumeric.Validate env⟩

/-- Method `utf8LetterNum.Validate`. -/
def utf8LetterNum.Validate (env : Env) (fields : List Str) (errorMessages : Messages) :
    Option Str × List Arg :=
  let field := getFirstKey fields
  if field.length = 0 then (none, [])
  else
    let valid := (env.runes field).all (fun c => !(!env.IsLetter c && !env.IsNumber c))
    if valid then (none, [])
    else (some (errorMessages.msg "utf8_letter_num"), [])

/-- Function `UTF8LetterNum()`. -/
def UTF8LetterNum (env : Env) : Rule := ⟨utf8LetterNum.Validate env⟩

/-- Method `boolean.Validate`. -/
def boolean.Validate (fields : List Str) (errorMessages : Messages) : Option Str × List Arg :=
  let field := getFirstKey fields
  if field.length = 0 then (none, [])
  else if (ParseBool field).isSome then (none, [])
  else (some (errorMessages.msg "boolean"), [])

/-- Function `Boolean()`. -/
def Boolean : Rule := ⟨boolean.Validate⟩

/-- Method `webRequestURI.Validate`. -/
def webRequestURI.Validate (env : Env) (fields : List Str) (errorMessages : Messages) :
    Option Str × List Arg :=
  let field := getFirstKey fields
  if field.length = 0 then (none, [])
  else
    match env.ParseRequestURI field with
    | none => (some (errorMessages.msg "web_request_uri"), [])
    | some uScheme =>
      let scheme := env.ToLower uScheme
      if !(scheme = bytes "http" || scheme = bytes "https") then
        (some (errorMessages.msg "web_request_uri"), [])
      else (none, [])

/-- Function `WebRequestURI()`. -/
def WebRequestURI (env : Env) : Rule := ⟨webRequestURI.Validate env⟩

/-- Method `isJSON.Validate`. -/
def isJSON.Validate (env : Env) (fields : List Str) (errorMessages : Messages) :
    Option Str × List Arg :=
  let field := getFirstKey fields
  if field.length = 0 then (none, [])
  else if env.jsonUnmarshal field = false then (some (errorMessages.msg "json"), [])
  else (none, [])

/-- Function `IsJSON()`. -/
def IsJSON (env : Env) : Rule := ⟨isJSON.Validate env⟩

/-- The regular expression of `email.Validate`. -/
def email.pattern : Str :=
  bytes "^(((([a-zA-Z]|\\d|[!#\\$%&\x27\\*\\+\\-\\/=\\?\\^_\x60\x7b\\|\x7d~]|[\\x\x7b00A0\x7d-\\x\x7bD7FF\x7d\\x\x7bF900\x7d-\\x\x7bFDCF\x7d\\x\x7bFDF0\x7d-\\x\x7bFFEF\x7d])+(\\.([a-zA-Z]|\\d|[!#\\$%&\x27\\*\\+\\-\\/=\\?\\^_\x60\x7b\\|\x7d~]|[\\x\x7b00A0\x7d-\\x\x7bD7FF\x7d\\x\x7bF900\x7d-\\x\x7bFDCF\x7d\\x\x7bFDF0\x7d-\\x\x7bFFEF\x7d])+)*)|((\\x22)((((\\x20|\\x09)*(\\x0d\\x0a))?(\\x20|\\x09)+)?(([\\x01-\\x08\\x0b\\x0c\\x0e-\\x1f\\x7f]|\\x21|[\\x23-\\x5b]|[\\x5d-\\x7e]|[\\x\x7b00A0\x7d-\\x\x7bD7FF\x7d\\x\x7bF900\x7d-\\x\x7bFDCF\x7d\\x\x7bFDF0\x7d-\\x\x7bFFEF\x7d])|(\\([\\x01-\\x09\\x0b\\x0c\\x0d-\\x7f]|[\\x\x7b00A0\x7d-\\x\x7bD7FF\x7d\\x\x7bF900\x7d-\\x\x7bFDCF\x7d\\x\x7bFDF0\x7d-\\x\x7bFFEF\x7d]))))*(((\\x20|\\x09)*(\\x0d\\x0a))?(\\x20|\\x09)+)?(\\x22)))@((([a-zA-Z]|\\d|[\\x\x7b00A0\x7d-\\x\x7bD7FF\x7d\\x\x7bF900\x7d-\\x\x7bFDCF\x7d\\x\x7bFDF0\x7d-\\x\x7bFFEF\x7d])|(([a-zA-Z]|\\d|[\\x\x7b00A0\x7d-\\x\x7bD7FF\x7d\\x\x7bF900\x7d-\\x\x7bFDCF\x7d\\x\x7bFDF0\x7d-\\x\x7bFFEF\x7d])([a-zA-Z]|\\d|-|\\.|_|~|[\\x\x7b00A0\x7d-\\x\x7bD7FF\x7d\\x\x7bF900\x7d-\\x\x7bFDCF\x7d\\x\x7bFDF0\x7d-\\x\x7bFFEF\x7d])*([a-zA-Z]|\\d|[\\x\x7b00A0\x7d-\\x\x7bD7FF\x7d\\x\x7bF900\x7d-\\x\x7bFDCF\x7d\\x\x7bFDF0\x7d-\\x\x7bFFEF\x7d])))\\.)+(([a-zA-Z]|[\\x\x7b00A0\x7d-\\x\x7bD7FF\x7d\\x\x7bF900\x7d-\\x\x7bFDCF\x7d\\x\x7bFDF0\x7d-\\x\x7bFFEF\x7d])|(([a-zA-Z]|[\\x\x7b00A0\x7d-\\x\x7bD7FF\x7d\\x\x7bF900\x7d-\\x\x7bFDCF\x7d\\x\x7bFDF0\x7d-\\x\x7bFFEF\x7d])([a-zA-Z]|\\d|-|_|~|[\\x\x7b00A0\x7d-\\x\x7bD7FF\x7d\\x\x7bF900\x7d-\\x\x7bFDCF\x7d\\x\x7bFDF0\x7d-\\x\x7bFFEF\x7d])*([a-zA-Z]|[\\x\x7b00A0\x7d-\\x\x7bD7FF\x7d\\x\x7bF900\x7d-\\x\x7bFDCF\x7d\\x\x7bFDF0\x7d-\\x\x7bFFEF\x7d])))\\.?$"

/-- Method `email.Validate`. -/
def email.Validate (env : Env) (allowDisposableDomains : Bool) (fields : List Str)
    (errorMessages : Messages) : Option Str × List Arg :=
  let field := getFirstKey fields
  if field.length = 0 then (none, [])
  else if env.MatchString email.pattern field = true then
    if allowDisposableDomains = false then
      let d := lastIndexByte field 64
      let domain := field.drop (d + 1).toNat
      if inSlice env.disposableDomains domain then (some (errorMessages.msg "email"), [])
      else if inSlice env.disposableWildcards domain then (some (errorMessages.msg "email"), [])
      else (none, [])
    else (none, [])
  else (some (errorMessages.msg "email"), [])

/-- Function `Email(allowDisposableDomains)`. -/
def Email (env : Env) (allowDisposableDomains : Bool) : Rule :=
  ⟨email.Validate env allowDisposableDomains⟩

/-! ## rules-numeric.go -/

/-- Method `numeric.Validate`. -/
def numeric.Validate (env : Env) (fields : List Str) (errorMessages : Messages) :
    Option Str × List Arg :=
  let field := getFirstKey fields
  if field.length = 0 then (none, [])
  else if env.MatchString (bytes "^[0-9]+$") field = true then (none, [])
  else (some (errorMessages.msg "numeric"), [])

/-- Function `Numeric()`. -/
def Numeric (env : Env) : Rule := ⟨numeric.Validate env⟩

/-- Method `isFloat64.Validate`. -/
def isFloat64.Validate (env : Env) (fields : List Str) (errorMessages : Messages) :
    Option Str × List Arg :=
  let field := getFirstKey fields
  if field.length = 0 then (none, [])
  else if (env.ParseFloat field).isSome then (none, [])
  else (some (errorMessages.msg "float"), [])

/-- Function `IsFloat64()`. -/
def IsFloat64 (env : Env) : Rule := ⟨isFloat64.Validate env⟩

/-- Method `intRange.Validate`. -/
def intRange.Validate (min max : Int) (fields : List Str) (errorMessages : Messages) :
    Option Str × List Arg :=
  let field := getFirstKey fields
  if field.length = 0 then (none, [])
  else
    match Atoi field with
    | some i =>
      if i ≥ min ∧ i ≤ max then (none, [])
      else (some (errorMessages.msg "int_range"), [Arg.int min, Arg.int max])
    | none => (some (errorMessages.msg "int_range"), [Arg.int min, Arg.int max])

/-- Function `IntRange(min, max)`. -/
def IntRange (min max : Int) : Rule := ⟨intRange.Validate min max⟩

/-- Method `floatRange.Validate`. -/
def floatRange.Validate (env : Env) (min max : Float64) (fields : List Str)
    (errorMessages : Messages) : Option Str × List Arg :=
  let field := getFirstKey fields
  if field.length = 0 then (none, [])
  else
    match env.ParseFloat field with
    | some i =>
      if env.floatLe min i && env.floatLe i max then (none, [])
      else (some (errorMessages.msg "float_range"), [Arg.float64 min, Arg.float64 max])
    | none => (some (errorMessages.msg "float_range"), [Arg.float64 min, Arg.float64 max])

/-- Function `FloatRange(min, max)`. -/
def FloatRange (env : Env) (min max : Float64) : Rule := ⟨floatRange.Validate env min max⟩

/-- Method `latitude.Validate`. -/
def latitude.Validate (env : Env) (fields : List Str) (errorMessages : Messages) :
    Option Str × List Arg :=
  let field := getFirstKey fields
  if field.length = 0 then (none, [])
  else if env.MatchString (bytes "^[-+]?([1-8]?\\d(\\.\\d+)?|90(\\.0+)?)$") field = true then
    (none, [])
  else (some (errorMessages.msg "latitude"), [])

/-- Function `Latitude()`. -/
def Latitude (env : Env) : Rule := ⟨latitude.Validate env⟩

/-- Method `longitude.Validate`. -/
def longitude.Validate (env : Env) (fields : List Str) (errorMessages : Messages) :
    Option Str × List Arg :=
  let field := getFirstKey fields
  if field.length = 0 then (none, [])
  else if env.MatchString
      (bytes "^[-+]?(180(\\.0+)?|((1[0-7]\\d)|([1-9]?\\d))(\\.\\d+)?)$") field = true then
    (none, [])
  else (some (errorMessages.msg "longitude"), [])

/-- Function `Longitude()`. -/
def Longitude (env : Env) : Rule := ⟨longitude.Validate env⟩

/-- Method `isDate.Validate`. -/
def isDate.Validate (env : Env) (fields : List Str) (errorMessages : Messages) :
    Option Str × List Arg :=
  let field := getFirstKey fields
  if field.length = 0 then (none, [])
  else if env.timeParse (bytes "02-01-2006") field then (none, [])
  else (some (errorMessages.msg "date"), [])

/-- Function `IsDate()`. -/
def IsDate (env : Env) : Rule := ⟨isDate.Validate env⟩

/-- Method `isTime.Validate`. -/
def isTime.Validate (env : Env) (fields : List Str) (errorMessages : Messages) :
    Option Str × List Arg :=
  let field := getFirstKey fields
  if field.length = 0 then (none, [])
  else if env.timeParse (bytes "15:04:05") field then (none, [])
  else (some (errorMessages.msg "time"), [])

/-- Function `IsTime()`. -/
def IsTime (env : Env) : Rule := ⟨isTime.Validate env⟩

/-- Method `isDateTime.Validate`. -/
def isDateTime.Validate (env : Env) (fields : List Str) (errorMessages : Messages) :
    Option Str × List Arg :=
  let field := getFirstKey fields
  if field.length = 0 then (none, [])
  else if env.timeParse (bytes "02-01-2006 15:04:05") field then (none, [])
  else (some (errorMessages.msg "date_time"), [])

/-- Function `IsDateTime()`. -/
def IsDateTime (env : Env) : Rule := ⟨isDateTime.Validate env⟩

/-- The regular expression `IsUUID(version)` selects. -/
def isUUID.regex (version : Nat) : Str :=
  if version = 3 then
    bytes "^[0-9a-f]\x7b8\x7d-[0-9a-f]\x7b4\x7d-3[0-9a-f]\x7b3\x7d-[0-9a-f]\x7b4\x7d-[0-9a-f]\x7b12\x7d$"
  else if version = 4 then
    bytes "^[0-9a-f]\x7b8\x7d-[0-9a-f]\x7b4\x7d-4[0-9a-f]\x7b3\x7d-[89ab][0-9a-f]\x7b3\x7d-[0-9a-f]\x7b12\x7d$"
  else if version = 5 then
    bytes "^[0-9a-f]\x7b8\x7d-[0-9a-f]\x7b4\x7d-5[0-9a-f]\x7b3\x7d-[89ab][0-9a-f]\x7b3\x7d-[0-9a-f]\x7b12\x7d$"
  else
    bytes "^[0-9a-f]\x7b8\x7d-[0-9a-f]\x7b4\x7d-[0-9a-f]\x7b4\x7d-[0-9a-f]\x7b4\x7d-[0-9a-f]\x7b12\x7d$"

/-- Method `isUUID.Validate`, on the rule's stored `regex`. -/
def isUUID.Validate (env : Env) (regex : Str) (fields : List Str) (errorMessages : Messages) :
    Option Str × List Arg :=
  let field := getFirstKey fields
  if field.length = 0 then (none, [])
  else if env.MatchString regex field = true then (none, [])
  else (some (errorMessages.msg "uuid"), [])

/-- Function `IsUUID(version)`. -/
def IsUUID (env : Env) (version : Nat) : Rule := ⟨isUUID.Validate env (isUUID.regex version)⟩

/-- The checksum loop of `isbn10.Validate`, from index `j` on with `n` rounds left;
a byte beyond the end reads as 0. -/
def isbn10.loop (field : Str) : Nat → Nat → Nat → Nat
  | 0, _, checksum => checksum
  | n + 1, j, checksum =>
    isbn10.loop field n (j + 1) (u32 (checksum + u32 ((j + 1) * byteSub (field.getD j 0) 48)))

/-- Method `isbn10.Validate`. -/
def isbn10.Validate (env : Env) (fields : List Str) (errorMessages : Messages) :
    Option Str × List Arg :=
  let field := getFirstKey fields
  if field.length = 0 then (none, [])
  else
    let field := removeSpacesHyphens field
    if env.MatchString (bytes "^(?:[0-9]\x7b9\x7dX|[0-9]\x7b10\x7d)$") field = false then
      (some (errorMessages.msg "isbn"), [])
    else
      let checksum := isbn10.loop field 9 0 0
      let checksum :=
        if field.getD 9 0 = 88 then u32 (checksum + 10 * 10)
        else u32 (checksum + u32 (10 * byteSub (field.getD 9 0) 48))
      if checksum % 11 = 0 then (none, [])
      else (some (errorMessages.msg "isbn"), [])

/-- Function `ISBN10()`. -/
def ISBN10 (env : Env) : Rule := ⟨isbn10.Validate env⟩

/-- The checksum loop of `isbn13.Validate`, from index `j` on with `n` rounds left;
a byte beyond the end reads as 0. -/
def isbn13.loop (field : Str) : Nat → Nat → Nat → Nat
  | 0, _, checksum => checksum
  | n + 1, j, checksum =>
    isbn13.loop field n (j + 1)
      (u32 (checksum + u32 (([1, 3].getD (j % 2) 0) * byteSub (field.getD j 0) 48)))

/-- Method `isbn13.Validate`. -/
def isbn13.Validate (env : Env) (fields : List Str) (errorMessages : Messages) :
    Option Str × List Arg :=
  let field := getFirstKey fields
  if field.length = 0 then (none, [])
  else
    let field := removeSpacesHyphens field
    if env.MatchString (bytes "^(?:[0-9]\x7b13\x7d)$") field = false then
      (some (errorMessages.msg "isbn"), [])
    else
      let checksum := isbn13.loop field 12 0 0
      if u32 (byteSub (field.getD 12 0) 48 + 2 ^ 32 - (10 - checksum % 10) % 10) = 0 then
        (none, [])
      else (some (errorMessages.msg "isbn"), [])

/-- Function `ISBN13()`. -/
def ISBN13 (env : Env) : Rule := ⟨isbn13.Validate env⟩

/-- Method `isbn.Validate`. -/
def isbn.Validate (env : Env) (fields : List Str) (errorMessages : Messages) :
    Option Str × List Arg :=
  let field := getFirstKey fields
  if field.length = 0 then (none, [])
  else
    let field := removeSpacesHyphens field
    if field.length = 10 then (ISBN10 env).Validate fields errorMessages
    else if field.length = 13 then (ISBN13 env).Validate fields errorMessages
    else (some (errorMessages.msg "isbn"), [])

/-- Function `ISBN()`. -/
def ISBN (env : Env) : Rule := ⟨isbn.Validate env⟩

/-! ## rules-list.go -/

/-- Method `inListSingle.Validate`. -/
def inListSingle.Validate (list : List Str) (fields : List Str) (errorMessages : Messages) :
    Option Str × List Arg :=
  if fields.length = 0 ∨ (fields.length = 1 ∧ (fields.getD 0 []).length = 0) then (none, [])
  else if fields.length > 1 then (some (errorMessages.msg "multiple_entries"), [])
  else if inSlice list (fields.getD 0 []) then (none, [])
  else (some (errorMessages.msg "in_list"), [])

/-- Function `InListSingle(list)`. -/
def InListSingle (list : List Str) : Rule := ⟨inListSingle.Validate list⟩

/-- Method `inListMultiple.Validate`. -/
def inListMultiple.Validate (list : List Str) (fields : List Str) (errorMessages : Messages) :
    Option Str × List Arg :=
  if fields.length = 0 then (none, [])
  else if hasDuplicates fields then (some (errorMessages.msg "duplicate"), [])
  else if sliceDiff fields list = [] then (none, [])
  else (some (errorMessages.msg "in_list"), [])

/-- Function `InListMultiple(list)`. -/
def InListMultiple (list : List Str) : Rule := ⟨inListMultiple.Validate list⟩

/-- Method `notInListSingle.Validate`. -/
def notInListSingle.Validate (list : List Str) (fields : List Str) (errorMessages : Messages) :
    Option Str × List Arg :=
  let field := getFirstKey fields
  if field.length = 0 then (none, [])
  else if !inSlice list field then (none, [])
  else (some (errorMessages.msg "not_in_list"), [])

/-- Function `NotInListSingle(list)`. -/
def NotInListSingle (list : List Str) : Rule := ⟨notInListSingle.Validate list⟩

/-- Method `countryCode.Validate`. -/
def countryCode.Validate (env : Env) (fields : List Str) (errorMessages : Messages) :
    Option Str × List Arg :=
  let field := getFirstKey fields
  if field.length = 0 then (none, [])
  else if inSlice env.iso3166countryCodes field then (none, [])
  else (some (errorMessages.msg "country_code"), [])

/-- Function `CountryCode()`. -/
def CountryCode (env : Env) : Rule := ⟨countryCode.Validate env⟩

/-- The loop of `csvEntryStrLen.Validate` over the entries of the first record. -/
def csvEntryStrLen.loop (min max : Nat) (errorMessages : Messages) :
    List Str → Option Str × List Arg
  | [] => (none, [])
  | e :: rest =>
    if e.length = 0 then csvEntryStrLen.loop min max errorMessages rest
    else if e.length < min then (some (errorMessages.msg "delimiter_min"), [Arg.uint32 min])
    else if e.length > max then (some (errorMessages.msg "delimiter_max"), [Arg.uint32 max])
    else csvEntryStrLen.loop min max errorMessages rest

/-- Method `csvEntryStrLen.Validate`, on the rule's stored `delimiter`. -/
def csvEntryStrLen.Validate (env : Env) (delimiter : Nat) (min max : Nat) (fields : List Str)
    (errorMessages : Messages) : Option Str × List Arg :=
  let field := getFirstKey fields
  if field.length = 0 then (none, [])
  else
    match env.csvReadAll delimiter field with
    | none => (some (errorMessages.msg "delimiter_min"), [Arg.uint32 min])
    | some entries =>
      match entries with
      | [] => (some (errorMessages.msg "delimiter_min"), [Arg.uint32 min])
      | first :: _ => csvEntryStrLen.loop min max errorMessages first

/-- Function `CSVEntryStrLen(delimiter, min, max)`: a delimiter other than `,`
and `|` becomes `,`. -/
def CSVEntryStrLen (env : Env) (delimiter : Nat) (min max : Nat) : Rule :=
  let delimiter := if delimiter = 44 then delimiter else if delimiter = 124 then delimiter else 44
  ⟨csvEntryStrLen.Validate env delimiter min max⟩

/-- Method `notCommonPassword.Validate`. -/
def notCommonPassword.Validate (env : Env) (fields : List Str) (errorMessages : Messages) :
    Option Str × List Arg :=
  let field := getFirstKey fields
  if field.length = 0 then (none, [])
  else if !inSlice env.commonPasswordList field then (none, [])
  else (some (errorMessages.msg "weak_password"), [])

/-- Function `NotCommonPassword()`. -/
def NotCommonPassword (env : Env) : Rule := ⟨notCommonPassword.Validate env⟩

/-- Method `currencyCode.Validate`. -/
def currencyCode.Validate (env : Env) (fields : List Str) (errorMessages : Messages) :
    Option Str × List Arg :=
  let field := getFirstKey fields
  if field.length = 0 then (none, [])
  else if inSlice env.iso4217currencyCodes field then (none, [])
  else (some (errorMessages.msg "currency_code"), [])

/-- Function `CurrencyCode()`. -/
def CurrencyCode (env : Env) : Rule := ⟨currencyCode.Validate env⟩

/-! ## validator.go -/

/-- The struct `FormValidator`. -/
structure FormValidator where
  rules : GoMap (List Rule)
  errorMessages : Messages
  blankFormDataOnError : Bool

/-- The error value `ErrNilArguments`. -/
def ErrNilArguments : Str := bytes "Arguments must be non-nil!"

/-- The default message table that `New` builds. -/
def defaultErrors : Messages :=
  ⟨[
   (bytes "account", bytes "The e-mail or password you entered is incorrect."),
   (bytes "alpha_num", bytes "This field may only contain letters and numbers."),
   (bytes "boolean", bytes "This field must be true or false."),
   (bytes "captcha", bytes "The characters you entered did not match the word verification. Please retry."),
   (bytes "city", bytes "We could not find that city. Please check your spelling."),
   (bytes "country_code", bytes "Please select a valid country."),
   (bytes "credit_card", bytes "Please enter a valid credit card number."),
   (bytes "csrf", bytes "There was an error submitting the form. Please retry."),
   (bytes "currency_code", bytes "Please enter a valid currency code."),
   (bytes "date", bytes "This field must be in a date format (DD-MM-YYYY) [Ex: 31-12-1990]"),
   (bytes "date_time", bytes "This field must be in a date-time format (DD-MM-YYYY HH:MM:SS) [Ex: 31-12-1990 14:23:56]"),
   (bytes "delimiter_min", bytes "Entries must be at least %d characters long."),
   (bytes "delimiter_max", bytes "Entries cannot be more than %d characters long."),
   (bytes "duplicate", bytes "This field cannot contain duplicate entries."),
   (bytes "email", bytes "Please enter a valid e-mail address."),
   (bytes "email_taken", bytes "That e-mail address is already in use."),
   (bytes "float", bytes "This field must be a floating point number. (Example: -10.50)"),
   (bytes "float_range", bytes "This field must be between %f - %f."),
   (bytes "in_list", bytes "Please make a selection."),
   (bytes "int_range", bytes "This field must be between %d - %d."),
   (bytes "isbn", bytes "Please enter a valid ISBN."),
   (bytes "json", bytes "This field must contain valid JSON (Javascript object notation)."),
   (bytes "latitude", bytes "Latitude must be between -90.0 degrees and 90.0 degrees."),
   (bytes "longitude", bytes "Longitude must be between -180.0 degrees and 180.0 degrees."),
   (bytes "multiple_entries", bytes "This field may only contain one entry."),
   (bytes "not_in_list", bytes "This field contains an invalid entry."),
   (bytes "numeric", bytes "This field must contain enter only numbers."),
   (bytes "required", bytes "This field is required."),
   (bytes "slug", bytes "This field must contain at least one letter or number."),
   (bytes "string_matches", bytes "Fields did not match."),
   (bytes "string_max", bytes "This field cannot be more than %d characters long."),
   (bytes "string_min", bytes "This field must be at least %d characters long."),
   (bytes "time", bytes "This field must be in a time format (HH:MM:SS) [Ex: 14:23:56]"),
   (bytes "unselected_field", bytes "Please select this field."),
   (bytes "utf8_letter_num", bytes "This field may only contain letters and numbers (Character set: UTF8)."),
   (bytes "uuid", bytes "Please enter a valid UUID."),
   (bytes "weak_password", bytes "Please use a stronger password."),
   (bytes "web_request_uri", bytes "Please enter a valid Web URI.")]⟩

/-- Function `New(rules)`; `none` is the nil map. -/
def New (rules : Option (GoMap (List Rule))) : Option Str × Option FormValidator :=
  match rules with
  | none => (some ErrNilArguments, none)
  | some rules => (none, some ⟨rules, defaultErrors, true⟩)

/-- Method `SetErrors(msgs)`; `none` is the nil map. Returns the error and the
validator after the call. -/
def FormValidator.SetErrors (f : FormValidator) (msgs : Option Messages) :
    Option Str × FormValidator :=
  match msgs with
  | none => (some ErrNilArguments, f)
  | some msgs => (none, { f with errorMessages := msgs })

/-- Method `SetBlankOnError(b)`: the validator after the call. -/
def FormValidator.SetBlankOnError (f : FormValidator) (b : Bool) : FormValidator :=
  { f with blankFormDataOnError := b }

/-- Method `GetErrorMessage(key)`. -/
def FormValidator.GetErrorMessage (f : FormValidator) (key : Str) : Str :=
  match f.errorMessages.lookup key with
  | none => []
  | some val => val

/-- The inner loop of `Validate`: runs every rule of `ruleSlice` on `val`,
appending one `FormError` for each rule that returns an error. -/
def FormValidator.ruleLoop (f : FormValidator) (val : List Str) :
    List Rule → List FormError → List FormError
  | [], errors => errors
  | r :: rest, errors =>
    match r.Validate val f.errorMessages with
    | (some err, data) => FormValidator.ruleLoop f val rest (appendError errors [⟨err, data⟩])
    | (none, _) => FormValidator.ruleLoop f val rest errors

/-- One round of the outer loop of `Validate`, on the state `(allErrors, form)`. -/
def FormValidator.fieldStep (f : FormValidator)
    (state : GoMap (List FormError) × Values) (entry : Str × List Rule) :
    GoMap (List FormError) × Values :=
  let allErrors := state.1
  let form := state.2
  let fieldName := entry.1
  let ruleSlice := entry.2
  let val := form.at fieldName
  let errors := f.ruleLoop val ruleSlice []
  let allErrors := allErrors.set fieldName errors
  let form := if errors.length > 0 ∧ f.blankFormDataOnError = true then form.Set fieldName [] else form
  (allErrors, form)

/-- What a call of `Validate` leaves: the two results and the caller's form. -/
structure Outcome where
  valid : Bool
  allErrors : GoMap (List FormError)
  form : Values

/-- Method `Validate(form)`. -/
def FormValidator.Validate (f : FormValidator) (form : Values) : Outcome :=
  let state := f.rules.entries.foldl f.fieldStep (GoMap.empty, form)
  let allErrors := state.1
  if allErrors.len = 0 then ⟨true, allErrors, state.2⟩
  else ⟨false, allErrors, state.2⟩

/-! ## The rule catalogue -/

/-- The rules of the package, one constructor for each function that makes a
`Rule` in rules-string.go, rules-numeric.go and rules-list.go, with its
construction parameters. -/
inductive Catalogue where
  | required
  | requiredMultiple
  | minStrLen (min : Nat)
  | maxStrLen (max : Nat)
  | strLen (min max : Nat)
  | strMatch (comparison : Str)
  | alphaNumeric
  | utf8LetterNum
  | boolean
  | creditCard (allowTestingNumbers : Bool)
  | webRequestURI
  | isJSON
  | email (allowDisposableDomains : Bool)
  | numeric
  | isFloat64
  | intRange (min max : Int)
  | floatRange (min max : Float64)
  | latitude
  | longitude
  | isDate
  | isTime
  | isDateTime
  | isUUID (version : Nat)
  | isbn
  | isbn10
  | isbn13
  | inListSingle (list : List Str)
  | inListMultiple (list : List Str)
  | notInListSingle (list : List Str)
  | countryCode
  | csvEntryStrLen (delimiter : Nat) (min max : Nat)
  | notCommonPassword
  | currencyCode
deriving DecidableEq

/-- The rule a catalogue entry constructs. -/
def Catalogue.rule (env : Env) : Catalogue → Rule
  | .required => Required
  | .requiredMultiple => RequiredMultiple
  | .minStrLen min => MinStrLen min
  | .maxStrLen max => MaxStrLen max
  | .strLen min max => StrLen min max
  | .strMatch comparison => StrMatch comparison
  | .alphaNumeric => AlphaNumeric env
  | .utf8LetterNum => UTF8LetterNum env
  | .boolean => Boolean
  | .creditCard allowTestingNumbers => CreditCard allowTestingNumbers
  | .webRequestURI => WebRequestURI env
  | .isJSON => IsJSON env
  | .email allowDisposableDomains => Email env allowDisposableDomains
  | .numeric => Numeric env
  | .isFloat64 => IsFloat64 env
  | .intRange min max => IntRange min max
  | .floatRange min max => FloatRange env min max
  | .latitude => Latitude env
  | .longitude => Longitude env
  | .isDate => IsDate env
  | .isTime => IsTime env
  | .isDateTime => IsDateTime env
  | .isUUID version => IsUUID env version
  | .isbn => ISBN env
  | .isbn10 => ISBN10 env
  | .isbn13 => ISBN13 env
  | .inListSingle list => InListSingle list
  | .inListMultiple list => InListMultiple list
  | .notInListSingle list => NotInListSingle list
  | .countryCode => CountryCode env
  | .csvEntryStrLen delimiter min max => CSVEntryStrLen env delimiter min max
  | .notCommonPassword => NotCommonPassword env
  | .currencyCode => CurrencyCode env

/-- The failures a catalogue rule reports: each error kind it looks up in the
message table, with the positional format arguments that go with it. -/
def Catalogue.failures : Catalogue → List (String × List Arg)
  | .required => [("required", []), ("multiple_entries", [])]
  | .requiredMultiple => [("required", [])]
  | .minStrLen min => [("string_min", [Arg.uint32 min])]
  | .maxStrLen max => [("string_max", [Arg.uint32 max])]
  | .strLen min max => [("string_min", [Arg.uint32 min]), ("string_max", [Arg.uint32 max])]
  | .strMatch _ => [("string_matches", [])]
  | .alphaNumeric => [("alpha_num", [])]
  | .utf8LetterNum => [("utf8_letter_num", [])]
  | .boolean => [("boolean", [])]
  | .creditCard _ => [("credit_card", [])]
  | .webRequestURI => [("web_request_uri", [])]
  | .isJSON => [("json", [])]
  | .email _ => [("email", [])]
  | .numeric => [("numeric", [])]
  | .isFloat64 => [("float", [])]
  | .intRange min max => [("int_range", [Arg.int min, Arg.int max])]
  | .floatRange min max => [("float_range", [Arg.float64 min, Arg.float64 max])]
  | .latitude => [("latitude", [])]
  | .longitude => [("longitude", [])]
  | .isDate => [("date", [])]
  | .isTime => [("time", [])]
  | .isDateTime => [("date_time", [])]
  | .isUUID _ => [("uuid", [])]
  | .isbn => [("isbn", [])]
  | .isbn10 => [("isbn", [])]
  | .isbn13 => [("isbn", [])]
  | .inListSingle _ => [("multiple_entries", []), ("in_list", [])]
  | .inListMultiple _ => [("duplicate", []), ("in_list", [])]
  | .notInListSingle _ => [("not_in_list", [])]
  | .countryCode => [("country_code", [])]
  | .csvEntryStrLen _ min max =>
    [("delimiter_min", [Arg.uint32 min]), ("delimiter_max", [Arg.uint32 max])]
  | .notCommonPassword => [("weak_password", [])]
  | .currencyCode => [("currency_code", [])]

/-! ## Specification-side definitions -/

/-- The failures of a rule chain on the values `val`, rule by rule in chain
order: one `FormError` for each rule whose `Validate` returns an error. -/
def chainFailures (errorMessages : Messages) (val : List Str) (chain : List Rule) :
    List FormError :=
  chain.filterMap (fun r =>
    match r.Validate val errorMessages with
    | (some err, data) => some ⟨err, data⟩
    | (none, _) => none)

/-- Whether a rule fails on the values `val`. -/
def ruleFails (errorMessages : Messages) (val : List Str) (r : Rule) : Bool :=
  (r.Validate val errorMessages).1.isSome

/-- Luhn contribution of the digit `d`: the digit itself, or, when it is one of
the doubled digits, twice the digit, less 9 if that exceeds 9. -/
def luhnDigit (doubled : Bool) (d : Nat) : Nat :=
  if doubled then (if 2 * d > 9 then 2 * d - 9 else 2 * d) else d

/-- Luhn sum of ASCII digits listed from right to left; `doubled` tells whether
the first of them is doubled. -/
def luhnSumFromRight : List Nat → Bool → Nat
  | [], _ => 0
  | b :: rest, doubled => luhnDigit doubled (b - 48) + luhnSumFromRight rest (!doubled)

/-- The Luhn sum of a digit string: digits taken from right to left, every
second one doubled, starting with the second from the right. -/
def luhnSum (v : Str) : Nat := luhnSumFromRight v.reverse false

/-- A Luhn-valid card number: ASCII digits only, 13 to 19 of them, Luhn sum
divisible by 10. -/
def luhnValid (v : Str) : Prop :=
  v.all isDigit = true ∧ 13 ≤ v.length ∧ v.length ≤ 19 ∧ luhnSum v % 10 = 0

instance (v : Str) : Decidable (luhnValid v) := by
  unfold luhnValid; infer_instance

/-! ## Go standard library: `regexp` -/

/-- A regular expression over bytes: the body of a Go pattern between `^` and
`$`. A class is a list of inclusive byte ranges; `plus` is a class repeated one
or more times. -/
inductive Regex where
  | empty
  | cls (ranges : List (Char × Char))
  | seq (a b : Regex)
  | alt (a b : Regex)
  | plus (ranges : List (Char × Char))

/-- Whether the byte `c` is in the class. -/
def inClass (ranges : List (Char × Char)) (c : Nat) : Bool :=
  ranges.any (fun r => r.1.toNat ≤ c && c ≤ r.2.toNat)

/-- Whether the whole string is in the language of the expression. -/
def Regex.accepts : Regex → Str → Bool
  | .empty, s => s.isEmpty
  | .cls ranges, s =>
    match s with
    | [c] => inClass ranges c
    | _ => false
  | .seq a b, s =>
    (List.range (s.length + 1)).any (fun i => a.accepts (s.take i) && b.accepts (s.drop i))
  | .alt a b, s => a.accepts s || b.accepts s
  | .plus ranges, s => !s.isEmpty && s.all (inClass ranges)

/-- The single character `c`. -/
def Regex.chr (c : Char) : Regex := .cls [(c, c)]

/-- An optional expression: `r?`. -/
def Regex.opt (r : Regex) : Regex := .alt r .empty

/-- A counted repetition: `r{n}`. -/
def Regex.rep : Nat → Regex → Regex
  | 0, _ => .empty
  | n + 1, r => .seq r (Regex.rep n r)

/-- A sequence of expressions. -/
def Regex.cat : List Regex → Regex
  | [] => .empty
  | r :: rest => .seq r (Regex.cat rest)

/-- The class `[0-9]`, also written `\d`. -/
def Regex.digit : Regex := .cls [('0', '9')]

/-- The class `[0-9a-f]`. -/
def Regex.hex : Regex := .cls [('0', '9'), ('a', 'f')]

/-- The body of the UUID patterns: `third` is what the third group starts with,
`fourth` what the fourth group starts with. -/
def Regex.uuid (third fourth : Regex) : Regex :=
  Regex.cat [Regex.rep 8 Regex.hex, Regex.chr '-', Regex.rep 4 Regex.hex, Regex.chr '-',
    third, Regex.rep 3 Regex.hex, Regex.chr '-', fourth, Regex.rep 3 Regex.hex, Regex.chr '-',
    Regex.rep 12 Regex.hex]

/-- An optional fractional part `(\.c+)?` over the class `c`. -/
def Regex.fraction (ranges : List (Char × Char)) : Regex :=
  Regex.opt (.seq (Regex.chr '.') (.plus ranges))

/-- The patterns of the package that are modelled, each with the expression it
denotes; all of them are anchored at both ends. -/
def regexpTable : List (Str × Regex) :=
  [(bytes "^[a-zA-Z0-9]+$", .plus [('a', 'z'), ('A', 'Z'), ('0', '9')]),
   (bytes "^[0-9]+$", .plus [('0', '9')]),
   (bytes "^[-+]?([1-8]?\\d(\\.\\d+)?|90(\\.0+)?)$",
     .seq (Regex.opt (.cls [('-', '-'), ('+', '+')]))
       (.alt
         (Regex.cat [Regex.opt (.cls [('1', '8')]), Regex.digit, Regex.fraction [('0', '9')]])
         (Regex.cat [Regex.chr '9', Regex.chr '0', Regex.fraction [('0', '0')]]))),
   (bytes "^[-+]?(180(\\.0+)?|((1[0-7]\\d)|([1-9]?\\d))(\\.\\d+)?)$",
     .seq (Regex.opt (.cls [('-', '-'), ('+', '+')]))
       (.alt
         (Regex.cat [Regex.chr '1', Regex.chr '8', Regex.chr '0', Regex.fraction [('0', '0')]])
         (.seq
           (.alt (Regex.cat [Regex.chr '1', .cls [('0', '7')], Regex.digit])
             (.seq (Regex.opt (.cls [('1', '9')])) Regex.digit))
           (Regex.fraction [('0', '9')])))),
   (bytes "^[0-9a-f]\x7b8\x7d-[0-9a-f]\x7b4\x7d-3[0-9a-f]\x7b3\x7d-[0-9a-f]\x7b4\x7d-[0-9a-f]\x7b12\x7d$",
     Regex.uuid (Regex.chr '3') Regex.hex),
   (bytes "^[0-9a-f]\x7b8\x7d-[0-9a-f]\x7b4\x7d-4[0-9a-f]\x7b3\x7d-[89ab][0-9a-f]\x7b3\x7d-[0-9a-f]\x7b12\x7d$",
     Regex.uuid (Regex.chr '4') (.cls [('8', '9'), ('a', 'b')])),
   (bytes "^[0-9a-f]\x7b8\x7d-[0-9a-f]\x7b4\x7d-5[0-9a-f]\x7b3\x7d-[89ab][0-9a-f]\x7b3\x7d-[0-9a-f]\x7b12\x7d$",
     Regex.uuid (Regex.chr '5') (.cls [('8', '9'), ('a', 'b')])),
   (bytes "^[0-9a-f]\x7b8\x7d-[0-9a-f]\x7b4\x7d-[0-9a-f]\x7b4\x7d-[0-9a-f]\x7b4\x7d-[0-9a-f]\x7b12\x7d$",
     Regex.uuid Regex.hex Regex.hex),
   (bytes "^(?:[0-9]\x7b9\x7dX|[0-9]\x7b10\x7d)$",
     .alt (.seq (Regex.rep 9 Regex.digit) (Regex.chr 'X')) (Regex.rep 10 Regex.digit)),
   (bytes "^(?:[0-9]\x7b13\x7d)$", Regex.rep 13 Regex.digit)]

/-- Function `regexp.MatchString(pattern, s)` on the patterns of `regexpTable`:
the pattern is anchored, so `s` matches when all of it is in the language; any
other pattern is left to `other`. -/
def regexpMatchString (other : Str → Str → Bool) (pattern s : Str) : Bool :=
  match GoMap.lookupIn pattern regexpTable with
  | some re => re.accepts s
  | none => other pattern s

/-! ## Go standard library: `time.Parse` -/

/-- An element of a layout: literal text, or one of the reference-time
elements the package's layouts use (`02`, `01`, `2006`, `15`, `04`, `05`). -/
inductive Chunk where
  | lit (text : Str)
  | stdZeroDay
  | stdZeroMonth
  | stdLongYear
  | stdHour
  | stdZeroMinute
  | stdZeroSecond

/-- The fields `time.Parse` collects. -/
structure TimeFields where
  year : Nat
  month : Nat
  day : Nat
  hour : Nat
  min : Nat
  sec : Nat
deriving DecidableEq, Repr

/-- Function `cutspace` of package time: drops the leading spaces. -/
def time.cutspace (s : Str) : Str := s.dropWhile (fun c => c == 32)

/-- Function `skip(value, prefix)` of package time: removes the literal text
`pfx` from the front of `value`, a run of spaces of the layout standing for
any run of spaces of the value; `afterSpace` tells that the spaces of the
layout at hand were already cut. -/
def time.skipFrom : Str → Str → Bool → Option Str
  | [], value, _ => some value
  | p :: pfx, value, afterSpace =>
    if p = 32 then
      if afterSpace then time.skipFrom pfx value true
      else if value.length > 0 ∧ value.head? ≠ some 32 then none
      else time.skipFrom pfx (time.cutspace value) true
    else
      match value with
      | [] => none
      | c :: rest => if c ≠ p then none else time.skipFrom pfx rest false

/-- Function `skip(value, prefix)` of package time. -/
def time.skip (value pfx : Str) : Option Str := time.skipFrom pfx value false

/-- Function `getnum(s, fixed)` of package time: a number of one or two
digits, of exactly two when `fixed`, and the rest of the string. -/
def time.getnum (s : Str) (fixed : Bool) : Option (Nat × Str) :=
  match s with
  | [] => none
  | c0 :: r0 =>
    if !isDigit c0 then none
    else
      match r0 with
      | [] => if fixed then none else some (c0 - 48, r0)
      | c1 :: r1 =>
        if !isDigit c1 then (if fixed then none else some (c0 - 48, r0))
        else some ((c0 - 48) * 10 + (c1 - 48), r1)

/-- Function `isLeap(year)` of package time. -/
def time.isLeap (year : Nat) : Bool :=
  year % 4 == 0 && (year % 100 != 0 || year % 400 == 0)

/-- Table `daysBefore` of package time. -/
def time.daysBefore : List Nat :=
  [0, 31, 31 + 28, 31 + 28 + 31, 31 + 28 + 31 + 30, 31 + 28 + 31 + 30 + 31,
   31 + 28 + 31 + 30 + 31 + 30, 31 + 28 + 31 + 30 + 31 + 30 + 31,
   31 + 28 + 31 + 30 + 31 + 30 + 31 + 31, 31 + 28 + 31 + 30 + 31 + 30 + 31 + 31 + 30,
   31 + 28 + 31 + 30 + 31 + 30 + 31 + 31 + 30 + 31,
   31 + 28 + 31 + 30 + 31 + 30 + 31 + 31 + 30 + 31 + 30,
   31 + 28 + 31 + 30 + 31 + 30 + 31 + 31 + 30 + 31 + 30 + 31]

/-- Function `daysIn(m, year)` of package time. -/
def time.daysIn (m year : Nat) : Nat :=
  if m = 2 ∧ time.isLeap year = true then 29
  else time.daysBefore.getD m 0 - time.daysBefore.getD (m - 1) 0

/-- One element of the layout in `time.Parse`: reads the element from the
front of `value`; `none` is a syntax or range error. After the seconds a
fractional second (`.` or `,` and digits) is read too, the layouts at hand
having no fractional element. -/
def time.parseStd (std : Chunk) (value : Str) (f : TimeFields) : Option (Str × TimeFields) :=
  match std with
  | .lit text => (time.skip value text).map (fun v => (v, f))
  | .stdZeroDay =>
    match time.getnum value true with
    | none => none
    | some (day, value) => some (value, { f with day := day })
  | .stdZeroMonth =>
    match time.getnum value true with
    | none => none
    | some (month, value) =>
      if month ≤ 0 ∨ 12 < month then none else some (value, { f with month := month })
  | .stdLongYear =>
    if value.length < 4 ∨ !(isDigit (value.getD 0 0)) then none
    else if (value.take 4).all isDigit then
      some (value.drop 4, { f with year := digitsValue (value.take 4) })
    else none
  | .stdHour =>
    match time.getnum value false with
    | none => none
    | some (hour, value) => if 24 ≤ hour then none else some (value, { f with hour := hour })
  | .stdZeroMinute =>
    match time.getnum value true with
    | none => none
    | some (min, value) => if 60 ≤ min then none else some (value, { f with min := min })
  | .stdZeroSecond =>
    match time.getnum value true with
    | none => none
    | some (sec, value) =>
      if 60 ≤ sec then none
      else
        match value with
        | c :: d :: rest =>
          if (c = 46 ∨ c = 44) ∧ isDigit d = true then
            some (rest.dropWhile isDigit, { f with sec := sec })
          else some (value, { f with sec := sec })
        | _ => some (value, { f with sec := sec })

/-- The loop of `time.Parse` over the elements of the layout; text left over
at the end is an error. -/
def time.parseChunks : List Chunk → Str → TimeFields → Option TimeFields
  | [], value, f => if value.length ≠ 0 then none else some f
  | std :: layout, value, f =>
    match time.parseStd std value f with
    | none => none
    | some (value, f) => time.parseChunks layout value f

/-- Function `time.Parse` on a layout given by its elements: whether the error
is nil. Month and day start as 1; the day is validated against the month at
the end. -/
def time.Parse (layout : List Chunk) (value : Str) : Bool :=
  match time.parseChunks layout value ⟨0, 1, 1, 0, 0, 0⟩ with
  | none => false
  | some f => !(decide (f.day < 1) || decide (f.day > time.daysIn f.month f.year))

/-- The layouts of the package, each with its elements. -/
def layoutTable : List (Str × List Chunk) :=
  [(bytes "02-01-2006",
     [.stdZeroDay, .lit (bytes "-"), .stdZeroMonth, .lit (bytes "-"), .stdLongYear]),
   (bytes "15:04:05",
     [.stdHour, .lit (bytes ":"), .stdZeroMinute, .lit (bytes ":"), .stdZeroSecond]),
   (bytes "02-01-2006 15:04:05",
     [.stdZeroDay, .lit (bytes "-"), .stdZeroMonth, .lit (bytes "-"), .stdLongYear,
      .lit (bytes " "),
      .stdHour, .lit (bytes ":"), .stdZeroMinute, .lit (bytes ":"), .stdZeroSecond])]

/-- Function `time.Parse(layout, value)` on the layouts of `layoutTable`; any
other layout is left to `other`. -/
def timeParse (other : Str → Str → Bool) (layout value : Str) : Bool :=
  match GoMap.lookupIn layout layoutTable with
  | some chunks => time.Parse chunks value
  | none => other layout value

/-- The environment `base` with `regexp.MatchString` and `time.Parse` as
modelled above on the patterns and layouts of the package. -/
def stdlib (base : Env) : Env :=
  { base with
    MatchString := regexpMatchString base.MatchString
    timeParse := timeParse base.timeParse }

/-! ## Specification-side definitions: numerals and ISBN -/

/-- A base-10 integer literal: an optional `+` or `-`, then one or more ASCII
digits. -/
def isIntLiteral (s : Str) : Bool :=
  match s with
  | [] => false
  | c :: rest =>
    if c = 43 ∨ c = 45 then (!rest.isEmpty && rest.all isDigit)
    else isDigit c && rest.all isDigit

/-- The value of a base-10 integer literal. -/
def intLiteralValue (s : Str) : Int :=
  match s with
  | [] => 0
  | c :: rest =>
    if c = 45 then - (digitsValue rest : Int)
    else if c = 43 then (digitsValue rest : Int)
    else (digitsValue (c :: rest) : Int)

/-- Whether an integer fits the Go type `int`. -/
def fitsInt (i : Int) : Prop := - (2 : Int) ^ (intSize - 1) ≤ i ∧ i ≤ (2 : Int) ^ (intSize - 1) - 1

instance (i : Int) : Decidable (fitsInt i) := by
  unfold fitsInt; infer_instance

/-! ## Regular expressions made of classes in sequence -/

/-- The classes of an expression that is a plain sequence of classes, in order;
`none` for an expression with an alternative or a repetition. -/
def Regex.classes : Regex → Option (List (List (Char × Char)))
  | .empty => some []
  | .cls ranges => some [ranges]
  | .seq a b =>
    match a.classes, b.classes with
    | some x, some y => some (x ++ y)
    | _, _ => none
  | .alt _ _ => none
  | .plus _ => none

/-- Whether the string has one byte for each class, each byte in its class. -/
def matchClasses : List (List (Char × Char)) → Str → Bool
  | [], [] => true
  | ranges :: cs, c :: s => inClass ranges c && matchClasses cs s
  | [], _ :: _ => false
  | _ :: _, [] => false

/-! ## Specification-side definitions: ISBN and UUID -/

/-- Sum of the digit values of `s`, each multiplied by its weight. -/
def weightedDigitSum (weights : List Nat) (s : Str) : Nat :=
  (List.zipWith (fun w b => w * (b - 48)) weights s).sum

/-- The ISBN-10 form: nine ASCII digits followed by a digit or `X`. -/
def isbn10Form (s : Str) : Bool :=
  s.length == 10 && (s.take 9).all isDigit && (isDigit (s.getD 9 0) || s.getD 9 0 == 88)

/-- The ISBN-10 sum `1·d1 + 2·d2 + … + 9·d9 + 10·c`, where `c` is 10 for a
final `X` and the value of the last digit otherwise. -/
def isbn10Sum (s : Str) : Nat :=
  weightedDigitSum [1, 2, 3, 4, 5, 6, 7, 8, 9] s
    + 10 * (if s.getD 9 0 = 88 then 10 else s.getD 9 0 - 48)

/-- The ISBN-13 form: exactly thirteen ASCII digits. -/
def isbn13Form (s : Str) : Bool := s.length == 13 && s.all isDigit

/-- The sum `d1 + 3·d2 + d3 + … + 3·d12` over the first twelve digits. -/
def isbn13Sum (s : Str) : Nat :=
  weightedDigitSum [1, 3, 1, 3, 1, 3, 1, 3, 1, 3, 1, 3] s

/-- The sum of all thirteen digits with the weights 1, 3, 1, 3, …, 1. -/
def isbn13Total (s : Str) : Nat :=
  weightedDigitSum [1, 3, 1, 3, 1, 3, 1, 3, 1, 3, 1, 3, 1] s

/-- A lowercase hexadecimal digit. -/
def isHexLower (c : Nat) : Bool := (48 ≤ c && c ≤ 57) || (97 ≤ c && c ≤ 102)

/-- The UUID form: 36 characters, hyphens at the positions 8, 13, 18 and 23 and
lowercase hexadecimal digits elsewhere, that is, groups of 8, 4, 4, 4 and 12
digits separated by hyphens. -/
def uuidForm (s : Str) : Bool :=
  s.length == 36 && (List.range 36).all (fun i =>
    if i = 8 ∨ i = 13 ∨ i = 18 ∨ i = 23 then s.getD i 0 == 45 else isHexLower (s.getD i 0))

/-- One of the characters `8`, `9`, `a`, `b`. -/
def isVariantChar (c : Nat) : Bool := c == 56 || c == 57 || c == 97 || c == 98

/-- The constraint of a UUID version on the first character of the third group
(position 14) and of the fourth group (position 19). -/
def uuidVersionForm (version : Nat) (s : Str) : Bool :=
  if version = 3 then s.getD 14 0 == 51
  else if version = 4 then s.getD 14 0 == 52 && isVariantChar (s.getD 19 0)
  else if version = 5 then s.getD 14 0 == 53 && isVariantChar (s.getD 19 0)
  else true

/-- The classes of the UUID patterns, position by position. -/
def uuidClasses (third fourth : List (Char × Char)) : List (List (Char × Char)) :=
  List.replicate 8 [('0', '9'), ('a', 'f')] ++ [[('-', '-')]]
    ++ List.replicate 4 [('0', '9'), ('a', 'f')] ++ [[('-', '-')]]
    ++ [third] ++ List.replicate 3 [('0', '9'), ('a', 'f')] ++ [[('-', '-')]]
    ++ [fourth] ++ List.replicate 3 [('0', '9'), ('a', 'f')] ++ [[('-', '-')]]
    ++ List.replicate 12 [('0', '9'), ('a', 'f')]

/-- The class the UUID pattern of a version has at position 14. -/
def uuidThird (version : Nat) : List (Char × Char) :=
  if version = 3 then [('3', '3')]
  else if version = 4 then [('4', '4')]
  else if version = 5 then [('5', '5')]
  else [('0', '9'), ('a', 'f')]

/-- The class the UUID pattern of a version has at position 19. -/
def uuidFourth (version : Nat) : List (Char × Char) :=
  if version = 4 ∨ version = 5 then [('8', '9'), ('a', 'b')]
  else [('0', '9'), ('a', 'f')]

/-! ## Specification-side definitions: dates and times -/

/-- A leap year of the Gregorian calendar. -/
def leapYear (y : Nat) : Bool := y % 4 == 0 && (y % 100 != 0 || y % 400 == 0)

/-- The number of days of a month, 29 for February in leap years only. -/
def monthLength (y m : Nat) : Nat :=
  if m = 2 then (if leapYear y = true then 29 else 28)
  else if m = 4 ∨ m = 6 ∨ m = 9 ∨ m = 11 then 30
  else 31

/-- A real calendar date written `DD-MM-YYYY`: ten characters, two digits of
day, a hyphen, two digits of month, a hyphen and four digits of year, with the
month from 1 to 12 and the day from 1 to the length of the month. -/
def isCalendarDate (v : Str) : Bool :=
  match v with
  | [d1, d2, s1, m1, m2, s2, y1, y2, y3, y4] =>
    isDigit d1 && isDigit d2 && s1 == 45 && isDigit m1 && isDigit m2 && s2 == 45
      && isDigit y1 && isDigit y2 && isDigit y3 && isDigit y4
      && decide (1 ≤ digitsValue [m1, m2] ∧ digitsValue [m1, m2] ≤ 12
          ∧ 1 ≤ digitsValue [d1, d2]
          ∧ digitsValue [d1, d2] ≤ monthLength (digitsValue [y1, y2, y3, y4])
              (digitsValue [m1, m2]))
  | _ => false

/-- A fractional second as `time.Parse` reads it after the seconds of a layout
without one: nothing, or a period or comma followed by one or more digits. -/
def isFraction (s : Str) : Bool :=
  match s with
  | [] => true
  | c :: d :: ds => (c == 46 || c == 44) && isDigit d && ds.all isDigit
  | _ => false

/-- The text `:MM:SS` with a two-digit minute and a two-digit second, both from
00 to 59, followed by an optional fractional second. -/
def isClockTail (s : Str) : Bool :=
  match s with
  | c1 :: m1 :: m2 :: c2 :: s1 :: s2 :: frac =>
    c1 == 58 && isDigit m1 && isDigit m2 && decide (digitsValue [m1, m2] < 60)
      && c2 == 58 && isDigit s1 && isDigit s2 && decide (digitsValue [s1, s2] < 60)
      && isFraction frac
  | _ => false

/-- A time of day `H:MM:SS` or `HH:MM:SS` with an optional fractional second:
an hour of one or two digits from 0 to 23, then `isClockTail`. -/
def isClockTime (v : Str) : Bool :=
  match v with
  | h1 :: h2 :: rest =>
    isDigit h1
      && ((isDigit h2 && decide (digitsValue [h1, h2] < 24) && isClockTail rest)
          || isClockTail (h2 :: rest))
  | _ => false

/-- The form `HH:MM:SS` exactly: eight characters, a two-digit hour 00 to 23,
a two-digit minute 00 to 59 and a two-digit second 00 to 59, separated by
colons. -/
def isHHMMSS (v : Str) : Bool :=
  match v with
  | [h1, h2, c1, m1, m2, c2, s1, s2] =>
    isDigit h1 && isDigit h2 && decide (digitsValue [h1, h2] < 24) && c1 == 58
      && isDigit m1 && isDigit m2 && decide (digitsValue [m1, m2] < 60) && c2 == 58
      && isDigit s1 && isDigit s2 && decide (digitsValue [s1, s2] < 60)
  | _ => false

/-! ## Specification-side definitions: decimal numerals -/

/-- The numeral without its sign: the text after one leading `+` or `-`. -/
def unsignedPart (v : Str) : Str :=
  match v with
  | c :: r => if c = 43 ∨ c = 45 then r else v
  | [] => []

/-- The digits before the period. -/
def integerPart (v : Str) : Str := (unsignedPart v).takeWhile isDigit

/-- What follows the digits of the integer part. -/
def afterInteger (v : Str) : Str := (unsignedPart v).dropWhile isDigit

/-- The digits after the period. -/
def fractionPart (v : Str) : Str := (afterInteger v).tail

/-- An optionally signed decimal numeral: an optional `+` or `-`, one or more
ASCII digits, and optionally a period followed by one or more ASCII digits. -/
def isDecimalNumeral (v : Str) : Bool :=
  !(integerPart v).isEmpty
    && ((afterInteger v).isEmpty
        || ((afterInteger v).head? == some 46 && !(fractionPart v).isEmpty
            && (fractionPart v).all isDigit))

/-- The value of a decimal numeral, a rational number. -/
def decimalValue (v : Str) : ℚ :=
  (if v.head? = some 45 then -1 else 1)
    * ((digitsValue (integerPart v) : ℚ)
        + (digitsValue (fractionPart v) : ℚ) / 10 ^ (fractionPart v).length)

/-! ## Specification-side definitions: composite rules -/

/-- The sequential composite of two rules: the failure of `first` when `first`
fails, and otherwise the result of `second`. -/
def sequentialComposite (first second : Rule) : Rule :=
  ⟨fun fields errorMessages =>
    match first.Validate fields errorMessages with
    | (some err, data) => (some err, data)
    | (none, _) => second.Validate fields errorMessages⟩

/-! ## Go standard library: `encoding/csv` -/

/-- Text without a quote, a carriage return or a line feed: a single line of
fields none of which is quoted. -/
def csv.isPlain (text : Str) : Bool := text.all (fun b => b != 34 && b != 13 && b != 10)

/-- The fields of a line without quotes: the pieces between the occurrences of
the delimiter `comma`, empty pieces included. -/
def csv.splitLine (comma : Nat) : Str → List Str
  | [] => [[]]
  | b :: rest =>
    if b = comma then [] :: csv.splitLine comma rest
    else
      match csv.splitLine comma rest with
      | field :: fields => (b :: field) :: fields
      | [] => [[b]]

/-- Method `ReadAll` of a `csv.Reader` whose `Comma` is `,` or `|`, on plain
text: no record for the empty text, and otherwise one record, the fields of the
line. Any other text, and any other delimiter, is left to `other`. -/
def csvReadAll (other : Nat → Str → Option (List (List Str))) (comma : Nat) (text : Str) :
    Option (List (List Str)) :=
  if (comma = 44 ∨ comma = 124) ∧ csv.isPlain text = true then
    if text.length = 0 then some [] else some [csv.splitLine comma text]
  else other comma text

/-- The environment `base` with `csv.Reader.ReadAll` as modelled above on plain
text. -/
def csvlib (base : Env) : Env :=
  { base with csvReadAll := csvReadAll base.csvReadAll }

/-! ## Specification-side definitions: characters and tokens -/

/-- The number of characters of a UTF-8 text: its bytes other than continuation
bytes (`10xxxxxx`). -/
def characterCount (s : Str) : Nat := (s.filter (fun b => b / 64 != 2)).length

/-- Every non-empty token has a length in bytes from `min` to `max`. -/
def tokensWithinBytes (min max : Nat) (tokens : List Str) : Prop :=
  ∀ e ∈ tokens, e ≠ [] → min ≤ e.length ∧ e.length ≤ max

/-- Every non-empty token has a length in characters from `min` to `max`. -/
def tokensWithinCharacters (min max : Nat) (tokens : List Str) : Prop :=
  ∀ e ∈ tokens, e ≠ [] → min ≤ characterCount e ∧ characterCount e ≤ max

instance (min max : Nat) (tokens : List Str) : Decidable (tokensWithinBytes min max tokens) := by
  unfold tokensWithinBytes; infer_instance

instance (min max : Nat) (tokens : List Str) :
    Decidable (tokensWithinCharacters min max tokens) := by
  unfold tokensWithinCharacters; infer_instance

/-! ## Index and slice expressions with their run-time checks

The methods of the package once more, for the ones that have an index or a
slice expression of their own, this time with the check Go makes at run time:
the result `none` is the panic on an index or a bound out of range. -/

/-- The index expression `s[i]`: `none` when `i` is out of range. -/
def indexChecked {α : Type} (s : List α) (i : Int) : Option α :=
  if 0 ≤ i ∧ i < s.length then s[i.toNat]? else none

/-- The slice expression `s[lo:]`: `none` when `lo` is out of range. -/
def sliceFromChecked (s : Str) (lo : Int) : Option Str :=
  if 0 ≤ lo ∧ lo ≤ s.length then some (s.drop lo.toNat) else none

/-- The result of a call of `Validate` that may panic. -/
abbrev Run := Option (Option Str × List Arg)

/-- Function `getFirstKey(values)`, the index `values[0]` checked. -/
def getFirstKeyChecked (values : List Str) : Option Str :=
  if values.length > 0 then indexChecked values 0 else some []

/-- A method whose only index expression is the one of `getFirstKey`, which it
calls before anything else. -/
def afterFirstKey (validate : List Str → Messages → Option Str × List Arg)
    (fields : List Str) (errorMessages : Messages) : Run :=
  match getFirstKeyChecked fields with
  | none => none
  | some _ => some (validate fields errorMessages)

/-- Method `requiredSingle.Validate`, the index `fields[0]` checked; the second
operand of `&&` is evaluated only when the first is true. -/
def requiredSingle.ValidateChecked (fields : List Str) (errorMessages : Messages) : Run :=
  let cond : Option Bool :=
    if fields.length = 1 then (indexChecked fields 0).map (fun f0 => decide (f0.length > 0))
    else some false
  match cond with
  | none => none
  | some true => some (none, [])
  | some false =>
    if fields.length > 1 then some (some (errorMessages.msg "multiple_entries"), [])
    else some (some (errorMessages.msg "required"), [])

/-- Method `inListSingle.Validate`, the two indexes `fields[0]` checked; the
operands of `||` and `&&` are evaluated from left to right, as far as needed. -/
def inListSingle.ValidateChecked (list : List Str) (fields : List Str)
    (errorMessages : Messages) : Run :=
  let blank : Option Bool :=
    if fields.length = 0 then some true
    else if fields.length = 1 then
      (indexChecked fields 0).map (fun f0 => decide (f0.length = 0))
    else some false
  match blank with
  | none => none
  | some true => some (none, [])
  | some false =>
    if fields.length > 1 then some (some (errorMessages.msg "multiple_entries"), [])
    else
      match indexChecked fields 0 with
      | none => none
      | some f0 =>
        if inSlice list f0 then some (none, [])
        else some (some (errorMessages.msg "in_list"), [])

/-- The Luhn loop of `creditCard.Validate`, the index `field[i]` checked: the
outer `none` is the panic, the inner one the early return. -/
def creditCard.loopChecked (field : Str) : Nat → Int → Bool → Option (Option Int)
  | 0, sum, _ => some (some sum)
  | i + 1, sum, alternate =>
    match indexChecked field (i : Int) with
    | none => none
    | some b =>
      match Atoi (utf8Encode b) with
      | none => some none
      | some mod =>
        let mod :=
          if alternate then (if mod * 2 > 9 then (mod * 2).tmod 10 + 1 else mod * 2) else mod
        creditCard.loopChecked field i (sum + mod) (!alternate)

/-- Method `creditCard.Validate`, the indexes checked. -/
def creditCard.ValidateChecked (allowTestingNumbers : Bool) (fields : List Str)
    (errorMessages : Messages) : Run :=
  match getFirstKeyChecked fields with
  | none => none
  | some field =>
    if field.length = 0 then some (none, [])
    else if allowTestingNumbers = false ∧ field ∈ creditCard.testingNumbers then
      some (some (errorMessages.msg "credit_card"), [])
    else
      let numberLen := field.length
      if numberLen < 13 ∨ numberLen > 19 then some (some (errorMessages.msg "credit_card"), [])
      else
        match creditCard.loopChecked field numberLen 0 false with
        | none => none
        | some none => some (some (errorMessages.msg "credit_card"), [])
        | some (some sum) =>
          if sum.tmod 10 = 0 then some (none, [])
          else some (some (errorMessages.msg "credit_card"), [])

/-- Method `email.Validate`, the slice `field[d+1:]` checked. -/
def email.ValidateChecked (env : Env) (allowDisposableDomains : Bool) (fields : List Str)
    (errorMessages : Messages) : Run :=
  match getFirstKeyChecked fields with
  | none => none
  | some field =>
    if field.length = 0 then some (none, [])
    else if env.MatchString email.pattern field = true then
      if allowDisposableDomains = false then
        let d := lastIndexByte field 64
        match sliceFromChecked field (d + 1) with
        | none => none
        | some domain =>
          if inSlice env.disposableDomains domain then some (some (errorMessages.msg "email"), [])
          else if inSlice env.disposableWildcards domain then
            some (some (errorMessages.msg "email"), [])
          else some (none, [])
      else some (none, [])
    else some (some (errorMessages.msg "email"), [])

/-- The checksum loop of `isbn10.Validate`, the index `field[j]` checked. -/
def isbn10.loopChecked (field : Str) : Nat → Nat → Nat → Option Nat
  | 0, _, checksum => some checksum
  | n + 1, j, checksum =>
    match indexChecked field (j : Int) with
    | none => none
    | some b => isbn10.loopChecked field n (j + 1) (u32 (checksum + u32 ((j + 1) * byteSub b 48)))

/-- Method `isbn10.Validate`, the indexes `field[j]` and `field[9]` checked. -/
def isbn10.ValidateChecked (env : Env) (fields : List Str) (errorMessages : Messages) : Run :=
  match getFirstKeyChecked fields with
  | none => none
  | some field =>
    if field.length = 0 then some (none, [])
    else
      let field := removeSpacesHyphens field
      if env.MatchString (bytes "^(?:[0-9]\x7b9\x7dX|[0-9]\x7b10\x7d)$") field = false then
        some (some (errorMessages.msg "isbn"), [])
      else
        match isbn10.loopChecked field 9 0 0 with
        | none => none
        | some checksum =>
          match indexChecked field 9 with
          | none => none
          | some b9 =>
            let checksum :=
              if b9 = 88 then u32 (checksum + 10 * 10)
              else u32 (checksum + u32 (10 * byteSub b9 48))
            if checksum % 11 = 0 then some (none, [])
            else some (some (errorMessages.msg "isbn"), [])

/-- The checksum loop of `isbn13.Validate`, the indexes `factor[j%2]` and
`field[j]` checked. -/
def isbn13.loopChecked (field : Str) : Nat → Nat → Nat → Option Nat
  | 0, _, checksum => some checksum
  | n + 1, j, checksum =>
    match indexChecked [1, 3] ((j % 2 : Nat) : Int), indexChecked field (j : Int) with
    | some factor, some b =>
      isbn13.loopChecked field n (j + 1) (u32 (checksum + u32 (factor * byteSub b 48)))
    | _, _ => none

/-- Method `isbn13.Validate`, the indexes checked. -/
def isbn13.ValidateChecked (env : Env) (fields : List Str) (errorMessages : Messages) : Run :=
  match getFirstKeyChecked fields with
  | none => none
  | some field =>
    if field.length = 0 then some (none, [])
    else
      let field := removeSpacesHyphens field
      if env.MatchString (bytes "^(?:[0-9]\x7b13\x7d)$") field = false then
        some (some (errorMessages.msg "isbn"), [])
      else
        match isbn13.loopChecked field 12 0 0 with
        | none => none
        | some checksum =>
          match indexChecked field 12 with
          | none => none
          | some b12 =>
            if u32 (byteSub b12 48 + 2 ^ 32 - (10 - checksum % 10) % 10) = 0 then
              some (none, [])
            else some (some (errorMessages.msg "isbn"), [])

/-- Method `isbn.Validate`, which calls the two methods above. -/
def isbn.ValidateChecked (env : Env) (fields : List Str) (errorMessages : Messages) : Run :=
  match getFirstKeyChecked fields with
  | none => none
  | some field =>
    if field.length = 0 then some (none, [])
    else
      let field := removeSpacesHyphens field
      if field.length = 10 then isbn10.ValidateChecked env fields errorMessages
      else if field.length = 13 then isbn13.ValidateChecked env fields errorMessages
      else some (some (errorMessages.msg "isbn"), [])

/-- Method `csvEntryStrLen.Validate`, the index `entries[0]` checked. -/
def csvEntryStrLen.ValidateChecked (env : Env) (delimiter : Nat) (min max : Nat)
    (fields : List Str) (errorMessages : Messages) : Run :=
  match getFirstKeyChecked fields with
  | none => none
  | some field =>
    if field.length = 0 then some (none, [])
    else
      match env.csvReadAll delimiter field with
      | none => some (some (errorMessages.msg "delimiter_min"), [Arg.uint32 min])
      | some entries =>
        if entries.length = 0 then
          some (some (errorMessages.msg "delimiter_min"), [Arg.uint32 min])
        else
          match indexChecked entries 0 with
          | none => none
          | some first => some (csvEntryStrLen.loop min max errorMessages first)

/-- The call of `Validate` on the rule a catalogue entry constructs, with the
run-time checks of every index and slice expression it reaches. The rules not
named here have no index or slice expression but the one of `getFirstKey`;
`RequiredMultiple` and `InListMultiple` have none at all. -/
def Catalogue.run (env : Env) (c : Catalogue) (fields : List Str) (errorMessages : Messages) :
    Run :=
  match c with
  | .required => requiredSingle.ValidateChecked fields errorMessages
  | .requiredMultiple => some (requiredMultiple.Validate fields errorMessages)
  | .creditCard allowTestingNumbers =>
    creditCard.ValidateChecked allowTestingNumbers fields errorMessages
  | .email allowDisposableDomains =>
    email.ValidateChecked env allowDisposableDomains fields errorMessages
  | .isbn => isbn.ValidateChecked env fields errorMessages
  | .isbn10 => isbn10.ValidateChecked env fields errorMessages
  | .isbn13 => isbn13.ValidateChecked env fields errorMessages
  | .inListSingle list => inListSingle.ValidateChecked list fields errorMessages
  | .inListMultiple list => some (inListMultiple.Validate list fields errorMessages)
  | .csvEntryStrLen delimiter min max =>
    csvEntryStrLen.ValidateChecked env
      (if delimiter = 44 then delimiter else if delimiter = 124 then delimiter else 44)
      min max fields errorMessages
  | c => afterFirstKey (c.rule env).Validate fields errorMessages

/-! ## Specification-side definitions: the ISBN-10 check character -/

/-- The check character of a nine-digit prefix: the character whose value is
the weighted sum `1·d1 + … + 9·d9` modulo 11, `X` standing for 10. -/
def isbn10CheckChar (p : Str) : Nat :=
  if weightedDigitSum [1, 2, 3, 4, 5, 6, 7, 8, 9] p % 11 = 10 then 88
  else 48 + weightedDigitSum [1, 2, 3, 4, 5, 6, 7, 8, 9] p % 11

/-! ## Go standard library: `encoding/csv` on several lines -/

/-- Text without a quote or a carriage return: lines of fields none of which
is quoted. -/
def csv.isUnquoted (text : Str) : Bool := text.all (fun b => b != 34 && b != 13)

/-- The records of lines without quotes, as `ReadAll` gathers them: an empty
line is skipped, and every record needs as many fields as the first one, the
reader's `FieldsPerRecord` being 0 at the start; `none` is the error
`ErrFieldCount`. `fieldsPerRecord` is `none` before the first record. -/
def csv.records (comma : Nat) : List Str → Option Nat → Option (List (List Str))
  | [], _ => some []
  | line :: rest, fieldsPerRecord =>
    if line.length = 0 then csv.records comma rest fieldsPerRecord
    else
      let record := csv.splitLine comma line
      match fieldsPerRecord with
      | some n =>
        if record.length ≠ n then none
        else (csv.records comma rest (some n)).map (fun records => record :: records)
      | none =>
        (csv.records comma rest (some record.length)).map (fun records => record :: records)

/-- Method `ReadAll` of a `csv.Reader` whose `Comma` is `,` or `|`, on text
without quotes: the records of its lines. Any other text, and any other
delimiter, is left to `other`. -/
def csvReadAllLines (other : Nat → Str → Option (List (List Str))) (comma : Nat) (text : Str) :
    Option (List (List Str)) :=
  if (comma = 44 ∨ comma = 124) ∧ csv.isUnquoted text = true then
    csv.records comma (csv.splitLine 10 text) none
  else other comma text

/-- The environment `base` with `csv.Reader.ReadAll` as modelled above on text
without quotes. -/
def csvlines (base : Env) : Env :=
  { base with csvReadAll := csvReadAllLines base.csvReadAll }

/-! ## Specification-side definitions: the domain of an e-mail address -/

/-- The text after the last `@` of a value; the whole value when it has no `@`. -/
def afterLastAt (v : Str) : Str := (v.reverse.takeWhile (fun b => b != 64)).reverse

/-! ## html-renderer.go

A call `fmt.Sprintf(format, args...)` whose verbs are all `%s` on string
arguments is the format with each verb replaced by its argument, written here
as a concatenation. The value `template.HTML` is a string. What `log.Printf`
writes is not part of the results and is left out. -/

/-- The struct `singleInput`. -/
structure singleInput where
  name : Str
  typ : Str
  css : Str
  options : List Str
  labels : List Str
  value : Str

/-- The struct `multiInput`. -/
structure multiInput where
  name : Str
  typ : Str
  css : Str
  options : List Str
  labels : List Str
  values : List Str

/-- The error value `ErrLabelOptionMismatch`. -/
def ErrLabelOptionMismatch : Str :=
  bytes "Variable \x27options []string\x27 must have equal length as \x27labels []string\x27."

/-- The error value `ErrLabelDuplicate`. -/
def ErrLabelDuplicate : Str := bytes "Variable \x27labels []string has duplicates.\x27"

/-- The error value `ErrOptionDuplicate`. -/
def ErrOptionDuplicate : Str := bytes "Variable \x27options []string\x27 has duplicates."

/-- The error value `ErrBadType`. -/
def ErrBadType : Str :=
  bytes "Variable \x27typ string\x27 is invalid. Allowed: singleInput[\x27radio\x27,\x27select\x27] multiInput[\x27checkbox\x27,\x27select\x27]"

/-- Function `NewSingleInput`. -/
def NewSingleInput (name typ cssClasses : Str) (options labels : List Str) (value : Str) :
    singleInput :=
  let cssClasses :=
    if cssClasses.length > 0 then bytes " class=\x22" ++ cssClasses ++ bytes "\x22"
    else cssClasses
  ⟨name, typ, cssClasses, options, labels, value⟩

/-- Function `NewMultiInput`. -/
def NewMultiInput (name typ cssClasses : Str) (options labels values : List Str) :
    multiInput :=
  let cssClasses :=
    if cssClasses.length > 0 then bytes " class=\x22" ++ cssClasses ++ bytes "\x22"
    else cssClasses
  ⟨name, typ, cssClasses, options, labels, values⟩

/-- The loop of `singleInput.getRadioHTML` over the options from index `n` on;
the label `labels[n]` of a missing index reads as `""`. -/
def singleInput.radioLoop (i : singleInput) : List Str → Nat → Str → Str
  | [], _, html => html
  | key :: rest, n, html =>
    if i.value = key then
      singleInput.radioLoop i rest (n + 1)
        (html ++ (bytes "<label" ++ i.css ++ bytes "><input type=\x22radio\x22 name=\x22"
          ++ i.name ++ bytes "\x22 value=\x22" ++ key
          ++ bytes "\x22 checked=\x22checked\x22> " ++ i.labels.getD n [] ++ bytes "</label>"))
    else
      singleInput.radioLoop i rest (n + 1)
        (html ++ (bytes "<label" ++ i.css ++ bytes "><input type=\x22radio\x22 name=\x22"
          ++ i.name ++ bytes "\x22 value=\x22" ++ key
          ++ bytes "\x22> " ++ i.labels.getD n [] ++ bytes "</label>"))

/-- Method `singleInput.getRadioHTML`. -/
def singleInput.getRadioHTML (i : singleInput) : Str × Option Str :=
  (singleInput.radioLoop i i.options 0 [], none)

/-- The loop of `singleInput.getSelectHTML` over the options from index `n` on. -/
def singleInput.selectLoop (i : singleInput) : List Str → Nat → Str → Str
  | [], _, middle => middle
  | key :: rest, n, middle =>
    if i.value = key then
      singleInput.selectLoop i rest (n + 1)
        (middle ++ (bytes "<option value=\x22" ++ key ++ bytes "\x22 selected=\x22selected\x22>"
          ++ i.labels.getD n [] ++ bytes "</option>"))
    else
      singleInput.selectLoop i rest (n + 1)
        (middle ++ (bytes "<option value=\x22" ++ key ++ bytes "\x22>"
          ++ i.labels.getD n [] ++ bytes "</option>"))

/-- Method `singleInput.getSelectHTML`. -/
def singleInput.getSelectHTML (i : singleInput) : Str × Option Str :=
  let middle := singleInput.selectLoop i i.options 0 []
  (bytes "<select name=\x22" ++ i.name ++ bytes "\x22" ++ i.css ++ bytes ">" ++ middle
    ++ bytes "</select>", none)

/-- Method `singleInput.GetHTML`: the markup and the error. -/
def singleInput.GetHTML (i : singleInput) : Str × Option Str :=
  if i.options.length ≠ i.labels.length then ([], some ErrLabelOptionMismatch)
  else if hasDuplicates i.labels then ([], some ErrLabelDuplicate)
  else if hasDuplicates i.options then ([], some ErrOptionDuplicate)
  else if i.typ = bytes "radio" then i.getRadioHTML
  else if i.typ = bytes "select" then i.getSelectHTML
  else ([], some ErrBadType)

/-- The loop of `multiInput.getCheckboxHTML` over the options from index `n` on. -/
def multiInput.checkboxLoop (i : multiInput) : List Str → Nat → Str → Str
  | [], _, html => html
  | key :: rest, n, html =>
    if inSlice i.values key then
      multiInput.checkboxLoop i rest (n + 1)
        (html ++ (bytes "<label" ++ i.css ++ bytes "><input type=\x22checkbox\x22 name=\x22"
          ++ i.name ++ bytes "\x22 value=\x22" ++ key
          ++ bytes "\x22 checked=\x22checked\x22> " ++ i.labels.getD n [] ++ bytes "</label>"))
    else
      multiInput.checkboxLoop i rest (n + 1)
        (html ++ (bytes "<label" ++ i.css ++ bytes "><input type=\x22checkbox\x22 name=\x22"
          ++ i.name ++ bytes "\x22 value=\x22" ++ key
          ++ bytes "\x22> " ++ i.labels.getD n [] ++ bytes "</label>"))

/-- Method `multiInput.getCheckboxHTML`. -/
def multiInput.getCheckboxHTML (i : multiInput) : Str × Option Str :=
  (multiInput.checkboxLoop i i.options 0 [], none)

/-- The loop of `multiInput.getSelectHTML` over the options from index `n` on. -/
def multiInput.selectLoop (i : multiInput) : List Str → Nat → Str → Str
  | [], _, middle => middle
  | key :: rest, n, middle =>
    if inSlice i.values key then
      multiInput.selectLoop i rest (n + 1)
        (middle ++ (bytes "<option value=\x22" ++ key ++ bytes "\x22 selected=\x22selected\x22>"
          ++ i.labels.getD n [] ++ bytes "</option>"))
    else
      multiInput.selectLoop i rest (n + 1)
        (middle ++ (bytes "<option value=\x22" ++ key ++ bytes "\x22>"
          ++ i.labels.getD n [] ++ bytes "</option>"))

/-- Method `multiInput.getSelectHTML`. -/
def multiInput.getSelectHTML (i : multiInput) : Str × Option Str :=
  let middle := multiInput.selectLoop i i.options 0 []
  (bytes "<select name=\x22" ++ i.name ++ bytes "\x22" ++ i.css
    ++ bytes " multiple=\x22multiple\x22>" ++ middle ++ bytes "</select>", none)

/-- Method `multiInput.GetHTML`: the markup and the error, and the receiver
after the call, whose `values` the method empties when they are more than the
options or hold a duplicate. -/
def multiInput.GetHTML (i : multiInput) : (Str × Option Str) × multiInput :=
  if i.options.length ≠ i.labels.length then (([], some ErrLabelOptionMismatch), i)
  else if hasDuplicates i.labels then (([], some ErrLabelDuplicate), i)
  else if hasDuplicates i.options then (([], some ErrOptionDuplicate), i)
  else
    let i := if i.values.length > i.options.length then { i with values := [] } else i
    let i := if hasDuplicates i.values then { i with values := [] } else i
    if i.typ = bytes "checkbox" then (i.getCheckboxHTML, i)
    else if i.typ = bytes "select" then (i.getSelectHTML, i)
    else (([], some ErrBadType), i)

/-! ## Specification-side definitions: date and time together -/

/-- A date and a time joined by one or more spaces: a calendar date in the
first ten characters, then a space, then after the run of spaces a time of
day. -/
def isDateTimeText (v : Str) : Bool :=
  isCalendarDate (v.take 10) && ((v.drop 10).head? == some 32)
    && isClockTime ((v.drop 10).dropWhile (fun c => c == 32))

/-! ## Sample data -/

/-- A rule set with two declared fields. -/
def sampleRules : GoMap (List Rule) :=
  ⟨[(bytes "LastName", RuleChain [Required, MinStrLen 4, StrMatch (bytes "Smith")]),
    (bytes "Age", RuleChain [IntRange 18 100])]⟩

/-- The validator `New` makes of `sampleRules`. -/
def sampleValidator : FormValidator := ⟨sampleRules, defaultErrors, true⟩

/-- A form whose `LastName` breaks two rules, with a field that is not declared. -/
def sampleForm : Values :=
  ⟨[(bytes "LastName", [bytes "!@#"]), (bytes "Age", [bytes "55"]), (bytes "Other", [bytes "x"])]⟩

/-- The two errors `sampleValidator` reports for `LastName` on `sampleForm`. -/
def sampleLastNameErrors : List FormError :=
  [⟨bytes "This field must be at least %d characters long.", [Arg.uint32 4]⟩,
   ⟨bytes "Fields did not match.", []⟩]

/-- A rule set with the single declared field `Age`. -/
def ageRules : GoMap (List Rule) := ⟨[(bytes "Age", RuleChain [Required, IntRange 18 100])]⟩

/-- A form on which `ageRules` reports no error. -/
def ageForm : Values := ⟨[(bytes "Age", [bytes "55"])]⟩

/-- An environment whose library functions reject every input and whose
reference lists are empty. -/
def trivialEnv : Env where
  MatchString := fun _ _ => false
  runes := fun s => s
  IsLetter := fun _ => false
  IsNumber := fun _ => false
  ParseFloat := fun _ => none
  floatLe := fun _ _ => false
  timeParse := fun _ _ => false
  ParseRequestURI := fun _ => none
  ToLower := fun s => s
  jsonUnmarshal := fun _ => false
  csvReadAll := fun _ _ => none
  iso3166countryCodes := []
  iso4217currencyCodes := []
  commonPasswordList := []
  disposableDomains := []
  disposableWildcards := []

/-- A chain of catalogue rules. -/
def sampleCatalogueChain : List Catalogue := [.required, .intRange 18 100, .minStrLen 3]

/-- A validator declaring the field `Age` with `sampleCatalogueChain`. -/
def sampleCatalogueValidator : FormValidator :=
  ⟨⟨[(bytes "Age", sampleCatalogueChain.map (Catalogue.rule trivialEnv))]⟩, defaultErrors, true⟩

/-- A form whose `Age` is below the range and too short. -/
def sampleCatalogueForm : Values := ⟨[(bytes "Age", [bytes "5"])]⟩

/-- An environment with two country codes and two currency codes. -/
def sampleCodesEnv : Env :=
  { trivialEnv with
    iso3166countryCodes := [bytes "us", bytes "de"]
    iso4217currencyCodes := [bytes "usd", bytes "eur"] }

/-- A message table with the two kinds `required` and `string_min` only. -/
def sampleMessages : Messages :=
  ⟨[(bytes "required", bytes "Missing."), (bytes "string_min", bytes "At least %d.")]⟩

/-- An environment whose `regexp.MatchString` reports a match on every input. -/
def matchAllEnv : Env := { trivialEnv with MatchString := fun _ _ => true }

/-- An environment whose `regexp.MatchString` reports a match on every input,
with one disposable domain and one disposable wildcard. -/
def sampleMailEnv : Env :=
  { matchAllEnv with
    disposableDomains := [bytes "mailinator.com"]
    disposableWildcards := [bytes "example.org"] }

/-- The options of the tests of html-renderer_test.go. -/
def sampleOptions : List Str := [bytes "gmail.com", bytes "hotmail.com", bytes "yahoo.com"]

/-- The labels of the tests of html-renderer_test.go. -/
def sampleLabels : List Str := [bytes "G-mail", bytes "Hotmail", bytes "Yahoo!"]

/-- The injection string of the tests of html-renderer_test.go. -/
def sampleInjection : Str := bytes "javascript:\x22alert(\x27Hello\x27);\x22"

/-! ## Theorems: maps -/

theorem GoMap.lookupIn_setIn {α : Type} (k k' : Str) (v : α) (l : List (Str × α)) :
    GoMap.lookupIn k (GoMap.setIn k' v l) = if k' = k then some v else GoMap.lookupIn k l := by
  induction l with
  | nil => simp [GoMap.setIn, GoMap.lookupIn]
  | cons e rest ih =>
    obtain ⟨k1, v1⟩ := e
    by_cases h1 : k1 = k'
    · subst h1
      by_cases h2 : k1 = k <;> simp [GoMap.setIn, GoMap.lookupIn, h2]
    · by_cases h2 : k1 = k
      · subst h2
        have h3 : ¬ k' = k1 := fun h => h1 h.symm
        simp [GoMap.setIn, GoMap.lookupIn, h1, h3]
      · simp [GoMap.setIn, GoMap.lookupIn, h1, h2, ih]

theorem GoMap.lookup_set {α : Type} (m : GoMap α) (k k' : Str) (v : α) :
    (m.set k' v).lookup k = if k' = k then some v else m.lookup k := by
  simp [GoMap.set, GoMap.lookup, GoMap.lookupIn_setIn]

theorem GoMap.keys_setIn {α : Type} (k : Str) (v : α) (l : List (Str × α)) :
    (GoMap.setIn k v l).map Prod.fst
      = if k ∈ l.map Prod.fst then l.map Prod.fst else l.map Prod.fst ++ [k] := by
  induction l with
  | nil => simp [GoMap.setIn]
  | cons e rest ih =>
    obtain ⟨k1, v1⟩ := e
    by_cases h1 : k1 = k
    · subst h1
      simp [GoMap.setIn]
    · have h3 : ¬ k = k1 := fun h => h1 h.symm
      by_cases h2 : k ∈ rest.map Prod.fst
      · simp only [GoMap.setIn, h1, if_false, List.map_cons, ih, h2, if_true, List.mem_cons,
          or_true]
      · simp only [GoMap.setIn, h1, if_false, List.map_cons, ih, h2, List.mem_cons, h3,
          or_self, List.cons_append]

theorem GoMap.keys_set {α : Type} (m : GoMap α) (k : Str) (v : α) :
    (m.set k v).keys = if k ∈ m.keys then m.keys else m.keys ++ [k] := by
  simp only [GoMap.set, GoMap.keys, GoMap.keys_setIn]

theorem GoMap.lookupIn_isSome_iff {α : Type} (k : Str) (l : List (Str × α)) :
    (GoMap.lookupIn k l).isSome = true ↔ k ∈ l.map Prod.fst := by
  induction l with
  | nil => simp [GoMap.lookupIn]
  | cons e rest ih =>
    obtain ⟨k1, v1⟩ := e
    by_cases h1 : k1 = k
    · subst h1; simp [GoMap.lookupIn]
    · have h3 : ¬ k = k1 := fun h => h1 h.symm
      simp [GoMap.lookupIn, h1, h3, ih]

/-! ## Theorems: the engine -/

theorem appendError_singleton (errors : List FormError) (e : FormError) :
    appendError errors [e] = errors ++ [e] := by
  simp [appendError]

theorem ruleLoop_eq (f : FormValidator) (val : List Str) (chain : List Rule)
    (errors : List FormError) :
    f.ruleLoop val chain errors = errors ++ chainFailures f.errorMessages val chain := by
  induction chain generalizing errors with
  | nil => simp [FormValidator.ruleLoop, chainFailures]
  | cons r rest ih =>
    rcases hr : r.Validate val f.errorMessages with ⟨err, data⟩
    cases err with
    | none =>
      simp only [FormValidator.ruleLoop, hr, ih, chainFailures, List.filterMap_cons]
    | some e =>
      simp only [FormValidator.ruleLoop, hr, ih, chainFailures, List.filterMap_cons,
        appendError_singleton, List.append_assoc, List.singleton_append]

theorem chainFailures_length (errorMessages : Messages) (val : List Str) (chain : List Rule) :
    (chainFailures errorMessages val chain).length
      = chain.countP (ruleFails errorMessages val) := by
  induction chain with
  | nil => simp [chainFailures]
  | cons r rest ih =>
    rcases hr : r.Validate val errorMessages with ⟨err, data⟩
    cases err with
    | none =>
      have : ruleFails errorMessages val r = false := by simp [ruleFails, hr]
      simp only [chainFailures, List.filterMap_cons, hr] at ih ⊢
      rw [List.countP_cons_of_neg _ _ (by simp [this])]
      exact ih
    | some e =>
      have : ruleFails errorMessages val r = true := by simp [ruleFails, hr]
      simp only [chainFailures, List.filterMap_cons, hr, List.length_cons] at ih ⊢
      rw [List.countP_cons_of_pos _ _ this, ih]

theorem fieldStep_eq (f : FormValidator) (A : GoMap (List FormError)) (F : Values)
    (k : Str) (chain : List Rule) :
    f.fieldStep (A, F) (k, chain)
      = (A.set k (chainFailures f.errorMessages (F.at k) chain),
         if (chainFailures f.errorMessages (F.at k) chain).length > 0
              ∧ f.blankFormDataOnError = true
         then F.Set k [] else F) := by
  simp [FormValidator.fieldStep, ruleLoop_eq]

theorem Values.at_congr (F G : Values) (k : Str) (h : F.lookup k = G.lookup k) :
    F.at k = G.at k := by
  simp [Values.at, GoMap.index, h]

/-- The outer loop of `Validate`, from any state: keys outside the visited
entries keep their error list and their form values; every visited entry gets
the failures of its chain on the values the form had at the start, and its form
values are blanked exactly when it has a failure and blanking is on. -/
theorem foldl_fieldStep_spec (f : FormValidator) (es : List (Str × List Rule))
    (hnd : (es.map Prod.fst).Nodup) (A0 : GoMap (List FormError)) (F0 : Values) :
    (∀ k, k ∉ es.map Prod.fst →
        (es.foldl f.fieldStep (A0, F0)).1.lookup k = A0.lookup k
          ∧ (es.foldl f.fieldStep (A0, F0)).2.lookup k = F0.lookup k) ∧
    (∀ k chain, (k, chain) ∈ es →
        (es.foldl f.fieldStep (A0, F0)).1.lookup k
            = some (chainFailures f.errorMessages (F0.at k) chain)
          ∧ (es.foldl f.fieldStep (A0, F0)).2.lookup k
            = if (chainFailures f.errorMessages (F0.at k) chain).length > 0
                  ∧ f.blankFormDataOnError = true
              then some [[]] else F0.lookup k) := by
  induction es generalizing A0 F0 with
  | nil => simp
  | cons e rest ih =>
    obtain ⟨k1, c1⟩ := e
    have hnd1 : k1 ∉ rest.map Prod.fst := (List.nodup_cons.mp hnd).1
    have hnd2 : (rest.map Prod.fst).Nodup := (List.nodup_cons.mp hnd).2
    simp only [List.foldl_cons, fieldStep_eq]
    obtain ⟨ih1, ih2⟩ := ih hnd2 (A0.set k1 (chainFailures f.errorMessages (F0.at k1) c1))
      (if (chainFailures f.errorMessages (F0.at k1) c1).length > 0
            ∧ f.blankFormDataOnError = true
       then F0.Set k1 [] else F0)
    have hform : ∀ k, k1 ≠ k →
        (if (chainFailures f.errorMessages (F0.at k1) c1).length > 0
              ∧ f.blankFormDataOnError = true
         then F0.Set k1 [] else F0).lookup k = F0.lookup k := by
      intro k hk
      split
      · simp [Values.Set, GoMap.lookup_set, hk]
      · rfl
    refine ⟨?_, ?_⟩
    · intro k hk
      have hk1 : k1 ≠ k := fun h => hk (by simp [h])
      have hk2 : k ∉ rest.map Prod.fst := fun h => hk (by simp [List.mem_cons, h])
      obtain ⟨a, b⟩ := ih1 k hk2
      rw [a, b, hform k hk1]
      simp [GoMap.lookup_set, hk1]
    · intro k chain hmem
      rcases List.mem_cons.mp hmem with heq | hin
      · obtain ⟨rfl, rfl⟩ := Prod.mk.inj heq
        obtain ⟨a, b⟩ := ih1 k hnd1
        rw [a, b]
        refine ⟨by simp [GoMap.lookup_set], ?_⟩
        split
        · simp [Values.Set, GoMap.lookup_set]
        · rfl
      · have hk : k ∈ rest.map Prod.fst := List.mem_map.mpr ⟨(k, chain), hin, rfl⟩
        have hk1 : k1 ≠ k := fun h => hnd1 (h ▸ hk)
        obtain ⟨a, b⟩ := ih2 k chain hin
        have hat := Values.at_congr _ F0 k (hform k hk1)
        rw [a, b, hat, hform k hk1]
        exact ⟨rfl, rfl⟩

/-- The keys of the error map after the outer loop: those it had, followed by
the visited keys, when the visited keys are distinct and new. -/
theorem foldl_fieldStep_keys (f : FormValidator) (es : List (Str × List Rule))
    (hnd : (es.map Prod.fst).Nodup) (A0 : GoMap (List FormError)) (F0 : Values)
    (hdis : ∀ k, k ∈ es.map Prod.fst → k ∉ A0.keys) :
    (es.foldl f.fieldStep (A0, F0)).1.keys = A0.keys ++ es.map Prod.fst := by
  induction es generalizing A0 F0 with
  | nil => simp
  | cons e rest ih =>
    obtain ⟨k1, c1⟩ := e
    have hnd1 : k1 ∉ rest.map Prod.fst := (List.nodup_cons.mp hnd).1
    have hnd2 : (rest.map Prod.fst).Nodup := (List.nodup_cons.mp hnd).2
    have hk1 : k1 ∉ A0.keys := hdis k1 (by simp)
    simp only [List.foldl_cons, fieldStep_eq]
    rw [ih hnd2]
    · simp [GoMap.keys_set, hk1]
    · intro k hk
      have h1 : k ∉ A0.keys := hdis k (by simp [List.mem_cons, hk])
      have h2 : k ≠ k1 := fun h => hnd1 (h ▸ hk)
      simp [GoMap.keys_set, hk1, h1, h2]

/-- The form is untouched by the outer loop when blanking is off. -/
theorem foldl_fieldStep_noblank (f : FormValidator) (hb : f.blankFormDataOnError = false)
    (es : List (Str × List Rule)) (A0 : GoMap (List FormError)) (F0 : Values) :
    (es.foldl f.fieldStep (A0, F0)).2 = F0 := by
  induction es generalizing A0 with
  | nil => rfl
  | cons e rest ih =>
    obtain ⟨k1, c1⟩ := e
    simp only [List.foldl_cons, fieldStep_eq, hb, Bool.false_eq_true, and_false, if_false]
    exact ih _

theorem Validate_allErrors (f : FormValidator) (form : Values) :
    (f.Validate form).allErrors = (f.rules.entries.foldl f.fieldStep (GoMap.empty, form)).1 := by
  unfold FormValidator.Validate
  simp only []
  split <;> rfl

theorem Validate_form (f : FormValidator) (form : Values) :
    (f.Validate form).form = (f.rules.entries.foldl f.fieldStep (GoMap.empty, form)).2 := by
  unfold FormValidator.Validate
  simp only []
  split <;> rfl

theorem Validate_valid (f : FormValidator) (form : Values) :
    (f.Validate form).valid
      = decide ((f.rules.entries.foldl f.fieldStep (GoMap.empty, form)).1.len = 0) := by
  unfold FormValidator.Validate
  simp only []
  split <;> simp_all

theorem Validate_lookup_declared (f : FormValidator) (form : Values) (hwf : f.rules.WF)
    (k : Str) (chain : List Rule) (hdecl : (k, chain) ∈ f.rules.entries) :
    (f.Validate form).allErrors.lookup k
        = some (chainFailures f.errorMessages (form.at k) chain)
      ∧ (f.Validate form).form.lookup k
        = if (chainFailures f.errorMessages (form.at k) chain).length > 0
              ∧ f.blankFormDataOnError = true
          then some [[]] else form.lookup k := by
  rw [Validate_allErrors, Validate_form]
  exact (foldl_fieldStep_spec f f.rules.entries hwf GoMap.empty form).2 k chain hdecl

theorem Validate_keys (f : FormValidator) (form : Values) (hwf : f.rules.WF) :
    (f.Validate form).allErrors.keys = f.rules.keys := by
  rw [Validate_allErrors, foldl_fieldStep_keys f f.rules.entries hwf GoMap.empty form]
  · simp [GoMap.keys, GoMap.empty]
  · intro k _
    simp [GoMap.keys, GoMap.empty]

theorem GoMap.lookup_isSome_iff {α : Type} (m : GoMap α) (k : Str) :
    (∃ v, m.lookup k = some v) ↔ k ∈ m.keys := by
  rw [← Option.isSome_iff_exists]
  exact GoMap.lookupIn_isSome_iff k m.entries

theorem GoMap.mem_keys_iff {α : Type} (m : GoMap α) (k : Str) :
    k ∈ m.keys ↔ ∃ v, (k, v) ∈ m.entries := by
  simp [GoMap.keys]

/-- The boolean `Validate` returns is true exactly when no field is declared. -/
theorem Validate_valid_iff (f : FormValidator) (form : Values) (hwf : f.rules.WF) :
    (f.Validate form).valid = true ↔ f.rules.entries = [] := by
  have hk := Validate_keys f form hwf
  rw [Validate_allErrors] at hk
  rw [Validate_valid]
  have hlen : (f.rules.entries.foldl f.fieldStep (GoMap.empty, form)).1.len
      = f.rules.entries.length := by
    have := congrArg List.length hk
    simpa [GoMap.keys, GoMap.len] using this
  rw [hlen]
  simp

/-- C1 (defect of the code): on a rule set with one declared field and a form
that passes every rule of it, `Validate` returns `false` although the error
list of the only declared field is empty; the boolean tells whether any field
is declared, not whether all fields passed. -/
theorem C1_valid_false_without_errors :
    (New (some ageRules)).2.map (fun f => (f.Validate ageForm).valid) = some false
      ∧ (New (some ageRules)).2.map (fun f => (f.Validate ageForm).allErrors)
          = some ⟨[(bytes "Age", [])]⟩ := by
  decide

/-- C2: for a declared field with chain `chain`, the error list of the field in
the returned map is the list of failures of the chain's rules on the field's
submitted values, the values the form holds under the field's name (the empty
sequence when the form has no such key): one entry per failing rule in chain
order, every rule being run on the same submitted values; its length is the
number of rules of the chain that fail on those values; and `RuleChain` keeps
the rules in the order given. -/
theorem C2_field_errors_are_chain_failures (f : FormValidator) (form : Values)
    (fieldName : Str) (chain : List Rule) (hwf : f.rules.WF)
    (hdecl : (fieldName, chain) ∈ f.rules.entries) :
    (∀ submitted : List Str,
        (form.lookup fieldName = some submitted
          ∨ (form.lookup fieldName = none ∧ submitted = [])) →
        (f.Validate form).allErrors.lookup fieldName
            = some (chain.filterMap (fun r =>
                match r.Validate submitted f.errorMessages with
                | (some err, data) => some ⟨err, data⟩
                | (none, _) => none))
          ∧ (f.Validate form).allErrors.lookup fieldName
            = some (chainFailures f.errorMessages submitted chain)
          ∧ (chainFailures f.errorMessages submitted chain).length
            = chain.countP (fun r => (r.Validate submitted f.errorMessages).1.isSome))
      ∧ ∀ rules : List Rule, RuleChain rules = rules := by
  refine ⟨?_, ?_⟩
  · intro submitted hsub
    have hat : form.at fieldName = submitted := by
      rcases hsub with h | ⟨h, h0⟩
      · simp [Values.at, GoMap.index, h]
      · simp [Values.at, GoMap.index, h, h0]
    have h1 := (Validate_lookup_declared f form hwf fieldName chain hdecl).1
    rw [hat] at h1
    exact ⟨h1, h1, chainFailures_length _ _ _⟩
  · intro rules
    have h : ∀ (acc : List Rule), rules.foldl (fun ruleSlice r => ruleSlice ++ [r]) acc
        = acc ++ rules := by
      induction rules with
      | nil => simp
      | cons r rest ih => intro acc; simp [ih]
    simpa [RuleChain] using h []

theorem C2_field_errors_are_chain_failures_witness :
    sampleValidator.rules.WF
      ∧ (bytes "LastName", [Required, MinStrLen 4, StrMatch (bytes "Smith")])
          ∈ sampleValidator.rules.entries
      ∧ sampleForm.lookup (bytes "LastName") = some [bytes "!@#"]
      ∧ (sampleValidator.Validate sampleForm).allErrors.lookup (bytes "LastName")
          = some [⟨bytes "This field must be at least %d characters long.", [Arg.uint32 4]⟩,
                  ⟨bytes "Fields did not match.", []⟩]
      ∧ [Required, MinStrLen 4, StrMatch (bytes "Smith")].countP
            (fun r => (r.Validate [bytes "!@#"] sampleValidator.errorMessages).1.isSome) = 2 :=
  ⟨by decide, List.mem_cons_self _ _, by decide,
   ((C2_field_errors_are_chain_failures sampleValidator sampleForm (bytes "LastName")
      [Required, MinStrLen 4, StrMatch (bytes "Smith")] (by decide)
      (List.mem_cons_self _ _)).1 [bytes "!@#"] (Or.inl (by decide))).2.1.trans (by decide),
   by decide⟩

/-- C3: the error map `Validate` returns has exactly the declared field names
as keys; a declared field all of whose rules pass is present with the empty
error list; a field missing from the form is validated on the empty sequence;
and a name that is not declared has no entry. -/
theorem C3_error_map_keys_are_declared_fields (f : FormValidator) (form : Values)
    (hwf : f.rules.WF) :
    (f.Validate form).allErrors.keys = f.rules.keys
      ∧ (∀ k, (∃ errs, (f.Validate form).allErrors.lookup k = some errs) ↔ k ∈ f.rules.keys)
      ∧ (∀ k chain, (k, chain) ∈ f.rules.entries →
          (∀ r ∈ chain, ruleFails f.errorMessages (form.at k) r = false) →
          (f.Validate form).allErrors.lookup k = some [])
      ∧ (∀ k, form.lookup k = none → form.at k = [])
      ∧ (∀ k, k ∉ f.rules.keys → (f.Validate form).allErrors.lookup k = none) := by
  have hkeys := Validate_keys f form hwf
  have hiff : ∀ k, (∃ errs, (f.Validate form).allErrors.lookup k = some errs) ↔ k ∈ f.rules.keys := by
    intro k
    rw [GoMap.lookup_isSome_iff, hkeys]
  refine ⟨hkeys, hiff, ?_, ?_, ?_⟩
  · intro k chain hdecl hpass
    rw [(Validate_lookup_declared f form hwf k chain hdecl).1]
    have hlen := chainFailures_length f.errorMessages (form.at k) chain
    have hz : chain.countP (ruleFails f.errorMessages (form.at k)) = 0 := by
      rw [List.countP_eq_zero]
      intro r hr
      simp [hpass r hr]
    rw [hz] at hlen
    rw [List.length_eq_zero.mp hlen]
  · intro k hk
    simp [Values.at, GoMap.index, hk]
  · intro k hk
    cases h : (f.Validate form).allErrors.lookup k with
    | none => rfl
    | some errs => exact absurd ((hiff k).mp ⟨errs, h⟩) hk

theorem C3_error_map_keys_are_declared_fields_witness :
    sampleValidator.rules.WF
      ∧ ((sampleValidator.Validate sampleForm).allErrors.keys = sampleValidator.rules.keys
      ∧ (∀ k, (∃ errs, (sampleValidator.Validate sampleForm).allErrors.lookup k = some errs)
            ↔ k ∈ sampleValidator.rules.keys)
      ∧ (∀ k chain, (k, chain) ∈ sampleValidator.rules.entries →
          (∀ r ∈ chain, ruleFails sampleValidator.errorMessages (sampleForm.at k) r = false) →
          (sampleValidator.Validate sampleForm).allErrors.lookup k = some [])
      ∧ (∀ k, sampleForm.lookup k = none → sampleForm.at k = [])
      ∧ (∀ k, k ∉ sampleValidator.rules.keys →
          (sampleValidator.Validate sampleForm).allErrors.lookup k = none)) :=
  ⟨by decide, C3_error_map_keys_are_declared_fields sampleValidator sampleForm (by decide)⟩

/-- C4: with blank-on-error enabled, which is the state `New` creates, after
`Validate` every field whose error list in the returned map is not empty has
the single empty string as its values in the form, so `form.Get` returns `""`,
whatever the form held for the field before. -/
theorem C4_failed_field_is_blanked (f : FormValidator) (form : Values) (k : Str)
    (errs : List FormError) (hwf : f.rules.WF) (hb : f.blankFormDataOnError = true)
    (hk : (f.Validate form).allErrors.lookup k = some errs) (hne : errs ≠ []) :
    (f.Validate form).form.lookup k = some [[]]
      ∧ (f.Validate form).form.Get k = []
      ∧ ∀ rules, (New (some rules)).2.map (fun g => g.blankFormDataOnError) = some true := by
  have hmem : k ∈ f.rules.keys := by
    rw [← Validate_keys f form hwf, ← GoMap.lookup_isSome_iff]
    exact ⟨errs, hk⟩
  obtain ⟨chain, hdecl⟩ := (GoMap.mem_keys_iff _ _).mp hmem
  obtain ⟨h1, h2⟩ := Validate_lookup_declared f form hwf k chain hdecl
  have he : chainFailures f.errorMessages (form.at k) chain = errs := by
    rw [h1] at hk
    exact Option.some.inj hk
  have hpos : (chainFailures f.errorMessages (form.at k) chain).length > 0 := by
    rw [he]
    exact List.length_pos.mpr hne
  have h3 : (f.Validate form).form.lookup k = some [[]] := by
    rw [h2, if_pos ⟨hpos, hb⟩]
  refine ⟨h3, ?_, ?_⟩
  · simp [Values.Get, h3]
  · intro rules
    rfl

theorem C4_failed_field_is_blanked_witness :
    sampleValidator.rules.WF ∧ sampleValidator.blankFormDataOnError = true
      ∧ (sampleValidator.Validate sampleForm).allErrors.lookup (bytes "LastName")
          = some sampleLastNameErrors
      ∧ sampleLastNameErrors ≠ []
      ∧ ((sampleValidator.Validate sampleForm).form.lookup (bytes "LastName") = some [[]]
        ∧ (sampleValidator.Validate sampleForm).form.Get (bytes "LastName") = []
        ∧ ∀ rules, (New (some rules)).2.map (fun g => g.blankFormDataOnError) = some true) :=
  ⟨by decide, rfl, by decide, by decide,
   C4_failed_field_is_blanked sampleValidator sampleForm (bytes "LastName") sampleLastNameErrors
     (by decide) rfl (by decide) (by decide)⟩

/-- C5: after `SetBlankOnError(false)`, `Validate` leaves the form exactly as
it was, for every form and every rule set. -/
theorem C5_form_unchanged_without_blanking (f : FormValidator) (form : Values) :
    ((f.SetBlankOnError false).Validate form).form = form := by
  rw [Validate_form]
  exact foldl_fieldStep_noblank _ rfl _ _ _

/-! ## Theorems: the rule catalogue -/

theorem csvLoop_shape (min max : Nat) (msgs : Messages) (l : List Str) (err : Str)
    (data : List Arg) (h : csvEntryStrLen.loop min max msgs l = (some err, data)) :
    (err = msgs.msg "delimiter_min" ∧ data = [Arg.uint32 min])
      ∨ (err = msgs.msg "delimiter_max" ∧ data = [Arg.uint32 max]) := by
  induction l with
  | nil => simp [csvEntryStrLen.loop] at h
  | cons e rest ih =>
    simp only [csvEntryStrLen.loop] at h
    split_ifs at h
    · exact ih h
    · simp at h; exact Or.inl ⟨h.1.symm, h.2.symm⟩
    · simp at h; exact Or.inr ⟨h.1.symm, h.2.symm⟩
    · exact ih h

theorem csvValidate_shape (env : Env) (d min max : Nat) (fields : List Str) (msgs : Messages)
    (err : Str) (data : List Arg)
    (h : csvEntryStrLen.Validate env d min max fields msgs = (some err, data)) :
    (err = msgs.msg "delimiter_min" ∧ data = [Arg.uint32 min])
      ∨ (err = msgs.msg "delimiter_max" ∧ data = [Arg.uint32 max]) := by
  simp only [csvEntryStrLen.Validate] at h
  split_ifs at h
  · simp at h
  · split at h
    · simp at h; exact Or.inl ⟨h.1.symm, h.2.symm⟩
    · split at h
      · simp at h; exact Or.inl ⟨h.1.symm, h.2.symm⟩
      · exact csvLoop_shape _ _ _ _ _ _ h

/-- Every failure of a catalogue rule is one of the rule's `failures`: the
error is the table entry of the kind, the data are the kind's arguments. -/
theorem Catalogue.failure_shape (env : Env) (c : Catalogue) (fields : List Str)
    (msgs : Messages) (err : Str) (data : List Arg)
    (h : (c.rule env).Validate fields msgs = (some err, data)) :
    ∃ p ∈ c.failures, err = msgs.msg p.1 ∧ data = p.2 := by
  cases c
  case csvEntryStrLen d mi ma =>
    simp only [Catalogue.failures, List.mem_cons, List.mem_singleton, exists_eq_or_imp,
      exists_eq_left, List.not_mem_nil, or_false]
    exact csvValidate_shape _ _ _ _ _ _ _ _ h
  case strLen mi ma =>
    simp only [Catalogue.failures, List.mem_cons, List.mem_singleton, exists_eq_or_imp,
      exists_eq_left, List.not_mem_nil, or_false]
    simp only [Catalogue.rule, StrLen, strLen.Validate] at h
    split at h
    · rename_i e d heq
      simp only [Prod.mk.injEq, Option.some.injEq] at h
      obtain ⟨rfl, rfl⟩ := h
      simp only [minStrLen.Validate] at heq
      split_ifs at heq <;> simp_all
    · split at h
      · rename_i e d heq
        simp only [Prod.mk.injEq, Option.some.injEq] at h
        obtain ⟨rfl, rfl⟩ := h
        simp only [maxStrLen.Validate] at heq
        split_ifs at heq <;> simp_all
      · simp at h
  all_goals
    simp only [Catalogue.rule, Required, RequiredMultiple, MinStrLen, MaxStrLen, StrLen, StrMatch,
      AlphaNumeric, UTF8LetterNum, Boolean, CreditCard, WebRequestURI, IsJSON, Email, Numeric,
      IsFloat64, IntRange, FloatRange, Latitude, Longitude, IsDate, IsTime, IsDateTime, IsUUID,
      ISBN, ISBN10, ISBN13, InListSingle, InListMultiple, NotInListSingle, CountryCode,
      NotCommonPassword, CurrencyCode,
      requiredSingle.Validate, requiredMultiple.Validate, minStrLen.Validate, maxStrLen.Validate,
      strLen.Validate, strMatch.Validate, alphaNumeric.Validate, utf8LetterNum.Validate,
      boolean.Validate, creditCard.Validate, webRequestURI.Validate, isJSON.Validate,
      email.Validate, numeric.Validate, isFloat64.Validate, intRange.Validate,
      floatRange.Validate, latitude.Validate, longitude.Validate, isDate.Validate,
      isTime.Validate, isDateTime.Validate, isUUID.Validate, isbn.Validate, isbn10.Validate,
      isbn13.Validate, inListSingle.Validate, inListMultiple.Validate,
      notInListSingle.Validate, countryCode.Validate, notCommonPassword.Validate,
      currencyCode.Validate] at h
    simp only [Catalogue.failures, List.mem_cons, List.mem_singleton, exists_eq_or_imp,
      exists_eq_left, List.not_mem_nil, or_false]
    (repeat' split at h) <;> simp_all

theorem csvLoop_pass (min max : Nat) (msgs : Messages) (l : List Str) (data : List Arg)
    (h : csvEntryStrLen.loop min max msgs l = (none, data)) : data = [] := by
  induction l with
  | nil => simp [csvEntryStrLen.loop] at h; exact h
  | cons e rest ih =>
    simp only [csvEntryStrLen.loop] at h
    split_ifs at h
    · exact ih h
    · simp at h
    · simp at h
    · exact ih h

theorem csvValidate_pass (env : Env) (d min max : Nat) (fields : List Str) (msgs : Messages)
    (data : List Arg)
    (h : csvEntryStrLen.Validate env d min max fields msgs = (none, data)) : data = [] := by
  simp only [csvEntryStrLen.Validate] at h
  split_ifs at h
  · simp at h; exact h
  · split at h
    · simp at h
    · split at h
      · simp at h
      · exact csvLoop_pass _ _ _ _ _ h

/-- A catalogue rule that passes returns no format arguments. -/
theorem Catalogue.pass_data (env : Env) (c : Catalogue) (fields : List Str)
    (msgs : Messages) (data : List Arg)
    (h : (c.rule env).Validate fields msgs = (none, data)) : data = [] := by
  cases c
  case csvEntryStrLen d mi ma =>
    exact csvValidate_pass _ _ _ _ _ _ _ h
  all_goals
    simp only [Catalogue.rule, Required, RequiredMultiple, MinStrLen, MaxStrLen, StrLen, StrMatch,
      AlphaNumeric, UTF8LetterNum, Boolean, CreditCard, WebRequestURI, IsJSON, Email, Numeric,
      IsFloat64, IntRange, FloatRange, Latitude, Longitude, IsDate, IsTime, IsDateTime, IsUUID,
      ISBN, ISBN10, ISBN13, InListSingle, InListMultiple, NotInListSingle, CountryCode,
      NotCommonPassword, CurrencyCode,
      requiredSingle.Validate, requiredMultiple.Validate, minStrLen.Validate, maxStrLen.Validate,
      strLen.Validate, strMatch.Validate, alphaNumeric.Validate, utf8LetterNum.Validate,
      boolean.Validate, creditCard.Validate, webRequestURI.Validate, isJSON.Validate,
      email.Validate, numeric.Validate, isFloat64.Validate, intRange.Validate,
      floatRange.Validate, latitude.Validate, longitude.Validate, isDate.Validate,
      isTime.Validate, isDateTime.Validate, isUUID.Validate, isbn.Validate, isbn10.Validate,
      isbn13.Validate, inListSingle.Validate, inListMultiple.Validate,
      notInListSingle.Validate, countryCode.Validate, notCommonPassword.Validate,
      currencyCode.Validate] at h
    (repeat' split at h) <;> simp_all

theorem inSlice_iff (slice : List Str) (val : Str) : inSlice slice val = true ↔ val ∈ slice := by
  induction slice with
  | nil => simp [inSlice]
  | cons j rest ih =>
    by_cases h : j = val
    · simp [inSlice, h]
    · have h2 : ¬ val = j := fun e => h e.symm
      simp [inSlice, h, h2, ih]

/-- C6: every error `Validate` reports for a declared field whose chain is made
of catalogue rules carries in `Str` the entry of the validator's message table
under a kind of the failing rule, as it stands in the table, and in `Data` the
format arguments of that kind; a failing `IntRange(min, max)` gives the
`int_range` entry with `[min, max]`, a failing `MinStrLen(n)` the `string_min`
entry with `[n]`, and a rule none of whose kinds has arguments gives empty
data. -/
theorem C6_errors_carry_template_and_arguments (env : Env) (f : FormValidator) (form : Values)
    (k : Str) (chain : List Catalogue) (hwf : f.rules.WF)
    (hdecl : (k, chain.map (Catalogue.rule env)) ∈ f.rules.entries) :
    (∃ errs, (f.Validate form).allErrors.lookup k = some errs
        ∧ ∀ e ∈ errs, ∃ c ∈ chain, ∃ p ∈ c.failures,
            e.Str = f.errorMessages.msg p.1 ∧ e.Data = p.2)
      ∧ (∀ (min max : Int) (fields : List Str) (err : Str) (data : List Arg),
          (IntRange min max).Validate fields f.errorMessages = (some err, data) →
          err = f.errorMessages.msg "int_range" ∧ data = [Arg.int min, Arg.int max])
      ∧ (∀ (n : Nat) (fields : List Str) (err : Str) (data : List Arg),
          (MinStrLen n).Validate fields f.errorMessages = (some err, data) →
          err = f.errorMessages.msg "string_min" ∧ data = [Arg.uint32 n])
      ∧ (∀ (c : Catalogue) (fields : List Str), (∀ p ∈ c.failures, p.2 = []) →
          ((c.rule env).Validate fields f.errorMessages).2 = []) := by
  refine ⟨⟨_, (Validate_lookup_declared f form hwf k _ hdecl).1, ?_⟩, ?_, ?_, ?_⟩
  · intro e he
    simp only [chainFailures, List.mem_filterMap, List.mem_map] at he
    obtain ⟨r, ⟨c, hc, rfl⟩, hr⟩ := he
    rcases hv : (c.rule env).Validate (form.at k) f.errorMessages with ⟨err, data⟩
    rw [hv] at hr
    cases err with
    | none => simp at hr
    | some err =>
      simp only [Option.some.injEq] at hr
      subst hr
      exact ⟨c, hc, Catalogue.failure_shape env c _ _ _ _ hv⟩
  · intro min max fields err data h
    have := Catalogue.failure_shape env (.intRange min max) fields f.errorMessages err data h
    simpa [Catalogue.failures] using this
  · intro n fields err data h
    have := Catalogue.failure_shape env (.minStrLen n) fields f.errorMessages err data h
    simpa [Catalogue.failures] using this
  · intro c fields hc
    rcases hv : (c.rule env).Validate fields f.errorMessages with ⟨err, data⟩
    cases err with
    | some err =>
      obtain ⟨p, hp, _, hd⟩ := Catalogue.failure_shape env c _ _ _ _ hv
      simp [hd, hc p hp]
    | none => exact Catalogue.pass_data env c _ _ _ hv

theorem C6_errors_carry_template_and_arguments_witness :
    sampleCatalogueValidator.rules.WF
      ∧ (bytes "Age", sampleCatalogueChain.map (Catalogue.rule trivialEnv))
          ∈ sampleCatalogueValidator.rules.entries
      ∧ (sampleCatalogueValidator.Validate sampleCatalogueForm).allErrors.lookup (bytes "Age")
          = some [⟨bytes "This field must be between %d - %d.", [Arg.int 18, Arg.int 100]⟩,
                  ⟨bytes "This field must be at least %d characters long.", [Arg.uint32 3]⟩]
      ∧ ((∃ errs, (sampleCatalogueValidator.Validate sampleCatalogueForm).allErrors.lookup
              (bytes "Age") = some errs
          ∧ ∀ e ∈ errs, ∃ c ∈ sampleCatalogueChain, ∃ p ∈ c.failures,
              e.Str = sampleCatalogueValidator.errorMessages.msg p.1 ∧ e.Data = p.2)
        ∧ (∀ (min max : Int) (fields : List Str) (err : Str) (data : List Arg),
            (IntRange min max).Validate fields sampleCatalogueValidator.errorMessages
              = (some err, data) →
            err = sampleCatalogueValidator.errorMessages.msg "int_range"
              ∧ data = [Arg.int min, Arg.int max])
        ∧ (∀ (n : Nat) (fields : List Str) (err : Str) (data : List Arg),
            (MinStrLen n).Validate fields sampleCatalogueValidator.errorMessages
              = (some err, data) →
            err = sampleCatalogueValidator.errorMessages.msg "string_min"
              ∧ data = [Arg.uint32 n])
        ∧ (∀ (c : Catalogue) (fields : List Str), (∀ p ∈ c.failures, p.2 = []) →
            ((c.rule trivialEnv).Validate fields sampleCatalogueValidator.errorMessages).2
              = [])) :=
  ⟨by decide, List.mem_cons_self _ _, by decide,
   C6_errors_carry_template_and_arguments trivialEnv sampleCatalogueValidator
     sampleCatalogueForm (bytes "Age") sampleCatalogueChain (by decide)
     (List.mem_cons_self _ _)⟩

/-- C7 (as amended): every catalogue rule other than `Required`,
`RequiredMultiple` and a `StrMatch` with a non-empty comparison returns no
failure on the empty sequence, and also on the single empty string unless it
is an `InListMultiple` whose list lacks the empty string; `StrMatch` with a
non-empty comparison fails on both, and `InListMultiple` with a list that
lacks the empty string fails on the single empty string. -/
theorem C7_blank_input_passes (env : Env) (c : Catalogue) (msgs : Messages)
    (h1 : c ≠ .required) (h2 : c ≠ .requiredMultiple)
    (h3 : ∀ comparison, c = .strMatch comparison → comparison = []) :
    (c.rule env).Validate [] msgs = (none, [])
      ∧ ((∀ list, c = .inListMultiple list → [] ∈ list) →
          (c.rule env).Validate [[]] msgs = (none, []))
      ∧ (∀ comparison, comparison ≠ [] →
          (StrMatch comparison).Validate [] msgs = (some (msgs.msg "string_matches"), [])
            ∧ (StrMatch comparison).Validate [[]] msgs
                = (some (msgs.msg "string_matches"), []))
      ∧ (∀ list, [] ∉ list →
          (InListMultiple list).Validate [[]] msgs = (some (msgs.msg "in_list"), [])) := by
  refine ⟨?_, ?_, ?_, ?_⟩
  · cases c <;>
      simp_all [Catalogue.rule, Required, RequiredMultiple, MinStrLen, MaxStrLen, StrLen, StrMatch,
      AlphaNumeric, UTF8LetterNum, Boolean, CreditCard, WebRequestURI, IsJSON, Email, Numeric,
      IsFloat64, IntRange, FloatRange, Latitude, Longitude, IsDate, IsTime, IsDateTime, IsUUID,
      ISBN, ISBN10, ISBN13, InListSingle, InListMultiple, NotInListSingle, CountryCode,
      NotCommonPassword, CurrencyCode, CSVEntryStrLen, csvEntryStrLen.Validate,
      requiredSingle.Validate, requiredMultiple.Validate, minStrLen.Validate, maxStrLen.Validate,
      strLen.Validate, strMatch.Validate, alphaNumeric.Validate, utf8LetterNum.Validate,
      boolean.Validate, creditCard.Validate, webRequestURI.Validate, isJSON.Validate,
      email.Validate, numeric.Validate, isFloat64.Validate, intRange.Validate,
      floatRange.Validate, latitude.Validate, longitude.Validate, isDate.Validate,
      isTime.Validate, isDateTime.Validate, isUUID.Validate, isbn.Validate, isbn10.Validate,
      isbn13.Validate, inListSingle.Validate, inListMultiple.Validate,
      notInListSingle.Validate, countryCode.Validate, notCommonPassword.Validate,
      currencyCode.Validate, getFirstKey]
  · intro h4
    cases c <;>
      simp_all [Catalogue.rule, Required, RequiredMultiple, MinStrLen, MaxStrLen, StrLen, StrMatch,
      AlphaNumeric, UTF8LetterNum, Boolean, CreditCard, WebRequestURI, IsJSON, Email, Numeric,
      IsFloat64, IntRange, FloatRange, Latitude, Longitude, IsDate, IsTime, IsDateTime, IsUUID,
      ISBN, ISBN10, ISBN13, InListSingle, InListMultiple, NotInListSingle, CountryCode,
      NotCommonPassword, CurrencyCode, CSVEntryStrLen, csvEntryStrLen.Validate,
      requiredSingle.Validate, requiredMultiple.Validate, minStrLen.Validate, maxStrLen.Validate,
      strLen.Validate, strMatch.Validate, alphaNumeric.Validate, utf8LetterNum.Validate,
      boolean.Validate, creditCard.Validate, webRequestURI.Validate, isJSON.Validate,
      email.Validate, numeric.Validate, isFloat64.Validate, intRange.Validate,
      floatRange.Validate, latitude.Validate, longitude.Validate, isDate.Validate,
      isTime.Validate, isDateTime.Validate, isUUID.Validate, isbn.Validate, isbn10.Validate,
      isbn13.Validate, inListSingle.Validate, inListMultiple.Validate,
      notInListSingle.Validate, countryCode.Validate, notCommonPassword.Validate,
      currencyCode.Validate, getFirstKey, hasDuplicates, hasDuplicatesLoop, sliceDiff, inSlice,
      inSlice_iff]
  · intro comparison hc
    have hc2 : ¬ ([] : Str) = comparison := fun e => hc e.symm
    simp [StrMatch, strMatch.Validate, getFirstKey, hc2]
  · intro list hl
    have : inSlice list [] = false := by
      rw [← Bool.not_eq_true, inSlice_iff]; exact hl
    simp [InListMultiple, inListMultiple.Validate, hasDuplicates, hasDuplicatesLoop, sliceDiff,
      inSlice, this]

theorem C7_blank_input_passes_witness :
    Catalogue.intRange 1 5 ≠ .required ∧ Catalogue.intRange 1 5 ≠ .requiredMultiple
      ∧ (∀ comparison, Catalogue.intRange 1 5 = .strMatch comparison → comparison = [])
      ∧ (((Catalogue.intRange 1 5).rule trivialEnv).Validate [] defaultErrors = (none, [])
        ∧ ((∀ list, Catalogue.intRange 1 5 = .inListMultiple list → [] ∈ list) →
            ((Catalogue.intRange 1 5).rule trivialEnv).Validate [[]] defaultErrors = (none, []))
        ∧ (∀ comparison, comparison ≠ [] →
            (StrMatch comparison).Validate [] defaultErrors
                = (some (defaultErrors.msg "string_matches"), [])
              ∧ (StrMatch comparison).Validate [[]] defaultErrors
                  = (some (defaultErrors.msg "string_matches"), []))
        ∧ (∀ list, [] ∉ list →
            (InListMultiple list).Validate [[]] defaultErrors
              = (some (defaultErrors.msg "in_list"), []))) :=
  ⟨by decide, by decide, (fun _ h => by cases h),
   C7_blank_input_passes trivialEnv (.intRange 1 5) defaultErrors (by decide) (by decide)
     (fun _ h => by cases h)⟩

/-- C7 as stated fails: `StrMatch("Smith")` is neither `Required` nor
`RequiredMultiple`, yet it fails on the empty sequence and on the single empty
string; `InListMultiple` with the list `["blue", "red"]` fails on the single
empty string. -/
theorem C7_counterexample :
    Catalogue.strMatch (bytes "Smith") ≠ .required
      ∧ Catalogue.strMatch (bytes "Smith") ≠ .requiredMultiple
      ∧ (((Catalogue.strMatch (bytes "Smith")).rule trivialEnv).Validate [] defaultErrors).1
          = some (bytes "Fields did not match.")
      ∧ (((Catalogue.strMatch (bytes "Smith")).rule trivialEnv).Validate [[]] defaultErrors).1
          = some (bytes "Fields did not match.")
      ∧ (((Catalogue.inListMultiple [bytes "blue", bytes "red"]).rule trivialEnv).Validate [[]]
            defaultErrors).1 = some (bytes "Please make a selection.") := by
  decide

/-! ## Theorems: credit card -/

theorem Atoi_none_of_head (h : Nat) (t : Str) (hh : 58 ≤ h) : Atoi (h :: t) = none := by
  have h43 : h ≠ 43 := by omega
  have h45 : h ≠ 45 := by omega
  have hd : isDigit h = false := by
    simp only [isDigit, Bool.and_eq_false_iff, decide_eq_false_iff_not]
    omega
  simp [Atoi, h43, h45, hd]

theorem Atoi_byte (b : Nat) :
    Atoi (utf8Encode b) = if isDigit b = true then some ((b - 48 : Nat) : Int) else none := by
  by_cases hb : b < 128
  · have h1 : utf8Encode b = [b] := by simp [utf8Encode, hb]
    rw [h1]
    by_cases hd : isDigit b = true
    · have hd' := hd
      simp only [isDigit, Bool.and_eq_true, decide_eq_true_eq] at hd'
      have h43 : b ≠ 43 := by omega
      have h45 : b ≠ 45 := by omega
      have hv : digitsValue [b] = b - 48 := by simp [digitsValue]
      simp only [Atoi, List.head?_cons, Option.some.injEq, h43, h45, or_self, if_false,
        List.all_cons, List.all_nil, Bool.and_true, hd, hv, intSize]
      simp
      omega
    · simp only [hd, if_false]
      by_cases hs : b = 43 ∨ b = 45
      · simp [Atoi, hs]
      · simp [Atoi, hs, hd]
  · have hd : isDigit b = false := by
      simp only [isDigit, Bool.and_eq_false_iff, decide_eq_false_iff_not]
      omega
    simp only [hd, Bool.false_eq_true, if_false]
    unfold utf8Encode
    split_ifs
    all_goals exact Atoi_none_of_head _ _ (by omega)

theorem luhnDigit_cast (alternate : Bool) (d : Nat) (hd : d ≤ 9) :
    (if alternate = true then
        (if (d : Int) * 2 > 9 then ((d : Int) * 2).tmod 10 + 1 else (d : Int) * 2)
      else (d : Int)) = ((luhnDigit alternate d : Nat) : Int) := by
  interval_cases d <;> cases alternate <;> decide

theorem creditCard_loop_eq (field : Str) (n : Nat) (hn : n ≤ field.length) (sum : Int)
    (alternate : Bool) :
    creditCard.loop field n sum alternate
      = if (field.take n).all isDigit = true then
          some (sum + (luhnSumFromRight (field.take n).reverse alternate : Nat))
        else none := by
  induction n generalizing sum alternate with
  | zero => simp [creditCard.loop, luhnSumFromRight]
  | succ n ih =>
    have hlt : n < field.length := hn
    have hget : field.getD n 0 = field[n] := by
      simp [List.getD, List.getElem?_eq_getElem hlt]
    have htake : field.take (n + 1) = field.take n ++ [field[n]] := by
      rw [List.take_succ, List.getElem?_eq_getElem hlt]; rfl
    rw [creditCard.loop, hget, Atoi_byte, htake]
    by_cases hd : isDigit field[n] = true
    · have hd' := hd
      simp only [isDigit, Bool.and_eq_true, decide_eq_true_eq] at hd'
      have h9 : field[n] - 48 ≤ 9 := by omega
      simp only [hd, if_true]
      rw [luhnDigit_cast alternate _ h9, ih (Nat.le_of_lt hlt)]
      simp only [List.all_append, List.all_cons, List.all_nil, Bool.and_true, hd,
        List.reverse_append, List.reverse_cons, List.reverse_nil, List.nil_append,
        List.singleton_append, luhnSumFromRight]
      by_cases hall : (field.take n).all isDigit = true
      · simp only [hall, if_true, Nat.cast_add]
        congr 1
        omega
      · simp [hall]
    · have hnot : ¬ ((field.take n ++ [field[n]]).all isDigit = true) := by
        rw [List.all_append, Bool.and_eq_true]
        intro h
        have h2 := h.2
        simp only [List.all_cons, List.all_nil, Bool.and_true] at h2
        exact hd h2
      rw [if_neg hnot, if_neg hd]

theorem creditCard_pass_iff (allowTestingNumbers : Bool) (v : Str) (rest : List Str)
    (msgs : Messages) (hv : v ≠ []) :
    (creditCard.Validate allowTestingNumbers (v :: rest) msgs).1 = none
      ↔ (allowTestingNumbers = true ∨ v ∉ creditCard.testingNumbers) ∧ luhnValid v := by
  have hlen : ¬ v.length = 0 := fun h => hv (List.length_eq_zero.mp h)
  simp only [creditCard.Validate, getFirstKey, hlen, if_false]
  by_cases hdeny : allowTestingNumbers = false ∧ v ∈ creditCard.testingNumbers
  · rw [if_pos hdeny]
    obtain ⟨ha, hm⟩ := hdeny
    simp [ha, hm]
  · rw [if_neg hdeny]
    have hleft : allowTestingNumbers = true ∨ v ∉ creditCard.testingNumbers := by
      cases allowTestingNumbers
      · right; intro hm; exact hdeny ⟨rfl, hm⟩
      · left; rfl
    simp only [hleft, true_and]
    by_cases hrange : v.length < 13 ∨ v.length > 19
    · rw [if_pos hrange]
      simp only [luhnValid]
      constructor
      · intro h; cases h
      · intro h; omega
    · rw [if_neg hrange, creditCard_loop_eq v v.length (Nat.le_refl _), List.take_length]
      by_cases hall : v.all isDigit = true
      · simp only [hall, if_true, luhnValid, true_and]
        have hmod : ((0 : Int) + (luhnSumFromRight v.reverse false : Nat)).tmod 10 = 0
            ↔ luhnSum v % 10 = 0 := by
          rw [Int.tmod_eq_emod (by omega) (by omega)]
          unfold luhnSum
          omega
        by_cases hs : ((0 : Int) + (luhnSumFromRight v.reverse false : Nat)).tmod 10 = 0
        · rw [if_pos hs]
          exact ⟨fun _ => ⟨by omega, by omega, hmod.mp hs⟩, fun _ => rfl⟩
        · rw [if_neg hs]
          constructor
          · intro h; cases h
          · intro h; exact absurd (hmod.mpr h.2.2) hs
      · simp only [hall, luhnValid]
        constructor
        · intro h; cases h
        · intro h; exact absurd h.1 (by simp)

/-- C8: for a non-empty first value `v`, `CreditCard(true)` passes exactly when
`v` is made of ASCII digits only, is 13 to 19 long and has a Luhn sum divisible
by 10, the Luhn sum adding the digits from right to left with every second
digit doubled, starting with the second from the right, and 9 taken off a
doubled digit above 9; the code's `(2d mod 10) + 1` is `2d - 9` for every digit
`d` with `2d > 9`. -/
theorem C8_creditCard_passes_iff_luhn (v : Str) (rest : List Str) (msgs : Messages)
    (hv : v ≠ []) :
    (((CreditCard true).Validate (v :: rest) msgs).1 = none
        ↔ (v.all isDigit = true ∧ 13 ≤ v.length ∧ v.length ≤ 19 ∧ luhnSum v % 10 = 0))
      ∧ ∀ d : Nat, d ≤ 9 → 2 * d > 9 → (2 * d) % 10 + 1 = 2 * d - 9 := by
  refine ⟨?_, fun d h1 h2 => by omega⟩
  have h := creditCard_pass_iff true v rest msgs hv
  simp only [true_or, true_and, luhnValid] at h
  exact h

theorem C8_creditCard_passes_iff_luhn_witness :
    bytes "4716461583322103" ≠ []
      ∧ ((((CreditCard true).Validate (bytes "4716461583322103" :: []) defaultErrors).1 = none
          ↔ ((bytes "4716461583322103").all isDigit = true
              ∧ 13 ≤ (bytes "4716461583322103").length
              ∧ (bytes "4716461583322103").length ≤ 19
              ∧ luhnSum (bytes "4716461583322103") % 10 = 0))
        ∧ ∀ d : Nat, d ≤ 9 → 2 * d > 9 → (2 * d) % 10 + 1 = 2 * d - 9) :=
  ⟨by decide, C8_creditCard_passes_iff_luhn (bytes "4716461583322103") [] defaultErrors
    (by decide)⟩

/-- C10: `CreditCard(false)` passes a value exactly when `CreditCard(true)`
passes it and it is not one of the deny-listed test numbers;
`"4242424242424242"` and every all-zero string of length 13 to 19 pass
`CreditCard(true)` and fail `CreditCard(false)`, and `"4716461583322103"`
passes `CreditCard(false)`. -/
theorem C10_creditCard_deny_list (v : Str) (rest : List Str) (msgs : Messages) :
    (((CreditCard false).Validate (v :: rest) msgs).1 = none
        ↔ (((CreditCard true).Validate (v :: rest) msgs).1 = none
            ∧ v ∉ creditCard.testingNumbers))
      ∧ ((CreditCard true).Validate [bytes "4242424242424242"] msgs).1 = none
      ∧ (CreditCard false).Validate [bytes "4242424242424242"] msgs
          = (some (msgs.msg "credit_card"), [])
      ∧ (∀ n, 13 ≤ n → n ≤ 19 →
          ((CreditCard true).Validate [List.replicate n 48] msgs).1 = none
            ∧ (CreditCard false).Validate [List.replicate n 48] msgs
                = (some (msgs.msg "credit_card"), []))
      ∧ ((CreditCard false).Validate [bytes "4716461583322103"] msgs).1 = none := by
  refine ⟨?_, ?_, ?_, ?_, ?_⟩
  · by_cases hv : v = []
    · subst hv
      have : ([] : Str) ∉ creditCard.testingNumbers := by decide
      simp [CreditCard, creditCard.Validate, getFirstKey, this]
    · simp only [CreditCard]
      rw [creditCard_pass_iff false v rest msgs hv, creditCard_pass_iff true v rest msgs hv]
      simp only [Bool.false_eq_true, false_or, true_or, true_and]
      exact ⟨fun h => ⟨h.2, h.1⟩, fun h => ⟨h.2, h.1⟩⟩
  · simp only [CreditCard]
    rw [creditCard_pass_iff true _ _ msgs (by decide)]
    decide
  · have hm : bytes "4242424242424242" ∈ creditCard.testingNumbers := by decide
    have hl : ¬ (bytes "4242424242424242").length = 0 := by decide
    simp only [CreditCard, creditCard.Validate, getFirstKey, hl, if_false, hm, and_self, if_true]
  · intro n h13 h19
    have hne : List.replicate n 48 ≠ [] := by
      intro h
      have := congrArg List.length h
      simp at this
      omega
    have hm : List.replicate n 48 ∈ creditCard.testingNumbers := by
      interval_cases n <;> decide
    have hl : ¬ (List.replicate n 48).length = 0 := by
      simp; omega
    refine ⟨?_, ?_⟩
    · simp only [CreditCard]
      rw [creditCard_pass_iff true _ _ msgs hne]
      refine ⟨Or.inl rfl, ?_⟩
      interval_cases n <;> decide
    · simp only [CreditCard, creditCard.Validate, getFirstKey, hl, if_false, hm, and_self,
        if_true]
  · simp only [CreditCard]
    rw [creditCard_pass_iff false _ _ msgs (by decide)]
    decide

theorem luhnSumFromRight_append (a b : List Nat) (doubled : Bool) :
    luhnSumFromRight (a ++ b) doubled
      = luhnSumFromRight a doubled
        + luhnSumFromRight b (if a.length % 2 = 1 then !doubled else doubled) := by
  induction a generalizing doubled with
  | nil => simp [luhnSumFromRight]
  | cons x rest ih =>
    rw [List.cons_append, luhnSumFromRight, luhnSumFromRight, ih, List.length_cons]
    have hpar : (if rest.length % 2 = 1 then !(!doubled) else !doubled)
        = (if (rest.length + 1) % 2 = 1 then !doubled else doubled) := by
      by_cases h : rest.length % 2 = 1
      · have h2 : ¬ (rest.length + 1) % 2 = 1 := by omega
        simp [h, h2]
      · have h2 : (rest.length + 1) % 2 = 1 := by omega
        simp [h, h2]
    rw [hpar]
    omega

theorem luhnDigit_mod_injective (doubled : Bool) (d e : Nat) (hd : d ≤ 9) (he : e ≤ 9)
    (hne : d ≠ e) : luhnDigit doubled d % 10 ≠ luhnDigit doubled e % 10 := by
  cases doubled
  · simp only [luhnDigit, Bool.false_eq_true, if_false]
    omega
  · simp only [luhnDigit, if_true]
    split_ifs <;> omega

theorem luhnSum_split (pre post : List Nat) (x : Nat) :
    luhnSum (pre ++ x :: post)
      = luhnSumFromRight post.reverse false
        + (luhnDigit (if post.length % 2 = 1 then true else false) (x - 48)
          + luhnSumFromRight pre.reverse
              (!(if post.length % 2 = 1 then true else false))) := by
  unfold luhnSum
  rw [List.reverse_append, List.reverse_cons, List.append_assoc, luhnSumFromRight_append,
    List.singleton_append, luhnSumFromRight, List.length_reverse]
  by_cases h : post.length % 2 = 1 <;> simp [h]

/-- Replacing one digit of a Luhn-valid number by another digit breaks the
Luhn check. -/
theorem luhnValid_set_ne (v : Str) (i d : Nat) (hv : luhnValid v) (hi : i < v.length)
    (hd : isDigit d = true) (hne : v.getD i 0 ≠ d) : ¬ luhnValid (v.set i d) := by
  obtain ⟨hall, _, _, hsum⟩ := hv
  have hget : v.getD i 0 = v[i] := by simp [List.getD, List.getElem?_eq_getElem hi]
  have hx : isDigit v[i] = true := (List.all_eq_true.mp hall) _ (List.getElem_mem hi)
  have hsplit : v = v.take i ++ v[i] :: v.drop (i + 1) := by
    rw [List.getElem_cons_drop v i hi, List.take_append_drop]
  have hset : v.set i d = v.take i ++ d :: v.drop (i + 1) := by
    rw [List.set_eq_take_append_cons_drop, if_pos hi]
  intro hv'
  obtain ⟨_, _, _, hsum'⟩ := hv'
  rw [hset, luhnSum_split] at hsum'
  rw [hsplit, luhnSum_split] at hsum
  simp only [isDigit, Bool.and_eq_true, decide_eq_true_eq] at hd hx
  rw [hget] at hne
  have hinj := luhnDigit_mod_injective
    (if (v.drop (i + 1)).length % 2 = 1 then true else false) (v[i] - 48) (d - 48)
    (by omega) (by omega) (by omega)
  omega

/-- C9: for every value `v` that `CreditCard` passes, with either toggle, and
every position of `v`, putting a different digit at that position gives a value
that `CreditCard` fails with the `credit_card` message: the Luhn check detects
every change of a single digit; `"5398228707871527"` passes and
`"5398228707871528"` fails. -/
theorem C9_single_digit_change_fails (allowTestingNumbers : Bool) (v : Str) (rest : List Str)
    (msgs : Messages) (i d : Nat)
    (hpass : ((CreditCard allowTestingNumbers).Validate (v :: rest) msgs).1 = none)
    (hi : i < v.length) (hd : isDigit d = true) (hne : v.getD i 0 ≠ d) :
    (CreditCard allowTestingNumbers).Validate (v.set i d :: rest) msgs
        = (some (msgs.msg "credit_card"), [])
      ∧ ((CreditCard allowTestingNumbers).Validate [bytes "5398228707871527"] msgs).1 = none
      ∧ (CreditCard allowTestingNumbers).Validate [bytes "5398228707871528"] msgs
          = (some (msgs.msg "credit_card"), []) := by
  have hfail : ∀ (w : Str), w ≠ [] → ¬ luhnValid w →
      (CreditCard allowTestingNumbers).Validate (w :: rest) msgs
        = (some (msgs.msg "credit_card"), []) ∧
      (CreditCard allowTestingNumbers).Validate [w] msgs
        = (some (msgs.msg "credit_card"), []) := by
    intro w hw hnv
    have aux : ∀ tail : List Str, (CreditCard allowTestingNumbers).Validate (w :: tail) msgs
        = (some (msgs.msg "credit_card"), []) := by
      intro tail
      rcases hr : (CreditCard allowTestingNumbers).Validate (w :: tail) msgs with ⟨err, data⟩
      cases err with
      | none =>
        have h1 : (creditCard.Validate allowTestingNumbers (w :: tail) msgs).1 = none := by
          have : (CreditCard allowTestingNumbers).Validate (w :: tail) msgs
              = creditCard.Validate allowTestingNumbers (w :: tail) msgs := rfl
          rw [← this, hr]
        exact absurd ((creditCard_pass_iff _ w tail msgs hw).mp h1).2 hnv
      | some err =>
        have hs := Catalogue.failure_shape trivialEnv (.creditCard allowTestingNumbers)
          (w :: tail) msgs err data hr
        simp only [Catalogue.failures, List.mem_singleton, exists_eq_left] at hs
        rw [hs.1, hs.2]
    exact ⟨aux rest, aux []⟩
  have hv : v ≠ [] := by
    intro h
    rw [h] at hi
    exact Nat.not_lt_zero _ hi
  have hvalid : luhnValid v := ((creditCard_pass_iff _ v rest msgs hv).mp hpass).2
  have hset : v.set i d ≠ [] := by
    intro h
    have := congrArg List.length h
    simp only [List.length_set, List.length_nil] at this
    omega
  refine ⟨(hfail _ hset (luhnValid_set_ne v i d hvalid hi hd hne)).1, ?_, ?_⟩
  · have h := creditCard_pass_iff allowTestingNumbers (bytes "5398228707871527") [] msgs
      (by decide)
    exact h.mpr ⟨Or.inr (by decide), by decide⟩
  · exact (hfail (bytes "5398228707871528") (by decide) (by decide)).2

theorem C9_single_digit_change_fails_witness :
    ((CreditCard false).Validate (bytes "4716461583322103" :: []) defaultErrors).1 = none
      ∧ 15 < (bytes "4716461583322103").length
      ∧ isDigit 57 = true
      ∧ (bytes "4716461583322103").getD 15 0 ≠ 57
      ∧ ((CreditCard false).Validate ((bytes "4716461583322103").set 15 57 :: []) defaultErrors
            = (some (defaultErrors.msg "credit_card"), [])
        ∧ ((CreditCard false).Validate [bytes "5398228707871527"] defaultErrors).1 = none
        ∧ (CreditCard false).Validate [bytes "5398228707871528"] defaultErrors
            = (some (defaultErrors.msg "credit_card"), [])) :=
  ⟨by decide, by decide, by decide, by decide,
   C9_single_digit_change_fails false (bytes "4716461583322103") [] defaultErrors 15 57
     (by decide) (by decide) (by decide) (by decide)⟩

/-! ## Theorems: ISBN dispatch and integer range -/

theorem removeSpacesHyphens_idem (s : Str) :
    removeSpacesHyphens (removeSpacesHyphens s) = removeSpacesHyphens s := by
  simp [removeSpacesHyphens, List.filter_filter]

theorem length_ne_zero_of_ne_nil (s : Str) (h : s ≠ []) : ¬ s.length = 0 :=
  fun h0 => h (List.length_eq_zero.mp h0)

/-- The result of `isbn.Validate` on a non-empty first value depends on the
value only through its form without spaces and hyphens. -/
theorem isbn_Validate_congr (env : Env) (x y : Str) (rest rest2 : List Str) (msgs : Messages)
    (hx : x ≠ []) (hy : y ≠ [])
    (hxy : removeSpacesHyphens x = removeSpacesHyphens y) :
    isbn.Validate env (x :: rest) msgs = isbn.Validate env (y :: rest2) msgs := by
  have h1 := length_ne_zero_of_ne_nil x hx
  have h2 := length_ne_zero_of_ne_nil y hy
  simp only [isbn.Validate, ISBN10, ISBN13, isbn10.Validate, isbn13.Validate, getFirstKey, h1, h2,
    if_false, hxy]

/-- C11: for a non-empty first value `x`, with `n` the length of `x` without
its spaces and hyphens, `ISBN` returns what `ISBN10` returns on the same
values when `n = 10`, what `ISBN13` returns when `n = 13`, and the failure with
the `isbn` message for every other `n`. -/
theorem C11_isbn_dispatches_on_normalized_length (env : Env) (x : Str) (rest : List Str)
    (msgs : Messages) (hx : x ≠ []) :
    ((removeSpacesHyphens x).length = 10 →
        (ISBN env).Validate (x :: rest) msgs = (ISBN10 env).Validate (x :: rest) msgs)
      ∧ ((removeSpacesHyphens x).length = 13 →
        (ISBN env).Validate (x :: rest) msgs = (ISBN13 env).Validate (x :: rest) msgs)
      ∧ ((removeSpacesHyphens x).length ≠ 10 → (removeSpacesHyphens x).length ≠ 13 →
        (ISBN env).Validate (x :: rest) msgs = (some (msgs.msg "isbn"), [])) := by
  have h1 := length_ne_zero_of_ne_nil x hx
  refine ⟨?_, ?_, ?_⟩
  · intro h
    simp [ISBN, isbn.Validate, getFirstKey, h1, h]
  · intro h
    simp [ISBN, isbn.Validate, getFirstKey, h1, h]
  · intro h10 h13
    simp [ISBN, isbn.Validate, getFirstKey, h1, h10, h13]

theorem C11_isbn_dispatches_on_normalized_length_witness :
    bytes "3 401 01319 X" ≠ []
      ∧ (((removeSpacesHyphens (bytes "3 401 01319 X")).length = 10 →
          (ISBN (stdlib trivialEnv)).Validate (bytes "3 401 01319 X" :: []) defaultErrors
            = (ISBN10 (stdlib trivialEnv)).Validate (bytes "3 401 01319 X" :: []) defaultErrors)
        ∧ ((removeSpacesHyphens (bytes "3 401 01319 X")).length = 13 →
          (ISBN (stdlib trivialEnv)).Validate (bytes "3 401 01319 X" :: []) defaultErrors
            = (ISBN13 (stdlib trivialEnv)).Validate (bytes "3 401 01319 X" :: []) defaultErrors)
        ∧ ((removeSpacesHyphens (bytes "3 401 01319 X")).length ≠ 10 →
          (removeSpacesHyphens (bytes "3 401 01319 X")).length ≠ 13 →
          (ISBN (stdlib trivialEnv)).Validate (bytes "3 401 01319 X" :: []) defaultErrors
            = (some (defaultErrors.msg "isbn"), []))) :=
  ⟨by decide,
   C11_isbn_dispatches_on_normalized_length (stdlib trivialEnv) (bytes "3 401 01319 X") []
     defaultErrors (by decide)⟩

/-- C15 (as amended): `ISBN` returns the same on any two non-empty values with
the same form without spaces and hyphens, and the same on a value and on its
normalized form when that form is not empty; a non-empty value made of spaces
and hyphens only fails with the `isbn` message, while its normalized form, the
empty string, passes. -/
theorem C15_isbn_depends_on_normalized_form (env : Env) (x y : Str) (rest : List Str)
    (msgs : Messages) (hx : x ≠ []) (hy : y ≠ [])
    (hxy : removeSpacesHyphens x = removeSpacesHyphens y) :
    (ISBN env).Validate (x :: rest) msgs = (ISBN env).Validate (y :: rest) msgs
      ∧ (removeSpacesHyphens x ≠ [] →
          (ISBN env).Validate (x :: rest) msgs
            = (ISBN env).Validate (removeSpacesHyphens x :: rest) msgs)
      ∧ (removeSpacesHyphens x = [] →
          (ISBN env).Validate (x :: rest) msgs = (some (msgs.msg "isbn"), [])
            ∧ (ISBN env).Validate (removeSpacesHyphens x :: rest) msgs = (none, [])) := by
  refine ⟨isbn_Validate_congr env x y rest rest msgs hx hy hxy, ?_, ?_⟩
  · intro hn
    exact isbn_Validate_congr env x _ rest rest msgs hx hn (removeSpacesHyphens_idem x).symm
  · intro he
    have h1 := length_ne_zero_of_ne_nil x hx
    simp [ISBN, isbn.Validate, getFirstKey, h1, he]

theorem C15_isbn_depends_on_normalized_form_witness :
    bytes "978-3-8362-2119-1" ≠ [] ∧ bytes "978 3836221191" ≠ []
      ∧ removeSpacesHyphens (bytes "978-3-8362-2119-1")
          = removeSpacesHyphens (bytes "978 3836221191")
      ∧ ((ISBN (stdlib trivialEnv)).Validate (bytes "978-3-8362-2119-1" :: []) defaultErrors
          = (ISBN (stdlib trivialEnv)).Validate (bytes "978 3836221191" :: []) defaultErrors
        ∧ (removeSpacesHyphens (bytes "978-3-8362-2119-1") ≠ [] →
            (ISBN (stdlib trivialEnv)).Validate (bytes "978-3-8362-2119-1" :: []) defaultErrors
              = (ISBN (stdlib trivialEnv)).Validate
                  (removeSpacesHyphens (bytes "978-3-8362-2119-1") :: []) defaultErrors)
        ∧ (removeSpacesHyphens (bytes "978-3-8362-2119-1") = [] →
            (ISBN (stdlib trivialEnv)).Validate (bytes "978-3-8362-2119-1" :: []) defaultErrors
                = (some (defaultErrors.msg "isbn"), [])
              ∧ (ISBN (stdlib trivialEnv)).Validate
                  (removeSpacesHyphens (bytes "978-3-8362-2119-1") :: []) defaultErrors
                = (none, []))) :=
  ⟨by decide, by decide, by decide,
   C15_isbn_depends_on_normalized_form (stdlib trivialEnv) (bytes "978-3-8362-2119-1")
     (bytes "978 3836221191") [] defaultErrors (by decide) (by decide) (by decide)⟩

/-- C15 as stated fails: on the value `"-"` `ISBN` fails, and on that value
with its spaces and hyphens removed, the empty string, `ISBN` passes. -/
theorem C15_counterexample :
    ((ISBN (stdlib trivialEnv)).Validate [bytes "-"] defaultErrors).1
        = some (bytes "Please enter a valid ISBN.")
      ∧ ((ISBN (stdlib trivialEnv)).Validate [removeSpacesHyphens (bytes "-")] defaultErrors).1
          = none := by
  decide

theorem all_isDigit_cases (ds : Str) :
    ((∀ x ∈ ds, isDigit x = true) = True ∧ (∃ x ∈ ds, isDigit x = false) = False)
      ∨ ((∀ x ∈ ds, isDigit x = true) = False ∧ (∃ x ∈ ds, isDigit x = false) = True) := by
  by_cases h : ∀ x ∈ ds, isDigit x = true
  · left
    refine ⟨eq_true h, eq_false ?_⟩
    rintro ⟨x, hx, hd⟩
    rw [h x hx] at hd
    cases hd
  · right
    refine ⟨eq_false h, eq_true ?_⟩
    by_contra hne
    apply h
    intro x hx
    by_contra hd
    exact hne ⟨x, hx, by simpa using hd⟩

theorem Atoi_eq_literal (s : Str) :
    Atoi s = if isIntLiteral s = true ∧ fitsInt (intLiteralValue s)
      then some (intLiteralValue s) else none := by
  cases s with
  | nil => simp [Atoi, isIntLiteral]
  | cons c rest =>
    by_cases h45 : c = 45
    · subst h45
      by_cases hr : rest = []
      · subst hr
        simp [Atoi, isIntLiteral]
      · rcases all_isDigit_cases rest with ⟨e1, e2⟩ | ⟨e1, e2⟩ <;>
          simp [Atoi, isIntLiteral, intLiteralValue, fitsInt, hr, e1, e2]
    · by_cases h43 : c = 43
      · subst h43
        by_cases hr : rest = []
        · subst hr
          simp [Atoi, isIntLiteral]
        · rcases all_isDigit_cases rest with ⟨e1, e2⟩ | ⟨e1, e2⟩ <;>
            simp [Atoi, isIntLiteral, intLiteralValue, fitsInt, hr, e1, e2]
      · rcases all_isDigit_cases rest with ⟨e1, e2⟩ | ⟨e1, e2⟩ <;>
          cases hc : isDigit c <;>
          simp [Atoi, isIntLiteral, intLiteralValue, fitsInt, h43, h45, e1, e2, hc]


theorem intRange_pass_iff (min max : Int) (v : Str) (rest : List Str) (msgs : Messages)
    (hv : v ≠ []) :
    ((IntRange min max).Validate (v :: rest) msgs).1 = none
      ↔ (isIntLiteral v = true ∧ fitsInt (intLiteralValue v)
          ∧ min ≤ intLiteralValue v ∧ intLiteralValue v ≤ max) := by
  have h1 := length_ne_zero_of_ne_nil v hv
  simp only [IntRange, intRange.Validate, getFirstKey, h1, if_false, Atoi_eq_literal]
  by_cases hl : isIntLiteral v = true ∧ fitsInt (intLiteralValue v)
  · rw [if_pos hl]
    by_cases hr : intLiteralValue v ≥ min ∧ intLiteralValue v ≤ max
    · show (if intLiteralValue v ≥ min ∧ intLiteralValue v ≤ max then (none, [])
          else (some (msgs.msg "int_range"), [Arg.int min, Arg.int max])).1 = none ↔ _
      rw [if_pos hr]
      exact ⟨fun _ => ⟨hl.1, hl.2, hr.1, hr.2⟩, fun _ => rfl⟩
    · show (if intLiteralValue v ≥ min ∧ intLiteralValue v ≤ max then (none, [])
          else (some (msgs.msg "int_range"), [Arg.int min, Arg.int max])).1 = none ↔ _
      rw [if_neg hr]
      constructor
      · intro h; cases h
      · intro h; exact absurd ⟨h.2.2.1, h.2.2.2⟩ hr
  · rw [if_neg hl]
    constructor
    · intro h; cases h
    · intro h; exact absurd ⟨h.1, h.2.1⟩ hl

/-- C20: `IntRange(min, max)` passes an empty value; it passes a non-empty
value exactly when the value is a base-10 integer literal (an optional sign and
one or more ASCII digits) that fits `int` and whose value lies between `min`
and `max`, bounds included; every failure carries the `int_range` message and
the arguments `[min, max]`, and with `min > max` every non-empty value
fails. -/
theorem C20_intRange_passes_iff_literal_in_range (min max : Int) (v : Str) (rest : List Str)
    (msgs : Messages) :
    (v = [] → (IntRange min max).Validate (v :: rest) msgs = (none, []))
      ∧ (v ≠ [] →
          (((IntRange min max).Validate (v :: rest) msgs).1 = none
            ↔ (isIntLiteral v = true ∧ fitsInt (intLiteralValue v)
                ∧ min ≤ intLiteralValue v ∧ intLiteralValue v ≤ max)))
      ∧ (((IntRange min max).Validate (v :: rest) msgs).1 ≠ none →
          (IntRange min max).Validate (v :: rest) msgs
            = (some (msgs.msg "int_range"), [Arg.int min, Arg.int max]))
      ∧ (max < min → v ≠ [] →
          (IntRange min max).Validate (v :: rest) msgs
            = (some (msgs.msg "int_range"), [Arg.int min, Arg.int max]))
      ∧ ((IntRange 18 100).Validate [bytes "+55"] msgs).1 = none
      ∧ ((IntRange (-5) 5).Validate [bytes "-5"] msgs).1 = none
      ∧ ((IntRange 18 100).Validate [bytes "5.5"] msgs).1 = some (msgs.msg "int_range")
      ∧ ((IntRange 0 100).Validate [bytes "9223372036854775808"] msgs).1
          = some (msgs.msg "int_range") := by
  have hiff := intRange_pass_iff min max v rest msgs
  have hshape : ((IntRange min max).Validate (v :: rest) msgs).1 ≠ none →
      (IntRange min max).Validate (v :: rest) msgs
        = (some (msgs.msg "int_range"), [Arg.int min, Arg.int max]) := by
    intro hne
    rcases hr : (IntRange min max).Validate (v :: rest) msgs with ⟨err, data⟩
    rw [hr] at hne
    cases err with
    | none => exact absurd rfl hne
    | some err =>
      have hs := Catalogue.failure_shape trivialEnv (.intRange min max) (v :: rest) msgs err
        data hr
      simp only [Catalogue.failures, List.mem_singleton, exists_eq_left] at hs
      rw [hs.1, hs.2]
  refine ⟨?_, hiff, hshape, ?_, ?_, ?_, ?_, ?_⟩
  · intro hv
    simp [IntRange, intRange.Validate, getFirstKey, hv]
  · intro hlt hv
    apply hshape
    intro hpass
    have := (hiff hv).mp hpass
    omega
  · exact (intRange_pass_iff 18 100 (bytes "+55") [] msgs (by decide)).mpr (by decide)
  · exact (intRange_pass_iff (-5) 5 (bytes "-5") [] msgs (by decide)).mpr (by decide)
  · have h : Atoi (bytes "5.5") = none := by decide
    have hl : ¬ (bytes "5.5").length = 0 := by decide
    simp only [IntRange, intRange.Validate, getFirstKey, h, hl, if_false]
  · have h : Atoi (bytes "9223372036854775808") = none := by decide
    have hl : ¬ (bytes "9223372036854775808").length = 0 := by decide
    simp only [IntRange, intRange.Validate, getFirstKey, h, hl, if_false]

/-! ## Theorems: regular expressions -/

theorem Regex.accepts_seq_iff (a b : Regex) (s : Str) :
    (Regex.seq a b).accepts s = true
      ↔ ∃ s1 s2, s = s1 ++ s2 ∧ a.accepts s1 = true ∧ b.accepts s2 = true := by
  simp only [Regex.accepts, List.any_eq_true, List.mem_range, Bool.and_eq_true]
  constructor
  · rintro ⟨i, _, h1, h2⟩
    exact ⟨s.take i, s.drop i, (List.take_append_drop i s).symm, h1, h2⟩
  · rintro ⟨s1, s2, rfl, h1, h2⟩
    refine ⟨s1.length, ?_, ?_, ?_⟩
    · simp; omega
    · simpa using h1
    · simpa using h2

theorem matchClasses_append (x y : List (List (Char × Char))) (s : Str) :
    matchClasses (x ++ y) s = true
      ↔ ∃ s1 s2, s = s1 ++ s2 ∧ matchClasses x s1 = true ∧ matchClasses y s2 = true := by
  induction x generalizing s with
  | nil =>
    constructor
    · intro h
      exact ⟨[], s, rfl, rfl, h⟩
    · rintro ⟨s1, s2, rfl, h1, h2⟩
      cases s1 with
      | nil => exact h2
      | cons c t => simp [matchClasses] at h1
  | cons r cs ih =>
    cases s with
    | nil =>
      constructor
      · intro h
        simp [matchClasses] at h
      · rintro ⟨s1, s2, h0, h1, _⟩
        cases s1 with
        | nil => simp [matchClasses] at h1
        | cons c t => simp at h0
    | cons c t =>
      rw [List.cons_append, matchClasses, Bool.and_eq_true, ih]
      constructor
      · rintro ⟨hc, s1, s2, rfl, h1, h2⟩
        refine ⟨c :: s1, s2, rfl, ?_, h2⟩
        rw [matchClasses, Bool.and_eq_true]
        exact ⟨hc, h1⟩
      · rintro ⟨s1, s2, h0, h1, h2⟩
        cases s1 with
        | nil => simp [matchClasses] at h1
        | cons c1 t1 =>
          simp only [List.cons_append, List.cons.injEq] at h0
          obtain ⟨rfl, rfl⟩ := h0
          simp only [matchClasses, Bool.and_eq_true] at h1
          exact ⟨h1.1, t1, s2, rfl, h1.2, h2⟩

/-- An expression that is a sequence of classes accepts exactly the strings
that match its classes byte by byte. -/
theorem Regex.accepts_of_classes (r : Regex) (cs : List (List (Char × Char)))
    (h : r.classes = some cs) (s : Str) : r.accepts s = matchClasses cs s := by
  induction r generalizing cs s with
  | empty =>
    simp only [Regex.classes, Option.some.injEq] at h
    subst h
    cases s <;> simp [Regex.accepts, matchClasses]
  | cls ranges =>
    simp only [Regex.classes, Option.some.injEq] at h
    subst h
    rcases s with _ | ⟨c, _ | ⟨d, t⟩⟩ <;> simp [Regex.accepts, matchClasses]
  | seq a b iha ihb =>
    simp only [Regex.classes] at h
    cases ha : a.classes with
    | none => simp [ha] at h
    | some x =>
      cases hb : b.classes with
      | none => simp [ha, hb] at h
      | some y =>
        simp only [ha, hb, Option.some.injEq] at h
        subst h
        rw [Bool.eq_iff_iff, Regex.accepts_seq_iff, matchClasses_append]
        constructor
        · rintro ⟨s1, s2, h0, h1, h2⟩
          exact ⟨s1, s2, h0, (iha x ha s1) ▸ h1, (ihb y hb s2) ▸ h2⟩
        · rintro ⟨s1, s2, h0, h1, h2⟩
          exact ⟨s1, s2, h0, (iha x ha s1).symm ▸ h1, (ihb y hb s2).symm ▸ h2⟩
  | alt a b _ _ => simp [Regex.classes] at h
  | plus ranges => simp [Regex.classes] at h

theorem matchClasses_iff_getD (cs : List (List (Char × Char))) (s : Str) :
    matchClasses cs s = true
      ↔ s.length = cs.length ∧ ∀ i, i < cs.length → inClass (cs.getD i []) (s.getD i 0) = true := by
  induction cs generalizing s with
  | nil =>
    cases s with
    | nil => simp [matchClasses]
    | cons c t => simp [matchClasses]
  | cons r cs ih =>
    cases s with
    | nil => simp [matchClasses]
    | cons c t =>
      simp only [matchClasses, Bool.and_eq_true, ih, List.length_cons, Nat.add_right_cancel_iff]
      constructor
      · rintro ⟨hc, hl, hall⟩
        refine ⟨hl, ?_⟩
        intro i hi
        cases i with
        | zero => simpa using hc
        | succ j =>
          have := hall j (by omega)
          simpa using this
      · rintro ⟨hl, hall⟩
        refine ⟨?_, hl, ?_⟩
        · have := hall 0 (by omega)
          simpa using this
        · intro i hi
          have := hall (i + 1) (by omega)
          simpa using this

/-! ## Theorems: ISBN -/

theorem Regex.accepts_alt (a b : Regex) (s : Str) :
    (Regex.alt a b).accepts s = (a.accepts s || b.accepts s) := rfl

theorem stdlib_MatchString_isbn10 (base : Env) (s : Str) :
    (stdlib base).MatchString (bytes "^(?:[0-9]\x7b9\x7dX|[0-9]\x7b10\x7d)$") s
      = (matchClasses (List.replicate 9 [('0', '9')] ++ [[('X', 'X')]]) s
          || matchClasses (List.replicate 10 [('0', '9')]) s) := by
  have h : GoMap.lookupIn (bytes "^(?:[0-9]\x7b9\x7dX|[0-9]\x7b10\x7d)$") regexpTable
      = some (.alt (.seq (Regex.rep 9 Regex.digit) (Regex.chr 'X')) (Regex.rep 10 Regex.digit)) := by
    rfl
  simp only [stdlib, regexpMatchString, h]
  rw [Regex.accepts_alt, Regex.accepts_of_classes _ _ (by rfl),
    Regex.accepts_of_classes (Regex.rep 10 Regex.digit) _ (by rfl)]
  rfl

theorem stdlib_MatchString_isbn13 (base : Env) (s : Str) :
    (stdlib base).MatchString (bytes "^(?:[0-9]\x7b13\x7d)$") s
      = matchClasses (List.replicate 13 [('0', '9')]) s := by
  have h : GoMap.lookupIn (bytes "^(?:[0-9]\x7b13\x7d)$") regexpTable
      = some (Regex.rep 13 Regex.digit) := by
    rfl
  simp only [stdlib, regexpMatchString, h]
  rw [Regex.accepts_of_classes _ _ (by rfl)]
  rfl

theorem inClass_digit (c : Nat) : inClass [('0', '9')] c = isDigit c := by
  simp [inClass, isDigit]

theorem inClass_X (c : Nat) : inClass [('X', 'X')] c = (c == 88) := by
  rw [Bool.eq_iff_iff]
  simp [inClass]
  omega

theorem isbn10Form_eq_matchClasses (s : Str) :
    (matchClasses (List.replicate 9 [('0', '9')] ++ [[('X', 'X')]]) s
        || matchClasses (List.replicate 10 [('0', '9')]) s) = isbn10Form s := by
  rcases s with _ | ⟨a0, _ | ⟨a1, _ | ⟨a2, _ | ⟨a3, _ | ⟨a4, _ | ⟨a5, _ | ⟨a6, _ | ⟨a7, _ | ⟨a8, _ | ⟨a9, _ | ⟨a10, t⟩⟩⟩⟩⟩⟩⟩⟩⟩⟩⟩
  all_goals
    simp only [List.replicate, List.cons_append, List.nil_append, matchClasses, inClass_digit,
      inClass_X, isbn10Form, List.length_cons, List.length_nil, List.take, List.all_cons,
      List.all_nil, List.getD_cons_succ, List.getD_cons_zero, List.getD_nil]
    rw [Bool.eq_iff_iff]
    simp
  all_goals first | omega | tauto

theorem byteSub_digit (a : Nat) (h : 48 ≤ a ∧ a ≤ 57) : byteSub a 48 = a - 48 := by
  unfold byteSub
  omega

theorem u32_small (n : Nat) (h : n ≤ 100000) : u32 n = n := by
  unfold u32
  omega

theorem isbn10_pass_iff (base : Env) (v : Str) (rest : List Str) (msgs : Messages)
    (hv : v ≠ []) :
    ((ISBN10 (stdlib base)).Validate (v :: rest) msgs).1 = none
      ↔ (isbn10Form (removeSpacesHyphens v) = true
          ∧ isbn10Sum (removeSpacesHyphens v) % 11 = 0) := by
  have h1 := length_ne_zero_of_ne_nil v hv
  simp only [ISBN10, isbn10.Validate, getFirstKey, h1, if_false, stdlib_MatchString_isbn10,
    isbn10Form_eq_matchClasses]
  generalize removeSpacesHyphens v = s
  by_cases hf : isbn10Form s = true
  · rcases s with _ | ⟨a0, _ | ⟨a1, _ | ⟨a2, _ | ⟨a3, _ | ⟨a4, _ | ⟨a5, _ | ⟨a6, _ | ⟨a7, _ | ⟨a8, _ | ⟨a9, _ | ⟨a10, t⟩⟩⟩⟩⟩⟩⟩⟩⟩⟩⟩
    all_goals try (simp [isbn10Form] at hf)
    simp only [isbn10Form, List.length_cons, List.length_nil, List.take, List.all_cons,
      List.all_nil, List.getD_cons_succ, List.getD_cons_zero, isDigit, Bool.and_eq_true,
      Bool.or_eq_true, decide_eq_true_eq, beq_iff_eq, Bool.and_true] at hf
    obtain ⟨⟨d0, d1, d2, d3, d4, d5, d6, d7, d8l, d8r⟩, d9⟩ := hf
    have d8 : 48 ≤ a8 ∧ a8 ≤ 57 := ⟨d8l, d8r⟩
    have hform : isbn10Form [a0, a1, a2, a3, a4, a5, a6, a7, a8, a9] = true := by
      simp [isbn10Form, isDigit]
      omega
    simp only [hform, Bool.true_eq_false, if_false, true_and]
    simp only [isbn10.loop, List.getD_cons_succ, List.getD_cons_zero, isbn10Sum,
      weightedDigitSum, List.zipWith, List.sum_cons, List.sum_nil,
      byteSub_digit a0 d0, byteSub_digit a1 d1, byteSub_digit a2 d2, byteSub_digit a3 d3,
      byteSub_digit a4 d4, byteSub_digit a5 d5, byteSub_digit a6 d6, byteSub_digit a7 d7,
      byteSub_digit a8 d8]
    by_cases h88 : a9 = 88
    · simp only [h88, if_true]
      simp (disch := omega) only [u32_small]
      split_ifs with hc
      · simp only [true_iff]
        omega
      · simp only [false_iff, reduceCtorEq]
        omega
    · have d9' : 48 ≤ a9 ∧ a9 ≤ 57 := by omega
      simp only [h88, if_false, byteSub_digit a9 d9']
      simp (disch := omega) only [u32_small]
      split_ifs with hc
      · simp only [true_iff]
        omega
      · simp only [false_iff, reduceCtorEq]
        omega
  · have hf' : isbn10Form s = false := by simpa using hf
    simp [hf']

theorem isbn13Form_eq_matchClasses (s : Str) :
    matchClasses (List.replicate 13 [('0', '9')]) s = isbn13Form s := by
  rcases s with _ | ⟨a0, _ | ⟨a1, _ | ⟨a2, _ | ⟨a3, _ | ⟨a4, _ | ⟨a5, _ | ⟨a6, _ | ⟨a7, _ | ⟨a8, _ | ⟨a9, _ | ⟨a10, _ | ⟨a11, _ | ⟨a12, _ | ⟨a13, t⟩⟩⟩⟩⟩⟩⟩⟩⟩⟩⟩⟩⟩⟩
  all_goals
    simp only [List.replicate, matchClasses, inClass_digit, isbn13Form, List.length_cons,
      List.length_nil, List.all_cons, List.all_nil]
    rw [Bool.eq_iff_iff]
    simp

/-- On thirteen digits the check of `isbn13.Validate`, an unsigned 32-bit
subtraction compared with zero, holds exactly when the last digit is the check
digit of the first twelve. -/
theorem isbn13_check_iff (s : Str) (hf : isbn13Form s = true) :
    u32 (byteSub (s.getD 12 0) 48 + 2 ^ 32 - (10 - isbn13.loop s 12 0 0 % 10) % 10) = 0
      ↔ s.getD 12 0 - 48 = (10 - isbn13Sum s % 10) % 10 := by
  rcases s with _ | ⟨a0, _ | ⟨a1, _ | ⟨a2, _ | ⟨a3, _ | ⟨a4, _ | ⟨a5, _ | ⟨a6, _ | ⟨a7, _ | ⟨a8, _ | ⟨a9, _ | ⟨a10, _ | ⟨a11, _ | ⟨a12, _ | ⟨a13, t⟩⟩⟩⟩⟩⟩⟩⟩⟩⟩⟩⟩⟩⟩
  all_goals try (simp [isbn13Form] at hf)
  simp only [isbn13Form, List.length_cons, List.length_nil, List.all_cons,
    List.all_nil, isDigit, Bool.and_eq_true, decide_eq_true_eq, beq_iff_eq,
    Bool.and_true] at hf
  obtain ⟨d0, d1, d2, d3, d4, d5, d6, d7, d8, d9, d10, d11, d12l, d12r⟩ := hf
  have d12 : 48 ≤ a12 ∧ a12 ≤ 57 := ⟨d12l, d12r⟩
  simp only [isbn13.loop, List.getD_cons_succ, List.getD_cons_zero, isbn13Sum,
    weightedDigitSum, List.zipWith, List.sum_cons, List.sum_nil,
    byteSub_digit a0 d0, byteSub_digit a1 d1, byteSub_digit a2 d2, byteSub_digit a3 d3,
    byteSub_digit a4 d4, byteSub_digit a5 d5, byteSub_digit a6 d6, byteSub_digit a7 d7,
    byteSub_digit a8 d8, byteSub_digit a9 d9, byteSub_digit a10 d10,
    byteSub_digit a11 d11, byteSub_digit a12 d12]
  simp only [Nat.zero_add, Nat.reduceAdd, Nat.reduceMod, List.getD_cons_zero,
    List.getD_cons_succ, Nat.zero_mod]
  simp (disch := omega) only [u32_small]
  simp only [u32, Nat.reducePow]
  omega

theorem isbn13_pass_iff (base : Env) (v : Str) (rest : List Str) (msgs : Messages)
    (hv : v ≠ []) :
    ((ISBN13 (stdlib base)).Validate (v :: rest) msgs).1 = none
      ↔ (isbn13Form (removeSpacesHyphens v) = true
          ∧ (removeSpacesHyphens v).getD 12 0 - 48
              = (10 - isbn13Sum (removeSpacesHyphens v) % 10) % 10) := by
  have h1 := length_ne_zero_of_ne_nil v hv
  simp only [ISBN13, isbn13.Validate, getFirstKey, h1, if_false, stdlib_MatchString_isbn13,
    isbn13Form_eq_matchClasses]
  by_cases hf : isbn13Form (removeSpacesHyphens v) = true
  · have hc := isbn13_check_iff _ hf
    simp only [hf, Bool.true_eq_false, if_false, true_and]
    split_ifs with h0
    · exact ⟨fun _ => hc.mp h0, fun _ => rfl⟩
    · constructor
      · intro h; cases h
      · intro h; exact absurd (hc.mpr h) h0
  · have hf' : isbn13Form (removeSpacesHyphens v) = false := by simpa using hf
    simp [hf']

theorem isbn13_total_iff (s : Str) (hf : isbn13Form s = true) :
    s.getD 12 0 - 48 = (10 - isbn13Sum s % 10) % 10 ↔ isbn13Total s % 10 = 0 := by
  rcases s with _ | ⟨a0, _ | ⟨a1, _ | ⟨a2, _ | ⟨a3, _ | ⟨a4, _ | ⟨a5, _ | ⟨a6, _ | ⟨a7, _ | ⟨a8, _ | ⟨a9, _ | ⟨a10, _ | ⟨a11, _ | ⟨a12, _ | ⟨a13, t⟩⟩⟩⟩⟩⟩⟩⟩⟩⟩⟩⟩⟩⟩
  all_goals try (simp [isbn13Form] at hf)
  simp only [isbn13Form, List.length_cons, List.length_nil, List.all_cons,
    List.all_nil, isDigit, Bool.and_eq_true, decide_eq_true_eq, beq_iff_eq,
    Bool.and_true] at hf
  simp only [List.getD_cons_succ, List.getD_cons_zero, isbn13Sum, isbn13Total,
    weightedDigitSum, List.zipWith, List.sum_cons, List.sum_nil]
  omega

theorem removeSpacesHyphens_of_digits (s : Str) (h : s.all isDigit = true) :
    removeSpacesHyphens s = s := by
  unfold removeSpacesHyphens
  rw [List.filter_eq_self]
  intro a ha
  have hd := List.all_eq_true.mp h a ha
  simp only [isDigit, Bool.and_eq_true, decide_eq_true_eq] at hd
  simp only [bne_iff_ne, ne_eq, Bool.and_eq_true]
  omega

theorem isbn_dispatch (env : Env) (x : Str) (rest : List Str) (msgs : Messages)
    (hx : x ≠ []) :
    ((removeSpacesHyphens x).length = 10 →
        (ISBN env).Validate (x :: rest) msgs = (ISBN10 env).Validate (x :: rest) msgs)
      ∧ ((removeSpacesHyphens x).length = 13 →
        (ISBN env).Validate (x :: rest) msgs = (ISBN13 env).Validate (x :: rest) msgs) := by
  have h1 := length_ne_zero_of_ne_nil x hx
  refine ⟨?_, ?_⟩
  · intro h
    simp [ISBN, isbn.Validate, getFirstKey, h1, h]
  · intro h
    simp [ISBN, isbn.Validate, getFirstKey, h1, h]

theorem isbn13_append_digit_sum (p : Str) (d : Nat) (hp : p.length = 12)
    (hd : isDigit d = true) :
    (p ++ [d]).getD 12 0 - 48 = (10 - isbn13Sum (p ++ [d]) % 10) % 10
      ↔ d = 48 + (10 - isbn13Sum p % 10) % 10 := by
  have hs : isbn13Sum (p ++ [d]) = isbn13Sum p := by
    rcases p with _ | ⟨a0, _ | ⟨a1, _ | ⟨a2, _ | ⟨a3, _ | ⟨a4, _ | ⟨a5, _ | ⟨a6, _ | ⟨a7, _ | ⟨a8, _ | ⟨a9, _ | ⟨a10, _ | ⟨a11, _ | ⟨a12, t⟩⟩⟩⟩⟩⟩⟩⟩⟩⟩⟩⟩⟩
    all_goals try (simp at hp)
    rfl
  have hg : (p ++ [d]).getD 12 0 = d := by
    rcases p with _ | ⟨a0, _ | ⟨a1, _ | ⟨a2, _ | ⟨a3, _ | ⟨a4, _ | ⟨a5, _ | ⟨a6, _ | ⟨a7, _ | ⟨a8, _ | ⟨a9, _ | ⟨a10, _ | ⟨a11, _ | ⟨a12, t⟩⟩⟩⟩⟩⟩⟩⟩⟩⟩⟩⟩⟩
    all_goals try (simp at hp)
    rfl
  rw [hs, hg]
  simp only [isDigit, Bool.and_eq_true, decide_eq_true_eq] at hd
  omega

theorem isbn13_append_digit (base : Env) (p : Str) (d : Nat) (msgs : Messages)
    (hp : p.length = 12) (hpd : p.all isDigit = true) (hd : isDigit d = true) :
    (((ISBN13 (stdlib base)).Validate [p ++ [d]] msgs).1 = none
        ↔ d = 48 + (10 - isbn13Sum p % 10) % 10)
      ∧ (ISBN (stdlib base)).Validate [p ++ [d]] msgs
          = (ISBN13 (stdlib base)).Validate [p ++ [d]] msgs := by
  have hall : (p ++ [d]).all isDigit = true := by
    simp only [List.all_append, List.all_cons, List.all_nil, Bool.and_true, hpd, hd,
      Bool.and_self]
  have hne : p ++ [d] ≠ [] := by simp
  have hrsh := removeSpacesHyphens_of_digits _ hall
  have hlen : (p ++ [d]).length = 13 := by simp [hp]
  refine ⟨?_, ?_⟩
  · rw [isbn13_pass_iff base _ [] msgs hne, hrsh]
    have hform : isbn13Form (p ++ [d]) = true := by
      simp only [isbn13Form, hlen, hall, beq_self_eq_true, Bool.and_self]
    simp only [hform, true_and]
    exact isbn13_append_digit_sum p d hp hd
  · exact (isbn_dispatch (stdlib base) (p ++ [d]) [] msgs hne).2 (by rw [hrsh]; exact hlen)

/-- C12: `ISBN10` passes a non-empty value exactly when the value without its
spaces and hyphens is nine ASCII digits followed by a digit or `X` and
`1·d1 + 2·d2 + … + 9·d9 + 10·c` is divisible by 11, `c` being 10 for a final
`X` and the value of the last digit otherwise. -/
theorem C12_isbn10_passes_iff_checksum (base : Env) (v : Str) (rest : List Str)
    (msgs : Messages) (hv : v ≠ []) :
    ((ISBN10 (stdlib base)).Validate (v :: rest) msgs).1 = none
      ↔ (isbn10Form (removeSpacesHyphens v) = true
          ∧ isbn10Sum (removeSpacesHyphens v) % 11 = 0) :=
  isbn10_pass_iff base v rest msgs hv

theorem C12_isbn10_passes_iff_checksum_witness :
    bytes "3 401 01319 X" ≠ []
      ∧ (((ISBN10 (stdlib trivialEnv)).Validate (bytes "3 401 01319 X" :: []) defaultErrors).1
            = none
          ↔ (isbn10Form (removeSpacesHyphens (bytes "3 401 01319 X")) = true
              ∧ isbn10Sum (removeSpacesHyphens (bytes "3 401 01319 X")) % 11 = 0)) :=
  ⟨by decide,
   C12_isbn10_passes_iff_checksum trivialEnv (bytes "3 401 01319 X") [] defaultErrors
     (by decide)⟩

/-- C13: `ISBN13` passes a non-empty value exactly when the value without its
spaces and hyphens is thirteen ASCII digits whose last digit is
`(10 - (s mod 10)) mod 10` for `s = d1 + 3·d2 + d3 + … + 3·d12`; that is,
exactly when the sum of all thirteen digits with the weights 1, 3, 1, 3, …, 1
is divisible by 10. The unsigned 32-bit subtraction of two digits is zero
exactly when they are equal. -/
theorem C13_isbn13_passes_iff_checksum (base : Env) (v : Str) (rest : List Str)
    (msgs : Messages) (hv : v ≠ []) :
    (((ISBN13 (stdlib base)).Validate (v :: rest) msgs).1 = none
        ↔ (isbn13Form (removeSpacesHyphens v) = true
            ∧ (removeSpacesHyphens v).getD 12 0 - 48
                = (10 - isbn13Sum (removeSpacesHyphens v) % 10) % 10))
      ∧ (((ISBN13 (stdlib base)).Validate (v :: rest) msgs).1 = none
        ↔ (isbn13Form (removeSpacesHyphens v) = true
            ∧ isbn13Total (removeSpacesHyphens v) % 10 = 0))
      ∧ (∀ a b : Nat, a ≤ 9 → b ≤ 9 → (u32 (a + 2 ^ 32 - b) = 0 ↔ a = b)) := by
  have h := isbn13_pass_iff base v rest msgs hv
  refine ⟨h, ?_, ?_⟩
  · rw [h]
    constructor
    · rintro ⟨hf, hd⟩
      exact ⟨hf, (isbn13_total_iff _ hf).mp hd⟩
    · rintro ⟨hf, ht⟩
      exact ⟨hf, (isbn13_total_iff _ hf).mpr ht⟩
  · intro a b ha hb
    simp only [u32, Nat.reducePow]
    omega

theorem C13_isbn13_passes_iff_checksum_witness :
    bytes "978-3-8362-2119-1" ≠ []
      ∧ ((((ISBN13 (stdlib trivialEnv)).Validate (bytes "978-3-8362-2119-1" :: [])
              defaultErrors).1 = none
          ↔ (isbn13Form (removeSpacesHyphens (bytes "978-3-8362-2119-1")) = true
              ∧ (removeSpacesHyphens (bytes "978-3-8362-2119-1")).getD 12 0 - 48
                  = (10 - isbn13Sum (removeSpacesHyphens (bytes "978-3-8362-2119-1")) % 10)
                      % 10))
        ∧ (((ISBN13 (stdlib trivialEnv)).Validate (bytes "978-3-8362-2119-1" :: [])
              defaultErrors).1 = none
          ↔ (isbn13Form (removeSpacesHyphens (bytes "978-3-8362-2119-1")) = true
              ∧ isbn13Total (removeSpacesHyphens (bytes "978-3-8362-2119-1")) % 10 = 0))
        ∧ (∀ a b : Nat, a ≤ 9 → b ≤ 9 → (u32 (a + 2 ^ 32 - b) = 0 ↔ a = b))) :=
  ⟨by decide,
   C13_isbn13_passes_iff_checksum trivialEnv (bytes "978-3-8362-2119-1") [] defaultErrors
     (by decide)⟩

theorem isbn13_fail_shape (base : Env) (fields : List Str) (msgs : Messages)
    (h : ((ISBN13 (stdlib base)).Validate fields msgs).1 ≠ none) :
    (ISBN13 (stdlib base)).Validate fields msgs = (some (msgs.msg "isbn"), []) := by
  rcases hr : (ISBN13 (stdlib base)).Validate fields msgs with ⟨err, data⟩
  rw [hr] at h
  cases err with
  | none => exact absurd rfl h
  | some err =>
    have hs := Catalogue.failure_shape (stdlib base) .isbn13 fields msgs err data hr
    simp only [Catalogue.failures, List.mem_singleton, exists_eq_left] at hs
    rw [hs.1, hs.2]

/-- C14: for every string of twelve ASCII digits exactly one final digit makes
`ISBN13` pass the thirteen-digit string, and exactly one makes `ISBN` pass it;
`"978-3-8362-2119-1"` passes both and `"978-3-8362-2119-2"`, which differs in
the check digit only, fails both with the `isbn` message. -/
theorem C14_isbn13_unique_check_digit (base : Env) (p : Str) (msgs : Messages)
    (hp : p.length = 12) (hpd : p.all isDigit = true) :
    (∃! d, isDigit d = true ∧ ((ISBN13 (stdlib base)).Validate [p ++ [d]] msgs).1 = none)
      ∧ (∃! d, isDigit d = true ∧ ((ISBN (stdlib base)).Validate [p ++ [d]] msgs).1 = none)
      ∧ ((ISBN13 (stdlib base)).Validate [bytes "978-3-8362-2119-1"] msgs).1 = none
      ∧ ((ISBN (stdlib base)).Validate [bytes "978-3-8362-2119-1"] msgs).1 = none
      ∧ (ISBN13 (stdlib base)).Validate [bytes "978-3-8362-2119-2"] msgs
          = (some (msgs.msg "isbn"), [])
      ∧ (ISBN (stdlib base)).Validate [bytes "978-3-8362-2119-2"] msgs
          = (some (msgs.msg "isbn"), []) := by
  have hdig : isDigit (48 + (10 - isbn13Sum p % 10) % 10) = true := by
    simp only [isDigit, Bool.and_eq_true, decide_eq_true_eq]
    omega
  have h13 : ∃! d, isDigit d = true
      ∧ ((ISBN13 (stdlib base)).Validate [p ++ [d]] msgs).1 = none := by
    refine ⟨48 + (10 - isbn13Sum p % 10) % 10, ⟨hdig, ?_⟩, ?_⟩
    · exact (isbn13_append_digit base p _ msgs hp hpd hdig).1.mpr rfl
    · rintro d ⟨hd, hpass⟩
      exact (isbn13_append_digit base p d msgs hp hpd hd).1.mp hpass
  have hgood : ((ISBN13 (stdlib base)).Validate [bytes "978-3-8362-2119-1"] msgs).1 = none :=
    (isbn13_pass_iff base _ [] msgs (by decide)).mpr (by decide)
  have hbad : (ISBN13 (stdlib base)).Validate [bytes "978-3-8362-2119-2"] msgs
      = (some (msgs.msg "isbn"), []) := by
    apply isbn13_fail_shape
    intro hpass
    have := (isbn13_pass_iff base _ [] msgs (by decide)).mp hpass
    revert this
    decide
  refine ⟨h13, ?_, hgood, ?_, hbad, ?_⟩
  · refine ⟨48 + (10 - isbn13Sum p % 10) % 10, ⟨hdig, ?_⟩, ?_⟩
    · rw [(isbn13_append_digit base p _ msgs hp hpd hdig).2]
      exact (isbn13_append_digit base p _ msgs hp hpd hdig).1.mpr rfl
    · rintro d ⟨hd, hpass⟩
      rw [(isbn13_append_digit base p d msgs hp hpd hd).2] at hpass
      exact (isbn13_append_digit base p d msgs hp hpd hd).1.mp hpass
  · rw [(isbn_dispatch (stdlib base) (bytes "978-3-8362-2119-1") [] msgs (by decide)).2
      (by decide)]
    exact hgood
  · rw [(isbn_dispatch (stdlib base) (bytes "978-3-8362-2119-2") [] msgs (by decide)).2
      (by decide)]
    exact hbad

theorem C14_isbn13_unique_check_digit_witness :
    (bytes "978383622119").length = 12 ∧ (bytes "978383622119").all isDigit = true
      ∧ ((∃! d, isDigit d = true
            ∧ ((ISBN13 (stdlib trivialEnv)).Validate [bytes "978383622119" ++ [d]]
                defaultErrors).1 = none)
        ∧ (∃! d, isDigit d = true
            ∧ ((ISBN (stdlib trivialEnv)).Validate [bytes "978383622119" ++ [d]]
                defaultErrors).1 = none)
        ∧ ((ISBN13 (stdlib trivialEnv)).Validate [bytes "978-3-8362-2119-1"] defaultErrors).1
            = none
        ∧ ((ISBN (stdlib trivialEnv)).Validate [bytes "978-3-8362-2119-1"] defaultErrors).1
            = none
        ∧ (ISBN13 (stdlib trivialEnv)).Validate [bytes "978-3-8362-2119-2"] defaultErrors
            = (some (defaultErrors.msg "isbn"), [])
        ∧ (ISBN (stdlib trivialEnv)).Validate [bytes "978-3-8362-2119-2"] defaultErrors
            = (some (defaultErrors.msg "isbn"), [])) :=
  ⟨by decide, by decide,
   C14_isbn13_unique_check_digit trivialEnv (bytes "978383622119") defaultErrors
     (by decide) (by decide)⟩

/-! ## Theorems: UUID -/

theorem inClass_hex (c : Nat) : inClass [('0', '9'), ('a', 'f')] c = isHexLower c := by
  simp [inClass, isHexLower]

theorem inClass_dash (c : Nat) : inClass [('-', '-')] c = (c == 45) := by
  rw [Bool.eq_iff_iff]
  simp [inClass]
  omega

theorem uuidClasses_getD (third fourth : List (Char × Char)) (i : Nat) (hi : i < 36) :
    (uuidClasses third fourth).getD i []
      = if i = 8 ∨ i = 13 ∨ i = 18 ∨ i = 23 then [('-', '-')]
        else if i = 14 then third
        else if i = 19 then fourth
        else [('0', '9'), ('a', 'f')] := by
  interval_cases i <;> rfl

theorem uuidClasses_length (third fourth : List (Char × Char)) :
    (uuidClasses third fourth).length = 36 := rfl

theorem matchClasses_uuid_iff (third fourth : List (Char × Char)) (s : Str)
    (h3 : ∀ c, inClass third c = true → isHexLower c = true)
    (h4 : ∀ c, inClass fourth c = true → isHexLower c = true) :
    matchClasses (uuidClasses third fourth) s = true
      ↔ (uuidForm s = true ∧ inClass third (s.getD 14 0) = true
          ∧ inClass fourth (s.getD 19 0) = true) := by
  rw [matchClasses_iff_getD, uuidClasses_length]
  simp only [uuidForm, Bool.and_eq_true, beq_iff_eq, List.all_eq_true, List.mem_range]
  constructor
  · rintro ⟨hl, hall⟩
    have e14 := hall 14 (by omega)
    have e19 := hall 19 (by omega)
    rw [uuidClasses_getD _ _ 14 (by omega)] at e14
    rw [uuidClasses_getD _ _ 19 (by omega)] at e19
    simp only [Nat.reduceEqDiff, or_self, if_false, if_true] at e14 e19
    refine ⟨⟨hl, ?_⟩, e14, e19⟩
    intro i hi
    have hc := hall i hi
    rw [uuidClasses_getD _ _ i hi] at hc
    by_cases hd : i = 8 ∨ i = 13 ∨ i = 18 ∨ i = 23
    · rw [if_pos hd] at hc ⊢
      rw [inClass_dash] at hc
      exact hc
    · rw [if_neg hd] at hc ⊢
      by_cases h14 : i = 14
      · rw [if_pos h14] at hc
        exact h3 _ hc
      · rw [if_neg h14] at hc
        by_cases h19 : i = 19
        · rw [if_pos h19] at hc
          exact h4 _ hc
        · rw [if_neg h19, inClass_hex] at hc
          exact hc
  · rintro ⟨⟨hl, hall⟩, e14, e19⟩
    refine ⟨hl, ?_⟩
    intro i hi
    have hc := hall i hi
    rw [uuidClasses_getD _ _ i hi]
    by_cases hd : i = 8 ∨ i = 13 ∨ i = 18 ∨ i = 23
    · rw [if_pos hd] at hc ⊢
      rw [inClass_dash]
      exact hc
    · rw [if_neg hd] at hc ⊢
      by_cases h14 : i = 14
      · rw [if_pos h14, h14]
        exact e14
      · rw [if_neg h14]
        by_cases h19 : i = 19
        · rw [if_pos h19, h19]
          exact e19
        · rw [if_neg h19, inClass_hex]
          exact hc

theorem stdlib_MatchString_uuid (base : Env) (version : Nat) (s : Str) :
    (stdlib base).MatchString (isUUID.regex version) s
      = matchClasses (uuidClasses (uuidThird version) (uuidFourth version)) s := by
  by_cases h3 : version = 3
  · subst h3
    have h : GoMap.lookupIn (isUUID.regex 3) regexpTable
        = some (Regex.uuid (Regex.chr '3') Regex.hex) := by rfl
    simp only [stdlib, regexpMatchString, h]
    rw [Regex.accepts_of_classes _ _ (by rfl)]
    rfl
  · by_cases h4 : version = 4
    · subst h4
      have h : GoMap.lookupIn (isUUID.regex 4) regexpTable
          = some (Regex.uuid (Regex.chr '4') (.cls [('8', '9'), ('a', 'b')])) := by rfl
      simp only [stdlib, regexpMatchString, h]
      rw [Regex.accepts_of_classes _ _ (by rfl)]
      rfl
    · by_cases h5 : version = 5
      · subst h5
        have h : GoMap.lookupIn (isUUID.regex 5) regexpTable
            = some (Regex.uuid (Regex.chr '5') (.cls [('8', '9'), ('a', 'b')])) := by rfl
        simp only [stdlib, regexpMatchString, h]
        rw [Regex.accepts_of_classes _ _ (by rfl)]
        rfl
      · have hr : isUUID.regex version = isUUID.regex 0 := by
          simp [isUUID.regex, h3, h4, h5]
        have ht : uuidThird version = [('0', '9'), ('a', 'f')] := by
          simp [uuidThird, h3, h4, h5]
        have hf : uuidFourth version = [('0', '9'), ('a', 'f')] := by
          simp [uuidFourth, h4, h5]
        have h : GoMap.lookupIn (isUUID.regex 0) regexpTable
            = some (Regex.uuid Regex.hex Regex.hex) := by rfl
        rw [hr, ht, hf]
        simp only [stdlib, regexpMatchString, h]
        rw [Regex.accepts_of_classes _ _ (by rfl)]
        rfl

theorem uuidForm_hex (s : Str) (h : uuidForm s = true) (i : Nat) (hi : i < 36)
    (hd : ¬ (i = 8 ∨ i = 13 ∨ i = 18 ∨ i = 23)) : isHexLower (s.getD i 0) = true := by
  simp only [uuidForm, Bool.and_eq_true, beq_iff_eq, List.all_eq_true, List.mem_range] at h
  have := h.2 i hi
  rw [if_neg hd] at this
  exact this

theorem uuid_pass_iff (base : Env) (version : Nat) (v : Str) (rest : List Str)
    (msgs : Messages) (hv : v ≠ []) :
    ((IsUUID (stdlib base) version).Validate (v :: rest) msgs).1 = none
      ↔ (uuidForm v = true ∧ uuidVersionForm version v = true) := by
  have h1 := length_ne_zero_of_ne_nil v hv
  have hthird : ∀ c, inClass (uuidThird version) c = true → isHexLower c = true := by
    intro c
    unfold uuidThird
    split_ifs
    all_goals
      simp [inClass, isHexLower]
      try omega
  have hfourth : ∀ c, inClass (uuidFourth version) c = true → isHexLower c = true := by
    intro c
    unfold uuidFourth
    split_ifs
    all_goals
      simp [inClass, isHexLower]
      try omega
  have hm := matchClasses_uuid_iff (uuidThird version) (uuidFourth version) v hthird hfourth
  have hver : uuidForm v = true →
      ((inClass (uuidThird version) (v.getD 14 0) = true
          ∧ inClass (uuidFourth version) (v.getD 19 0) = true)
        ↔ uuidVersionForm version v = true) := by
    intro hform
    have e14 := uuidForm_hex v hform 14 (by omega) (by omega)
    have e19 := uuidForm_hex v hform 19 (by omega) (by omega)
    simp only [isHexLower, Bool.or_eq_true, Bool.and_eq_true, decide_eq_true_eq] at e14 e19
    unfold uuidThird uuidFourth uuidVersionForm
    generalize v.getD 14 0 = c14 at e14 ⊢
    generalize v.getD 19 0 = c19 at e19 ⊢
    split_ifs
    all_goals
      simp [inClass, isVariantChar]
      try omega
  simp only [IsUUID, isUUID.Validate, getFirstKey, h1, if_false, stdlib_MatchString_uuid]
  by_cases hmc : matchClasses (uuidClasses (uuidThird version) (uuidFourth version)) v = true
  · rw [if_pos hmc]
    obtain ⟨hform, h34⟩ := hm.mp hmc
    exact ⟨fun _ => ⟨hform, (hver hform).mp h34⟩, fun _ => rfl⟩
  · rw [if_neg hmc]
    constructor
    · intro h; cases h
    · rintro ⟨hform, hvf⟩
      exact absurd (hm.mpr ⟨hform, (hver hform).mpr hvf⟩) hmc

/-- C18: for every version parameter, `IsUUID` passes a non-empty value exactly
when the value has the UUID form (36 characters: lowercase hexadecimal digits
in groups of 8, 4, 4, 4 and 12 separated by hyphens) and, for version 3, the
third group starts with `3`; for versions 4 and 5, the third group starts with
`4`, respectively `5`, and the fourth group with one of `8`, `9`, `a`, `b`;
any other version adds no constraint. So a value that `IsUUID(3)`, `IsUUID(4)`
or `IsUUID(5)` passes is passed by `IsUUID(0)`, and no non-empty value is
passed by two of them. -/
theorem C18_isUUID_passes_iff_form (base : Env) (version : Nat) (v : Str) (rest : List Str)
    (msgs : Messages) (hv : v ≠ []) :
    (((IsUUID (stdlib base) version).Validate (v :: rest) msgs).1 = none
        ↔ (uuidForm v = true ∧ uuidVersionForm version v = true))
      ∧ (((IsUUID (stdlib base) version).Validate (v :: rest) msgs).1 = none →
          ((IsUUID (stdlib base) 0).Validate (v :: rest) msgs).1 = none)
      ∧ ¬ (((IsUUID (stdlib base) 3).Validate (v :: rest) msgs).1 = none
            ∧ ((IsUUID (stdlib base) 4).Validate (v :: rest) msgs).1 = none)
      ∧ ¬ (((IsUUID (stdlib base) 3).Validate (v :: rest) msgs).1 = none
            ∧ ((IsUUID (stdlib base) 5).Validate (v :: rest) msgs).1 = none)
      ∧ ¬ (((IsUUID (stdlib base) 4).Validate (v :: rest) msgs).1 = none
            ∧ ((IsUUID (stdlib base) 5).Validate (v :: rest) msgs).1 = none) := by
  have h := fun ver => uuid_pass_iff base ver v rest msgs hv
  refine ⟨h version, ?_, ?_, ?_, ?_⟩
  · intro hp
    rw [h 0]
    exact ⟨((h version).mp hp).1, by simp [uuidVersionForm]⟩
  · rintro ⟨h3, h4⟩
    have a := ((h 3).mp h3).2
    have b := ((h 4).mp h4).2
    simp [uuidVersionForm] at a b
    omega
  · rintro ⟨h3, h5⟩
    have a := ((h 3).mp h3).2
    have b := ((h 5).mp h5).2
    simp [uuidVersionForm] at a b
    omega
  · rintro ⟨h4, h5⟩
    have a := ((h 4).mp h4).2
    have b := ((h 5).mp h5).2
    simp [uuidVersionForm] at a b
    omega

theorem C18_isUUID_passes_iff_form_witness :
    bytes "57b73598-8764-4ad0-a76a-679bb6640eb1" ≠ []
      ∧ ((((IsUUID (stdlib trivialEnv) 4).Validate
              (bytes "57b73598-8764-4ad0-a76a-679bb6640eb1" :: []) defaultErrors).1 = none
          ↔ (uuidForm (bytes "57b73598-8764-4ad0-a76a-679bb6640eb1") = true
              ∧ uuidVersionForm 4 (bytes "57b73598-8764-4ad0-a76a-679bb6640eb1") = true))
        ∧ (((IsUUID (stdlib trivialEnv) 4).Validate
              (bytes "57b73598-8764-4ad0-a76a-679bb6640eb1" :: []) defaultErrors).1 = none →
            ((IsUUID (stdlib trivialEnv) 0).Validate
              (bytes "57b73598-8764-4ad0-a76a-679bb6640eb1" :: []) defaultErrors).1 = none)
        ∧ ¬ (((IsUUID (stdlib trivialEnv) 3).Validate
                (bytes "57b73598-8764-4ad0-a76a-679bb6640eb1" :: []) defaultErrors).1 = none
              ∧ ((IsUUID (stdlib trivialEnv) 4).Validate
                (bytes "57b73598-8764-4ad0-a76a-679bb6640eb1" :: []) defaultErrors).1 = none)
        ∧ ¬ (((IsUUID (stdlib trivialEnv) 3).Validate
                (bytes "57b73598-8764-4ad0-a76a-679bb6640eb1" :: []) defaultErrors).1 = none
              ∧ ((IsUUID (stdlib trivialEnv) 5).Validate
                (bytes "57b73598-8764-4ad0-a76a-679bb6640eb1" :: []) defaultErrors).1 = none)
        ∧ ¬ (((IsUUID (stdlib trivialEnv) 4).Validate
                (bytes "57b73598-8764-4ad0-a76a-679bb6640eb1" :: []) defaultErrors).1 = none
              ∧ ((IsUUID (stdlib trivialEnv) 5).Validate
                (bytes "57b73598-8764-4ad0-a76a-679bb6640eb1" :: []) defaultErrors).1 = none)) :=
  ⟨by decide,
   C18_isUUID_passes_iff_form trivialEnv 4 (bytes "57b73598-8764-4ad0-a76a-679bb6640eb1") []
     defaultErrors (by decide)⟩

/-! ## Theorems: dates and times -/

theorem stdlib_timeParse_date (base : Env) (v : Str) :
    (stdlib base).timeParse (bytes "02-01-2006") v
      = time.Parse [.stdZeroDay, .lit (bytes "-"), .stdZeroMonth, .lit (bytes "-"),
          .stdLongYear] v := by
  have h : GoMap.lookupIn (bytes "02-01-2006") layoutTable
      = some [.stdZeroDay, .lit (bytes "-"), .stdZeroMonth, .lit (bytes "-"),
          .stdLongYear] := by rfl
  simp only [stdlib, timeParse, h]

theorem daysIn_eq_monthLength (m y : Nat) (h1 : 1 ≤ m) (h12 : m ≤ 12) :
    time.daysIn m y = monthLength y m := by
  interval_cases m <;> simp [time.daysIn, time.daysBefore, monthLength, time.isLeap, leapYear]

theorem dash_bytes : bytes "-" = [45] := by decide

theorem colon_bytes : bytes ":" = [58] := by decide

theorem time.getnum_length (s : Str) (fixed : Bool) (n : Nat) (r : Str)
    (h : time.getnum s fixed = some (n, r)) :
    s.length = r.length + 2 ∨ (fixed = false ∧ s.length = r.length + 1) := by
  rcases s with _ | ⟨a, _ | ⟨b, t⟩⟩
  · simp [time.getnum] at h
  · cases fixed <;> cases ha : isDigit a <;> simp [time.getnum, ha] at h
    simp [← h.2]
  · cases fixed <;> cases ha : isDigit a <;> cases hb : isDigit b <;>
      simp [time.getnum, ha, hb] at h
    all_goals simp [← h.2]

theorem time.getnum_fixed_length (s : Str) (n : Nat) (r : Str)
    (h : time.getnum s true = some (n, r)) : s.length = r.length + 2 := by
  rcases time.getnum_length s true n r h with h2 | h2
  · exact h2
  · simp at h2

theorem time.skip_single (value : Str) (c : Nat) (hc : c ≠ 32) (r : Str) :
    time.skip value [c] = some r ↔ value = c :: r := by
  rcases value with _ | ⟨a, t⟩
  · simp [time.skip, time.skipFrom, hc]
  · by_cases h : a = c
    · simp [time.skip, time.skipFrom, hc, h]
    · simp [time.skip, time.skipFrom, hc, h]

theorem time.parseStd_lit_length (value : Str) (c : Nat) (hc : c ≠ 32) (f : TimeFields)
    (r : Str) (g : TimeFields) (h : time.parseStd (.lit [c]) value f = some (r, g)) :
    value.length = r.length + 1 := by
  simp only [time.parseStd, Option.map_eq_some', Prod.mk.injEq] at h
  obtain ⟨a, ha, rfl, -⟩ := h
  rw [(time.skip_single value c hc a).1 ha]
  simp

theorem time.parseStd_day_length (value : Str) (f : TimeFields)
    (r : Str) (g : TimeFields) (h : time.parseStd .stdZeroDay value f = some (r, g)) :
    value.length = r.length + 2 := by
  simp only [time.parseStd] at h
  split at h
  · simp at h
  · next day rest hg =>
    simp only [Option.some.injEq, Prod.mk.injEq] at h
    rw [← h.1]
    exact time.getnum_fixed_length _ _ _ hg

theorem time.parseStd_month_length (value : Str) (f : TimeFields)
    (r : Str) (g : TimeFields) (h : time.parseStd .stdZeroMonth value f = some (r, g)) :
    value.length = r.length + 2 := by
  simp only [time.parseStd] at h
  split at h
  · simp at h
  · next month rest hg =>
    split at h
    · simp at h
    · simp only [Option.some.injEq, Prod.mk.injEq] at h
      rw [← h.1]
      exact time.getnum_fixed_length _ _ _ hg

theorem time.parseStd_year_length (value : Str) (f : TimeFields)
    (r : Str) (g : TimeFields) (h : time.parseStd .stdLongYear value f = some (r, g)) :
    value.length = r.length + 4 := by
  simp only [time.parseStd] at h
  split at h
  · simp at h
  · next hlen =>
    split at h
    · simp only [Option.some.injEq, Prod.mk.injEq] at h
      rw [← h.1]
      simp only [List.length_drop]
      have : ¬ value.length < 4 := fun hc => hlen (Or.inl hc)
      omega
    · simp at h

theorem time_parseChunks_date_length (v : Str) (f g : TimeFields)
    (h : time.parseChunks [.stdZeroDay, .lit (bytes "-"), .stdZeroMonth, .lit (bytes "-"),
        .stdLongYear] v f = some g) : v.length = 10 := by
  rw [dash_bytes] at h
  simp only [time.parseChunks] at h
  split at h
  · simp at h
  · next v1 f1 h1 =>
    split at h
    · simp at h
    · next v2 f2 h2 =>
      split at h
      · simp at h
      · next v3 f3 h3 =>
        split at h
        · simp at h
        · next v4 f4 h4 =>
          split at h
          · simp at h
          · next v5 f5 h5 =>
            have e1 := time.parseStd_day_length _ _ _ _ h1
            have e2 := time.parseStd_lit_length _ _ (by decide) _ _ _ h2
            have e3 := time.parseStd_month_length _ _ _ _ h3
            have e4 := time.parseStd_lit_length _ _ (by decide) _ _ _ h4
            have e5 := time.parseStd_year_length _ _ _ _ h5
            split at h
            · simp at h
            · next h6 =>
              simp only [ne_eq, Decidable.not_not] at h6
              omega

theorem time.parseChunks_nil (f : TimeFields) : time.parseChunks [] [] f = some f := by
  simp [time.parseChunks]

theorem time.parseChunks_lit (layout : List Chunk) (c : Nat) (hc : c ≠ 32) (a : Nat)
    (r : Str) (f : TimeFields) :
    time.parseChunks (.lit [c] :: layout) (a :: r) f
      = if a = c then time.parseChunks layout r f else none := by
  by_cases h : a = c
  · simp [time.parseChunks, time.parseStd, time.skip, time.skipFrom, hc, h]
  · simp [time.parseChunks, time.parseStd, time.skip, time.skipFrom, hc, h]

theorem time.parseChunks_day (layout : List Chunk) (a b : Nat) (r : Str) (f : TimeFields) :
    time.parseChunks (.stdZeroDay :: layout) (a :: b :: r) f
      = if (isDigit a && isDigit b) = true then
          time.parseChunks layout r { f with day := digitsValue [a, b] }
        else none := by
  cases ha : isDigit a <;> cases hb : isDigit b <;>
    simp [time.parseChunks, time.parseStd, time.getnum, digitsValue, ha, hb]

theorem time.parseChunks_month (layout : List Chunk) (a b : Nat) (r : Str) (f : TimeFields) :
    time.parseChunks (.stdZeroMonth :: layout) (a :: b :: r) f
      = if (isDigit a && isDigit b) = true then
          if 1 ≤ digitsValue [a, b] ∧ digitsValue [a, b] ≤ 12 then
            time.parseChunks layout r { f with month := digitsValue [a, b] }
          else none
        else none := by
  cases ha : isDigit a <;> cases hb : isDigit b <;>
    simp [time.parseChunks, time.parseStd, time.getnum, digitsValue, ha, hb]
  by_cases h : 1 ≤ (a - 48) * 10 + (b - 48) ∧ (a - 48) * 10 + (b - 48) ≤ 12
  · have h2 : ¬ ((a - 48 = 0 ∧ b - 48 = 0) ∨ 12 < (a - 48) * 10 + (b - 48)) := by omega
    simp [h2, h]
  · have h2 : (a - 48 = 0 ∧ b - 48 = 0) ∨ 12 < (a - 48) * 10 + (b - 48) := by omega
    simp [h2, h]

theorem time.parseChunks_year (layout : List Chunk) (a b c d : Nat) (r : Str)
    (f : TimeFields) :
    time.parseChunks (.stdLongYear :: layout) (a :: b :: c :: d :: r) f
      = if (isDigit a && isDigit b && isDigit c && isDigit d) = true then
          time.parseChunks layout r { f with year := digitsValue [a, b, c, d] }
        else none := by
  cases ha : isDigit a <;> cases hb : isDigit b <;> cases hc : isDigit c <;>
    cases hd : isDigit d <;>
    simp [time.parseChunks, time.parseStd, ha, hb, hc, hd]
  have h : ¬ (r.length + 1 + 1 + 1 + 1 < 4) := by omega
  simp [h]

theorem isCalendarDate_length (v : Str) (h : isCalendarDate v = true) : v.length = 10 := by
  unfold isCalendarDate at h
  split at h
  · simp
  · simp at h

theorem time_Parse_date_ten (d1 d2 s1 m1 m2 s2 y1 y2 y3 y4 : Nat) :
    time.Parse [.stdZeroDay, .lit (bytes "-"), .stdZeroMonth, .lit (bytes "-"),
        .stdLongYear] [d1, d2, s1, m1, m2, s2, y1, y2, y3, y4]
      = isCalendarDate [d1, d2, s1, m1, m2, s2, y1, y2, y3, y4] := by
  rw [dash_bytes]
  simp only [time.Parse, time.parseChunks_day, time.parseChunks_month, time.parseChunks_year,
    time.parseChunks_lit _ 45 (by decide), time.parseChunks_nil, isCalendarDate]
  by_cases h1 : (isDigit d1 && isDigit d2) = true
  swap
  · simp only [if_neg h1]
    simp only [Bool.and_eq_true, not_and, Bool.not_eq_true] at h1
    cases h : isDigit d1
    · simp
    · simp [h1 h]
  by_cases h2 : s1 = 45
  swap
  · simp [h2]
  by_cases h3 : (isDigit m1 && isDigit m2) = true
  swap
  · simp only [if_neg h3]
    simp only [Bool.and_eq_true, not_and, Bool.not_eq_true] at h3
    cases h : isDigit m1
    · simp
    · simp [h3 h]
  by_cases h4 : 1 ≤ digitsValue [m1, m2] ∧ digitsValue [m1, m2] ≤ 12
  swap
  · simp only [if_neg h4]
    by_cases h41 : 1 ≤ digitsValue [m1, m2]
    · have h42 : ¬ digitsValue [m1, m2] ≤ 12 := fun h => h4 ⟨h41, h⟩
      simp [h42]
    · simp [h41]
  by_cases h5 : s2 = 45
  swap
  · simp [h5]
  by_cases h6 : (isDigit y1 && isDigit y2 && isDigit y3 && isDigit y4) = true
  swap
  · simp only [if_neg h6]
    cases h61 : isDigit y1 <;> cases h62 : isDigit y2 <;> cases h63 : isDigit y3 <;>
      cases h64 : isDigit y4 <;> simp [h61, h62, h63, h64] at h6 ⊢
  simp only [Bool.and_eq_true] at h1 h3 h6
  have hd := daysIn_eq_monthLength (digitsValue [m1, m2]) (digitsValue [y1, y2, y3, y4])
    h4.1 h4.2
  simp only [h1.1, h1.2, h2, h3.1, h3.2, h4, h5, h6.1.1.1, h6.1.1.2, h6.1.2, h6.2, hd,
    Bool.and_self, if_true, and_self, beq_self_eq_true, Bool.true_and, true_and]
  by_cases h7 : 1 ≤ digitsValue [d1, d2]
  · have h7b : ¬ digitsValue [d1, d2] < 1 := by omega
    by_cases h8 : digitsValue [d1, d2]
        ≤ monthLength (digitsValue [y1, y2, y3, y4]) (digitsValue [m1, m2])
    · have h8b : ¬ digitsValue [d1, d2]
        > monthLength (digitsValue [y1, y2, y3, y4]) (digitsValue [m1, m2]) := by omega
      simp [h7, h8, h7b, h8b]
    · have h8b : digitsValue [d1, d2]
        > monthLength (digitsValue [y1, y2, y3, y4]) (digitsValue [m1, m2]) := by omega
      simp [h7, h8, h7b, h8b]
  · have h7b : digitsValue [d1, d2] < 1 := by omega
    simp [h7, h7b]

theorem time_Parse_date_eq (v : Str) :
    time.Parse [.stdZeroDay, .lit (bytes "-"), .stdZeroMonth, .lit (bytes "-"),
        .stdLongYear] v = isCalendarDate v := by
  by_cases hlen : v.length = 10
  · rcases v with _ | ⟨a0, _ | ⟨a1, _ | ⟨a2, _ | ⟨a3, _ | ⟨a4, _ | ⟨a5, _ | ⟨a6, _ | ⟨a7, _ | ⟨a8, _ | ⟨a9, _ | ⟨a10, t⟩⟩⟩⟩⟩⟩⟩⟩⟩⟩⟩
    all_goals try (simp at hlen; done)
    exact time_Parse_date_ten a0 a1 a2 a3 a4 a5 a6 a7 a8 a9
  · have h1 : isCalendarDate v = false := by
      cases h : isCalendarDate v
      · rfl
      · exact absurd (isCalendarDate_length v h) hlen
    have h2 : time.parseChunks [.stdZeroDay, .lit (bytes "-"), .stdZeroMonth,
        .lit (bytes "-"), .stdLongYear] v ⟨0, 1, 1, 0, 0, 0⟩ = none := by
      cases h : time.parseChunks [.stdZeroDay, .lit (bytes "-"), .stdZeroMonth,
        .lit (bytes "-"), .stdLongYear] v ⟨0, 1, 1, 0, 0, 0⟩
      · rfl
      · exact absurd (time_parseChunks_date_length v _ _ h) hlen
    rw [h1, time.Parse, h2]

theorem isDate_pass_iff (base : Env) (v : Str) (rest : List Str) (msgs : Messages)
    (hv : v ≠ []) :
    ((IsDate (stdlib base)).Validate (v :: rest) msgs).1 = none ↔ isCalendarDate v = true := by
  have hl : v.length ≠ 0 := length_ne_zero_of_ne_nil v hv
  simp only [IsDate, isDate.Validate, getFirstKey, if_neg hl, stdlib_timeParse_date,
    time_Parse_date_eq]
  cases h : isCalendarDate v <;> simp

/-- C16: `IsDate` passes a non-empty value exactly when the value is ten
characters `DD-MM-YYYY` (two digits of day, a hyphen, two digits of month, a
hyphen, four digits of year, nothing before or after) that name a real calendar
date: month 1 to 12, day from 1 to the length of the month, 29 February in leap
years only. So `29-02-2000` passes and `29-02-1999`, `32-12-2000`, `24-13-2000`,
`2000-12-31` and `31-12-99` fail. -/
theorem C16_isDate_passes_iff_calendar_date (base : Env) (v : Str) (rest : List Str)
    (msgs : Messages) (hv : v ≠ []) :
    (((IsDate (stdlib base)).Validate (v :: rest) msgs).1 = none ↔ isCalendarDate v = true)
      ∧ ((IsDate (stdlib base)).Validate (bytes "29-02-2000" :: rest) msgs).1 = none
      ∧ ((IsDate (stdlib base)).Validate (bytes "29-02-1999" :: rest) msgs).1 ≠ none
      ∧ ((IsDate (stdlib base)).Validate (bytes "32-12-2000" :: rest) msgs).1 ≠ none
      ∧ ((IsDate (stdlib base)).Validate (bytes "24-13-2000" :: rest) msgs).1 ≠ none
      ∧ ((IsDate (stdlib base)).Validate (bytes "2000-12-31" :: rest) msgs).1 ≠ none
      ∧ ((IsDate (stdlib base)).Validate (bytes "31-12-99" :: rest) msgs).1 ≠ none := by
  refine ⟨isDate_pass_iff base v rest msgs hv, ?_, ?_, ?_, ?_, ?_, ?_⟩
  · exact (isDate_pass_iff base _ rest msgs (by decide)).mpr (by decide)
  · exact fun h => absurd ((isDate_pass_iff base _ rest msgs (by decide)).mp h) (by decide)
  · exact fun h => absurd ((isDate_pass_iff base _ rest msgs (by decide)).mp h) (by decide)
  · exact fun h => absurd ((isDate_pass_iff base _ rest msgs (by decide)).mp h) (by decide)
  · exact fun h => absurd ((isDate_pass_iff base _ rest msgs (by decide)).mp h) (by decide)
  · exact fun h => absurd ((isDate_pass_iff base _ rest msgs (by decide)).mp h) (by decide)

theorem C16_isDate_passes_iff_calendar_date_witness :
    bytes "29-02-2000" ≠ []
      ∧ ((((IsDate (stdlib trivialEnv)).Validate (bytes "29-02-2000" :: []) defaultErrors).1
              = none ↔ isCalendarDate (bytes "29-02-2000") = true)
        ∧ ((IsDate (stdlib trivialEnv)).Validate (bytes "29-02-2000" :: []) defaultErrors).1
            = none
        ∧ ((IsDate (stdlib trivialEnv)).Validate (bytes "29-02-1999" :: []) defaultErrors).1
            ≠ none
        ∧ ((IsDate (stdlib trivialEnv)).Validate (bytes "32-12-2000" :: []) defaultErrors).1
            ≠ none
        ∧ ((IsDate (stdlib trivialEnv)).Validate (bytes "24-13-2000" :: []) defaultErrors).1
            ≠ none
        ∧ ((IsDate (stdlib trivialEnv)).Validate (bytes "2000-12-31" :: []) defaultErrors).1
            ≠ none
        ∧ ((IsDate (stdlib trivialEnv)).Validate (bytes "31-12-99" :: []) defaultErrors).1
            ≠ none) :=
  ⟨by decide,
   C16_isDate_passes_iff_calendar_date trivialEnv (bytes "29-02-2000") [] defaultErrors
     (by decide)⟩

theorem stdlib_timeParse_time (base : Env) (v : Str) :
    (stdlib base).timeParse (bytes "15:04:05") v
      = time.Parse [.stdHour, .lit (bytes ":"), .stdZeroMinute, .lit (bytes ":"),
          .stdZeroSecond] v := by
  have h : GoMap.lookupIn (bytes "15:04:05") layoutTable
      = some [.stdHour, .lit (bytes ":"), .stdZeroMinute, .lit (bytes ":"),
          .stdZeroSecond] := by rfl
  simp only [stdlib, timeParse, h]

theorem time.parseChunks_minute (layout : List Chunk) (a b : Nat) (r : Str) (f : TimeFields) :
    time.parseChunks (.stdZeroMinute :: layout) (a :: b :: r) f
      = if (isDigit a && isDigit b) = true then
          if digitsValue [a, b] < 60 then
            time.parseChunks layout r { f with min := digitsValue [a, b] }
          else none
        else none := by
  cases ha : isDigit a <;> cases hb : isDigit b <;>
    simp [time.parseChunks, time.parseStd, time.getnum, digitsValue, ha, hb]
  by_cases h : (a - 48) * 10 + (b - 48) < 60
  · have h2 : ¬ 60 ≤ (a - 48) * 10 + (b - 48) := by omega
    simp [h2, h]
  · have h2 : 60 ≤ (a - 48) * 10 + (b - 48) := by omega
    simp [h2, h]

theorem time.parseChunks_second_last (a b : Nat) (r : Str) (f : TimeFields) :
    time.parseChunks [.stdZeroSecond] (a :: b :: r) f
      = if (isDigit a && isDigit b) = true then
          if digitsValue [a, b] < 60 then
            if isFraction r = true then some { f with sec := digitsValue [a, b] } else none
          else none
        else none := by
  cases ha : isDigit a <;> cases hb : isDigit b <;>
    simp [time.parseChunks, time.parseStd, time.getnum, digitsValue, ha, hb]
  by_cases h : (a - 48) * 10 + (b - 48) < 60
  · have h2 : ¬ 60 ≤ (a - 48) * 10 + (b - 48) := by omega
    simp only [h2, h, if_true, if_false]
    rcases r with _ | ⟨c, _ | ⟨d, ds⟩⟩
    · simp [isFraction]
    · simp [isFraction]
    · by_cases hc : (c = 46 ∨ c = 44) ∧ isDigit d = true
      · simp [hc, isFraction, List.dropWhile_eq_nil_iff]
      · simp [hc, isFraction]
  · have h2 : 60 ≤ (a - 48) * 10 + (b - 48) := by omega
    simp [h2, h]

theorem time.parseChunks_lit_nil (layout : List Chunk) (c : Nat) (hc : c ≠ 32)
    (f : TimeFields) : time.parseChunks (.lit [c] :: layout) [] f = none := by
  simp [time.parseChunks, time.parseStd, time.skip, time.skipFrom, hc]

theorem time.parseChunks_minute_nil (layout : List Chunk) (f : TimeFields) :
    time.parseChunks (.stdZeroMinute :: layout) [] f = none := by
  simp [time.parseChunks, time.parseStd, time.getnum]

theorem time.parseChunks_minute_one (layout : List Chunk) (a : Nat) (f : TimeFields) :
    time.parseChunks (.stdZeroMinute :: layout) [a] f = none := by
  cases ha : isDigit a <;> simp [time.parseChunks, time.parseStd, time.getnum, ha]

theorem time.parseChunks_second_nil (layout : List Chunk) (f : TimeFields) :
    time.parseChunks (.stdZeroSecond :: layout) [] f = none := by
  simp [time.parseChunks, time.parseStd, time.getnum]

theorem time.parseChunks_second_one (layout : List Chunk) (a : Nat) (f : TimeFields) :
    time.parseChunks (.stdZeroSecond :: layout) [a] f = none := by
  cases ha : isDigit a <;> simp [time.parseChunks, time.parseStd, time.getnum, ha]

theorem time.parseChunks_hour_nil (layout : List Chunk) (f : TimeFields) :
    time.parseChunks (.stdHour :: layout) [] f = none := by
  simp [time.parseChunks, time.parseStd, time.getnum]

theorem time.parseChunks_hour_one (layout : List Chunk) (a : Nat) (f : TimeFields) :
    time.parseChunks (.stdHour :: layout) [a] f
      = if isDigit a = true then time.parseChunks layout [] { f with hour := digitsValue [a] }
        else none := by
  cases ha : isDigit a
  · simp [time.parseChunks, time.parseStd, time.getnum, ha]
  · have h : ¬ 24 ≤ a - 48 := by
      simp only [isDigit, Bool.and_eq_true, decide_eq_true_eq] at ha
      omega
    simp [time.parseChunks, time.parseStd, time.getnum, digitsValue, ha, h]

theorem time.parseChunks_hour (layout : List Chunk) (a b : Nat) (r : Str) (f : TimeFields) :
    time.parseChunks (.stdHour :: layout) (a :: b :: r) f
      = if isDigit a = true then
          if isDigit b = true then
            if digitsValue [a, b] < 24 then
              time.parseChunks layout r { f with hour := digitsValue [a, b] }
            else none
          else time.parseChunks layout (b :: r) { f with hour := digitsValue [a] }
        else none := by
  cases ha : isDigit a
  · simp [time.parseChunks, time.parseStd, time.getnum, ha]
  · cases hb : isDigit b
    · have h : ¬ 24 ≤ a - 48 := by
        simp only [isDigit, Bool.and_eq_true, decide_eq_true_eq] at ha
        omega
      simp [time.parseChunks, time.parseStd, time.getnum, digitsValue, ha, hb, h]
    · by_cases h : (a - 48) * 10 + (b - 48) < 24
      · have h2 : ¬ 24 ≤ (a - 48) * 10 + (b - 48) := by omega
        simp [time.parseChunks, time.parseStd, time.getnum, digitsValue, ha, hb, h, h2]
      · have h2 : 24 ≤ (a - 48) * 10 + (b - 48) := by omega
        simp [time.parseChunks, time.parseStd, time.getnum, digitsValue, ha, hb, h, h2]

/-- The layout `:04:05` on a value: minute and second are read when the value
is a clock tail, the other fields are kept; otherwise an error. -/
theorem time_parseChunks_tail (s : Str) (f : TimeFields) :
    time.parseChunks [.lit (bytes ":"), .stdZeroMinute, .lit (bytes ":"), .stdZeroSecond] s f
      = if isClockTail s = true then
          some { f with min := digitsValue ((s.drop 1).take 2),
                        sec := digitsValue ((s.drop 4).take 2) }
        else none := by
  rw [colon_bytes]
  rcases s with _ | ⟨c1, _ | ⟨m1, _ | ⟨m2, _ | ⟨c2, _ | ⟨s1, _ | ⟨s2, frac⟩⟩⟩⟩⟩⟩
  · simp [time.parseChunks_lit_nil _ 58 (by decide), isClockTail]
  · simp [time.parseChunks_lit _ 58 (by decide), time.parseChunks_minute_nil, isClockTail]
  · simp [time.parseChunks_lit _ 58 (by decide), time.parseChunks_minute_one, isClockTail]
  · simp [time.parseChunks_lit _ 58 (by decide), time.parseChunks_minute,
      time.parseChunks_lit_nil _ 58 (by decide), isClockTail]
  · simp [time.parseChunks_lit _ 58 (by decide), time.parseChunks_minute,
      time.parseChunks_second_nil, isClockTail]
  · simp [time.parseChunks_lit _ 58 (by decide), time.parseChunks_minute,
      time.parseChunks_second_one, isClockTail]
  · simp only [time.parseChunks_lit _ 58 (by decide), time.parseChunks_minute,
      time.parseChunks_second_last, isClockTail, List.drop_succ_cons, List.drop_zero,
      List.take_succ_cons, List.take_zero]
    by_cases h1 : c1 = 58
    swap
    · simp [h1]
    by_cases h2 : (isDigit m1 && isDigit m2) = true
    swap
    · simp only [if_neg h2]
      simp only [Bool.and_eq_true, not_and, Bool.not_eq_true] at h2
      cases h : isDigit m1
      · simp
      · simp [h2 h]
    by_cases h3 : digitsValue [m1, m2] < 60
    swap
    · simp [h3]
    by_cases h4 : c2 = 58
    swap
    · simp [h4]
    by_cases h5 : (isDigit s1 && isDigit s2) = true
    swap
    · simp only [if_neg h5]
      simp only [Bool.and_eq_true, not_and, Bool.not_eq_true] at h5
      cases h : isDigit s1
      · simp
      · simp [h5 h]
    by_cases h6 : digitsValue [s1, s2] < 60
    swap
    · simp [h6]
    simp only [Bool.and_eq_true] at h2 h5
    cases h7 : isFraction frac <;> simp [h1, h2.1, h2.2, h3, h4, h5.1, h5.2, h6, h7]

theorem time_Parse_time_eq (v : Str) :
    time.Parse [.stdHour, .lit (bytes ":"), .stdZeroMinute, .lit (bytes ":"),
        .stdZeroSecond] v = isClockTime v := by
  have hday : ¬ (1 > time.daysIn 1 0) := by decide
  rcases v with _ | ⟨a, _ | ⟨b, r⟩⟩
  · simp [time.Parse, time.parseChunks_hour_nil, isClockTime]
  · simp only [time.Parse, time.parseChunks_hour_one, colon_bytes,
      time.parseChunks_lit_nil _ 58 (by decide), isClockTime]
    cases isDigit a <;> simp
  · simp only [time.Parse, time.parseChunks_hour, time_parseChunks_tail, isClockTime]
    cases ha : isDigit a
    · simp
    · cases hb : isDigit b
      · cases ht : isClockTail (b :: r) <;> simp [ht, hday]
      · have ht : isClockTail (b :: r) = false := by
          cases r with
          | nil => simp [isClockTail]
          | cons c r2 =>
            rcases r2 with _ | ⟨m2, _ | ⟨c2, _ | ⟨s1, _ | ⟨s2, frac⟩⟩⟩⟩
            all_goals try (simp [isClockTail]; done)
            simp only [isDigit, Bool.and_eq_true, decide_eq_true_eq] at hb
            have : ¬ b = 58 := by omega
            simp [isClockTail, this]
        by_cases h24 : digitsValue [a, b] < 24
        · cases ht2 : isClockTail r <;> simp [ht, h24, ht2, hday]
        · simp [ht, h24]

theorem isTime_pass_iff (base : Env) (v : Str) (rest : List Str) (msgs : Messages)
    (hv : v ≠ []) :
    ((IsTime (stdlib base)).Validate (v :: rest) msgs).1 = none ↔ isClockTime v = true := by
  have hl : v.length ≠ 0 := length_ne_zero_of_ne_nil v hv
  simp only [IsTime, isTime.Validate, getFirstKey, if_neg hl, stdlib_timeParse_time,
    time_Parse_time_eq]
  cases h : isClockTime v <;> simp

theorem isClockTime_of_isHHMMSS (v : Str) (h : isHHMMSS v = true) : isClockTime v = true := by
  unfold isHHMMSS at h
  split at h
  · simp only [Bool.and_eq_true, beq_iff_eq, decide_eq_true_eq] at h
    obtain ⟨⟨⟨⟨⟨⟨⟨⟨⟨⟨h1, h2⟩, h3⟩, h4⟩, h5⟩, h6⟩, h7⟩, h8⟩, h9⟩, h10⟩, h11⟩ := h
    simp [isClockTime, isClockTail, isFraction, h1, h2, h3, h4, h5, h6, h7, h8, h9, h10, h11]
  · simp at h

/-- C17 as stated fails: `IsTime` passes `1:01:01`, whose hour has one digit,
and `12:12:12.5`, which has a fractional second; neither has the form
`HH:MM:SS`. -/
theorem C17_counterexample :
    ((IsTime (stdlib trivialEnv)).Validate [bytes "1:01:01"] defaultErrors).1 = none
      ∧ isHHMMSS (bytes "1:01:01") = false
      ∧ ((IsTime (stdlib trivialEnv)).Validate [bytes "12:12:12.5"] defaultErrors).1 = none
      ∧ isHHMMSS (bytes "12:12:12.5") = false := by
  decide

/-- C17 (as amended): `IsTime` passes a non-empty value exactly when the value
is an hour of one or two digits from 0 to 23, a colon, a two-digit minute 00 to
59, a colon and a two-digit second 00 to 59, followed by nothing or by a
fractional second (a period or comma and one or more digits), with nothing
before or after. In particular every value of the form `HH:MM:SS` passes. -/
theorem C17_isTime_passes_iff_clock_time (base : Env) (v : Str) (rest : List Str)
    (msgs : Messages) (hv : v ≠ []) :
    (((IsTime (stdlib base)).Validate (v :: rest) msgs).1 = none ↔ isClockTime v = true)
      ∧ (isHHMMSS v = true → ((IsTime (stdlib base)).Validate (v :: rest) msgs).1 = none) :=
  ⟨isTime_pass_iff base v rest msgs hv,
   fun h => (isTime_pass_iff base v rest msgs hv).mpr (isClockTime_of_isHHMMSS v h)⟩

theorem C17_isTime_passes_iff_clock_time_witness :
    bytes "23:59:59" ≠ []
      ∧ ((((IsTime (stdlib trivialEnv)).Validate (bytes "23:59:59" :: []) defaultErrors).1
              = none ↔ isClockTime (bytes "23:59:59") = true)
        ∧ (isHHMMSS (bytes "23:59:59") = true →
            ((IsTime (stdlib trivialEnv)).Validate (bytes "23:59:59" :: []) defaultErrors).1
              = none)) :=
  ⟨by decide,
   C17_isTime_passes_iff_clock_time trivialEnv (bytes "23:59:59") [] defaultErrors
     (by decide)⟩

/-! ## Theorems: latitude and longitude -/

theorem Regex.accepts_empty (s : Str) : Regex.empty.accepts s = true ↔ s = [] := by
  cases s <;> simp [Regex.accepts]

theorem Regex.accepts_cls (ranges : List (Char × Char)) (s : Str) :
    (Regex.cls ranges).accepts s = true ↔ ∃ c, s = [c] ∧ inClass ranges c = true := by
  rcases s with _ | ⟨c, _ | ⟨d, t⟩⟩ <;> simp [Regex.accepts]

theorem Regex.accepts_chr (c : Char) (s : Str) :
    (Regex.chr c).accepts s = true ↔ s = [c.toNat] := by
  rw [Regex.chr, Regex.accepts_cls]
  constructor
  · rintro ⟨d, rfl, h⟩
    simp only [inClass, List.any_cons, List.any_nil, Bool.or_false, Bool.and_eq_true,
      decide_eq_true_eq] at h
    have : d = c.toNat := by omega
    rw [this]
  · rintro rfl
    exact ⟨c.toNat, rfl, by simp [inClass]⟩

theorem Regex.accepts_plus (ranges : List (Char × Char)) (s : Str) :
    (Regex.plus ranges).accepts s = true ↔ s ≠ [] ∧ ∀ c ∈ s, inClass ranges c = true := by
  cases s <;> simp [Regex.accepts]

theorem Regex.accepts_opt (r : Regex) (s : Str) :
    (Regex.opt r).accepts s = true ↔ r.accepts s = true ∨ s = [] := by
  rw [Regex.opt, Regex.accepts_alt, Bool.or_eq_true, Regex.accepts_empty]

theorem Regex.accepts_fraction (ranges : List (Char × Char)) (s : Str) :
    (Regex.fraction ranges).accepts s = true
      ↔ s = [] ∨ ∃ ds, s = 46 :: ds ∧ ds ≠ [] ∧ ∀ c ∈ ds, inClass ranges c = true := by
  rw [Regex.fraction, Regex.accepts_opt, Regex.accepts_seq_iff]
  constructor
  · rintro (⟨s1, s2, rfl, h1, h2⟩ | h)
    · right
      rw [Regex.accepts_chr] at h1
      rw [Regex.accepts_plus] at h2
      subst h1
      exact ⟨s2, rfl, h2.1, h2.2⟩
    · exact Or.inl h
  · rintro (h | ⟨ds, rfl, h1, h2⟩)
    · exact Or.inr h
    · left
      exact ⟨[46], ds, rfl, (Regex.accepts_chr _ _).2 rfl, (Regex.accepts_plus _ _).2 ⟨h1, h2⟩⟩

theorem digitsValue_append_one (ds : Str) (d : Nat) :
    digitsValue (ds ++ [d]) = digitsValue ds * 10 + (d - 48) := by
  simp [digitsValue, List.foldl_append]

theorem digitsValue_lt (ds : Str) (h : ∀ c ∈ ds, isDigit c = true) :
    digitsValue ds < 10 ^ ds.length := by
  induction ds using List.reverseRecOn with
  | nil => simp [digitsValue]
  | append_singleton ds d ih =>
    rw [digitsValue_append_one]
    have h1 := ih (fun c hc => h c (by simp [hc]))
    have hd := h d (by simp)
    simp only [isDigit, Bool.and_eq_true, decide_eq_true_eq] at hd
    simp only [List.length_append, List.length_singleton, pow_succ]
    omega

theorem digitsValue_zeros (ds : Str) (h : ∀ c ∈ ds, inClass [('0', '0')] c = true) :
    digitsValue ds = 0 := by
  induction ds using List.reverseRecOn with
  | nil => simp [digitsValue]
  | append_singleton ds d ih =>
    rw [digitsValue_append_one, ih (fun c hc => h c (by simp [hc]))]
    have hd := h d (by simp)
    simp only [inClass, List.any_cons, List.any_nil, Bool.or_false, Bool.and_eq_true,
      decide_eq_true_eq] at hd
    have : d = 48 := by
      have e : ('0' : Char).toNat = 48 := by decide
      omega
    rw [this]

theorem isDigit_of_zero_class (c : Nat) (h : inClass [('0', '0')] c = true) :
    isDigit c = true := by
  simp only [inClass, List.any_cons, List.any_nil, Bool.or_false, Bool.and_eq_true,
    decide_eq_true_eq] at h
  have e : ('0' : Char).toNat = 48 := by decide
  simp only [isDigit, Bool.and_eq_true, decide_eq_true_eq]
  omega

theorem span_digits (ip fr : Str) (hip : ∀ c ∈ ip, isDigit c = true)
    (hfr : ∀ c, fr.head? = some c → isDigit c = false) :
    (ip ++ fr).takeWhile isDigit = ip ∧ (ip ++ fr).dropWhile isDigit = fr := by
  induction ip with
  | nil =>
    cases fr with
    | nil => simp
    | cons c t =>
      have := hfr c rfl
      simp [List.takeWhile, List.dropWhile, this]
  | cons a t ih =>
    have ha := hip a (by simp)
    have := ih (fun c hc => hip c (by simp [hc]))
    simp [List.takeWhile, List.dropWhile, ha, this]

/-- A sign, then digits, then nothing or a period and digits, is a decimal
numeral whose parts are those. -/
theorem decimal_parts (sg ip fr : Str) (hsg : sg = [] ∨ sg = [43] ∨ sg = [45])
    (hne : ip ≠ []) (hip : ∀ c ∈ ip, isDigit c = true)
    (hfr : fr = [] ∨ ∃ fp, fr = 46 :: fp ∧ fp ≠ [] ∧ ∀ c ∈ fp, isDigit c = true) :
    isDecimalNumeral (sg ++ (ip ++ fr)) = true
      ∧ integerPart (sg ++ (ip ++ fr)) = ip
      ∧ fractionPart (sg ++ (ip ++ fr)) = fr.tail
      ∧ (∀ c ∈ fr.tail, isDigit c = true)
      ∧ ((sg ++ (ip ++ fr)).head? = some 45 ↔ sg = [45]) := by
  have hfr2 : ∀ c, fr.head? = some c → isDigit c = false := by
    rcases hfr with rfl | ⟨fp, rfl, -, -⟩
    · simp
    · intro c hc
      simp only [List.head?_cons, Option.some.injEq] at hc
      subst hc
      decide
  obtain ⟨a, t, rfl⟩ := List.exists_cons_of_ne_nil hne
  have ha := hip a (by simp)
  have ha2 : 48 ≤ a ∧ a ≤ 57 := by
    simpa only [isDigit, Bool.and_eq_true, decide_eq_true_eq] using ha
  have hu : unsignedPart (sg ++ (a :: t ++ fr)) = a :: t ++ fr := by
    rcases hsg with rfl | rfl | rfl
    · have : ¬ (a = 43 ∨ a = 45) := by omega
      simp [unsignedPart, this]
    · simp [unsignedPart]
    · simp [unsignedPart]
  have hs := span_digits (a :: t) fr hip hfr2
  have hi : integerPart (sg ++ (a :: t ++ fr)) = a :: t := by
    rw [integerPart, hu, hs.1]
  have ha3 : afterInteger (sg ++ (a :: t ++ fr)) = fr := by
    rw [afterInteger, hu, hs.2]
  have hf : fractionPart (sg ++ (a :: t ++ fr)) = fr.tail := by
    rw [fractionPart, ha3]
  refine ⟨?_, hi, hf, ?_, ?_⟩
  · rw [isDecimalNumeral, hi, hf, ha3]
    rcases hfr with rfl | ⟨fp, rfl, h1, h2⟩
    · simp
    · obtain ⟨b, u, rfl⟩ := List.exists_cons_of_ne_nil h1
      simpa using h2
  · rcases hfr with rfl | ⟨fp, rfl, h1, h2⟩
    · simp
    · simpa using h2
  · rcases hsg with rfl | rfl | rfl
    · have : ¬ a = 45 := by omega
      simp [this]
    · simp
    · simp

/-- The value of such a numeral is within `B` of zero when the integer part is
below `B`, or is `B` with a fraction of zeros. -/
theorem decimal_bound (sg ip fr : Str) (B : Nat) (hsg : sg = [] ∨ sg = [43] ∨ sg = [45])
    (hne : ip ≠ []) (hip : ∀ c ∈ ip, isDigit c = true)
    (hfr : fr = [] ∨ ∃ fp, fr = 46 :: fp ∧ fp ≠ [] ∧ ∀ c ∈ fp, isDigit c = true)
    (hb : digitsValue ip < B ∨ (digitsValue ip = B ∧ digitsValue fr.tail = 0)) :
    isDecimalNumeral (sg ++ (ip ++ fr)) = true
      ∧ -(B : ℚ) ≤ decimalValue (sg ++ (ip ++ fr))
      ∧ decimalValue (sg ++ (ip ++ fr)) ≤ (B : ℚ) := by
  obtain ⟨h1, h2, h3, h4, h5⟩ := decimal_parts sg ip fr hsg hne hip hfr
  have hF := digitsValue_lt fr.tail h4
  have hpos : (0 : ℚ) < 10 ^ fr.tail.length := by positivity
  have hq1 : (0 : ℚ) ≤ (digitsValue fr.tail : ℚ) / 10 ^ fr.tail.length := by positivity
  have hq2 : (digitsValue fr.tail : ℚ) / 10 ^ fr.tail.length < 1 := by
    rw [div_lt_one hpos]
    exact_mod_cast hF
  have hN : (0 : ℚ) ≤ (digitsValue ip : ℚ) := by positivity
  have hm : (digitsValue ip : ℚ) + (digitsValue fr.tail : ℚ) / 10 ^ fr.tail.length ≤ (B : ℚ) := by
    rcases hb with hb | ⟨hb1, hb2⟩
    · have : (digitsValue ip : ℚ) + 1 ≤ (B : ℚ) := by exact_mod_cast hb
      linarith
    · rw [hb2, hb1]
      simp
  refine ⟨h1, ?_, ?_⟩
  · rw [decimalValue, h2, h3]
    split_ifs <;> linarith
  · rw [decimalValue, h2, h3]
    split_ifs <;> linarith

theorem Regex.accepts_sign (s : Str) :
    (Regex.opt (.cls [('-', '-'), ('+', '+')])).accepts s = true
      ↔ s = [] ∨ s = [43] ∨ s = [45] := by
  have e1 : ('-' : Char).toNat = 45 := by decide
  have e2 : ('+' : Char).toNat = 43 := by decide
  rw [Regex.accepts_opt, Regex.accepts_cls]
  constructor
  · rintro (⟨c, rfl, h⟩ | h)
    · simp only [inClass, List.any_cons, List.any_nil, Bool.or_false, Bool.or_eq_true,
        Bool.and_eq_true, decide_eq_true_eq, e1, e2] at h
      rcases h with h | h
      · right; right
        have : c = 45 := by omega
        rw [this]
      · right; left
        have : c = 43 := by omega
        rw [this]
    · exact Or.inl h
  · rintro (h | rfl | rfl)
    · exact Or.inr h
    · exact Or.inl ⟨43, rfl, by decide⟩
    · exact Or.inl ⟨45, rfl, by decide⟩

theorem Regex.accepts_seq_empty (r : Regex) (s : Str) :
    (Regex.seq r .empty).accepts s = true ↔ r.accepts s = true := by
  rw [Regex.accepts_seq_iff]
  constructor
  · rintro ⟨s1, s2, rfl, h1, h2⟩
    rw [Regex.accepts_empty] at h2
    subst h2
    simpa using h1
  · intro h
    exact ⟨s, [], by simp, h, rfl⟩

theorem Regex.accepts_digit (s : Str) :
    Regex.digit.accepts s = true ↔ ∃ d, s = [d] ∧ isDigit d = true := by
  rw [Regex.digit, Regex.accepts_cls]
  simp only [inClass_digit]

theorem inClass_range (lo hi : Char) (c : Nat) :
    inClass [(lo, hi)] c = true ↔ lo.toNat ≤ c ∧ c ≤ hi.toNat := by
  simp [inClass]

/-- A fractional part over the digits, or over `0` only, is nothing or a
period and digits. -/
theorem fraction_digits (ranges : List (Char × Char)) (fr : Str)
    (hr : ∀ c, inClass ranges c = true → isDigit c = true)
    (h : (Regex.fraction ranges).accepts fr = true) :
    fr = [] ∨ ∃ fp, fr = 46 :: fp ∧ fp ≠ [] ∧ ∀ c ∈ fp, isDigit c = true := by
  rw [Regex.accepts_fraction] at h
  rcases h with h | ⟨ds, h1, h2, h3⟩
  · exact Or.inl h
  · exact Or.inr ⟨ds, h1, h2, fun c hc => hr c (h3 c hc)⟩

theorem fraction_zero_value (fr : Str)
    (h : (Regex.fraction [('0', '0')]).accepts fr = true) : digitsValue fr.tail = 0 := by
  rw [Regex.accepts_fraction] at h
  rcases h with rfl | ⟨ds, rfl, -, h3⟩
  · rfl
  · exact digitsValue_zeros ds h3

/-- What the latitude pattern accepts: a sign, an integer part below 90 or
equal to 90, and a fractional part that is zero in the latter case. -/
theorem latitude_shape (v : Str)
    (h : (Regex.seq (Regex.opt (.cls [('-', '-'), ('+', '+')]))
       (.alt
         (Regex.cat [Regex.opt (.cls [('1', '8')]), Regex.digit, Regex.fraction [('0', '9')]])
         (Regex.cat [Regex.chr '9', Regex.chr '0', Regex.fraction [('0', '0')]]))).accepts v
        = true) :
    ∃ sg ip fr, v = sg ++ (ip ++ fr) ∧ (sg = [] ∨ sg = [43] ∨ sg = [45]) ∧ ip ≠ []
      ∧ (∀ c ∈ ip, isDigit c = true)
      ∧ (fr = [] ∨ ∃ fp, fr = 46 :: fp ∧ fp ≠ [] ∧ ∀ c ∈ fp, isDigit c = true)
      ∧ (digitsValue ip < 90 ∨ (digitsValue ip = 90 ∧ digitsValue fr.tail = 0)) := by
  rw [Regex.accepts_seq_iff] at h
  obtain ⟨sg, body, rfl, hsg, hbody⟩ := h
  rw [Regex.accepts_sign] at hsg
  rw [Regex.accepts_alt, Bool.or_eq_true] at hbody
  simp only [Regex.cat, Regex.accepts_seq_iff, Regex.accepts_seq_empty, Regex.accepts_opt,
    Regex.accepts_cls, Regex.accepts_digit, Regex.accepts_chr, inClass_range] at hbody
  have e1 : ('1' : Char).toNat = 49 := by decide
  have e8 : ('8' : Char).toNat = 56 := by decide
  have e9 : ('9' : Char).toNat = 57 := by decide
  have e0 : ('0' : Char).toNat = 48 := by decide
  rcases hbody with ⟨o, r1, rfl, ho, dd, fr, rfl, ⟨d, rfl, hd⟩, hfr⟩
    | ⟨n, r1, rfl, rfl, z, fr, rfl, rfl, hfr⟩
  · replace hfr := (Regex.accepts_seq_empty _ _).1 ((Regex.accepts_seq_iff _ _ _).2 hfr)
    have hd2 : 48 ≤ d ∧ d ≤ 57 := by
      simpa only [isDigit, Bool.and_eq_true, decide_eq_true_eq] using hd
    have hfr2 := fraction_digits _ fr (fun c hc => by rw [← inClass_digit]; exact hc) hfr
    rcases ho with ⟨c, rfl, hc⟩ | rfl
    · rw [e1, e8] at hc
      refine ⟨sg, [c, d], fr, by simp, hsg, by simp, ?_, hfr2, Or.inl ?_⟩
      · intro x hx
        simp only [List.mem_cons, List.mem_singleton, List.not_mem_nil, or_false] at hx
        rcases hx with rfl | rfl
        · simp only [isDigit, Bool.and_eq_true, decide_eq_true_eq]; omega
        · exact hd
      · simp only [digitsValue, List.foldl_cons, List.foldl_nil]
        omega
    · refine ⟨sg, [d], fr, by simp, hsg, by simp, ?_, hfr2, Or.inl ?_⟩
      · intro x hx
        simp only [List.mem_singleton] at hx
        rw [hx]; exact hd
      · simp only [digitsValue, List.foldl_cons, List.foldl_nil]
        omega
  · replace hfr := (Regex.accepts_seq_empty _ _).1 ((Regex.accepts_seq_iff _ _ _).2 hfr)
    have hfr2 := fraction_digits _ fr isDigit_of_zero_class hfr
    refine ⟨sg, [57, 48], fr, by simp [e9, e0], hsg, by simp, by decide, hfr2,
      Or.inr ⟨by decide, fraction_zero_value fr hfr⟩⟩

/-- What the longitude pattern accepts: a sign, an integer part below 180 or
equal to 180, and a fractional part that is zero in the latter case. -/
theorem longitude_shape (v : Str)
    (h : (Regex.seq (Regex.opt (.cls [('-', '-'), ('+', '+')]))
       (.alt
         (Regex.cat [Regex.chr '1', Regex.chr '8', Regex.chr '0', Regex.fraction [('0', '0')]])
         (.seq
           (.alt (Regex.cat [Regex.chr '1', .cls [('0', '7')], Regex.digit])
             (.seq (Regex.opt (.cls [('1', '9')])) Regex.digit))
           (Regex.fraction [('0', '9')])))).accepts v = true) :
    ∃ sg ip fr, v = sg ++ (ip ++ fr) ∧ (sg = [] ∨ sg = [43] ∨ sg = [45]) ∧ ip ≠ []
      ∧ (∀ c ∈ ip, isDigit c = true)
      ∧ (fr = [] ∨ ∃ fp, fr = 46 :: fp ∧ fp ≠ [] ∧ ∀ c ∈ fp, isDigit c = true)
      ∧ (digitsValue ip < 180 ∨ (digitsValue ip = 180 ∧ digitsValue fr.tail = 0)) := by
  rw [Regex.accepts_seq_iff] at h
  obtain ⟨sg, body, rfl, hsg, hbody⟩ := h
  rw [Regex.accepts_sign] at hsg
  rw [Regex.accepts_alt, Bool.or_eq_true] at hbody
  have e0 : ('0' : Char).toNat = 48 := by decide
  have e1 : ('1' : Char).toNat = 49 := by decide
  have e7 : ('7' : Char).toNat = 55 := by decide
  have e8 : ('8' : Char).toNat = 56 := by decide
  have e9 : ('9' : Char).toNat = 57 := by decide
  rcases hbody with hC | hD
  · simp only [Regex.cat, Regex.accepts_seq_iff, Regex.accepts_chr] at hC
    obtain ⟨a, r1, rfl, rfl, b, r2, rfl, rfl, c, fr, rfl, rfl, hfr⟩ := hC
    replace hfr := (Regex.accepts_seq_empty _ _).1 ((Regex.accepts_seq_iff _ _ _).2 hfr)
    have hfr2 := fraction_digits _ fr isDigit_of_zero_class hfr
    refine ⟨sg, [49, 56, 48], fr, by simp [e0, e1, e8], hsg, by simp, by decide, hfr2,
      Or.inr ⟨by decide, fraction_zero_value fr hfr⟩⟩
  · rw [Regex.accepts_seq_iff] at hD
    obtain ⟨ip, fr, rfl, hip, hfr⟩ := hD
    have hfr2 := fraction_digits _ fr (fun c hc => by rw [← inClass_digit]; exact hc) hfr
    rw [Regex.accepts_alt, Bool.or_eq_true] at hip
    rcases hip with h3 | h2
    · simp only [Regex.cat, Regex.accepts_seq_iff, Regex.accepts_chr, Regex.accepts_cls,
        inClass_range] at h3
      obtain ⟨a, r1, rfl, rfl, b, r2, rfl, ⟨c, rfl, hc⟩, hd⟩ := h3
      replace hd := (Regex.accepts_digit _).1
        ((Regex.accepts_seq_empty _ _).1 ((Regex.accepts_seq_iff _ _ _).2 hd))
      obtain ⟨d, rfl, hd⟩ := hd
      have hd2 : 48 ≤ d ∧ d ≤ 57 := by
        simpa only [isDigit, Bool.and_eq_true, decide_eq_true_eq] using hd
      rw [e0, e7] at hc
      refine ⟨sg, [49, c, d], fr, by simp [e1], hsg, by simp, ?_, hfr2, Or.inl ?_⟩
      · intro x hx
        simp only [List.mem_cons, List.mem_singleton, List.not_mem_nil, or_false] at hx
        rcases hx with rfl | rfl | rfl
        · decide
        · simp only [isDigit, Bool.and_eq_true, decide_eq_true_eq]; omega
        · exact hd
      · simp only [digitsValue, List.foldl_cons, List.foldl_nil]
        omega
    · simp only [Regex.accepts_seq_iff, Regex.accepts_opt, Regex.accepts_cls,
        Regex.accepts_digit, inClass_range] at h2
      obtain ⟨o, dd, rfl, ho, d, rfl, hd⟩ := h2
      have hd2 : 48 ≤ d ∧ d ≤ 57 := by
        simpa only [isDigit, Bool.and_eq_true, decide_eq_true_eq] using hd
      rcases ho with ⟨c, rfl, hc⟩ | rfl
      · rw [e1, e9] at hc
        refine ⟨sg, [c, d], fr, by simp, hsg, by simp, ?_, hfr2, Or.inl ?_⟩
        · intro x hx
          simp only [List.mem_cons, List.mem_singleton, List.not_mem_nil, or_false] at hx
          rcases hx with rfl | rfl
          · simp only [isDigit, Bool.and_eq_true, decide_eq_true_eq]; omega
          · exact hd
        · simp only [digitsValue, List.foldl_cons, List.foldl_nil]
          omega
      · refine ⟨sg, [d], fr, by simp, hsg, by simp, ?_, hfr2, Or.inl ?_⟩
        · intro x hx
          simp only [List.mem_singleton] at hx
          rw [hx]; exact hd
        · simp only [digitsValue, List.foldl_cons, List.foldl_nil]
          omega

theorem latitude_pass_iff (base : Env) (v : Str) (rest : List Str) (msgs : Messages)
    (hv : v ≠ []) :
    ((Latitude (stdlib base)).Validate (v :: rest) msgs).1 = none
      ↔ (Regex.seq (Regex.opt (.cls [('-', '-'), ('+', '+')]))
       (.alt
         (Regex.cat [Regex.opt (.cls [('1', '8')]), Regex.digit, Regex.fraction [('0', '9')]])
         (Regex.cat [Regex.chr '9', Regex.chr '0', Regex.fraction [('0', '0')]]))).accepts v
        = true := by
  have hl : v.length ≠ 0 := length_ne_zero_of_ne_nil v hv
  have h : GoMap.lookupIn (bytes "^[-+]?([1-8]?\\d(\\.\\d+)?|90(\\.0+)?)$") regexpTable
      = some (Regex.seq (Regex.opt (.cls [('-', '-'), ('+', '+')]))
       (.alt
         (Regex.cat [Regex.opt (.cls [('1', '8')]), Regex.digit, Regex.fraction [('0', '9')]])
         (Regex.cat [Regex.chr '9', Regex.chr '0', Regex.fraction [('0', '0')]]))) := by
    rfl
  simp only [Latitude, latitude.Validate, getFirstKey, if_neg hl, stdlib, regexpMatchString, h]
  split_ifs with hm
  · simp [hm]
  · simp [hm]

theorem longitude_pass_iff (base : Env) (v : Str) (rest : List Str) (msgs : Messages)
    (hv : v ≠ []) :
    ((Longitude (stdlib base)).Validate (v :: rest) msgs).1 = none
      ↔ (Regex.seq (Regex.opt (.cls [('-', '-'), ('+', '+')]))
       (.alt
         (Regex.cat [Regex.chr '1', Regex.chr '8', Regex.chr '0', Regex.fraction [('0', '0')]])
         (.seq
           (.alt (Regex.cat [Regex.chr '1', .cls [('0', '7')], Regex.digit])
             (.seq (Regex.opt (.cls [('1', '9')])) Regex.digit))
           (Regex.fraction [('0', '9')])))).accepts v = true := by
  have hl : v.length ≠ 0 := length_ne_zero_of_ne_nil v hv
  have h : GoMap.lookupIn
      (bytes "^[-+]?(180(\\.0+)?|((1[0-7]\\d)|([1-9]?\\d))(\\.\\d+)?)$") regexpTable
      = some (Regex.seq (Regex.opt (.cls [('-', '-'), ('+', '+')]))
       (.alt
         (Regex.cat [Regex.chr '1', Regex.chr '8', Regex.chr '0', Regex.fraction [('0', '0')]])
         (.seq
           (.alt (Regex.cat [Regex.chr '1', .cls [('0', '7')], Regex.digit])
             (.seq (Regex.opt (.cls [('1', '9')])) Regex.digit))
           (Regex.fraction [('0', '9')])))) := by
    rfl
  simp only [Longitude, longitude.Validate, getFirstKey, if_neg hl, stdlib, regexpMatchString, h]
  split_ifs with hm
  · simp [hm]
  · simp [hm]

/-- C19: every non-empty value that `Latitude` passes is an optionally signed
decimal numeral (ASCII digits with an optional fractional part) whose value is
in [-90, 90], and every non-empty value that `Longitude` passes is such a
numeral whose value is in [-180, 180]; the bounds `90.0`, `-90.0`, `180.0` and
`-180.0` pass and `90.1`, `-90.1`, `180.1` and `-180.1` fail. -/
theorem C19_latitude_longitude_within_bounds (base : Env) (v : Str) (rest : List Str)
    (msgs : Messages) (hv : v ≠ []) :
    (((Latitude (stdlib base)).Validate (v :: rest) msgs).1 = none →
        isDecimalNumeral v = true ∧ -90 ≤ decimalValue v ∧ decimalValue v ≤ 90)
      ∧ (((Longitude (stdlib base)).Validate (v :: rest) msgs).1 = none →
        isDecimalNumeral v = true ∧ -180 ≤ decimalValue v ∧ decimalValue v ≤ 180)
      ∧ ((Latitude (stdlib base)).Validate (bytes "90.0" :: rest) msgs).1 = none
      ∧ ((Latitude (stdlib base)).Validate (bytes "-90.0" :: rest) msgs).1 = none
      ∧ ((Longitude (stdlib base)).Validate (bytes "180.0" :: rest) msgs).1 = none
      ∧ ((Longitude (stdlib base)).Validate (bytes "-180.0" :: rest) msgs).1 = none
      ∧ ((Latitude (stdlib base)).Validate (bytes "90.1" :: rest) msgs).1 ≠ none
      ∧ ((Latitude (stdlib base)).Validate (bytes "-90.1" :: rest) msgs).1 ≠ none
      ∧ ((Longitude (stdlib base)).Validate (bytes "180.1" :: rest) msgs).1 ≠ none
      ∧ ((Longitude (stdlib base)).Validate (bytes "-180.1" :: rest) msgs).1 ≠ none := by
  refine ⟨?_, ?_, ?_, ?_, ?_, ?_, ?_, ?_, ?_, ?_⟩
  · intro hp
    obtain ⟨sg, ip, fr, rfl, hsg, hne, hip, hfr, hb⟩ :=
      latitude_shape v ((latitude_pass_iff base v rest msgs hv).mp hp)
    have := decimal_bound sg ip fr 90 hsg hne hip hfr hb
    simpa using this
  · intro hp
    obtain ⟨sg, ip, fr, rfl, hsg, hne, hip, hfr, hb⟩ :=
      longitude_shape v ((longitude_pass_iff base v rest msgs hv).mp hp)
    have := decimal_bound sg ip fr 180 hsg hne hip hfr hb
    simpa using this
  · exact (latitude_pass_iff base _ rest msgs (by decide)).mpr (by decide)
  · exact (latitude_pass_iff base _ rest msgs (by decide)).mpr (by decide)
  · exact (longitude_pass_iff base _ rest msgs (by decide)).mpr (by decide)
  · exact (longitude_pass_iff base _ rest msgs (by decide)).mpr (by decide)
  · exact fun h => absurd ((latitude_pass_iff base _ rest msgs (by decide)).mp h) (by decide)
  · exact fun h => absurd ((latitude_pass_iff base _ rest msgs (by decide)).mp h) (by decide)
  · exact fun h => absurd ((longitude_pass_iff base _ rest msgs (by decide)).mp h) (by decide)
  · exact fun h => absurd ((longitude_pass_iff base _ rest msgs (by decide)).mp h) (by decide)

theorem C19_latitude_longitude_within_bounds_witness :
    bytes "45.5" ≠ []
      ∧ ((Latitude (stdlib trivialEnv)).Validate (bytes "45.5" :: []) defaultErrors).1 = none
      ∧ ((Longitude (stdlib trivialEnv)).Validate (bytes "45.5" :: []) defaultErrors).1 = none
      ∧ ((((Latitude (stdlib trivialEnv)).Validate (bytes "45.5" :: []) defaultErrors).1 = none →
          isDecimalNumeral (bytes "45.5") = true ∧ -90 ≤ decimalValue (bytes "45.5")
            ∧ decimalValue (bytes "45.5") ≤ 90)
        ∧ (((Longitude (stdlib trivialEnv)).Validate (bytes "45.5" :: []) defaultErrors).1
            = none →
          isDecimalNumeral (bytes "45.5") = true ∧ -180 ≤ decimalValue (bytes "45.5")
            ∧ decimalValue (bytes "45.5") ≤ 180)
        ∧ ((Latitude (stdlib trivialEnv)).Validate (bytes "90.0" :: []) defaultErrors).1 = none
        ∧ ((Latitude (stdlib trivialEnv)).Validate (bytes "-90.0" :: []) defaultErrors).1 = none
        ∧ ((Longitude (stdlib trivialEnv)).Validate (bytes "180.0" :: []) defaultErrors).1
            = none
        ∧ ((Longitude (stdlib trivialEnv)).Validate (bytes "-180.0" :: []) defaultErrors).1
            = none
        ∧ ((Latitude (stdlib trivialEnv)).Validate (bytes "90.1" :: []) defaultErrors).1 ≠ none
        ∧ ((Latitude (stdlib trivialEnv)).Validate (bytes "-90.1" :: []) defaultErrors).1
            ≠ none
        ∧ ((Longitude (stdlib trivialEnv)).Validate (bytes "180.1" :: []) defaultErrors).1
            ≠ none
        ∧ ((Longitude (stdlib trivialEnv)).Validate (bytes "-180.1" :: []) defaultErrors).1
            ≠ none) :=
  ⟨by decide, by decide, by decide,
   C19_latitude_longitude_within_bounds trivialEnv (bytes "45.5") [] defaultErrors
     (by decide)⟩

/-! ## Theorems: string length and list rules -/

theorem minStrLen_data (min : Nat) (fields : List Str) (msgs : Messages) :
    ((MinStrLen min).Validate fields msgs).1 = none →
      (MinStrLen min).Validate fields msgs = (none, []) := by
  simp only [MinStrLen, minStrLen.Validate]
  split_ifs <;> simp

theorem maxStrLen_data (max : Nat) (fields : List Str) (msgs : Messages) :
    ((MaxStrLen max).Validate fields msgs).1 = none →
      (MaxStrLen max).Validate fields msgs = (none, []) := by
  simp only [MaxStrLen, maxStrLen.Validate]
  split_ifs <;> simp

theorem strLen_eq_composite (min max : Nat) (fields : List Str) (msgs : Messages) :
    (StrLen min max).Validate fields msgs
      = (sequentialComposite (MinStrLen min) (MaxStrLen max)).Validate fields msgs := by
  have h2 := maxStrLen_data max fields msgs
  simp only [StrLen, strLen.Validate, sequentialComposite, MinStrLen, MaxStrLen] at h2 ⊢
  rcases h1 : minStrLen.Validate min fields msgs with ⟨_ | e1, d1⟩
  · rcases h3 : maxStrLen.Validate max fields msgs with ⟨_ | e2, d2⟩
    · rw [h3] at h2
      simpa using (h2 rfl).symm
    · rfl
  · rfl

/-- C21: `StrLen(min, max)` is the sequential composite of `MinStrLen(min)` and
`MaxStrLen(max)`: on every input it returns the failure of `MinStrLen(min)`
when that rule fails and otherwise the result of `MaxStrLen(max)`, so a chain
made of it reports at most one failure. `StrLen(2, 50)` passes the empty
string, fails `a` with the `string_min` message and fails every string longer
than 50 bytes, so every string of 51 characters, with the `string_max`
message. -/
theorem C21_strLen_is_sequential_composite (min max : Nat) (fields : List Str)
    (msgs : Messages) :
    (StrLen min max).Validate fields msgs
        = (sequentialComposite (MinStrLen min) (MaxStrLen max)).Validate fields msgs
      ∧ (((MinStrLen min).Validate fields msgs).1 ≠ none →
          (StrLen min max).Validate fields msgs = (MinStrLen min).Validate fields msgs)
      ∧ (((MinStrLen min).Validate fields msgs).1 = none →
          (StrLen min max).Validate fields msgs = (MaxStrLen max).Validate fields msgs)
      ∧ (chainFailures msgs fields [StrLen min max]).length ≤ 1
      ∧ (StrLen 2 50).Validate [bytes ""] msgs = (none, [])
      ∧ (StrLen 2 50).Validate [bytes "a"] msgs
          = (some (msgs.msg "string_min"), [Arg.uint32 2])
      ∧ (∀ s : Str, 50 < s.length →
          (StrLen 2 50).Validate [s] msgs = (some (msgs.msg "string_max"), [Arg.uint32 50])) := by
  have hc := strLen_eq_composite min max fields msgs
  refine ⟨hc, ?_, ?_, ?_, ?_, ?_, ?_⟩
  · intro h
    rw [hc]
    simp only [sequentialComposite]
    rcases h1 : (MinStrLen min).Validate fields msgs with ⟨_ | e1, d1⟩
    · rw [h1] at h; exact absurd rfl h
    · rfl
  · intro h
    rw [hc]
    simp only [sequentialComposite]
    rcases h1 : (MinStrLen min).Validate fields msgs with ⟨_ | e1, d1⟩
    · rfl
    · rw [h1] at h; cases h
  · simp only [chainFailures, List.filterMap_cons, List.filterMap_nil]
    split <;> simp
  · simp [StrLen, strLen.Validate, minStrLen.Validate, maxStrLen.Validate, getFirstKey, bytes]
  · have : bytes "a" = [97] := by decide
    simp [StrLen, strLen.Validate, minStrLen.Validate, getFirstKey, this]
  · intro s hs
    have h0 : ¬ s.length = 0 := by omega
    have h1 : 2 ≤ s.length := by omega
    have h2 : ¬ s.length ≤ 50 := by omega
    simp [StrLen, strLen.Validate, minStrLen.Validate, maxStrLen.Validate, getFirstKey, h0, h1,
      h2]

theorem hasDuplicatesLoop_iff (slice seen : List Str) :
    hasDuplicatesLoop slice seen = true ↔ (¬ slice.Nodup ∨ ∃ v ∈ slice, v ∈ seen) := by
  induction slice generalizing seen with
  | nil => simp [hasDuplicatesLoop]
  | cons val rest ih =>
    simp only [hasDuplicatesLoop]
    by_cases h : inSlice seen val = true
    · simp only [h, if_true, true_iff]
      right
      exact ⟨val, List.mem_cons_self _ _, (inSlice_iff _ _).1 h⟩
    · have hn : val ∉ seen := fun hm => h ((inSlice_iff _ _).2 hm)
      simp only [h, Bool.false_eq_true, if_false, ih, List.nodup_cons, List.mem_append,
        List.mem_singleton, List.mem_cons, List.not_mem_nil, or_false]
      constructor
      · rintro (h1 | ⟨v, hv, h2 | h2⟩)
        · exact Or.inl (fun hc => h1 hc.2)
        · exact Or.inr ⟨v, Or.inr hv, h2⟩
        · subst h2
          exact Or.inl (fun hc => hc.1 hv)
      · rintro (h1 | ⟨v, hv | hv, h2⟩)
        · by_cases hm : val ∈ rest
          · exact Or.inr ⟨val, hm, Or.inr rfl⟩
          · exact Or.inl (fun hc => h1 ⟨hm, hc⟩)
        · subst hv
          exact absurd h2 hn
        · exact Or.inr ⟨v, hv, Or.inl h2⟩

theorem hasDuplicates_iff (slice : List Str) : hasDuplicates slice = true ↔ ¬ slice.Nodup := by
  simp [hasDuplicates, hasDuplicatesLoop_iff]

theorem sliceDiff_eq_nil_iff (slice1 slice2 : List Str) :
    sliceDiff slice1 slice2 = [] ↔ ∀ v ∈ slice1, v ∈ slice2 := by
  induction slice1 with
  | nil => simp [sliceDiff]
  | cons j rest ih =>
    simp only [sliceDiff]
    by_cases h : inSlice slice2 j = true
    · simp [h, ih, (inSlice_iff _ _).1 h]
    · have hn : j ∉ slice2 := fun hm => h ((inSlice_iff _ _).2 hm)
      simp [h, hn]

theorem inListSingle_one (list : List Str) (v : Str) (msgs : Messages) (hv : v ≠ []) :
    (InListSingle list).Validate [v] msgs
      = if v ∈ list then (none, []) else (some (msgs.msg "in_list"), []) := by
  have hl : ¬ v.length = 0 := length_ne_zero_of_ne_nil v hv
  by_cases h : v ∈ list
  · simp [InListSingle, inListSingle.Validate, hl, (inSlice_iff list v).2 h, h]
  · have hs : ¬ inSlice list v = true := fun hc => h ((inSlice_iff list v).1 hc)
    simp [InListSingle, inListSingle.Validate, hl, hs, h]

theorem inListSingle_many (list : List Str) (fields : List Str) (msgs : Messages)
    (h : 2 ≤ fields.length) :
    (InListSingle list).Validate fields msgs = (some (msgs.msg "multiple_entries"), []) := by
  have h0 : ¬ fields.length = 0 := by omega
  have h1 : ¬ fields.length = 1 := by omega
  have h2 : fields.length > 1 := by omega
  simp [InListSingle, inListSingle.Validate, h0, h1, h2]

/-- C23: `InListSingle(list)` returns no failure when no value or a single empty
string is submitted; the `multiple_entries` failure whenever two or more values
are submitted, whatever they are; and on a single non-empty value no failure
when the value is equal, byte for byte, to an entry of the list, and the
`in_list` failure when it is not. -/
theorem C23_inListSingle_outcomes (list : List Str) (fields : List Str) (msgs : Messages) :
    (InListSingle list).Validate [] msgs = (none, [])
      ∧ (InListSingle list).Validate [[]] msgs = (none, [])
      ∧ (2 ≤ fields.length →
          (InListSingle list).Validate fields msgs = (some (msgs.msg "multiple_entries"), []))
      ∧ (∀ v : Str, v ≠ [] →
          (v ∈ list → (InListSingle list).Validate [v] msgs = (none, []))
            ∧ (v ∉ list →
                (InListSingle list).Validate [v] msgs = (some (msgs.msg "in_list"), [])))
      ∧ (InListSingle [bytes "a"]).Validate [bytes "a", bytes "a"] msgs
          = (some (msgs.msg "multiple_entries"), [])
      ∧ (InListSingle [bytes "a"]).Validate [bytes "", bytes ""] msgs
          = (some (msgs.msg "multiple_entries"), [])
      ∧ (InListSingle [bytes "a"]).Validate [bytes "A"] msgs
          = (some (msgs.msg "in_list"), []) := by
  refine ⟨?_, ?_, inListSingle_many list fields msgs, ?_, ?_, ?_, ?_⟩
  · simp [InListSingle, inListSingle.Validate]
  · simp [InListSingle, inListSingle.Validate]
  · intro v hv
    rw [inListSingle_one list v msgs hv]
    constructor
    · intro h; simp [h]
    · intro h; simp [h]
  · exact inListSingle_many _ _ msgs (by decide)
  · exact inListSingle_many _ _ msgs (by decide)
  · rw [inListSingle_one _ _ msgs (by decide)]
    exact if_neg (by decide)

theorem inListMultiple_eq (list : List Str) (fields : List Str) (msgs : Messages) :
    (InListMultiple list).Validate fields msgs
      = if fields = [] then (none, [])
        else if ¬ fields.Nodup then (some (msgs.msg "duplicate"), [])
        else if ∀ v ∈ fields, v ∈ list then (none, [])
        else (some (msgs.msg "in_list"), []) := by
  simp only [InListMultiple, inListMultiple.Validate, List.length_eq_zero, hasDuplicates_iff,
    sliceDiff_eq_nil_iff]

/-- C24: `InListMultiple(list)` returns no failure for the empty sequence; the
`duplicate` failure for every sequence in which some value occurs twice,
whatever the list; otherwise no failure when every submitted value occurs in
the list and the `in_list` failure when some value does not. Two lists with the
same submitted values among their entries give the same result. -/
theorem C24_inListMultiple_outcomes (list : List Str) (fields : List Str) (msgs : Messages) :
    (InListMultiple list).Validate [] msgs = (none, [])
      ∧ (¬ fields.Nodup →
          (InListMultiple list).Validate fields msgs = (some (msgs.msg "duplicate"), []))
      ∧ (fields ≠ [] → fields.Nodup → (∀ v ∈ fields, v ∈ list) →
          (InListMultiple list).Validate fields msgs = (none, []))
      ∧ (fields.Nodup → (∃ v ∈ fields, v ∉ list) →
          (InListMultiple list).Validate fields msgs = (some (msgs.msg "in_list"), []))
      ∧ (∀ list2 : List Str, (∀ v ∈ fields, v ∈ list ↔ v ∈ list2) →
          (InListMultiple list).Validate fields msgs
            = (InListMultiple list2).Validate fields msgs)
      ∧ (InListMultiple [bytes "a", bytes "b"]).Validate [bytes "a", bytes "a"] msgs
          = (some (msgs.msg "duplicate"), [])
      ∧ (InListMultiple [bytes "a", bytes "b"]).Validate [bytes "c", bytes "c"] msgs
          = (some (msgs.msg "duplicate"), []) := by
  refine ⟨?_, ?_, ?_, ?_, ?_, ?_, ?_⟩
  · simp [inListMultiple_eq]
  · intro h
    have hne : fields ≠ [] := by
      rintro rfl
      exact h List.nodup_nil
    simp [inListMultiple_eq, hne, h]
  · intro hne hnd hall
    rw [inListMultiple_eq, if_neg hne, if_neg (not_not.2 hnd), if_pos hall]
  · rintro hnd ⟨v, hv, hvl⟩
    have hne : fields ≠ [] := by
      rintro rfl
      simp at hv
    have hall : ¬ ∀ v ∈ fields, v ∈ list := fun hc => hvl (hc v hv)
    rw [inListMultiple_eq, if_neg hne, if_neg (not_not.2 hnd), if_neg hall]
  · intro list2 h
    have : (∀ v ∈ fields, v ∈ list) ↔ (∀ v ∈ fields, v ∈ list2) :=
      ⟨fun hc v hv => (h v hv).1 (hc v hv), fun hc v hv => (h v hv).2 (hc v hv)⟩
    simp only [inListMultiple_eq, this]
  · rw [inListMultiple_eq]
    have h1 : ¬ [bytes "a", bytes "a"].Nodup := by decide
    simp [h1]
  · rw [inListMultiple_eq]
    have h1 : ¬ [bytes "c", bytes "c"].Nodup := by decide
    simp [h1]

theorem notInListSingle_first (list : List Str) (v : Str) (rest : List Str) (msgs : Messages) :
    (NotInListSingle list).Validate (v :: rest) msgs
      = if v = [] then (none, [])
        else if v ∈ list then (some (msgs.msg "not_in_list"), []) else (none, []) := by
  by_cases hv : v = []
  · simp [NotInListSingle, notInListSingle.Validate, getFirstKey, hv]
  · have hl : ¬ v.length = 0 := length_ne_zero_of_ne_nil v hv
    by_cases h : v ∈ list
    · simp [NotInListSingle, notInListSingle.Validate, getFirstKey, hl, hv,
        (inSlice_iff list v).2 h, h]
    · have hs : inSlice list v = false := by
        cases hc : inSlice list v
        · rfl
        · exact absurd ((inSlice_iff list v).1 hc) h
      simp [NotInListSingle, notInListSingle.Validate, getFirstKey, hl, hv, hs, h]

/-- C25: `NotInListSingle` is the inverse membership test of `InListSingle`: for
every list and every non-empty value, `NotInListSingle(list)` passes the single
submission of the value exactly when `InListSingle(list)` fails it; and a blank
submission (no value, or an empty first value) passes `NotInListSingle` for
every list, also one that contains the empty string. -/
theorem C25_notInListSingle_is_inverse (list : List Str) (v : Str) (msgs : Messages)
    (hv : v ≠ []) :
    (((NotInListSingle list).Validate [v] msgs).1 = none
        ↔ ((InListSingle list).Validate [v] msgs).1 ≠ none)
      ∧ (((NotInListSingle list).Validate [v] msgs).1 = none ↔ v ∉ list)
      ∧ (NotInListSingle list).Validate [] msgs = (none, [])
      ∧ (∀ rest : List Str, (NotInListSingle list).Validate ([] :: rest) msgs = (none, []))
      ∧ (NotInListSingle [bytes ""]).Validate [bytes ""] msgs = (none, []) := by
  have h1 : ((NotInListSingle list).Validate [v] msgs).1 = none ↔ v ∉ list := by
    rw [notInListSingle_first, if_neg hv]
    by_cases h : v ∈ list <;> simp [h]
  have h2 : ((InListSingle list).Validate [v] msgs).1 ≠ none ↔ v ∉ list := by
    rw [inListSingle_one list v msgs hv]
    by_cases h : v ∈ list <;> simp [h]
  refine ⟨h1.trans h2.symm, h1, ?_, ?_, ?_⟩
  · simp [NotInListSingle, notInListSingle.Validate, getFirstKey]
  · intro rest
    simp [notInListSingle_first]
  · simp [notInListSingle_first, bytes]

theorem C25_notInListSingle_is_inverse_witness :
    bytes "b" ≠ []
      ∧ ((((NotInListSingle [bytes "a", bytes ""]).Validate [bytes "b"] defaultErrors).1 = none
          ↔ ((InListSingle [bytes "a", bytes ""]).Validate [bytes "b"] defaultErrors).1 ≠ none)
        ∧ (((NotInListSingle [bytes "a", bytes ""]).Validate [bytes "b"] defaultErrors).1 = none
            ↔ bytes "b" ∉ [bytes "a", bytes ""])
        ∧ (NotInListSingle [bytes "a", bytes ""]).Validate [] defaultErrors = (none, [])
        ∧ (∀ rest : List Str,
            (NotInListSingle [bytes "a", bytes ""]).Validate ([] :: rest) defaultErrors
              = (none, []))
        ∧ (NotInListSingle [bytes ""]).Validate [bytes ""] defaultErrors = (none, [])) :=
  ⟨by decide,
   C25_notInListSingle_is_inverse [bytes "a", bytes ""] (bytes "b") defaultErrors (by decide)⟩

/-- C27: `Required` passes exactly when one value was submitted and that value
is not empty; on two or more values it fails with the `multiple_entries`
message, also when the first value is not empty; on no value and on a single
empty value it fails with the `required` message. -/
theorem C27_required_outcomes (fields : List Str) (msgs : Messages) :
    ((Required.Validate fields msgs).1 = none ↔ ∃ v : Str, fields = [v] ∧ v ≠ [])
      ∧ (2 ≤ fields.length →
          Required.Validate fields msgs = (some (msgs.msg "multiple_entries"), []))
      ∧ Required.Validate [] msgs = (some (msgs.msg "required"), [])
      ∧ Required.Validate [[]] msgs = (some (msgs.msg "required"), [])
      ∧ Required.Validate [bytes "a", bytes "b"] msgs
          = (some (msgs.msg "multiple_entries"), []) := by
  have hmany : ∀ fs : List Str, 2 ≤ fs.length →
      Required.Validate fs msgs = (some (msgs.msg "multiple_entries"), []) := by
    intro fs h
    have h1 : ¬ fs.length = 1 := by omega
    have h2 : fs.length > 1 := by omega
    simp [Required, requiredSingle.Validate, h1, h2]
  refine ⟨?_, hmany fields, ?_, ?_, hmany _ (by decide)⟩
  · rcases fields with _ | ⟨a, _ | ⟨b, t⟩⟩
    · simp [Required, requiredSingle.Validate]
    · by_cases ha : a = []
      · simp [Required, requiredSingle.Validate, ha]
      · have hl : 0 < a.length := List.length_pos.2 ha
        simp [Required, requiredSingle.Validate, ha, hl]
    · simp [Required, requiredSingle.Validate]
  · simp [Required, requiredSingle.Validate]
  · simp [Required, requiredSingle.Validate]

theorem countryCode_eq (env : Env) (fields : List Str) (msgs : Messages) :
    (CountryCode env).Validate fields msgs
      = if getFirstKey fields = [] then (none, [])
        else if getFirstKey fields ∈ env.iso3166countryCodes then (none, [])
        else (some (msgs.msg "country_code"), []) := by
  simp only [CountryCode, countryCode.Validate, List.length_eq_zero]
  by_cases h : getFirstKey fields ∈ env.iso3166countryCodes
  · simp [h, (inSlice_iff _ _).2 h]
  · have hs : ¬ inSlice env.iso3166countryCodes (getFirstKey fields) = true :=
      fun hc => h ((inSlice_iff _ _).1 hc)
    simp [h, hs]

theorem currencyCode_eq (env : Env) (fields : List Str) (msgs : Messages) :
    (CurrencyCode env).Validate fields msgs
      = if getFirstKey fields = [] then (none, [])
        else if getFirstKey fields ∈ env.iso4217currencyCodes then (none, [])
        else (some (msgs.msg "currency_code"), []) := by
  simp only [CurrencyCode, currencyCode.Validate, List.length_eq_zero]
  by_cases h : getFirstKey fields ∈ env.iso4217currencyCodes
  · simp [h, (inSlice_iff _ _).2 h]
  · have hs : ¬ inSlice env.iso4217currencyCodes (getFirstKey fields) = true :=
      fun hc => h ((inSlice_iff _ _).1 hc)
    simp [h, hs]

theorem inListSingle_short (list : List Str) (fields : List Str) (msgs : Messages)
    (h : fields.length ≤ 1) :
    ((InListSingle list).Validate fields msgs).1 = none
      ↔ (getFirstKey fields = [] ∨ getFirstKey fields ∈ list) := by
  rcases fields with _ | ⟨v, _ | ⟨w, t⟩⟩
  · simp [InListSingle, inListSingle.Validate, getFirstKey]
  · by_cases hv : v = []
    · simp [InListSingle, inListSingle.Validate, getFirstKey, hv]
    · rw [inListSingle_one list v msgs hv]
      by_cases hm : v ∈ list <;> simp [getFirstKey, hv, hm]
  · simp at h

/-- C26 as stated fails: on the two values `us`, `de` the rule `CountryCode`
passes, looking at the first value only, while `InListSingle` over the same
codes fails with the `multiple_entries` message; likewise `CurrencyCode` on
`usd`, `eur`. -/
theorem C26_counterexample :
    ((CountryCode sampleCodesEnv).Validate [bytes "us", bytes "de"] defaultErrors).1 = none
      ∧ ((InListSingle sampleCodesEnv.iso3166countryCodes).Validate
            [bytes "us", bytes "de"] defaultErrors).1
          = some (bytes "This field may only contain one entry.")
      ∧ ((CurrencyCode sampleCodesEnv).Validate [bytes "usd", bytes "eur"] defaultErrors).1
          = none
      ∧ ((InListSingle sampleCodesEnv.iso4217currencyCodes).Validate
            [bytes "usd", bytes "eur"] defaultErrors).1
          = some (bytes "This field may only contain one entry.") := by
  decide

/-- C26 (as amended): on every submission of at most one value `CountryCode`
fails exactly when `InListSingle` over the country codes fails, and
`CurrencyCode` exactly when `InListSingle` over the currency codes fails. On
any submission the two rules look at the first value only: they pass when it is
empty or is, byte for byte, one of the codes, so with `us` among the codes and
`US` not, `us` passes and `US` fails; on two or more values `InListSingle`
fails with `multiple_entries` whatever the values. -/
theorem C26_code_rules_match_inListSingle (env : Env) (fields : List Str) (msgs : Messages)
    (h : fields.length ≤ 1) :
    (((CountryCode env).Validate fields msgs).1 ≠ none
        ↔ ((InListSingle env.iso3166countryCodes).Validate fields msgs).1 ≠ none)
      ∧ (((CurrencyCode env).Validate fields msgs).1 ≠ none
        ↔ ((InListSingle env.iso4217currencyCodes).Validate fields msgs).1 ≠ none)
      ∧ (∀ fs : List Str,
          (((CountryCode env).Validate fs msgs).1 = none
              ↔ (getFirstKey fs = [] ∨ getFirstKey fs ∈ env.iso3166countryCodes))
            ∧ (((CurrencyCode env).Validate fs msgs).1 = none
              ↔ (getFirstKey fs = [] ∨ getFirstKey fs ∈ env.iso4217currencyCodes)))
      ∧ (∀ fs : List Str, 2 ≤ fs.length →
          (InListSingle env.iso3166countryCodes).Validate fs msgs
              = (some (msgs.msg "multiple_entries"), [])
            ∧ (InListSingle env.iso4217currencyCodes).Validate fs msgs
              = (some (msgs.msg "multiple_entries"), []))
      ∧ (bytes "us" ∈ env.iso3166countryCodes → bytes "US" ∉ env.iso3166countryCodes →
          (CountryCode env).Validate [bytes "us"] msgs = (none, [])
            ∧ (CountryCode env).Validate [bytes "US"] msgs
                = (some (msgs.msg "country_code"), []))
      ∧ (CountryCode env).Validate [bytes ""] msgs = (none, [])
      ∧ (CurrencyCode env).Validate [bytes ""] msgs = (none, []) := by
  have hfirst : ∀ fs : List Str,
      (((CountryCode env).Validate fs msgs).1 = none
          ↔ (getFirstKey fs = [] ∨ getFirstKey fs ∈ env.iso3166countryCodes))
        ∧ (((CurrencyCode env).Validate fs msgs).1 = none
          ↔ (getFirstKey fs = [] ∨ getFirstKey fs ∈ env.iso4217currencyCodes)) := by
    intro fs
    rw [countryCode_eq, currencyCode_eq]
    constructor
    · by_cases h1 : getFirstKey fs = []
      · simp [h1]
      · by_cases h2 : getFirstKey fs ∈ env.iso3166countryCodes <;> simp [h1, h2]
    · by_cases h1 : getFirstKey fs = []
      · simp [h1]
      · by_cases h2 : getFirstKey fs ∈ env.iso4217currencyCodes <;> simp [h1, h2]
  refine ⟨?_, ?_, hfirst, ?_, ?_, ?_, ?_⟩
  · rw [not_iff_not, (hfirst fields).1, inListSingle_short _ _ _ h]
  · rw [not_iff_not, (hfirst fields).2, inListSingle_short _ _ _ h]
  · intro fs hfs
    exact ⟨inListSingle_many _ _ _ hfs, inListSingle_many _ _ _ hfs⟩
  · intro h1 h2
    have e1 : bytes "us" ≠ [] := by decide
    have e2 : bytes "US" ≠ [] := by decide
    rw [countryCode_eq, countryCode_eq]
    simp [getFirstKey, e1, e2, h1, h2]
  · rw [countryCode_eq]
    simp [getFirstKey, bytes]
  · rw [currencyCode_eq]
    simp [getFirstKey, bytes]

theorem C26_code_rules_match_inListSingle_witness :
    [bytes "us"].length ≤ 1
      ∧ ((((CountryCode sampleCodesEnv).Validate [bytes "us"] defaultErrors).1 ≠ none
          ↔ ((InListSingle sampleCodesEnv.iso3166countryCodes).Validate [bytes "us"]
                defaultErrors).1 ≠ none)
        ∧ (((CurrencyCode sampleCodesEnv).Validate [bytes "us"] defaultErrors).1 ≠ none
          ↔ ((InListSingle sampleCodesEnv.iso4217currencyCodes).Validate [bytes "us"]
                defaultErrors).1 ≠ none)
        ∧ (∀ fs : List Str,
            (((CountryCode sampleCodesEnv).Validate fs defaultErrors).1 = none
                ↔ (getFirstKey fs = [] ∨ getFirstKey fs ∈ sampleCodesEnv.iso3166countryCodes))
              ∧ (((CurrencyCode sampleCodesEnv).Validate fs defaultErrors).1 = none
                ↔ (getFirstKey fs = []
                    ∨ getFirstKey fs ∈ sampleCodesEnv.iso4217currencyCodes)))
        ∧ (∀ fs : List Str, 2 ≤ fs.length →
            (InListSingle sampleCodesEnv.iso3166countryCodes).Validate fs defaultErrors
                = (some (defaultErrors.msg "multiple_entries"), [])
              ∧ (InListSingle sampleCodesEnv.iso4217currencyCodes).Validate fs defaultErrors
                = (some (defaultErrors.msg "multiple_entries"), []))
        ∧ (bytes "us" ∈ sampleCodesEnv.iso3166countryCodes →
            bytes "US" ∉ sampleCodesEnv.iso3166countryCodes →
            (CountryCode sampleCodesEnv).Validate [bytes "us"] defaultErrors = (none, [])
              ∧ (CountryCode sampleCodesEnv).Validate [bytes "US"] defaultErrors
                  = (some (defaultErrors.msg "country_code"), []))
        ∧ (CountryCode sampleCodesEnv).Validate [bytes ""] defaultErrors = (none, [])
        ∧ (CurrencyCode sampleCodesEnv).Validate [bytes ""] defaultErrors = (none, [])) :=
  ⟨by decide,
   C26_code_rules_match_inListSingle sampleCodesEnv [bytes "us"] defaultErrors (by decide)⟩

/-- C28: `New(nil)` returns `ErrNilArguments` and no validator; `New` of a
rule map returns no error and a validator, with that rule map, the default
messages and blanking on; `SetErrors(nil)` returns `ErrNilArguments` and leaves
the validator as it was, so its message table, every `GetErrorMessage` result
and every `Validate` result are unchanged. -/
theorem C28_nil_configuration_rejected (rules : GoMap (List Rule)) (f : FormValidator)
    (key : Str) (form : Values) :
    New none = (some ErrNilArguments, none)
      ∧ New (some rules) = (none, some ⟨rules, defaultErrors, true⟩)
      ∧ (f.SetErrors none).1 = some ErrNilArguments
      ∧ (f.SetErrors none).2 = f
      ∧ (f.SetErrors none).2.errorMessages = f.errorMessages
      ∧ (f.SetErrors none).2.GetErrorMessage key = f.GetErrorMessage key
      ∧ ((f.SetErrors none).2.Validate form).allErrors = (f.Validate form).allErrors :=
  ⟨rfl, rfl, rfl, rfl, rfl, rfl, rfl⟩

/-- C29: after `SetErrors(m)` with a table `m` that is not nil the message
table is `m`: `GetErrorMessage(k)` returns `m[k]` for every key of `m` and the
empty string for every other `k`, also for a kind that had a default message,
and a later `Validate` reports for a declared field the failures of its chain
with the templates of `m`. For any table, the lookup of a kind that is not in
it gives the empty string, in `GetErrorMessage` as in the rules. -/
theorem C29_setErrors_replaces_table (f : FormValidator) (m : Messages) (form : Values)
    (fieldName : Str) (chain : List Rule) (hwf : f.rules.WF)
    (hdecl : (fieldName, chain) ∈ f.rules.entries) :
    (f.SetErrors (some m)).1 = none
      ∧ (f.SetErrors (some m)).2.errorMessages = m
      ∧ (∀ k v, m.lookup k = some v → (f.SetErrors (some m)).2.GetErrorMessage k = v)
      ∧ (∀ k, m.lookup k = none → (f.SetErrors (some m)).2.GetErrorMessage k = [])
      ∧ ((f.SetErrors (some m)).2.Validate form).allErrors.lookup fieldName
          = some (chainFailures m (form.at fieldName) chain)
      ∧ (∀ k, f.errorMessages.lookup k = none → f.GetErrorMessage k = [])
      ∧ (∀ kind : String, f.errorMessages.lookup (bytes kind) = none →
          f.errorMessages.msg kind = [])
      ∧ (sampleValidator.GetErrorMessage (bytes "email")
            = bytes "Please enter a valid e-mail address."
          ∧ (sampleValidator.SetErrors (some sampleMessages)).2.GetErrorMessage (bytes "email")
            = []) := by
  refine ⟨rfl, rfl, ?_, ?_, ?_, ?_, ?_, ?_⟩
  · intro k v h
    simp [FormValidator.SetErrors, FormValidator.GetErrorMessage, h]
  · intro k h
    simp [FormValidator.SetErrors, FormValidator.GetErrorMessage, h]
  · exact (Validate_lookup_declared (f.SetErrors (some m)).2 form hwf fieldName chain hdecl).1
  · intro k h
    simp [FormValidator.GetErrorMessage, h]
  · intro kind h
    simp [Messages.msg, GoMap.index, h]
  · decide

theorem C29_setErrors_replaces_table_witness :
    sampleValidator.rules.WF
      ∧ (bytes "LastName", [Required, MinStrLen 4, StrMatch (bytes "Smith")])
          ∈ sampleValidator.rules.entries
      ∧ ((sampleValidator.SetErrors (some sampleMessages)).1 = none
        ∧ (sampleValidator.SetErrors (some sampleMessages)).2.errorMessages = sampleMessages
        ∧ (∀ k v, sampleMessages.lookup k = some v →
            (sampleValidator.SetErrors (some sampleMessages)).2.GetErrorMessage k = v)
        ∧ (∀ k, sampleMessages.lookup k = none →
            (sampleValidator.SetErrors (some sampleMessages)).2.GetErrorMessage k = [])
        ∧ ((sampleValidator.SetErrors (some sampleMessages)).2.Validate sampleForm).allErrors.lookup
              (bytes "LastName")
            = some (chainFailures sampleMessages (sampleForm.at (bytes "LastName"))
                [Required, MinStrLen 4, StrMatch (bytes "Smith")])
        ∧ (∀ k, sampleValidator.errorMessages.lookup k = none →
            sampleValidator.GetErrorMessage k = [])
        ∧ (∀ kind : String, sampleValidator.errorMessages.lookup (bytes kind) = none →
            sampleValidator.errorMessages.msg kind = [])
        ∧ (sampleValidator.GetErrorMessage (bytes "email")
              = bytes "Please enter a valid e-mail address."
            ∧ (sampleValidator.SetErrors (some sampleMessages)).2.GetErrorMessage
                (bytes "email") = [])) :=
  ⟨by decide, List.mem_cons_self _ _,
   C29_setErrors_replaces_table sampleValidator sampleMessages sampleForm (bytes "LastName")
     [Required, MinStrLen 4, StrMatch (bytes "Smith")] (by decide) (List.mem_cons_self _ _)⟩

/-! ## Theorems: CSV entries -/

theorem csvLoop_pass_iff (min max : Nat) (msgs : Messages) (l : List Str) :
    (csvEntryStrLen.loop min max msgs l).1 = none ↔ tokensWithinBytes min max l := by
  unfold tokensWithinBytes
  induction l with
  | nil => simp [csvEntryStrLen.loop]
  | cons e rest ih =>
    simp only [csvEntryStrLen.loop, List.mem_cons, forall_eq_or_imp]
    by_cases h0 : e.length = 0
    · have he : e = [] := List.length_eq_zero.1 h0
      simp [h0, he, ih]
    · have he : e ≠ [] := fun hc => h0 (by simp [hc])
      by_cases h1 : e.length < min
      · have : ¬ min ≤ e.length := by omega
        simp [h0, h1, he, this]
      · by_cases h2 : e.length > max
        · have : ¬ e.length ≤ max := by omega
          simp [h0, h1, h2, he, this]
        · have h3 : min ≤ e.length := by omega
          have h4 : e.length ≤ max := by omega
          simp [h0, h1, h2, he, h3, h4, ih]

theorem csvEntryStrLen_pass_iff (env : Env) (d min max : Nat) (v : Str) (rest : List Str)
    (msgs : Messages) (hv : v ≠ []) :
    (csvEntryStrLen.Validate env d min max (v :: rest) msgs).1 = none
      ↔ ∃ first more, env.csvReadAll d v = some (first :: more)
          ∧ tokensWithinBytes min max first := by
  have hl : ¬ v.length = 0 := length_ne_zero_of_ne_nil v hv
  simp only [csvEntryStrLen.Validate, getFirstKey, if_neg hl]
  rcases h : env.csvReadAll d v with _ | ⟨_ | ⟨first, more⟩⟩
  · simp
  · simp
  · simp [csvLoop_pass_iff]

theorem csvlib_plain (base : Env) (d : Nat) (v : Str) (hd : d = 44 ∨ d = 124) (hv : v ≠ [])
    (hp : csv.isPlain v = true) :
    (csvlib base).csvReadAll d v = some [csv.splitLine d v] := by
  have hl : ¬ v.length = 0 := length_ne_zero_of_ne_nil v hv
  simp [csvlib, csvReadAll, hd, hp, hl]

theorem CSVEntryStrLen_eq (env : Env) (delimiter min max : Nat) :
    CSVEntryStrLen env delimiter min max
      = ⟨csvEntryStrLen.Validate env (if delimiter = 44 ∨ delimiter = 124 then delimiter else 44)
          min max⟩ := by
  unfold CSVEntryStrLen
  by_cases h1 : delimiter = 44
  · simp [h1]
  · by_cases h2 : delimiter = 124
    · simp [h2]
    · simp [h1, h2]

/-- C22 as stated fails: the length of a token is counted in bytes, not in
characters. `CSVEntryStrLen(',', 3, 50)` passes `,,,あ,い,,,,,`, whose tokens
`あ` and `い` have one character (three bytes) each, below the minimum of 3;
and `CSVEntryStrLen(',', 1, 1)` fails `é`, whose only token has one
character (two bytes). -/
theorem C22_counterexample :
    ((CSVEntryStrLen (csvlib trivialEnv) 44 3 50).Validate [bytes ",,,あ,い,,,,,"]
        defaultErrors).1 = none
      ∧ ¬ tokensWithinCharacters 3 50 (csv.splitLine 44 (bytes ",,,あ,い,,,,,"))
      ∧ ((CSVEntryStrLen (csvlib trivialEnv) 44 1 1).Validate [bytes "é"] defaultErrors).1
          = some (bytes "Entries cannot be more than %d characters long.")
      ∧ tokensWithinCharacters 1 1 (csv.splitLine 44 (bytes "é")) := by
  decide

/-- C22 (as amended): `CSVEntryStrLen(delimiter, min, max)`, with any delimiter
other than comma and pipe read as comma, passes an empty value; it passes a
non-empty value exactly when the CSV reader returns at least one record for it
and every non-empty field of the first record has a length in bytes of at least
`min` and at most `max`. For a value without quote or line break the fields are
the pieces of the value between the delimiters, so the rule passes exactly when
every non-empty piece has such a length. -/
theorem C22_csvEntryStrLen_passes_iff (env : Env) (delimiter min max : Nat) (v : Str)
    (rest : List Str) (msgs : Messages) (hv : v ≠ []) :
    (((CSVEntryStrLen env delimiter min max).Validate (v :: rest) msgs).1 = none
        ↔ ∃ first more,
            env.csvReadAll (if delimiter = 44 ∨ delimiter = 124 then delimiter else 44) v
                = some (first :: more)
              ∧ tokensWithinBytes min max first)
      ∧ (csv.isPlain v = true →
          (((CSVEntryStrLen (csvlib env) delimiter min max).Validate (v :: rest) msgs).1 = none
            ↔ tokensWithinBytes min max
                (csv.splitLine (if delimiter = 44 ∨ delimiter = 124 then delimiter else 44) v)))
      ∧ (CSVEntryStrLen env delimiter min max).Validate ([] :: rest) msgs = (none, [])
      ∧ (CSVEntryStrLen env delimiter min max).Validate [] msgs = (none, [])
      ∧ (delimiter ≠ 44 → delimiter ≠ 124 →
          (CSVEntryStrLen env delimiter min max).Validate (v :: rest) msgs
            = (CSVEntryStrLen env 44 min max).Validate (v :: rest) msgs) := by
  have hd : (if delimiter = 44 ∨ delimiter = 124 then delimiter else 44) = 44
      ∨ (if delimiter = 44 ∨ delimiter = 124 then delimiter else 44) = 124 := by
    split_ifs with h
    · exact h
    · exact Or.inl rfl
  refine ⟨?_, ?_, ?_, ?_, ?_⟩
  · rw [CSVEntryStrLen_eq]
    exact csvEntryStrLen_pass_iff env _ min max v rest msgs hv
  · intro hp
    rw [CSVEntryStrLen_eq, csvEntryStrLen_pass_iff _ _ min max v rest msgs hv,
      csvlib_plain env _ v hd hv hp]
    constructor
    · rintro ⟨first, more, h1, h2⟩
      simp only [Option.some.injEq, List.cons.injEq] at h1
      rw [h1.1]
      exact h2
    · intro h
      exact ⟨_, [], rfl, h⟩
  · rw [CSVEntryStrLen_eq]
    simp [csvEntryStrLen.Validate, getFirstKey]
  · rw [CSVEntryStrLen_eq]
    simp [csvEntryStrLen.Validate, getFirstKey]
  · intro h1 h2
    rw [CSVEntryStrLen_eq, CSVEntryStrLen_eq]
    simp [h1, h2]

theorem C22_csvEntryStrLen_passes_iff_witness :
    bytes "one,two," ≠ []
      ∧ ((((CSVEntryStrLen (csvlib trivialEnv) 59 3 50).Validate (bytes "one,two," :: [])
              defaultErrors).1 = none
          ↔ ∃ first more,
              (csvlib trivialEnv).csvReadAll (if 59 = 44 ∨ 59 = 124 then 59 else 44)
                  (bytes "one,two,") = some (first :: more)
                ∧ tokensWithinBytes 3 50 first)
        ∧ (csv.isPlain (bytes "one,two,") = true →
            (((CSVEntryStrLen (csvlib (csvlib trivialEnv)) 59 3 50).Validate
                  (bytes "one,two," :: []) defaultErrors).1 = none
              ↔ tokensWithinBytes 3 50
                  (csv.splitLine (if 59 = 44 ∨ 59 = 124 then 59 else 44) (bytes "one,two,"))))
        ∧ (CSVEntryStrLen (csvlib trivialEnv) 59 3 50).Validate ([] :: []) defaultErrors
            = (none, [])
        ∧ (CSVEntryStrLen (csvlib trivialEnv) 59 3 50).Validate [] defaultErrors = (none, [])
        ∧ (59 ≠ 44 → 59 ≠ 124 →
            (CSVEntryStrLen (csvlib trivialEnv) 59 3 50).Validate (bytes "one,two," :: [])
                defaultErrors
              = (CSVEntryStrLen (csvlib trivialEnv) 44 3 50).Validate (bytes "one,two," :: [])
                  defaultErrors)) :=
  ⟨by decide,
   C22_csvEntryStrLen_passes_iff (csvlib trivialEnv) 59 3 50 (bytes "one,two,") []
     defaultErrors (by decide)⟩

/-! ## Theorems: no index out of range -/

theorem indexChecked_lt {α : Type} (s : List α) (i : Nat) (d : α) (h : i < s.length) :
    indexChecked s (i : Int) = some (s.getD i d) := by
  have h1 : (0 : Int) ≤ (i : Int) ∧ (i : Int) < (s.length : Int) := ⟨by omega, by omega⟩
  simp only [indexChecked, h1, and_self, if_true, Int.toNat_ofNat]
  rw [List.getD_eq_getElem?_getD, List.getElem?_eq_getElem h]
  rfl

theorem getFirstKeyChecked_eq (values : List Str) :
    getFirstKeyChecked values = some (getFirstKey values) := by
  cases values with
  | nil => rfl
  | cons v rest =>
    have h := indexChecked_lt (v :: rest) 0 [] (by simp)
    simp only [Nat.cast_zero] at h
    simp [getFirstKeyChecked, getFirstKey, h]

theorem afterFirstKey_eq (validate : List Str → Messages → Option Str × List Arg)
    (fields : List Str) (msgs : Messages) :
    afterFirstKey validate fields msgs = some (validate fields msgs) := by
  simp [afterFirstKey, getFirstKeyChecked_eq]

theorem requiredSingle_checked_eq (fields : List Str) (msgs : Messages) :
    requiredSingle.ValidateChecked fields msgs = some (requiredSingle.Validate fields msgs) := by
  rcases fields with _ | ⟨a, _ | ⟨b, t⟩⟩
  · simp [requiredSingle.ValidateChecked, requiredSingle.Validate]
  · have h := indexChecked_lt [a] 0 [] (by simp)
    simp only [Nat.cast_zero] at h
    by_cases ha : a.length > 0
    · simp [requiredSingle.ValidateChecked, requiredSingle.Validate, h, ha]
    · simp [requiredSingle.ValidateChecked, requiredSingle.Validate, h, ha]
  · simp [requiredSingle.ValidateChecked, requiredSingle.Validate]

theorem inListSingle_checked_eq (list : List Str) (fields : List Str) (msgs : Messages) :
    inListSingle.ValidateChecked list fields msgs
      = some (inListSingle.Validate list fields msgs) := by
  rcases fields with _ | ⟨a, _ | ⟨b, t⟩⟩
  · simp [inListSingle.ValidateChecked, inListSingle.Validate]
  · have h := indexChecked_lt [a] 0 [] (by simp)
    simp only [Nat.cast_zero] at h
    by_cases ha : a = []
    · subst ha
      simp [inListSingle.ValidateChecked, inListSingle.Validate, h]
    · by_cases hs : inSlice list a = true
      · simp [inListSingle.ValidateChecked, inListSingle.Validate, h, ha, hs]
      · simp [inListSingle.ValidateChecked, inListSingle.Validate, h, ha, hs]
  · simp [inListSingle.ValidateChecked, inListSingle.Validate]

theorem creditCard_loopChecked_eq (field : Str) (i : Nat) (sum : Int) (alternate : Bool)
    (h : i ≤ field.length) :
    creditCard.loopChecked field i sum alternate
      = some (creditCard.loop field i sum alternate) := by
  induction i generalizing sum alternate with
  | zero => rfl
  | succ n ih =>
    have hn : n < field.length := by omega
    simp only [creditCard.loopChecked, creditCard.loop, indexChecked_lt field n 0 hn]
    cases hA : Atoi (utf8Encode (field.getD n 0)) with
    | none => rfl
    | some mod => exact ih _ _ (by omega)

theorem creditCard_checked_eq (allow : Bool) (fields : List Str) (msgs : Messages) :
    creditCard.ValidateChecked allow fields msgs
      = some (creditCard.Validate allow fields msgs) := by
  simp only [creditCard.ValidateChecked, creditCard.Validate, getFirstKeyChecked_eq,
    creditCard_loopChecked_eq _ _ _ _ (le_refl _)]
  split_ifs <;> try rfl
  cases creditCard.loop (getFirstKey fields) (getFirstKey fields).length 0 false with
  | none => rfl
  | some sum => simp only []; split_ifs <;> rfl

theorem lastIndexByte_bounds (s : Str) (b : Nat) :
    -1 ≤ lastIndexByte s b ∧ lastIndexByte s b < (s.length : Int) := by
  unfold lastIndexByte
  cases h : s.reverse.indexOf? b with
  | none =>
    simp only []
    omega
  | some k =>
    simp only []
    unfold List.indexOf? at h
    have hk := (List.findIdx?_eq_some_iff_findIdx_eq.1 h).1
    simp only [List.length_reverse] at hk
    omega

theorem email_slice_in_range (field : Str) :
    sliceFromChecked field (lastIndexByte field 64 + 1)
      = some (field.drop (lastIndexByte field 64 + 1).toNat) := by
  have h := lastIndexByte_bounds field 64
  have h2 : 0 ≤ lastIndexByte field 64 + 1 ∧ lastIndexByte field 64 + 1 ≤ (field.length : Int) :=
    ⟨by omega, by omega⟩
  simp only [sliceFromChecked, h2, and_self, if_true]

theorem email_checked_eq (env : Env) (allow : Bool) (fields : List Str) (msgs : Messages) :
    email.ValidateChecked env allow fields msgs = some (email.Validate env allow fields msgs) := by
  simp only [email.ValidateChecked, email.Validate, getFirstKeyChecked_eq, email_slice_in_range]
  split_ifs <;> rfl

theorem csvEntryStrLen_checked_eq (env : Env) (d min max : Nat) (fields : List Str)
    (msgs : Messages) :
    csvEntryStrLen.ValidateChecked env d min max fields msgs
      = some (csvEntryStrLen.Validate env d min max fields msgs) := by
  simp only [csvEntryStrLen.ValidateChecked, csvEntryStrLen.Validate, getFirstKeyChecked_eq]
  split_ifs with h0
  · rfl
  · cases hr : env.csvReadAll d (getFirstKey fields) with
    | none => rfl
    | some entries =>
      cases entries with
      | nil => simp
      | cons first more =>
        have h := indexChecked_lt (first :: more) 0 [] (by simp)
        simp only [Nat.cast_zero] at h
        simp [h]

theorem isbn10_loopChecked_eq (field : Str) (n j checksum : Nat) (h : j + n ≤ field.length) :
    isbn10.loopChecked field n j checksum = some (isbn10.loop field n j checksum) := by
  induction n generalizing j checksum with
  | zero => rfl
  | succ n ih =>
    have hj : j < field.length := by omega
    simp only [isbn10.loopChecked, isbn10.loop, indexChecked_lt field j 0 hj]
    exact ih _ _ (by omega)

theorem isbn13_loopChecked_eq (field : Str) (n j checksum : Nat) (h : j + n ≤ field.length) :
    isbn13.loopChecked field n j checksum = some (isbn13.loop field n j checksum) := by
  induction n generalizing j checksum with
  | zero => rfl
  | succ n ih =>
    have hj : j < field.length := by omega
    have hf : j % 2 < [1, 3].length := by
      simp only [List.length_cons, List.length_nil]
      omega
    simp only [isbn13.loopChecked, isbn13.loop, indexChecked_lt field j 0 hj,
      indexChecked_lt [1, 3] (j % 2) 0 hf]
    exact ih _ _ (by omega)

/-- The ISBN-10 pattern fixes the length: what it matches has ten bytes. -/
theorem isbn10_match_length (base : Env) (s : Str)
    (h : (stdlib base).MatchString (bytes "^(?:[0-9]\x7b9\x7dX|[0-9]\x7b10\x7d)$") s = true) :
    s.length = 10 := by
  rw [stdlib_MatchString_isbn10, Bool.or_eq_true] at h
  rcases h with h | h
  · have := ((matchClasses_iff_getD _ _).1 h).1
    simpa using this
  · have := ((matchClasses_iff_getD _ _).1 h).1
    simpa using this

/-- The ISBN-13 pattern fixes the length: what it matches has thirteen bytes. -/
theorem isbn13_match_length (base : Env) (s : Str)
    (h : (stdlib base).MatchString (bytes "^(?:[0-9]\x7b13\x7d)$") s = true) :
    s.length = 13 := by
  rw [stdlib_MatchString_isbn13] at h
  have := ((matchClasses_iff_getD _ _).1 h).1
  simpa using this

theorem isbn10_checked_eq (base : Env) (fields : List Str) (msgs : Messages) :
    isbn10.ValidateChecked (stdlib base) fields msgs
      = some (isbn10.Validate (stdlib base) fields msgs) := by
  simp only [isbn10.ValidateChecked, isbn10.Validate, getFirstKeyChecked_eq]
  by_cases h0 : (getFirstKey fields).length = 0
  · simp only [h0, if_true]
  · simp only [h0, if_false]
    by_cases hm : (stdlib base).MatchString (bytes "^(?:[0-9]\x7b9\x7dX|[0-9]\x7b10\x7d)$")
        (removeSpacesHyphens (getFirstKey fields)) = false
    · simp only [hm, if_true]
    · simp only [hm, if_false]
      have hlen := isbn10_match_length base _ (by simpa using hm)
      have h9 := indexChecked_lt (removeSpacesHyphens (getFirstKey fields)) 9 0 (by omega)
      simp only [Nat.cast_ofNat] at h9
      have hloop := isbn10_loopChecked_eq (removeSpacesHyphens (getFirstKey fields)) 9 0 0
        (by omega)
      simp only [hloop, h9]
      split_ifs <;> rfl

theorem isbn13_checked_eq (base : Env) (fields : List Str) (msgs : Messages) :
    isbn13.ValidateChecked (stdlib base) fields msgs
      = some (isbn13.Validate (stdlib base) fields msgs) := by
  simp only [isbn13.ValidateChecked, isbn13.Validate, getFirstKeyChecked_eq]
  by_cases h0 : (getFirstKey fields).length = 0
  · simp only [h0, if_true]
  · simp only [h0, if_false]
    by_cases hm : (stdlib base).MatchString (bytes "^(?:[0-9]\x7b13\x7d)$")
        (removeSpacesHyphens (getFirstKey fields)) = false
    · simp only [hm, if_true]
    · simp only [hm, if_false]
      have hlen := isbn13_match_length base _ (by simpa using hm)
      have h12 := indexChecked_lt (removeSpacesHyphens (getFirstKey fields)) 12 0 (by omega)
      simp only [Nat.cast_ofNat] at h12
      have hloop := isbn13_loopChecked_eq (removeSpacesHyphens (getFirstKey fields)) 12 0 0
        (by omega)
      simp only [hloop, h12]
      split_ifs <;> rfl

theorem isbn_checked_eq (base : Env) (fields : List Str) (msgs : Messages) :
    isbn.ValidateChecked (stdlib base) fields msgs
      = some (isbn.Validate (stdlib base) fields msgs) := by
  simp only [isbn.ValidateChecked, isbn.Validate, getFirstKeyChecked_eq, ISBN10, ISBN13,
    isbn10_checked_eq, isbn13_checked_eq]
  split_ifs <;> rfl

theorem Catalogue.run_eq (base : Env) (c : Catalogue) (fields : List Str) (msgs : Messages) :
    Catalogue.run (stdlib base) c fields msgs
      = some ((c.rule (stdlib base)).Validate fields msgs) := by
  cases c
  case required => exact requiredSingle_checked_eq fields msgs
  case requiredMultiple => rfl
  case creditCard allow => exact creditCard_checked_eq allow fields msgs
  case email allow => exact email_checked_eq _ allow fields msgs
  case isbn => exact isbn_checked_eq base fields msgs
  case isbn10 => exact isbn10_checked_eq base fields msgs
  case isbn13 => exact isbn13_checked_eq base fields msgs
  case inListSingle list => exact inListSingle_checked_eq list fields msgs
  case inListMultiple list => rfl
  case csvEntryStrLen d mi ma => exact csvEntryStrLen_checked_eq _ _ mi ma fields msgs
  all_goals exact afterFirstKey_eq _ fields msgs

/-- C30: no rule of the catalogue aborts on its input: for every sequence of
submitted values and every message table, the call of `Validate` run with the
run-time check of every index and slice expression returns a result, the one
of the method without the checks. The digit indexes of `ISBN10` and `ISBN13`
are reached only on a normalized value the pattern has matched, which then has
exactly ten, respectively thirteen bytes, so the positions 0 to 9 and 0 to 12
are in range; the Luhn loop of `CreditCard` started at a position up to the
length of the value never reads out of range; and the slice `Email` takes after
the last `@` is in range for every value. With a pattern check that lets a
short value through, the index of `ISBN10` is out of range. -/
theorem C30_no_rule_aborts (base : Env) (c : Catalogue) (fields : List Str)
    (msgs : Messages) :
    Catalogue.run (stdlib base) c fields msgs
        = some ((c.rule (stdlib base)).Validate fields msgs)
      ∧ (∀ s : Str,
          (stdlib base).MatchString (bytes "^(?:[0-9]\x7b9\x7dX|[0-9]\x7b10\x7d)$") s = true →
          s.length = 10 ∧ ∀ j : Nat, j ≤ 9 → (indexChecked s (j : Int)).isSome = true)
      ∧ (∀ s : Str, (stdlib base).MatchString (bytes "^(?:[0-9]\x7b13\x7d)$") s = true →
          s.length = 13 ∧ ∀ j : Nat, j ≤ 12 → (indexChecked s (j : Int)).isSome = true)
      ∧ (∀ (field : Str) (i : Nat) (sum : Int) (alternate : Bool), i ≤ field.length →
          (creditCard.loopChecked field i sum alternate).isSome = true)
      ∧ (∀ field : Str,
          (sliceFromChecked field (lastIndexByte field 64 + 1)).isSome = true)
      ∧ isbn10.ValidateChecked matchAllEnv [bytes "1"] msgs = none := by
  refine ⟨Catalogue.run_eq base c fields msgs, ?_, ?_, ?_, ?_, ?_⟩
  · intro s h
    have hlen := isbn10_match_length base s h
    refine ⟨hlen, fun j hj => ?_⟩
    rw [indexChecked_lt s j 0 (by omega)]
    rfl
  · intro s h
    have hlen := isbn13_match_length base s h
    refine ⟨hlen, fun j hj => ?_⟩
    rw [indexChecked_lt s j 0 (by omega)]
    rfl
  · intro field i sum alternate h
    rw [creditCard_loopChecked_eq field i sum alternate h]
    rfl
  · intro field
    rw [email_slice_in_range]
    rfl
  · rfl

/-! ## Theorems: byte lengths and the slice utilities -/

theorem minStrLen_first (n : Nat) (v : Str) (rest : List Str) (msgs : Messages) :
    (MinStrLen n).Validate (v :: rest) msgs
      = if v = [] ∨ n ≤ v.length then (none, [])
        else (some (msgs.msg "string_min"), [Arg.uint32 n]) := by
  simp only [MinStrLen, minStrLen.Validate, getFirstKey, List.length_eq_zero, ge_iff_le]
  by_cases h0 : v = []
  · simp [h0]
  · by_cases h1 : n ≤ v.length <;> simp [h0, h1]

theorem maxStrLen_first (n : Nat) (v : Str) (rest : List Str) (msgs : Messages) :
    (MaxStrLen n).Validate (v :: rest) msgs
      = if v = [] ∨ v.length ≤ n then (none, [])
        else (some (msgs.msg "string_max"), [Arg.uint32 n]) := by
  simp only [MaxStrLen, maxStrLen.Validate, getFirstKey, List.length_eq_zero]
  by_cases h0 : v = []
  · simp [h0]
  · by_cases h1 : v.length ≤ n <;> simp [h0, h1]

/-- C34: `MinStrLen` and `MaxStrLen` measure the length in bytes of the UTF-8
encoding, not in characters: `MinStrLen(n)` passes a value exactly when it is
empty or has at least `n` bytes, `MaxStrLen(n)` exactly when it is empty or has
at most `n` bytes, and both look at the first submitted value only. The value
`あいうえお`, of five characters and fifteen bytes, passes `MinStrLen(15)` and
fails `MaxStrLen(5)`, and `a` fails `MaxStrLen(0)`. -/
theorem C34_strLen_rules_count_bytes (n : Nat) (v : Str) (rest : List Str) (msgs : Messages) :
    (((MinStrLen n).Validate (v :: rest) msgs).1 = none ↔ (v = [] ∨ n ≤ v.length))
      ∧ (((MaxStrLen n).Validate (v :: rest) msgs).1 = none ↔ (v = [] ∨ v.length ≤ n))
      ∧ (MinStrLen n).Validate (v :: rest) msgs = (MinStrLen n).Validate [v] msgs
      ∧ (MaxStrLen n).Validate (v :: rest) msgs = (MaxStrLen n).Validate [v] msgs
      ∧ (MinStrLen n).Validate [] msgs = (none, [])
      ∧ (MaxStrLen n).Validate [] msgs = (none, [])
      ∧ characterCount (bytes "あいうえお") = 5
      ∧ (bytes "あいうえお").length = 15
      ∧ (MinStrLen 15).Validate [bytes "あいうえお"] msgs = (none, [])
      ∧ (MaxStrLen 5).Validate [bytes "あいうえお"] msgs
          = (some (msgs.msg "string_max"), [Arg.uint32 5])
      ∧ (MaxStrLen 0).Validate [bytes "a"] msgs
          = (some (msgs.msg "string_max"), [Arg.uint32 0]) := by
  refine ⟨?_, ?_, ?_, ?_, ?_, ?_, by decide, by decide, ?_, ?_, ?_⟩
  · rw [minStrLen_first]
    by_cases h : v = [] ∨ n ≤ v.length <;> simp [h]
  · rw [maxStrLen_first]
    by_cases h : v = [] ∨ v.length ≤ n <;> simp [h]
  · rw [minStrLen_first, minStrLen_first]
  · rw [maxStrLen_first, maxStrLen_first]
  · simp [MinStrLen, minStrLen.Validate, getFirstKey]
  · simp [MaxStrLen, maxStrLen.Validate, getFirstKey]
  · rw [minStrLen_first]
    exact if_pos (by decide)
  · rw [maxStrLen_first]
    exact if_neg (by decide)
  · rw [maxStrLen_first]
    exact if_neg (by decide)

/-- C39: `hasDuplicates(s)` is true exactly when some string stands at two
different positions of `s`, strings being compared byte for byte; it is false
for the empty sequence and for every sequence of one element. -/
theorem C39_hasDuplicates_iff_repeated (s : List Str) :
    (hasDuplicates s = true ↔ ∃ i j : Nat, i < j ∧ j < s.length ∧ s[i]? = s[j]?)
      ∧ hasDuplicates [] = false
      ∧ (∀ x : Str, hasDuplicates [x] = false)
      ∧ hasDuplicates [bytes "a", bytes "b", bytes "a"] = true
      ∧ hasDuplicates [bytes "a", bytes "A"] = false := by
  refine ⟨?_, rfl, ?_, by decide, by decide⟩
  · rw [hasDuplicates_iff, List.nodup_iff_getElem?_ne_getElem?]
    push_neg
    rfl
  · intro x
    cases h : hasDuplicates [x]
    · rfl
    · exact absurd (List.nodup_singleton x) ((hasDuplicates_iff [x]).1 h)

theorem sliceDiff_eq_filter (a b : List Str) :
    sliceDiff a b = a.filter (fun x => decide (x ∉ b)) := by
  induction a with
  | nil => rfl
  | cons j rest ih =>
    simp only [sliceDiff, List.filter_cons]
    by_cases h : j ∈ b
    · simp [h, (inSlice_iff b j).2 h, ih]
    · have hs : inSlice b j = false := by
        cases hc : inSlice b j
        · rfl
        · exact absurd ((inSlice_iff b j).1 hc) h
      simp [h, hs, ih]

theorem sliceDiff_count (a b : List Str) (x : Str) :
    (sliceDiff a b).count x = if x ∈ b then 0 else a.count x := by
  rw [sliceDiff_eq_filter]
  by_cases hx : x ∈ b
  · rw [if_pos hx, List.count_eq_zero]
    intro hm
    have := (List.mem_filter.1 hm).2
    simp [hx] at this
  · rw [if_neg hx]
    induction a with
    | nil => rfl
    | cons y rest ih =>
      by_cases hy : y = x
      · subst hy
        simp [List.filter_cons, hx, ih]
      · have hyx : ¬ (y == x) = true := by simpa using hy
        by_cases hyb : y ∈ b
        · simpa [List.filter_cons, hyb, List.count_cons, hyx] using ih
        · simpa [List.filter_cons, hyb, List.count_cons, hyx] using ih

/-- C40: `sliceDiff(a, b)` is the subsequence of `a`, in the order of `a` and
with multiplicity, of the elements that do not occur in `b`; it is empty
exactly when every element of `a` occurs in `b`; and it depends on `b` only
through which elements of `a` occur in `b`, so entries of `b` that are not in
`a` never change it. The difference is one-directional. -/
theorem C40_sliceDiff_is_one_directional_difference (a b : List Str) :
    sliceDiff a b = a.filter (fun x => decide (x ∉ b))
      ∧ (sliceDiff a b).Sublist a
      ∧ (∀ x : Str, (sliceDiff a b).count x = if x ∈ b then 0 else a.count x)
      ∧ (sliceDiff a b = [] ↔ ∀ x ∈ a, x ∈ b)
      ∧ (∀ b2 : List Str, (∀ x ∈ a, x ∈ b ↔ x ∈ b2) → sliceDiff a b = sliceDiff a b2)
      ∧ (∀ extra : List Str, (∀ x ∈ extra, x ∉ a) → sliceDiff a (b ++ extra) = sliceDiff a b)
      ∧ sliceDiff [bytes "a"] [bytes "a", bytes "b"] = []
      ∧ sliceDiff [bytes "a", bytes "b"] [bytes "a"] = [bytes "b"] := by
  have hdep : ∀ b2 : List Str, (∀ x ∈ a, x ∈ b ↔ x ∈ b2) → sliceDiff a b = sliceDiff a b2 := by
    intro b2 h
    rw [sliceDiff_eq_filter, sliceDiff_eq_filter]
    apply List.filter_congr
    intro x hx
    simp [h x hx]
  refine ⟨sliceDiff_eq_filter a b, ?_, ?_, sliceDiff_eq_nil_iff a b, hdep, ?_, by decide,
    by decide⟩
  · rw [sliceDiff_eq_filter]
    exact List.filter_sublist a
  · intro x
    exact sliceDiff_count a b x
  · intro extra h
    refine (hdep (b ++ extra) ?_).symm
    intro x hx
    constructor
    · intro hb
      exact List.mem_append_left _ hb
    · intro hb
      rcases List.mem_append.1 hb with h1 | h1
      · exact h1
      · exact absurd hx (h x h1)

/-! ## Theorems: the frame of a pass and the visiting order -/

theorem Validate_lookup_undeclared (f : FormValidator) (form : Values) (hwf : f.rules.WF)
    (k : Str) (hk : k ∉ f.rules.keys) :
    (f.Validate form).allErrors.lookup k = none
      ∧ (f.Validate form).form.lookup k = form.lookup k := by
  rw [Validate_allErrors, Validate_form]
  exact (foldl_fieldStep_spec f f.rules.entries hwf GoMap.empty form).1 k hk

/-- C35: `Validate` changes the caller's form only at declared fields that got
at least one error, with blank-on-error enabled as with any setting: every
field that is not declared and every declared field with an empty error list
has after the pass exactly the values it had before, a field that had no entry
in the form has none after, and a field whose values differ after the pass has
a non-empty error list. -/
theorem C35_form_changes_only_at_failed_fields (f : FormValidator) (form : Values)
    (hwf : f.rules.WF) :
    (∀ k, k ∉ f.rules.keys → (f.Validate form).form.lookup k = form.lookup k)
      ∧ (∀ k, (f.Validate form).allErrors.lookup k = some [] →
          (f.Validate form).form.lookup k = form.lookup k)
      ∧ (∀ k, (f.Validate form).allErrors.lookup k = some [] → form.lookup k = none →
          (f.Validate form).form.lookup k = none)
      ∧ (∀ k, (f.Validate form).form.lookup k ≠ form.lookup k →
          ∃ errs, (f.Validate form).allErrors.lookup k = some errs ∧ errs ≠ []) := by
  have hpass : ∀ k, (f.Validate form).allErrors.lookup k = some [] →
      (f.Validate form).form.lookup k = form.lookup k := by
    intro k hk
    have hmem : k ∈ f.rules.keys := by
      rw [← Validate_keys f form hwf, ← GoMap.lookup_isSome_iff]
      exact ⟨[], hk⟩
    obtain ⟨chain, hdecl⟩ := (GoMap.mem_keys_iff _ _).mp hmem
    obtain ⟨h1, h2⟩ := Validate_lookup_declared f form hwf k chain hdecl
    rw [h1] at hk
    have he : chainFailures f.errorMessages (form.at k) chain = [] := Option.some.inj hk
    rw [h2, he]
    simp
  refine ⟨fun k hk => (Validate_lookup_undeclared f form hwf k hk).2, hpass, ?_, ?_⟩
  · intro k hk hnone
    rw [hpass k hk, hnone]
  · intro k hne
    by_cases hmem : k ∈ f.rules.keys
    · obtain ⟨chain, hdecl⟩ := (GoMap.mem_keys_iff _ _).mp hmem
      obtain ⟨h1, h2⟩ := Validate_lookup_declared f form hwf k chain hdecl
      refine ⟨_, h1, ?_⟩
      intro he
      apply hne
      rw [h2, he]
      simp
    · exact absurd (Validate_lookup_undeclared f form hwf k hmem).2 hne

theorem C35_form_changes_only_at_failed_fields_witness :
    sampleValidator.rules.WF
      ∧ ((∀ k, k ∉ sampleValidator.rules.keys →
            (sampleValidator.Validate sampleForm).form.lookup k = sampleForm.lookup k)
        ∧ (∀ k, (sampleValidator.Validate sampleForm).allErrors.lookup k = some [] →
            (sampleValidator.Validate sampleForm).form.lookup k = sampleForm.lookup k)
        ∧ (∀ k, (sampleValidator.Validate sampleForm).allErrors.lookup k = some [] →
            sampleForm.lookup k = none →
            (sampleValidator.Validate sampleForm).form.lookup k = none)
        ∧ (∀ k, (sampleValidator.Validate sampleForm).form.lookup k ≠ sampleForm.lookup k →
            ∃ errs, (sampleValidator.Validate sampleForm).allErrors.lookup k = some errs
              ∧ errs ≠ [])) :=
  ⟨by decide, C35_form_changes_only_at_failed_fields sampleValidator sampleForm (by decide)⟩

/-- C36: the outcome of `Validate` does not depend on the order in which the
declared fields are visited: for a rule set and any rearrangement `es` of its
entries, on the same form, message table and blanking setting, the returned
boolean is the same and the returned error map and the final form hold the
same for every key. The errors of a declared field are the failures of its
chain on the values the form had for that field at the start. -/
theorem C36_outcome_independent_of_visiting_order (f : FormValidator)
    (es : List (Str × List Rule)) (form : Values) (hwf : f.rules.WF)
    (hperm : es.Perm f.rules.entries) :
    ((FormValidator.mk ⟨es⟩ f.errorMessages f.blankFormDataOnError).Validate form).valid
        = (f.Validate form).valid
      ∧ (∀ k,
          ((FormValidator.mk ⟨es⟩ f.errorMessages f.blankFormDataOnError).Validate
              form).allErrors.lookup k
            = (f.Validate form).allErrors.lookup k)
      ∧ (∀ k,
          ((FormValidator.mk ⟨es⟩ f.errorMessages f.blankFormDataOnError).Validate
              form).form.lookup k
            = (f.Validate form).form.lookup k)
      ∧ (∀ k chain, (k, chain) ∈ f.rules.entries →
          (f.Validate form).allErrors.lookup k
            = some (chainFailures f.errorMessages (form.at k) chain)) := by
  have hwf2 : (FormValidator.mk ⟨es⟩ f.errorMessages f.blankFormDataOnError).rules.WF := by
    show (es.map Prod.fst).Nodup
    exact (hperm.map Prod.fst).nodup_iff.2 hwf
  have hkeys : ∀ k, k ∈ (FormValidator.mk ⟨es⟩ f.errorMessages
      f.blankFormDataOnError).rules.keys ↔ k ∈ f.rules.keys := by
    intro k
    exact (hperm.map Prod.fst).mem_iff
  have hboth : ∀ k,
      ((FormValidator.mk ⟨es⟩ f.errorMessages f.blankFormDataOnError).Validate
          form).allErrors.lookup k = (f.Validate form).allErrors.lookup k
        ∧ ((FormValidator.mk ⟨es⟩ f.errorMessages f.blankFormDataOnError).Validate
          form).form.lookup k = (f.Validate form).form.lookup k := by
    intro k
    by_cases hmem : k ∈ f.rules.keys
    · obtain ⟨chain, hdecl⟩ := (GoMap.mem_keys_iff _ _).mp hmem
      have hdecl2 : (k, chain)
          ∈ (FormValidator.mk ⟨es⟩ f.errorMessages f.blankFormDataOnError).rules.entries :=
        hperm.mem_iff.2 hdecl
      obtain ⟨h1, h2⟩ := Validate_lookup_declared f form hwf k chain hdecl
      obtain ⟨h3, h4⟩ := Validate_lookup_declared _ form hwf2 k chain hdecl2
      exact ⟨h3.trans h1.symm, h4.trans h2.symm⟩
    · have hmem2 := fun h => hmem ((hkeys k).1 h)
      obtain ⟨h1, h2⟩ := Validate_lookup_undeclared f form hwf k hmem
      obtain ⟨h3, h4⟩ := Validate_lookup_undeclared _ form hwf2 k hmem2
      exact ⟨h3.trans h1.symm, h4.trans h2.symm⟩
  refine ⟨?_, fun k => (hboth k).1, fun k => (hboth k).2, ?_⟩
  · rw [Bool.eq_iff_iff, Validate_valid_iff _ form hwf2, Validate_valid_iff f form hwf]
    show es = [] ↔ f.rules.entries = []
    constructor
    · intro h
      rw [h] at hperm
      exact hperm.symm.eq_nil
    · intro h
      rw [h] at hperm
      exact hperm.eq_nil
  · intro k chain hdecl
    exact (Validate_lookup_declared f form hwf k chain hdecl).1

theorem C36_outcome_independent_of_visiting_order_witness :
    sampleValidator.rules.WF
      ∧ [(bytes "Age", RuleChain [IntRange 18 100]),
          (bytes "LastName", RuleChain [Required, MinStrLen 4, StrMatch (bytes "Smith")])].Perm
          sampleValidator.rules.entries
      ∧ (((FormValidator.mk
              ⟨[(bytes "Age", RuleChain [IntRange 18 100]),
                (bytes "LastName",
                  RuleChain [Required, MinStrLen 4, StrMatch (bytes "Smith")])]⟩
              sampleValidator.errorMessages
              sampleValidator.blankFormDataOnError).Validate sampleForm).valid
            = (sampleValidator.Validate sampleForm).valid
        ∧ (∀ k,
            ((FormValidator.mk
                ⟨[(bytes "Age", RuleChain [IntRange 18 100]),
                  (bytes "LastName",
                    RuleChain [Required, MinStrLen 4, StrMatch (bytes "Smith")])]⟩
                sampleValidator.errorMessages
                sampleValidator.blankFormDataOnError).Validate sampleForm).allErrors.lookup k
              = (sampleValidator.Validate sampleForm).allErrors.lookup k)
        ∧ (∀ k,
            ((FormValidator.mk
                ⟨[(bytes "Age", RuleChain [IntRange 18 100]),
                  (bytes "LastName",
                    RuleChain [Required, MinStrLen 4, StrMatch (bytes "Smith")])]⟩
                sampleValidator.errorMessages
                sampleValidator.blankFormDataOnError).Validate sampleForm).form.lookup k
              = (sampleValidator.Validate sampleForm).form.lookup k)
        ∧ (∀ k chain, (k, chain) ∈ sampleValidator.rules.entries →
            (sampleValidator.Validate sampleForm).allErrors.lookup k
              = some (chainFailures sampleValidator.errorMessages (sampleForm.at k) chain))) :=
  ⟨by decide, List.Perm.swap _ _ _,
   C36_outcome_independent_of_visiting_order sampleValidator _ sampleForm (by decide)
     (List.Perm.swap _ _ _)⟩

/-! ## Theorems: the ISBN-10 check character -/

theorem isbn10_append_sum (p : Str) (c : Nat) (hp : p.length = 9) :
    isbn10Sum (p ++ [c])
        = weightedDigitSum [1, 2, 3, 4, 5, 6, 7, 8, 9] p
          + 10 * (if c = 88 then 10 else c - 48)
      ∧ (p ++ [c]).take 9 = p ∧ (p ++ [c]).getD 9 0 = c := by
  rcases p with _ | ⟨a0, _ | ⟨a1, _ | ⟨a2, _ | ⟨a3, _ | ⟨a4, _ | ⟨a5, _ | ⟨a6, _ | ⟨a7, _ | ⟨a8, _ | ⟨a9, t⟩⟩⟩⟩⟩⟩⟩⟩⟩⟩
  all_goals try (simp at hp)
  exact ⟨rfl, rfl, rfl⟩

theorem isbn10_append_char (base : Env) (p : Str) (c : Nat) (msgs : Messages)
    (hp : p.length = 9) (hpd : p.all isDigit = true) (hc : isDigit c = true ∨ c = 88) :
    ((ISBN10 (stdlib base)).Validate [p ++ [c]] msgs).1 = none ↔ c = isbn10CheckChar p := by
  have hne : p ++ [c] ≠ [] := by simp
  have hrsh : removeSpacesHyphens (p ++ [c]) = p ++ [c] := by
    unfold removeSpacesHyphens
    rw [List.filter_eq_self]
    intro a ha
    rcases List.mem_append.1 ha with h | h
    · have hd := List.all_eq_true.mp hpd a h
      simp only [isDigit, Bool.and_eq_true, decide_eq_true_eq] at hd
      simp only [bne_iff_ne, ne_eq, Bool.and_eq_true]
      omega
    · simp only [List.mem_singleton] at h
      subst h
      simp only [isDigit, Bool.and_eq_true, decide_eq_true_eq] at hc
      simp only [bne_iff_ne, ne_eq, Bool.and_eq_true]
      omega
  obtain ⟨hsum, htake, hget⟩ := isbn10_append_sum p c hp
  have hform : isbn10Form (p ++ [c]) = true := by
    have hlen : (p ++ [c]).length = 10 := by simp [hp]
    simp only [isbn10Form, hlen, htake, hget, hpd, beq_self_eq_true, Bool.true_and,
      Bool.or_eq_true, beq_iff_eq]
    exact hc
  rw [isbn10_pass_iff base _ [] msgs hne, hrsh, hsum]
  simp only [hform, true_and, isbn10CheckChar]
  generalize weightedDigitSum [1, 2, 3, 4, 5, 6, 7, 8, 9] p = w
  simp only [isDigit, Bool.and_eq_true, decide_eq_true_eq] at hc
  split_ifs <;> omega

/-- C38: for every string of nine ASCII digits there is exactly one final
character among `0` to `9` and `X` for which `ISBN10` passes the string of ten
characters, so a change of the check character alone makes a valid ISBN-10
invalid; `3 423 21412 0` passes and `3 423 21412 1` fails with the `isbn`
message. -/
theorem C38_isbn10_unique_check_character (base : Env) (p : Str) (msgs : Messages)
    (hp : p.length = 9) (hpd : p.all isDigit = true) :
    (∃! c, (isDigit c = true ∨ c = 88)
        ∧ ((ISBN10 (stdlib base)).Validate [p ++ [c]] msgs).1 = none)
      ∧ (∀ c c2, (isDigit c = true ∨ c = 88) → (isDigit c2 = true ∨ c2 = 88) → c2 ≠ c →
          ((ISBN10 (stdlib base)).Validate [p ++ [c]] msgs).1 = none →
          ((ISBN10 (stdlib base)).Validate [p ++ [c2]] msgs).1 ≠ none)
      ∧ ((ISBN10 (stdlib base)).Validate [bytes "3 423 21412 0"] msgs).1 = none
      ∧ (ISBN10 (stdlib base)).Validate [bytes "3 423 21412 1"] msgs
          = (some (msgs.msg "isbn"), []) := by
  have hcheck : isDigit (isbn10CheckChar p) = true ∨ isbn10CheckChar p = 88 := by
    unfold isbn10CheckChar
    split_ifs with h
    · exact Or.inr rfl
    · left
      simp only [isDigit, Bool.and_eq_true, decide_eq_true_eq]
      omega
  refine ⟨⟨isbn10CheckChar p, ⟨hcheck, ?_⟩, ?_⟩, ?_, ?_, ?_⟩
  · exact (isbn10_append_char base p _ msgs hp hpd hcheck).2 rfl
  · rintro c ⟨hc, hpass⟩
    exact (isbn10_append_char base p c msgs hp hpd hc).1 hpass
  · intro c c2 hc hc2 hne hpass hpass2
    have e1 := (isbn10_append_char base p c msgs hp hpd hc).1 hpass
    have e2 := (isbn10_append_char base p c2 msgs hp hpd hc2).1 hpass2
    exact hne (e2.trans e1.symm)
  · exact (isbn10_pass_iff base _ [] msgs (by decide)).mpr (by decide)
  · have hfail : ((ISBN10 (stdlib base)).Validate [bytes "3 423 21412 1"] msgs).1 ≠ none := by
      intro hpass
      have := (isbn10_pass_iff base _ [] msgs (by decide)).mp hpass
      revert this
      decide
    rcases hr : (ISBN10 (stdlib base)).Validate [bytes "3 423 21412 1"] msgs with ⟨err, data⟩
    rw [hr] at hfail
    cases err with
    | none => exact absurd rfl hfail
    | some err =>
      have hs := Catalogue.failure_shape (stdlib base) .isbn10 _ msgs err data hr
      simp only [Catalogue.failures, List.mem_singleton, exists_eq_left] at hs
      rw [hs.1, hs.2]

theorem C38_isbn10_unique_check_character_witness :
    (bytes "342321412").length = 9 ∧ (bytes "342321412").all isDigit = true
      ∧ ((∃! c, (isDigit c = true ∨ c = 88)
          ∧ ((ISBN10 (stdlib trivialEnv)).Validate [bytes "342321412" ++ [c]]
                defaultErrors).1 = none)
        ∧ (∀ c c2, (isDigit c = true ∨ c = 88) → (isDigit c2 = true ∨ c2 = 88) → c2 ≠ c →
            ((ISBN10 (stdlib trivialEnv)).Validate [bytes "342321412" ++ [c]]
                defaultErrors).1 = none →
            ((ISBN10 (stdlib trivialEnv)).Validate [bytes "342321412" ++ [c2]]
                defaultErrors).1 ≠ none)
        ∧ ((ISBN10 (stdlib trivialEnv)).Validate [bytes "3 423 21412 0"] defaultErrors).1
            = none
        ∧ (ISBN10 (stdlib trivialEnv)).Validate [bytes "3 423 21412 1"] defaultErrors
            = (some (defaultErrors.msg "isbn"), [])) :=
  ⟨by decide, by decide,
   C38_isbn10_unique_check_character trivialEnv (bytes "342321412") defaultErrors (by decide)
     (by decide)⟩

/-! ## Theorems: the first CSV record -/

theorem csv.splitLine_of_not_mem (comma : Nat) (text : Str) (h : comma ∉ text) :
    csv.splitLine comma text = [text] := by
  induction text with
  | nil => rfl
  | cons b rest ih =>
    have hb : ¬ b = comma := fun e => h (by simp [e])
    have hr : comma ∉ rest := fun hm => h (List.mem_cons_of_mem _ hm)
    simp [csv.splitLine, hb, ih hr]

/-- On text of a single line the reader of several lines is the reader of one
line. -/
theorem csvReadAllLines_plain (other : Nat → Str → Option (List (List Str))) (comma : Nat)
    (text : Str) (hc : comma = 44 ∨ comma = 124) (hp : csv.isPlain text = true) :
    csvReadAllLines other comma text = csvReadAll other comma text := by
  have hall := List.all_eq_true.1 hp
  have hu : csv.isUnquoted text = true := by
    apply List.all_eq_true.2
    intro b hb
    have := hall b hb
    simp only [Bool.and_eq_true, bne_iff_ne, ne_eq] at this ⊢
    exact ⟨this.1.1, this.1.2⟩
  have hnl : 10 ∉ text := by
    intro hm
    have := hall 10 hm
    simp at this
  simp only [csvReadAllLines, csvReadAll, hc, hp, hu, and_self, if_true,
    csv.splitLine_of_not_mem 10 text hnl, csv.records]
  split_ifs <;> rfl

theorem csvEntryStrLen_on_records (env : Env) (d min max : Nat) (v : Str) (rest : List Str)
    (msgs : Messages) (hv : v ≠ []) :
    csvEntryStrLen.Validate env d min max (v :: rest) msgs
      = match env.csvReadAll d v with
        | some (first :: _) => csvEntryStrLen.loop min max msgs first
        | _ => (some (msgs.msg "delimiter_min"), [Arg.uint32 min]) := by
  have hl : ¬ v.length = 0 := length_ne_zero_of_ne_nil v hv
  simp only [csvEntryStrLen.Validate, getFirstKey, if_neg hl]
  rcases h : env.csvReadAll d v with _ | ⟨_ | ⟨first, more⟩⟩ <;> rfl

/-- C37: `CSVEntryStrLen` length-checks the fields of the first CSV record
only: on a value the reader reads as one or more records the result is the
result of the length loop on the first record, whatever the later records
hold, so it is the result on any value read as that first record alone; a
value the reader rejects, and a value it reads as no record, fails with the
`delimiter_min` message. With the reader modelled on text without quotes,
`abc,de` followed by a line `x,toolongtoken` passes `CSVEntryStrLen(',', 2, 5)`
as `abc,de` does, `abc,de` followed by a line `x` fails for the number of
fields, and a lone line break fails for want of a record. -/
theorem C37_csvEntryStrLen_first_record_only (env : Env) (delimiter min max : Nat) (v : Str)
    (rest : List Str) (msgs : Messages) (hv : v ≠ []) :
    (∀ first more,
        env.csvReadAll (if delimiter = 44 ∨ delimiter = 124 then delimiter else 44) v
            = some (first :: more) →
        (CSVEntryStrLen env delimiter min max).Validate (v :: rest) msgs
            = csvEntryStrLen.loop min max msgs first
          ∧ (((CSVEntryStrLen env delimiter min max).Validate (v :: rest) msgs).1 = none
              ↔ tokensWithinBytes min max first))
      ∧ (∀ first more (v1 : Str), v1 ≠ [] →
          env.csvReadAll (if delimiter = 44 ∨ delimiter = 124 then delimiter else 44) v
              = some (first :: more) →
          env.csvReadAll (if delimiter = 44 ∨ delimiter = 124 then delimiter else 44) v1
              = some [first] →
          (CSVEntryStrLen env delimiter min max).Validate (v :: rest) msgs
            = (CSVEntryStrLen env delimiter min max).Validate (v1 :: rest) msgs)
      ∧ (env.csvReadAll (if delimiter = 44 ∨ delimiter = 124 then delimiter else 44) v = none →
          (CSVEntryStrLen env delimiter min max).Validate (v :: rest) msgs
            = (some (msgs.msg "delimiter_min"), [Arg.uint32 min]))
      ∧ (env.csvReadAll (if delimiter = 44 ∨ delimiter = 124 then delimiter else 44) v
            = some [] →
          (CSVEntryStrLen env delimiter min max).Validate (v :: rest) msgs
            = (some (msgs.msg "delimiter_min"), [Arg.uint32 min]))
      ∧ (csvlines trivialEnv).csvReadAll 44 (bytes "abc,de\nx,toolongtoken")
          = some [[bytes "abc", bytes "de"], [bytes "x", bytes "toolongtoken"]]
      ∧ (CSVEntryStrLen (csvlines trivialEnv) 44 2 5).Validate
            [bytes "abc,de\nx,toolongtoken"] msgs = (none, [])
      ∧ (CSVEntryStrLen (csvlines trivialEnv) 44 2 5).Validate [bytes "abc,de"] msgs
          = (none, [])
      ∧ (CSVEntryStrLen (csvlines trivialEnv) 44 2 5).Validate [bytes "abc,de\nx"] msgs
          = (some (msgs.msg "delimiter_min"), [Arg.uint32 2])
      ∧ (CSVEntryStrLen (csvlines trivialEnv) 44 2 5).Validate [bytes "\n"] msgs
          = (some (msgs.msg "delimiter_min"), [Arg.uint32 2]) := by
  have hex : ∀ (s : Str) (r : Option (List (List Str))), s ≠ [] →
      (csvlines trivialEnv).csvReadAll 44 s = r →
      (CSVEntryStrLen (csvlines trivialEnv) 44 2 5).Validate [s] msgs
        = match r with
          | some (first :: _) => csvEntryStrLen.loop 2 5 msgs first
          | _ => (some (msgs.msg "delimiter_min"), [Arg.uint32 2]) := by
    intro s r hs hr
    rw [CSVEntryStrLen_eq, ← hr]
    exact csvEntryStrLen_on_records _ _ 2 5 s [] msgs hs
  refine ⟨?_, ?_, ?_, ?_, by decide, ?_, ?_, ?_, ?_⟩
  · intro first more h
    have e : (CSVEntryStrLen env delimiter min max).Validate (v :: rest) msgs
        = csvEntryStrLen.loop min max msgs first := by
      rw [CSVEntryStrLen_eq]
      show csvEntryStrLen.Validate env _ min max (v :: rest) msgs = _
      rw [csvEntryStrLen_on_records _ _ _ _ _ _ _ hv, h]
    exact ⟨e, by rw [e]; exact csvLoop_pass_iff min max msgs first⟩
  · intro first more v1 hv1 h h1
    rw [CSVEntryStrLen_eq]
    show csvEntryStrLen.Validate env _ min max (v :: rest) msgs
      = csvEntryStrLen.Validate env _ min max (v1 :: rest) msgs
    rw [csvEntryStrLen_on_records _ _ _ _ _ _ _ hv, csvEntryStrLen_on_records _ _ _ _ _ _ _ hv1,
      h, h1]
  · intro h
    rw [CSVEntryStrLen_eq]
    show csvEntryStrLen.Validate env _ min max (v :: rest) msgs = _
    rw [csvEntryStrLen_on_records _ _ _ _ _ _ _ hv, h]
  · intro h
    rw [CSVEntryStrLen_eq]
    show csvEntryStrLen.Validate env _ min max (v :: rest) msgs = _
    rw [csvEntryStrLen_on_records _ _ _ _ _ _ _ hv, h]
  · rw [hex _ (some [[bytes "abc", bytes "de"], [bytes "x", bytes "toolongtoken"]])
      (by decide) (by decide)]
    simp [csvEntryStrLen.loop, bytes, utf8Encode]
  · rw [hex _ (some [[bytes "abc", bytes "de"]]) (by decide) (by decide)]
    simp [csvEntryStrLen.loop, bytes, utf8Encode]
  · rw [hex _ none (by decide) (by decide)]
  · rw [hex _ (some []) (by decide) (by decide)]

theorem C37_csvEntryStrLen_first_record_only_witness :
    bytes "abc,de\nx,toolongtoken" ≠ []
      ∧ (csvlines trivialEnv).csvReadAll (if 44 = 44 ∨ 44 = 124 then 44 else 44)
            (bytes "abc,de\nx,toolongtoken")
          = some ([bytes "abc", bytes "de"] :: [[bytes "x", bytes "toolongtoken"]])
      ∧ ((CSVEntryStrLen (csvlines trivialEnv) 44 2 5).Validate
              (bytes "abc,de\nx,toolongtoken" :: []) defaultErrors
            = csvEntryStrLen.loop 2 5 defaultErrors [bytes "abc", bytes "de"]
          ∧ (((CSVEntryStrLen (csvlines trivialEnv) 44 2 5).Validate
                (bytes "abc,de\nx,toolongtoken" :: []) defaultErrors).1 = none
              ↔ tokensWithinBytes 2 5 [bytes "abc", bytes "de"])) :=
  ⟨by decide, by decide,
   (C37_csvEntryStrLen_first_record_only (csvlines trivialEnv) 44 2 5
      (bytes "abc,de\nx,toolongtoken") [] defaultErrors (by decide)).1
      [bytes "abc", bytes "de"] [[bytes "x", bytes "toolongtoken"]] (by decide)⟩

/-! ## Theorems: e-mail -/

theorem drop_lastIndexByte (v : Str) :
    v.drop (lastIndexByte v 64 + 1).toNat = afterLastAt v := by
  have hfun : (fun a : Nat => !(a != 64)) = (fun x => x == 64) := by
    funext a
    cases h : (a == 64) <;> simp [bne, h]
  unfold lastIndexByte afterLastAt
  cases h : v.reverse.indexOf? 64 with
  | none =>
    unfold List.indexOf? at h
    have hall := List.findIdx?_eq_none_iff.1 h
    have htw : v.reverse.takeWhile (fun b => b != 64) = v.reverse := by
      rw [List.takeWhile_eq_self_iff]
      intro x hx
      have := hall x hx
      simp only [beq_eq_false_iff_ne, ne_eq] at this
      simpa using this
    simp [htw]
  | some k =>
    unfold List.indexOf? at h
    obtain ⟨hk, hidx⟩ := List.findIdx?_eq_some_iff_findIdx_eq.1 h
    simp only [List.length_reverse] at hk
    rw [List.takeWhile_eq_take_findIdx_not, hfun, hidx, List.reverse_take]
    simp only [List.length_reverse, List.reverse_reverse]
    congr 1
    omega

theorem email_eq (env : Env) (allow : Bool) (v : Str) (rest : List Str) (msgs : Messages)
    (hv : v ≠ []) :
    (Email env allow).Validate (v :: rest) msgs
      = if env.MatchString email.pattern v = true then
          if allow = false ∧ (afterLastAt v ∈ env.disposableDomains
              ∨ afterLastAt v ∈ env.disposableWildcards) then
            (some (msgs.msg "email"), [])
          else (none, [])
        else (some (msgs.msg "email"), []) := by
  have hl : ¬ v.length = 0 := length_ne_zero_of_ne_nil v hv
  simp only [Email, email.Validate, getFirstKey, if_neg hl, drop_lastIndexByte]
  by_cases hm : env.MatchString email.pattern v = true
  · cases allow
    · by_cases h1 : afterLastAt v ∈ env.disposableDomains
      · simp [hm, h1, (inSlice_iff _ _).2 h1]
      · have h1s : ¬ inSlice env.disposableDomains (afterLastAt v) = true :=
          fun hc => h1 ((inSlice_iff _ _).1 hc)
        by_cases h2 : afterLastAt v ∈ env.disposableWildcards
        · simp [hm, h1, h1s, h2, (inSlice_iff _ _).2 h2]
        · have h2s : ¬ inSlice env.disposableWildcards (afterLastAt v) = true :=
            fun hc => h2 ((inSlice_iff _ _).1 hc)
          simp [hm, h1, h1s, h2, h2s]
    · simp [hm]
  · simp [hm]

/-- C31: for every non-empty value, `Email(false)` passes exactly when
`Email(true)` passes and the text after the last `@` of the value is equal to
no entry of the disposable-domain set and to no entry of the
disposable-wildcard set, both compared byte for byte, so that a sub-domain of
a wildcard entry is not rejected; `Email(true)` gives the same result whatever
the two sets hold. -/
theorem C31_email_disposable_domains (env : Env) (v : Str) (rest : List Str) (msgs : Messages)
    (hv : v ≠ []) :
    (((Email env false).Validate (v :: rest) msgs).1 = none
        ↔ (((Email env true).Validate (v :: rest) msgs).1 = none
            ∧ afterLastAt v ∉ env.disposableDomains
            ∧ afterLastAt v ∉ env.disposableWildcards))
      ∧ (∀ domains wildcards : List Str,
          (Email { env with disposableDomains := domains, disposableWildcards := wildcards }
              true).Validate (v :: rest) msgs
            = (Email env true).Validate (v :: rest) msgs)
      ∧ (((Email env true).Validate (v :: rest) msgs).1 = none
          ↔ env.MatchString email.pattern v = true)
      ∧ afterLastAt (bytes "joe@sub.example.org") = bytes "sub.example.org"
      ∧ ((Email sampleMailEnv false).Validate [bytes "joe@sub.example.org"] msgs).1 = none
      ∧ (Email sampleMailEnv false).Validate [bytes "joe@example.org"] msgs
          = (some (msgs.msg "email"), [])
      ∧ (Email sampleMailEnv false).Validate [bytes "joe@mailinator.com"] msgs
          = (some (msgs.msg "email"), [])
      ∧ ((Email sampleMailEnv true).Validate [bytes "joe@mailinator.com"] msgs).1 = none := by
  refine ⟨?_, ?_, ?_, by decide, ?_, ?_, ?_, ?_⟩
  · rw [email_eq env false v rest msgs hv, email_eq env true v rest msgs hv]
    by_cases hm : env.MatchString email.pattern v = true
    · by_cases h1 : afterLastAt v ∈ env.disposableDomains
      · simp [hm, h1]
      · by_cases h2 : afterLastAt v ∈ env.disposableWildcards <;> simp [hm, h1, h2]
    · simp [hm]
  · intro domains wildcards
    rw [email_eq _ true v rest msgs hv, email_eq env true v rest msgs hv]
    simp
  · rw [email_eq env true v rest msgs hv]
    by_cases hm : env.MatchString email.pattern v = true <;> simp [hm]
  · rw [email_eq _ false _ [] msgs (by decide), if_pos (by rfl), if_neg (by decide)]
  · rw [email_eq _ false _ [] msgs (by decide), if_pos (by rfl), if_pos (by decide)]
  · rw [email_eq _ false _ [] msgs (by decide), if_pos (by rfl), if_pos (by decide)]
  · rw [email_eq _ true _ [] msgs (by decide), if_pos (by rfl), if_neg (by decide)]

theorem C31_email_disposable_domains_witness :
    bytes "joe@mailinator.com" ≠ []
      ∧ ((((Email sampleMailEnv false).Validate (bytes "joe@mailinator.com" :: [])
              defaultErrors).1 = none
          ↔ (((Email sampleMailEnv true).Validate (bytes "joe@mailinator.com" :: [])
                defaultErrors).1 = none
              ∧ afterLastAt (bytes "joe@mailinator.com") ∉ sampleMailEnv.disposableDomains
              ∧ afterLastAt (bytes "joe@mailinator.com") ∉ sampleMailEnv.disposableWildcards))
        ∧ (∀ domains wildcards : List Str,
            (Email { sampleMailEnv with
                      disposableDomains := domains, disposableWildcards := wildcards }
                true).Validate (bytes "joe@mailinator.com" :: []) defaultErrors
              = (Email sampleMailEnv true).Validate (bytes "joe@mailinator.com" :: [])
                  defaultErrors)
        ∧ (((Email sampleMailEnv true).Validate (bytes "joe@mailinator.com" :: [])
                defaultErrors).1 = none
            ↔ sampleMailEnv.MatchString email.pattern (bytes "joe@mailinator.com") = true)
        ∧ afterLastAt (bytes "joe@sub.example.org") = bytes "sub.example.org"
        ∧ ((Email sampleMailEnv false).Validate [bytes "joe@sub.example.org"]
              defaultErrors).1 = none
        ∧ (Email sampleMailEnv false).Validate [bytes "joe@example.org"] defaultErrors
            = (some (defaultErrors.msg "email"), [])
        ∧ (Email sampleMailEnv false).Validate [bytes "joe@mailinator.com"] defaultErrors
            = (some (defaultErrors.msg "email"), [])
        ∧ ((Email sampleMailEnv true).Validate [bytes "joe@mailinator.com"]
              defaultErrors).1 = none) :=
  ⟨by decide,
   C31_email_disposable_domains sampleMailEnv (bytes "joe@mailinator.com") [] defaultErrors
     (by decide)⟩

/-! ## Theorems: the rendered markup -/

theorem singleInput.radioLoop_congr (i : singleInput) (v1 v2 : Str) (opts : List Str) (n : Nat)
    (html : Str) (h : ∀ k ∈ opts, (v1 = k ↔ v2 = k)) :
    singleInput.radioLoop { i with value := v1 } opts n html
      = singleInput.radioLoop { i with value := v2 } opts n html := by
  induction opts generalizing n html with
  | nil => rfl
  | cons key rest ih =>
    have hk := h key (List.mem_cons_self _ _)
    have hr : ∀ k ∈ rest, (v1 = k ↔ v2 = k) := fun k hm => h k (List.mem_cons_of_mem _ hm)
    simp only [singleInput.radioLoop]
    by_cases h1 : v1 = key
    · rw [if_pos h1, if_pos (hk.1 h1)]
      exact ih _ _ hr
    · rw [if_neg h1, if_neg (fun h2 => h1 (hk.2 h2))]
      exact ih _ _ hr

theorem singleInput.selectLoop_congr (i : singleInput) (v1 v2 : Str) (opts : List Str) (n : Nat)
    (middle : Str) (h : ∀ k ∈ opts, (v1 = k ↔ v2 = k)) :
    singleInput.selectLoop { i with value := v1 } opts n middle
      = singleInput.selectLoop { i with value := v2 } opts n middle := by
  induction opts generalizing n middle with
  | nil => rfl
  | cons key rest ih =>
    have hk := h key (List.mem_cons_self _ _)
    have hr : ∀ k ∈ rest, (v1 = k ↔ v2 = k) := fun k hm => h k (List.mem_cons_of_mem _ hm)
    simp only [singleInput.selectLoop]
    by_cases h1 : v1 = key
    · rw [if_pos h1, if_pos (hk.1 h1)]
      exact ih _ _ hr
    · rw [if_neg h1, if_neg (fun h2 => h1 (hk.2 h2))]
      exact ih _ _ hr

theorem singleInput.GetHTML_congr (i : singleInput) (v1 v2 : Str)
    (h : ∀ k ∈ i.options, (v1 = k ↔ v2 = k)) :
    singleInput.GetHTML { i with value := v1 } = singleInput.GetHTML { i with value := v2 } := by
  simp only [singleInput.GetHTML, singleInput.getRadioHTML, singleInput.getSelectHTML,
    singleInput.radioLoop_congr i v1 v2 i.options 0 [] h,
    singleInput.selectLoop_congr i v1 v2 i.options 0 [] h]

theorem multiInput.checkboxLoop_congr (i : multiInput) (vs1 vs2 : List Str) (opts : List Str)
    (n : Nat) (html : Str) (h : ∀ k ∈ opts, (k ∈ vs1 ↔ k ∈ vs2)) :
    multiInput.checkboxLoop { i with values := vs1 } opts n html
      = multiInput.checkboxLoop { i with values := vs2 } opts n html := by
  induction opts generalizing n html with
  | nil => rfl
  | cons key rest ih =>
    have hk := h key (List.mem_cons_self _ _)
    have hr : ∀ k ∈ rest, (k ∈ vs1 ↔ k ∈ vs2) := fun k hm => h k (List.mem_cons_of_mem _ hm)
    simp only [multiInput.checkboxLoop, inSlice_iff]
    by_cases h1 : key ∈ vs1
    · rw [if_pos h1, if_pos (hk.1 h1)]
      exact ih _ _ hr
    · rw [if_neg h1, if_neg (fun h2 => h1 (hk.2 h2))]
      exact ih _ _ hr

theorem multiInput.selectLoop_values_congr (i : multiInput) (vs1 vs2 : List Str) (opts : List Str)
    (n : Nat) (middle : Str) (h : ∀ k ∈ opts, (k ∈ vs1 ↔ k ∈ vs2)) :
    multiInput.selectLoop { i with values := vs1 } opts n middle
      = multiInput.selectLoop { i with values := vs2 } opts n middle := by
  induction opts generalizing n middle with
  | nil => rfl
  | cons key rest ih =>
    have hk := h key (List.mem_cons_self _ _)
    have hr : ∀ k ∈ rest, (k ∈ vs1 ↔ k ∈ vs2) := fun k hm => h k (List.mem_cons_of_mem _ hm)
    simp only [multiInput.selectLoop, inSlice_iff]
    by_cases h1 : key ∈ vs1
    · rw [if_pos h1, if_pos (hk.1 h1)]
      exact ih _ _ hr
    · rw [if_neg h1, if_neg (fun h2 => h1 (hk.2 h2))]
      exact ih _ _ hr

/-- The markup and error of `multiInput.GetHTML` on values that are not more
than the options and hold no duplicate: the values are used as they are. -/
theorem multiInput.GetHTML_kept (i : multiInput) (vs : List Str)
    (hlen : vs.length ≤ i.options.length) (hnd : vs.Nodup) :
    (multiInput.GetHTML { i with values := vs }).1
      = if i.options.length ≠ i.labels.length then ([], some ErrLabelOptionMismatch)
        else if hasDuplicates i.labels then ([], some ErrLabelDuplicate)
        else if hasDuplicates i.options then ([], some ErrOptionDuplicate)
        else if i.typ = bytes "checkbox" then
          multiInput.getCheckboxHTML { i with values := vs }
        else if i.typ = bytes "select" then multiInput.getSelectHTML { i with values := vs }
        else ([], some ErrBadType) := by
  have h1 : ¬ vs.length > i.options.length := by omega
  have h2 : ¬ hasDuplicates vs = true := fun hc => (hasDuplicates_iff vs).1 hc hnd
  unfold multiInput.GetHTML
  dsimp only
  simp only [h1, h2, if_false, Bool.false_eq_true]
  split_ifs <;> rfl

/-- The markup and error of `multiInput.GetHTML` on values that are more than
the options or hold a duplicate: the values are emptied. -/
theorem multiInput.GetHTML_emptied (i : multiInput) (vs : List Str)
    (h : i.options.length < vs.length ∨ ¬ vs.Nodup) :
    (multiInput.GetHTML { i with values := vs }).1
      = (multiInput.GetHTML { i with values := [] }).1 := by
  have e0 : hasDuplicates ([] : List Str) = false := rfl
  by_cases h1 : vs.length > i.options.length
  · unfold multiInput.GetHTML
    dsimp only
    simp only [h1, if_true, e0, List.length_nil, gt_iff_lt, Nat.not_lt_zero, if_false,
      Bool.false_eq_true]
    split_ifs <;> rfl
  · have hnd : ¬ vs.Nodup := by
      rcases h with h | h
      · exact absurd h h1
      · exact h
    have h2 : hasDuplicates vs = true := (hasDuplicates_iff vs).2 hnd
    unfold multiInput.GetHTML
    dsimp only
    simp only [h1, if_false, h2, if_true, e0, List.length_nil, gt_iff_lt, Nat.not_lt_zero,
      Bool.false_eq_true]
    split_ifs <;> rfl

theorem multiInput.GetHTML_values_congr (i : multiInput) (vs1 vs2 : List Str)
    (hlen1 : vs1.length ≤ i.options.length) (hnd1 : vs1.Nodup)
    (hlen2 : vs2.length ≤ i.options.length) (hnd2 : vs2.Nodup)
    (h : ∀ k ∈ i.options, (k ∈ vs1 ↔ k ∈ vs2)) :
    (multiInput.GetHTML { i with values := vs1 }).1
      = (multiInput.GetHTML { i with values := vs2 }).1 := by
  rw [multiInput.GetHTML_kept i vs1 hlen1 hnd1, multiInput.GetHTML_kept i vs2 hlen2 hnd2]
  simp only [multiInput.getCheckboxHTML, multiInput.getSelectHTML,
    multiInput.checkboxLoop_congr i vs1 vs2 i.options 0 [] h,
    multiInput.selectLoop_values_congr i vs1 vs2 i.options 0 [] h]

/-- C32 as stated fails for `multiInput.GetHTML`: the two submissions
`gmail.com` and `gmail.com, gmail.com` hold the same options, yet the first is
rendered with `gmail.com` checked and the second, for its duplicate, with no
option checked. -/
theorem C32_counterexample :
    (∀ k ∈ sampleOptions, (k ∈ [bytes "gmail.com"] ↔ k ∈ [bytes "gmail.com", bytes "gmail.com"]))
      ∧ (NewMultiInput (bytes "email") (bytes "checkbox") [] sampleOptions sampleLabels
            [bytes "gmail.com"]).GetHTML.1
          ≠ (NewMultiInput (bytes "email") (bytes "checkbox") [] sampleOptions sampleLabels
              [bytes "gmail.com", bytes "gmail.com"]).GetHTML.1
      ∧ (NewMultiInput (bytes "email") (bytes "checkbox") [] sampleOptions sampleLabels
            [bytes "gmail.com", bytes "gmail.com"]).GetHTML.1
          = (NewMultiInput (bytes "email") (bytes "checkbox") [] sampleOptions sampleLabels
              []).GetHTML.1 := by
  refine ⟨by decide, ?_, ?_⟩
  · intro h
    exact absurd (congrArg (fun p => p.1.length) h) (by decide!)
  · exact multiInput.GetHTML_emptied
      ⟨bytes "email", bytes "checkbox", [], sampleOptions, sampleLabels, []⟩
      [bytes "gmail.com", bytes "gmail.com"] (Or.inr (by decide))

/-- C32 (as amended): a submitted value never reaches the rendered markup.
The result of `singleInput.GetHTML` depends on the submitted value only through
which option it is equal to, so two values that are equal to no option, such
as an injection string and the empty string, give the same markup. The result
of `multiInput.GetHTML` is the one for no value at all when the submitted
values are more than the options or hold a duplicate; for values that are not
more than the options and hold no duplicate it depends on them only through
the options that occur among them. -/
theorem C32_markup_depends_on_matching_options (i : singleInput) (m : multiInput)
    (v1 v2 : Str) (vs1 vs2 : List Str) :
    ((∀ k ∈ i.options, (v1 = k ↔ v2 = k)) →
        singleInput.GetHTML { i with value := v1 } = singleInput.GetHTML { i with value := v2 })
      ∧ (v1 ∉ i.options → v2 ∉ i.options →
        singleInput.GetHTML { i with value := v1 } = singleInput.GetHTML { i with value := v2 })
      ∧ (vs1.length ≤ m.options.length → vs1.Nodup → vs2.length ≤ m.options.length →
          vs2.Nodup → (∀ k ∈ m.options, (k ∈ vs1 ↔ k ∈ vs2)) →
          (multiInput.GetHTML { m with values := vs1 }).1
            = (multiInput.GetHTML { m with values := vs2 }).1)
      ∧ ((m.options.length < vs1.length ∨ ¬ vs1.Nodup) →
          (multiInput.GetHTML { m with values := vs1 }).1
            = (multiInput.GetHTML { m with values := [] }).1)
      ∧ (NewSingleInput (bytes "email") (bytes "radio") [] sampleOptions sampleLabels
            sampleInjection).GetHTML
          = (NewSingleInput (bytes "email") (bytes "radio") [] sampleOptions sampleLabels
              []).GetHTML
      ∧ (NewSingleInput (bytes "email") (bytes "select") [] sampleOptions sampleLabels
            sampleInjection).GetHTML
          = (NewSingleInput (bytes "email") (bytes "select") [] sampleOptions sampleLabels
              []).GetHTML
      ∧ (NewMultiInput (bytes "email") (bytes "checkbox") [] sampleOptions sampleLabels
            [sampleInjection, bytes "gmail.com"]).GetHTML.1
          = (NewMultiInput (bytes "email") (bytes "checkbox") [] sampleOptions sampleLabels
              [bytes "gmail.com"]).GetHTML.1
      ∧ (NewMultiInput (bytes "email") (bytes "select") [] sampleOptions sampleLabels
            [sampleInjection, bytes "gmail.com"]).GetHTML.1
          = (NewMultiInput (bytes "email") (bytes "select") [] sampleOptions sampleLabels
              [bytes "gmail.com"]).GetHTML.1 := by
  have hsingle : ∀ w1 w2 : Str, w1 ∉ i.options → w2 ∉ i.options →
      singleInput.GetHTML { i with value := w1 } = singleInput.GetHTML { i with value := w2 } := by
    intro w1 w2 h1 h2
    apply singleInput.GetHTML_congr
    intro k hk
    constructor
    · intro e
      exact absurd (e ▸ hk) h1
    · intro e
      exact absurd (e ▸ hk) h2
  refine ⟨singleInput.GetHTML_congr i v1 v2, hsingle v1 v2,
    multiInput.GetHTML_values_congr m vs1 vs2, multiInput.GetHTML_emptied m vs1, ?_, ?_, ?_, ?_⟩
  · exact singleInput.GetHTML_congr
      ⟨bytes "email", bytes "radio", [], sampleOptions, sampleLabels, []⟩ sampleInjection []
      (by decide)
  · exact singleInput.GetHTML_congr
      ⟨bytes "email", bytes "select", [], sampleOptions, sampleLabels, []⟩ sampleInjection []
      (by decide)
  · exact multiInput.GetHTML_values_congr
      ⟨bytes "email", bytes "checkbox", [], sampleOptions, sampleLabels, []⟩
      [sampleInjection, bytes "gmail.com"] [bytes "gmail.com"] (by decide) (by decide)
      (by decide) (by decide) (by decide)
  · exact multiInput.GetHTML_values_congr
      ⟨bytes "email", bytes "select", [], sampleOptions, sampleLabels, []⟩
      [sampleInjection, bytes "gmail.com"] [bytes "gmail.com"] (by decide) (by decide)
      (by decide) (by decide) (by decide)

theorem C32_markup_depends_on_matching_options_witness :
    sampleInjection ∉ sampleOptions ∧ ([] : Str) ∉ sampleOptions
      ∧ singleInput.GetHTML
            { (NewSingleInput (bytes "email") (bytes "radio") (bytes "big") sampleOptions
                sampleLabels (bytes "yahoo.com")) with value := sampleInjection }
          = singleInput.GetHTML
            { (NewSingleInput (bytes "email") (bytes "radio") (bytes "big") sampleOptions
                sampleLabels (bytes "yahoo.com")) with value := [] } :=
  ⟨by decide, by decide,
   (C32_markup_depends_on_matching_options
      (NewSingleInput (bytes "email") (bytes "radio") (bytes "big") sampleOptions sampleLabels
        (bytes "yahoo.com"))
      (NewMultiInput (bytes "email") (bytes "checkbox") [] sampleOptions sampleLabels [])
      sampleInjection [] [] []).2.1 (by decide) (by decide)⟩

/-! ## Theorems: date and time together -/

theorem stdlib_timeParse_datetime (base : Env) (v : Str) :
    (stdlib base).timeParse (bytes "02-01-2006 15:04:05") v
      = time.Parse [.stdZeroDay, .lit (bytes "-"), .stdZeroMonth, .lit (bytes "-"),
          .stdLongYear, .lit (bytes " "), .stdHour, .lit (bytes ":"), .stdZeroMinute,
          .lit (bytes ":"), .stdZeroSecond] v := by
  have h : GoMap.lookupIn (bytes "02-01-2006 15:04:05") layoutTable
      = some [.stdZeroDay, .lit (bytes "-"), .stdZeroMonth, .lit (bytes "-"),
          .stdLongYear, .lit (bytes " "), .stdHour, .lit (bytes ":"), .stdZeroMinute,
          .lit (bytes ":"), .stdZeroSecond] := by rfl
  simp only [stdlib, timeParse, h]

theorem space_bytes : bytes " " = [32] := by decide

/-- A space of the layout: the value is at its end, or goes on with a space,
and the whole run of spaces is taken. -/
theorem time.parseChunks_space (layout : List Chunk) (value : Str) (f : TimeFields) :
    time.parseChunks (.lit [32] :: layout) value f
      = if value.length > 0 ∧ value.head? ≠ some 32 then none
        else time.parseChunks layout (time.cutspace value) f := by
  simp only [time.parseChunks, time.parseStd, time.skip, time.skipFrom, if_true,
    Bool.false_eq_true, if_false]
  split_ifs <;> rfl

/-- The layout `15:04:05` on a value, from any fields: a time of day is read
and the date fields are kept; any other value is an error. -/
theorem time_parseChunks_time (t : Str) (f : TimeFields) :
    (isClockTime t = true →
        ∃ g, time.parseChunks [.stdHour, .lit (bytes ":"), .stdZeroMinute, .lit (bytes ":"),
            .stdZeroSecond] t f = some g
          ∧ g.year = f.year ∧ g.month = f.month ∧ g.day = f.day)
      ∧ (isClockTime t = false →
        time.parseChunks [.stdHour, .lit (bytes ":"), .stdZeroMinute, .lit (bytes ":"),
            .stdZeroSecond] t f = none) := by
  rcases t with _ | ⟨a, _ | ⟨b, r⟩⟩
  · simp [time.parseChunks_hour_nil, isClockTime]
  · simp only [time.parseChunks_hour_one, colon_bytes,
      time.parseChunks_lit_nil _ 58 (by decide), isClockTime]
    cases isDigit a <;> simp
  · simp only [time.parseChunks_hour, time_parseChunks_tail, isClockTime]
    cases ha : isDigit a
    · simp
    · cases hb : isDigit b
      · cases ht : isClockTail (b :: r) <;> simp [ht]
      · have ht : isClockTail (b :: r) = false := by
          cases r with
          | nil => simp [isClockTail]
          | cons c r2 =>
            rcases r2 with _ | ⟨m2, _ | ⟨c2, _ | ⟨s1, _ | ⟨s2, frac⟩⟩⟩⟩
            all_goals try (simp [isClockTail]; done)
            simp only [isDigit, Bool.and_eq_true, decide_eq_true_eq] at hb
            have : ¬ b = 58 := by omega
            simp [isClockTail, this]
        by_cases h24 : digitsValue [a, b] < 24
        · cases ht2 : isClockTail r <;> simp [ht, h24, ht2]
        · simp [ht, h24]

/-- The date elements in front of further elements: on ten characters
followed by more text they are read as on the ten characters alone, and the
further elements go on with the text. -/
theorem time_parseChunks_date_then (layout : List Chunk)
    (d1 d2 s1 m1 m2 s2 y1 y2 y3 y4 : Nat) (more : Str) (f : TimeFields) :
    time.parseChunks (.stdZeroDay :: .lit (bytes "-") :: .stdZeroMonth :: .lit (bytes "-")
        :: .stdLongYear :: layout) (d1 :: d2 :: s1 :: m1 :: m2 :: s2 :: y1 :: y2 :: y3 :: y4 :: more) f
      = match time.parseChunks [.stdZeroDay, .lit (bytes "-"), .stdZeroMonth, .lit (bytes "-"),
            .stdLongYear] [d1, d2, s1, m1, m2, s2, y1, y2, y3, y4] f with
        | some g => time.parseChunks layout more g
        | none => none := by
  rw [dash_bytes]
  simp only [time.parseChunks_day, time.parseChunks_month, time.parseChunks_year,
    time.parseChunks_lit _ 45 (by decide), time.parseChunks_nil]
  split_ifs <;> rfl

theorem time_parseChunks_date_then_length (layout : List Chunk) (v : Str) (f g : TimeFields)
    (h : time.parseChunks (.stdZeroDay :: .lit (bytes "-") :: .stdZeroMonth
        :: .lit (bytes "-") :: .stdLongYear :: layout) v f = some g) : 10 ≤ v.length := by
  rw [dash_bytes] at h
  simp only [time.parseChunks] at h
  split at h
  · simp at h
  · next v1 f1 h1 =>
    split at h
    · simp at h
    · next v2 f2 h2 =>
      split at h
      · simp at h
      · next v3 f3 h3 =>
        split at h
        · simp at h
        · next v4 f4 h4 =>
          split at h
          · simp at h
          · next v5 f5 h5 =>
            have e1 := time.parseStd_day_length _ _ _ _ h1
            have e2 := time.parseStd_lit_length _ _ (by decide) _ _ _ h2
            have e3 := time.parseStd_month_length _ _ _ _ h3
            have e4 := time.parseStd_lit_length _ _ (by decide) _ _ _ h4
            have e5 := time.parseStd_year_length _ _ _ _ h5
            omega

theorem time_Parse_datetime_eq (v : Str) :
    time.Parse [.stdZeroDay, .lit (bytes "-"), .stdZeroMonth, .lit (bytes "-"),
        .stdLongYear, .lit (bytes " "), .stdHour, .lit (bytes ":"), .stdZeroMinute,
        .lit (bytes ":"), .stdZeroSecond] v = isDateTimeText v := by
  by_cases hlen : 10 ≤ v.length
  · rcases v with _ | ⟨a0, _ | ⟨a1, _ | ⟨a2, _ | ⟨a3, _ | ⟨a4, _ | ⟨a5, _ | ⟨a6, _ | ⟨a7, _ | ⟨a8, _ | ⟨a9, more⟩⟩⟩⟩⟩⟩⟩⟩⟩⟩
    all_goals try (simp at hlen; done)
    have hdate := time_Parse_date_eq [a0, a1, a2, a3, a4, a5, a6, a7, a8, a9]
    simp only [time.Parse] at hdate
    have htake : (a0 :: a1 :: a2 :: a3 :: a4 :: a5 :: a6 :: a7 :: a8 :: a9 :: more).take 10
        = [a0, a1, a2, a3, a4, a5, a6, a7, a8, a9] := rfl
    have hdrop : (a0 :: a1 :: a2 :: a3 :: a4 :: a5 :: a6 :: a7 :: a8 :: a9 :: more).drop 10
        = more := rfl
    rw [isDateTimeText, htake, hdrop, time.Parse, time_parseChunks_date_then, space_bytes]
    cases hpd : time.parseChunks [.stdZeroDay, .lit (bytes "-"), .stdZeroMonth,
        .lit (bytes "-"), .stdLongYear] [a0, a1, a2, a3, a4, a5, a6, a7, a8, a9]
        ⟨0, 1, 1, 0, 0, 0⟩ with
    | none =>
      rw [hpd] at hdate
      simp only [] at hdate ⊢
      rw [← hdate]
      rfl
    | some g1 =>
      rw [hpd] at hdate
      simp only [] at hdate ⊢
      rw [time.parseChunks_space]
      cases more with
      | nil =>
        have hT := (time_parseChunks_time [] g1).2 (by decide)
        simp [time.cutspace, hT]
      | cons c r =>
        by_cases hc : c = 32
        · subst hc
          have hcond : ¬ ((32 :: r).length > 0 ∧ (32 :: r).head? ≠ some 32) := by simp
          rw [if_neg hcond]
          simp only [time.cutspace, List.head?_cons, beq_self_eq_true, Bool.and_true]
          cases hct : isClockTime ((32 :: r).dropWhile (fun c => c == 32)) with
          | false =>
            rw [(time_parseChunks_time _ g1).2 hct]
            simp
          | true =>
            obtain ⟨g, hg, hy, hm, hd⟩ := (time_parseChunks_time _ g1).1 hct
            rw [hg]
            simp only [hy, hm, hd, Bool.and_true]
            exact hdate
        · have hcond : (c :: r).length > 0 ∧ (c :: r).head? ≠ some 32 := by
            simp [hc]
          rw [if_pos hcond]
          simp [hc]
  · have h1 : isCalendarDate (v.take 10) = false := by
      cases h : isCalendarDate (v.take 10)
      · rfl
      · have := isCalendarDate_length _ h
        simp only [List.length_take] at this
        omega
    have h2 : time.parseChunks [.stdZeroDay, .lit (bytes "-"), .stdZeroMonth,
        .lit (bytes "-"), .stdLongYear, .lit (bytes " "), .stdHour, .lit (bytes ":"),
        .stdZeroMinute, .lit (bytes ":"), .stdZeroSecond] v ⟨0, 1, 1, 0, 0, 0⟩ = none := by
      cases h : time.parseChunks [.stdZeroDay, .lit (bytes "-"), .stdZeroMonth,
        .lit (bytes "-"), .stdLongYear, .lit (bytes " "), .stdHour, .lit (bytes ":"),
        .stdZeroMinute, .lit (bytes ":"), .stdZeroSecond] v ⟨0, 1, 1, 0, 0, 0⟩
      · rfl
      · exact absurd (time_parseChunks_date_then_length _ v _ _ h) hlen
    simp [time.Parse, h2, isDateTimeText, h1]

theorem isDateTime_pass_iff (base : Env) (v : Str) (rest : List Str) (msgs : Messages)
    (hv : v ≠ []) :
    ((IsDateTime (stdlib base)).Validate (v :: rest) msgs).1 = none
      ↔ isDateTimeText v = true := by
  have hl : v.length ≠ 0 := length_ne_zero_of_ne_nil v hv
  simp only [IsDateTime, isDateTime.Validate, getFirstKey, if_neg hl, stdlib_timeParse_datetime,
    time_Parse_datetime_eq]
  cases h : isDateTimeText v <;> simp

theorem dropWhile_spaces_append (n : Nat) (t : Str) (ht : t.head? ≠ some 32) :
    (List.replicate n 32 ++ t).dropWhile (fun c => c == 32) = t := by
  induction n with
  | zero =>
    cases t with
    | nil => rfl
    | cons a r =>
      have ha : (a == 32) = false := by simpa using ht
      show List.dropWhile (fun c => c == 32) (a :: r) = a :: r
      rw [List.dropWhile_cons]
      simp only [ha, Bool.false_eq_true, if_false]
  | succ n ih => simpa [List.replicate_succ, List.dropWhile] using ih

theorem isClockTime_head (t : Str) (h : isClockTime t = true) : t ≠ [] ∧ t.head? ≠ some 32 := by
  rcases t with _ | ⟨a, _ | ⟨b, r⟩⟩
  · simp [isClockTime] at h
  · simp [isClockTime] at h
  · simp only [isClockTime, Bool.and_eq_true] at h
    have ha := h.1
    simp only [isDigit, Bool.and_eq_true, decide_eq_true_eq] at ha
    refine ⟨by simp, ?_⟩
    simp only [List.head?_cons, ne_eq, Option.some.injEq]
    omega

/-- A date and a time joined by one or more spaces, as a decomposition. -/
theorem isDateTimeText_iff (v : Str) :
    isDateTimeText v = true
      ↔ ∃ (d : Str) (n : Nat) (t : Str), v = d ++ (List.replicate (n + 1) 32 ++ t)
          ∧ isCalendarDate d = true ∧ isClockTime t = true := by
  constructor
  · intro h
    simp only [isDateTimeText, Bool.and_eq_true, beq_iff_eq] at h
    obtain ⟨⟨hd, hh⟩, ht⟩ := h
    cases hr : v.drop 10 with
    | nil => rw [hr] at hh; simp at hh
    | cons c r =>
      rw [hr] at hh ht
      simp only [List.head?_cons, Option.some.injEq] at hh
      subst hh
      have hsplit := List.takeWhile_append_dropWhile (fun c => c == 32) r
      have hrep : r.takeWhile (fun c => c == 32)
          = List.replicate (r.takeWhile (fun c => c == 32)).length 32 := by
        rw [List.eq_replicate_iff]
        refine ⟨rfl, fun b hb => ?_⟩
        have := List.mem_takeWhile_imp hb
        simpa using this
      have hdw : (32 :: r).dropWhile (fun c => c == 32) = r.dropWhile (fun c => c == 32) := by
        simp [List.dropWhile]
      rw [hdw] at ht
      refine ⟨v.take 10, (r.takeWhile (fun c => c == 32)).length,
        r.dropWhile (fun c => c == 32), ?_, hd, ht⟩
      rw [List.replicate_succ, List.cons_append, ← hrep, hsplit, ← hr,
        List.take_append_drop]
  · rintro ⟨d, n, t, rfl, hd, ht⟩
    have hlen := isCalendarDate_length d hd
    have hhead := (isClockTime_head t ht).2
    have htake : (d ++ (List.replicate (n + 1) 32 ++ t)).take 10 = d := by
      rw [← hlen, List.take_left']
      rfl
    have hdrop : (d ++ (List.replicate (n + 1) 32 ++ t)).drop 10
        = List.replicate (n + 1) 32 ++ t := by
      rw [← hlen, List.drop_left']
      rfl
    simp only [isDateTimeText, htake, hdrop, hd, Bool.true_and, Bool.and_eq_true, beq_iff_eq]
    refine ⟨by simp [List.replicate_succ], ?_⟩
    rw [dropWhile_spaces_append (n + 1) t hhead]
    exact ht

/-- C33 as stated fails: `IsDateTime` passes `01-01-2001  01:01:01`, a date and
a time with two spaces between them, which cannot be written as a value that
`IsDate` passes, one space and a value that `IsTime` passes. -/
theorem C33_counterexample :
    ((IsDateTime (stdlib trivialEnv)).Validate [bytes "01-01-2001  01:01:01"]
        defaultErrors).1 = none
      ∧ ¬ ∃ d t : Str, bytes "01-01-2001  01:01:01" = d ++ ([32] ++ t)
          ∧ d ≠ [] ∧ ((IsDate (stdlib trivialEnv)).Validate [d] defaultErrors).1 = none
          ∧ t ≠ [] ∧ ((IsTime (stdlib trivialEnv)).Validate [t] defaultErrors).1 = none := by
  refine ⟨by decide, ?_⟩
  rintro ⟨d, t, hv, hd, hdate, ht, htime⟩
  have hcal := (isDate_pass_iff trivialEnv d [] defaultErrors hd).1 hdate
  have hclock := (isTime_pass_iff trivialEnv t [] defaultErrors ht).1 htime
  have hlen := isCalendarDate_length d hcal
  have hdrop := congrArg (List.drop 11) hv
  have e : (d ++ ([32] ++ t)).drop 11 = t := by
    rw [← List.append_assoc]
    have : (d ++ [32]).length = 11 := by simp [hlen]
    rw [← this, List.drop_left']
    rfl
  rw [e] at hdrop
  rw [← hdrop] at hclock
  revert hclock
  decide

/-- C33 (as amended): `IsDateTime` accepts exactly a date and a time joined by
one or more spaces: a non-empty value passes `IsDateTime` exactly when it can
be written as `d`, then one or more spaces, then `t`, with `d` a non-empty
value that `IsDate` passes and `t` a non-empty value that `IsTime` passes. In
particular every such `d` and `t` joined by a single space pass. -/
theorem C33_isDateTime_passes_iff_date_spaces_time (base : Env) (v : Str) (rest : List Str)
    (msgs : Messages) (hv : v ≠ []) :
    (((IsDateTime (stdlib base)).Validate (v :: rest) msgs).1 = none
        ↔ ∃ (d : Str) (n : Nat) (t : Str), v = d ++ (List.replicate (n + 1) 32 ++ t)
            ∧ d ≠ [] ∧ ((IsDate (stdlib base)).Validate (d :: rest) msgs).1 = none
            ∧ t ≠ [] ∧ ((IsTime (stdlib base)).Validate (t :: rest) msgs).1 = none)
      ∧ (∀ d t : Str, d ≠ [] → ((IsDate (stdlib base)).Validate (d :: rest) msgs).1 = none →
          t ≠ [] → ((IsTime (stdlib base)).Validate (t :: rest) msgs).1 = none →
          ((IsDateTime (stdlib base)).Validate ((d ++ ([32] ++ t)) :: rest) msgs).1 = none) := by
  have hiff : ∀ w : Str, w ≠ [] →
      (((IsDateTime (stdlib base)).Validate (w :: rest) msgs).1 = none
        ↔ ∃ (d : Str) (n : Nat) (t : Str), w = d ++ (List.replicate (n + 1) 32 ++ t)
            ∧ d ≠ [] ∧ ((IsDate (stdlib base)).Validate (d :: rest) msgs).1 = none
            ∧ t ≠ [] ∧ ((IsTime (stdlib base)).Validate (t :: rest) msgs).1 = none) := by
    intro w hw
    rw [isDateTime_pass_iff base w rest msgs hw, isDateTimeText_iff]
    constructor
    · rintro ⟨d, n, t, e, hd, ht⟩
      have hdne : d ≠ [] := by
        intro h0
        have := isCalendarDate_length d hd
        rw [h0] at this
        simp at this
      have htne := (isClockTime_head t ht).1
      exact ⟨d, n, t, e, hdne, (isDate_pass_iff base d rest msgs hdne).2 hd, htne,
        (isTime_pass_iff base t rest msgs htne).2 ht⟩
    · rintro ⟨d, n, t, e, hdne, hd, htne, ht⟩
      exact ⟨d, n, t, e, (isDate_pass_iff base d rest msgs hdne).1 hd,
        (isTime_pass_iff base t rest msgs htne).1 ht⟩
  refine ⟨hiff v hv, ?_⟩
  intro d t hdne hd htne ht
  have hne : d ++ ([32] ++ t) ≠ [] := by simp [hdne]
  exact (hiff _ hne).2 ⟨d, 0, t, rfl, hdne, hd, htne, ht⟩

theorem C33_isDateTime_passes_iff_date_spaces_time_witness :
    bytes "29-02-2000   1:01:01.5" ≠ []
      ∧ ((((IsDateTime (stdlib trivialEnv)).Validate (bytes "29-02-2000   1:01:01.5" :: [])
              defaultErrors).1 = none
          ↔ ∃ (d : Str) (n : Nat) (t : Str),
              bytes "29-02-2000   1:01:01.5" = d ++ (List.replicate (n + 1) 32 ++ t)
              ∧ d ≠ [] ∧ ((IsDate (stdlib trivialEnv)).Validate (d :: []) defaultErrors).1 = none
              ∧ t ≠ []
              ∧ ((IsTime (stdlib trivialEnv)).Validate (t :: []) defaultErrors).1 = none)
        ∧ (∀ d t : Str, d ≠ [] →
            ((IsDate (stdlib trivialEnv)).Validate (d :: []) defaultErrors).1 = none →
            t ≠ [] → ((IsTime (stdlib trivialEnv)).Validate (t :: []) defaultErrors).1 = none →
            ((IsDateTime (stdlib trivialEnv)).Validate ((d ++ ([32] ++ t)) :: [])
                defaultErrors).1 = none)) :=
  ⟨by decide,
   C33_isDateTime_passes_iff_date_spaces_time trivialEnv (bytes "29-02-2000   1:01:01.5") []
     defaultErrors (by decide)⟩

end Formvalidator
